import Mathlib

/-!
# JAMAL: score compiler and sequencer

A shallow embedding of `src/src/dsl.h`, `src/src/dsl.c` and the sequencer, the envelope and
the program install of `src/src/audio_engine.c`, followed by theorems about them.

Modelling conventions.

* A C string is a `List Char` (one `Char` per byte, no NUL inside); a fixed buffer
  `char buf[n]` filled with the guard `i + 1 < n` keeps the first `n - 1` bytes.
* A C `int` is an `Int`. `atoi` returns the mathematical value of the digits it reads.
* C `float` and `double` values are exact rationals (`ℚ`): every operation is the exact one
  and rounding of binary floating point is left out. What a literal of the script stands
  for is a `CFloat`, which is a rational, a NaN or an infinity: the checks of the parser
  compare it as C does, and a field written from a NaN or an infinity is marked in the
  field `nonfinite` of its record, which is not a field of the C struct.
* A conversion `(int)x` of a floating-point value outside the range of `int` is undefined
  in C: the functions that make one have no result (`none`) then.
* A frequency `440 * 2^((m - 69) / 12)` is kept as its MIDI pitch `m` (`Freq.midi m`).
* A fixed array with a count (`patterns`, `pattern_count`) is a list; the count is its length.
* A pointer into the installed `Program` is the value it points to; a nullable pointer is an
  `Option`.
-/

namespace JAMAL

/-! ## Data model (`dsl.h`) -/

/-- A C string. -/
abbrev CStr := List Char

def DSL_MAX_NAME : Nat := 32
def DSL_MAX_PATTERN : Nat := 128
def DSL_MAX_PATTERNS : Nat := 64
def DSL_MAX_SYNTHS : Nat := 32
def DSL_MAX_TRACKS : Nat := 128
def DSL_MAX_SEQUENCES : Nat := 8
def DSL_MAX_SEQUENCE_STEPS : Nat := 32
def DSL_MAX_DRONES : Nat := 4

inductive SynthType
  | SYNTH_SINE | SYNTH_SAW | SYNTH_SUPERSAW | SYNTH_SQUARE | SYNTH_TRI | SYNTH_NOISE
  | SYNTH_PULSE | SYNTH_FM | SYNTH_RING | SYNTH_ACID | SYNTH_KICK | SYNTH_KICK808
  | SYNTH_KICK909 | SYNTH_SNARE | SYNTH_SNARE808 | SYNTH_SNARE909 | SYNTH_CLAP
  | SYNTH_CLAP909 | SYNTH_HAT_C | SYNTH_HAT_O | SYNTH_HAT808 | SYNTH_HAT909 | SYNTH_TOM
  | SYNTH_RIM | SYNTH_GLITCH | SYNTH_METAL | SYNTH_BITPERC | SYNTH_FM2 | SYNTH_COMB
  | SYNTH_PM_STRING | SYNTH_PM_BELL | SYNTH_PM_PIPE | SYNTH_PM_KICK | SYNTH_PM_SNARE
  | SYNTH_PM_HAT | SYNTH_PM_CLAP | SYNTH_PM_TOM
  deriving DecidableEq

inductive ModSource
  | MOD_SRC_LFO | MOD_SRC_ENV | MOD_SRC_NOISE | MOD_SRC_SAMPLE_HOLD | MOD_SRC_RING
  | MOD_SRC_SYNC
  deriving DecidableEq

inductive ModDest
  | MOD_DEST_AMP | MOD_DEST_CUTOFF | MOD_DEST_RES | MOD_DEST_PAN | MOD_DEST_PITCH
  deriving DecidableEq

structure ModDef where
  source : ModSource
  dest : ModDest
  rate : ℚ
  depth : ℚ
  offset : ℚ
  lag_ms : ℚ
  slew_ms : ℚ
  deriving DecidableEq

/-- The struct `SynthDef`; `mod_count` is the length of `mods`. The fields `detune_rate`,
`detune_depth` and `drive` are never read or written after the `memset` and are left out.
`nonfinite` is not a field of the struct: it is set when a parameter or a modulation value
has been written from a literal that is a NaN or an infinity, and the rational in that
field is then not the value the code holds. -/
structure SynthDef where
  name : CStr
  type : SynthType
  amp : ℚ
  cutoff : ℚ
  res : ℚ
  atk : ℚ
  dec : ℚ
  sus : ℚ
  rel : ℚ
  comb_feedback : ℚ
  comb_damp : ℚ
  comb_excite : ℚ
  mods : List ModDef
  nonfinite : Bool := false
  deriving DecidableEq

/-- One column of the parallel arrays of `PatternDef` (`notes[i]`, `cents[i]`, ...).
`nonfinite` is not in the arrays: it is set when `slide_ms[i]` has been written from a
literal that is a NaN or an infinity, and `slide_ms` is then not the value the code holds. -/
structure PatternStep where
  note : Int
  cents : ℚ
  degree : Int
  degree_octave : Int
  degree_micro : Int
  degree_valid : Int
  slide_ms : ℚ
  accent : Int
  nonfinite : Bool := false
  deriving DecidableEq

/-- The struct `PatternDef`: the first `length` columns of its arrays. -/
structure PatternDef where
  name : CStr
  steps : List PatternStep
  deriving DecidableEq

def PatternDef.length (p : PatternDef) : Nat := p.steps.length

def PatternDef.notes (p : PatternDef) : List Int := p.steps.map (fun s => s.note)

def PatternDef.cents (p : PatternDef) : List ℚ := p.steps.map (fun s => s.cents)

structure SequenceStep where
  pattern : CStr
  repeat_count : Int
  deriving DecidableEq

structure SequenceDef where
  name : CStr
  steps : List SequenceStep
  deriving DecidableEq

def SequenceDef.count (s : SequenceDef) : Nat := s.steps.length

structure DroneDef where
  synth : CStr
  midi : ℚ
  deriving DecidableEq

/-- The struct `TrackDef`; `rev_transpose` and `offset_bars` are never used and left out.
`nonfinite` is not a field of the struct: it is set when `rate`, `hurry`, `density`,
`slide_ms`, `accent_prob` or `ornament_prob` has been written from a literal that is a NaN
or an infinity, and the rational in that field is then not the value the code holds. -/
structure TrackDef where
  pattern : CStr
  synth : CStr
  is_sequence : Int
  seq_start : Int
  seq_end : Int
  rate : ℚ
  hurry : ℚ
  fast : Int
  slow : Int
  every : Int
  density : ℚ
  rev : Int
  palindrome : Int
  iter : Int
  chunk : Int
  stut : Int
  slide_ms : ℚ
  ornament_prob : ℚ
  ornament_mode : Int
  accent_prob : ℚ
  nonfinite : Bool := false
  deriving DecidableEq

/-- The struct `Program`; the maps are arrays of 16 entries, `maqam_offsets` has 7.
The `time_sig_seq_*` fields are never used and left out. `nonfinite` is not a field of the
struct: it is set when `tempo`, `master_amp`, `tempo_scale` or an entry of `tempo_map` has
been written from a literal that is a NaN or an infinity, and the rational in that field is
then not the value the code holds. -/
structure Program where
  tempo : ℚ
  master_amp : ℚ
  root_midi : ℚ
  maqam_offsets : List ℚ
  tempo_scale : ℚ
  tempo_map : List ℚ
  time_sig_num : Int
  time_sig_den : Int
  time_sig_num_map : List Int
  time_sig_den_map : List Int
  time_sig_enforce : Int
  synths : List SynthDef
  patterns : List PatternDef
  sequences : List SequenceDef
  drones : List DroneDef
  tracks : List TrackDef
  nonfinite : Bool := false
  deriving DecidableEq

def Program.synth_count (p : Program) : Nat := p.synths.length
def Program.pattern_count (p : Program) : Nat := p.patterns.length
def Program.sequence_count (p : Program) : Nat := p.sequences.length
def Program.drone_count (p : Program) : Nat := p.drones.length
def Program.track_count (p : Program) : Nat := p.tracks.length

/-- Index of the first element satisfying `f`, or `-1` (the `for`/`strcmp` loops of
`dsl_find_synth`, `dsl_find_pattern` and `dsl_find_sequence`). -/
def find_index {α : Type} (f : α → Bool) : List α → Int
  | [] => -1
  | x :: xs =>
    if f x then 0
    else
      let r := find_index f xs
      if r < 0 then -1 else r + 1

def dsl_find_synth (program : Program) (name : CStr) : Int :=
  find_index (fun s => s.name == name) program.synths

def dsl_find_pattern (program : Program) (name : CStr) : Int :=
  find_index (fun p => p.name == name) program.patterns

def dsl_find_sequence (program : Program) (name : CStr) : Int :=
  find_index (fun s => s.name == name) program.sequences

/-- C conversion `(int)x` of a float: truncation toward zero. -/
def c_trunc (x : ℚ) : Int := if 0 ≤ x then Rat.floor x else Rat.ceil x

/-- C conversion `(int)x` of a floating-point value to a 32-bit `int`: truncation toward
zero when the truncated value is in the range of `int`, and `none` when it is not, where the
conversion is undefined in C. -/
def c_int (x : ℚ) : Option Int :=
  if -2147483649 < x ∧ x < 2147483648 then some (c_trunc x) else none

/-! ## Sequencer runtime (`audio_engine.c`) -/

def MAX_VOICES : Nat := 32

/-- A `float` frequency: a literal in Hz, or `440 * 2^((m - 69) / 12)` for the MIDI pitch `m`. -/
inductive Freq
  | hz (f : ℚ)
  | midi (m : ℚ)
  deriving DecidableEq

/-- The arguments of one call of `voice_note_on`. -/
structure NoteOn where
  synth : SynthDef
  freq : Freq
  sample_rate : ℚ
  gate_samples : Int
  amp_scale : ℚ
  glide_samples : Int
  accent : Int
  deriving DecidableEq

/-- The envelope stage of a voice (`EnvStage`); `ENV_ATTACK` is the value 0. -/
inductive EnvStage
  | ENV_ATTACK | ENV_DECAY | ENV_SUSTAIN | ENV_RELEASE | ENV_OFF
  deriving DecidableEq

/-- The part of the struct `Voice` the sequencer and the envelope use (`active` and the
envelope fields), with the arguments of the note-on that last started the voice: every other
synthesis field `voice_note_on` writes is computed from them and from the fields the voice
had before. -/
structure Voice where
  active : Bool
  env : ℚ
  atk_inc : ℚ
  dec_inc : ℚ
  rel_inc : ℚ
  sus : ℚ
  stage : EnvStage
  gate_samples : Int
  trigger : Option NoteOn
  deriving DecidableEq

/-- Lines 387 and 503-542 of `voice_note_on`: the attack time, the decay time, the sustain
level and the release time of a note of `synth`; the percussive and the comb types have
fixed envelopes. -/
def envelope_times (synth : SynthDef) : ℚ × ℚ × ℚ × ℚ :=
  let t := synth.type
  if t = .SYNTH_KICK ∨ t = .SYNTH_KICK808 ∨ t = .SYNTH_KICK909 then
    (1 / 1000, if t = .SYNTH_KICK909 then 18 / 100 else 26 / 100, 0, 5 / 100)
  else if t = .SYNTH_TOM then (1 / 1000, 18 / 100, 0, 5 / 100)
  else if t = .SYNTH_SNARE ∨ t = .SYNTH_SNARE808 ∨ t = .SYNTH_SNARE909 then
    (1 / 1000, if t = .SYNTH_SNARE909 then 45 / 1000 else 6 / 100, 0, 3 / 100)
  else if t = .SYNTH_CLAP ∨ t = .SYNTH_CLAP909 then
    (1 / 1000, if t = .SYNTH_CLAP909 then 6 / 100 else 7 / 100, 0, 4 / 100)
  else if t = .SYNTH_HAT_C ∨ t = .SYNTH_HAT808 then (1 / 1000, 18 / 1000, 0, 12 / 1000)
  else if t = .SYNTH_HAT_O ∨ t = .SYNTH_HAT909 then (1 / 1000, 7 / 100, 0, 45 / 1000)
  else if t = .SYNTH_RIM ∨ t = .SYNTH_GLITCH ∨ t = .SYNTH_BITPERC then
    (1 / 1000, 3 / 100, 0, 2 / 100)
  else if t = .SYNTH_METAL then (2 / 1000, 12 / 100, 0, 6 / 100)
  else if t = .SYNTH_PM_KICK then (1 / 1000, 2 / 10, 0, 8 / 100)
  else if t = .SYNTH_PM_SNARE then (1 / 1000, 7 / 100, 0, 4 / 100)
  else if t = .SYNTH_PM_HAT then (1 / 1000, 3 / 100, 0, 2 / 100)
  else if t = .SYNTH_PM_CLAP then (1 / 1000, 6 / 100, 0, 4 / 100)
  else if t = .SYNTH_PM_TOM then (1 / 1000, 14 / 100, 0, 6 / 100)
  else if t = .SYNTH_COMB ∨ t = .SYNTH_PM_STRING ∨ t = .SYNTH_PM_BELL ∨ t = .SYNTH_PM_PIPE then
    (1 / 1000, 4 / 10, 0, 2 / 10)
  else (synth.atk, synth.dec, synth.sus, synth.rel)

/-- The function `voice_note_on` (352-551) on the fields modelled: the voice becomes active
in the attack stage with its envelope at 0 (360, 386-389), and the envelope increments are
set from the times of the synth (503-550). -/
def voice_note_on (voice : Voice) (n : NoteOn) : Voice :=
  let e := envelope_times n.synth
  let atk := e.1
  let sus := e.2.2.1
  let acid := decide (n.accent ≠ 0 ∧ n.synth.type = .SYNTH_ACID)
  let dec := if acid then e.2.1 * (7 / 10) else e.2.1
  let rel := if acid then e.2.2.2 * (7 / 10) else e.2.2.2
  { voice with
    active := true, env := 0, sus := sus, stage := .ENV_ATTACK,
    gate_samples := n.gate_samples,
    atk_inc := if atk ≤ 1 / 10000 then 1 else 1 / (atk * n.sample_rate),
    dec_inc := if dec ≤ 1 / 10000 then 1 else (1 - sus) / (dec * n.sample_rate),
    rel_inc := if rel ≤ 1 / 10000 then 1 else 1 / (rel * n.sample_rate),
    trigger := some n }

/-- The envelope section of `voice_render` (553-584), the only part of it that writes the
fields modelled; the sample it returns is left out. -/
def voice_render (voice : Voice) : Voice :=
  if !voice.active then voice
  else
    match voice.stage with
    | .ENV_ATTACK =>
      if voice.env + voice.atk_inc ≥ 1 then
        { voice with env := 1, stage := .ENV_DECAY, gate_samples := voice.gate_samples - 1 }
      else
        { voice with env := voice.env + voice.atk_inc,
                     gate_samples := voice.gate_samples - 1 }
    | .ENV_DECAY =>
      if voice.env - voice.dec_inc ≤ voice.sus then
        { voice with env := voice.sus, stage := .ENV_SUSTAIN,
                     gate_samples := voice.gate_samples - 1 }
      else
        { voice with env := voice.env - voice.dec_inc,
                     gate_samples := voice.gate_samples - 1 }
    | .ENV_SUSTAIN =>
      if voice.gate_samples ≤ 0 then
        { voice with stage := .ENV_RELEASE, gate_samples := voice.gate_samples - 1 }
      else { voice with gate_samples := voice.gate_samples - 1 }
    | .ENV_RELEASE =>
      if voice.env - voice.rel_inc ≤ 0 then
        { voice with env := 0, stage := .ENV_OFF, active := false }
      else
        { voice with env := voice.env - voice.rel_inc,
                     gate_samples := voice.gate_samples - 1 }
    | .ENV_OFF => { voice with gate_samples := voice.gate_samples - 1 }

/-- The struct `TrackRuntime`; `seq_repeat_left` and `seq_cycle_active` are only ever set to 0
and left out. -/
structure TrackRuntime where
  pattern : Option PatternDef
  synth : SynthDef
  sequence : Option SequenceDef
  step_index : Int
  samples_until_step : Int
  samples_per_step : Int
  every : Int
  rev : Int
  palindrome : Int
  iter : Int
  chunk : Int
  stut : Int
  density : ℚ
  rng : Nat
  stut_remaining : Int
  stut_samples_until : Int
  stut_samples_per : Int
  stut_freq : Freq
  seq_index : Int
  seq_repeat_done : Int
  slide_ms : ℚ
  ornament_prob : ℚ
  ornament_mode : Int
  ornament_alt : Int
  accent_prob : ℚ
  seq_start : Int
  seq_end : Int
  seq_pos : Int
  base_rate : ℚ
  is_tempo_leader : Int
  deriving DecidableEq

/-- The part of the struct `EngineState` used by the sequencer. `pattern_epoch` is an
`unsigned long long`. -/
structure EngineState where
  sample_rate : ℚ
  program : Program
  tracks : List TrackRuntime
  voices : List Voice
  base_samples_per_step : Int
  pattern_epoch : Nat
  tempo_section : Int
  deriving DecidableEq

/-- Lines 146-149 of `effective_pattern_length`: the section whose meter is used. -/
def meter_section (engine : EngineState) : Int :=
  if engine.tempo_section < 1 ∨ engine.tempo_section > 14 then 1 else engine.tempo_section

deriving instance DecidableEq for Except

/-- The function `effective_pattern_length` (audio_engine.c 135-168). -/
def effective_pattern_length (engine : EngineState) (pattern : PatternDef) : Int :=
  let len : Int := pattern.length
  if len ≤ 0 then 0
  else if engine.program.time_sig_enforce = 0 then len
  else
    let sect : Int := meter_section engine
    let num := engine.program.time_sig_num_map.getD sect.toNat 0
    let den := engine.program.time_sig_den_map.getD sect.toNat 0
    if num ≤ 0 ∨ den ≤ 0 then len
    else if Int.tmod 16 den ≠ 0 then len
    else
      let steps_per_beat := Int.tdiv 16 den
      let bar_steps := num * steps_per_beat
      if bar_steps ≤ 0 then len
      else
        let rem := Int.tmod len bar_steps
        if rem = 0 then len else len + (bar_steps - rem)

/-- The function `track_cycle_steps` (674-686) for a non-null pattern. -/
def track_cycle_steps (engine : EngineState) (track : TrackRuntime) (pattern : PatternDef) :
    Int :=
  let base_len := effective_pattern_length engine pattern
  let base_len := if track.palindrome ≠ 0 ∧ base_len > 1 then base_len * 2 - 2 else base_len
  if track.iter > 1 then base_len * track.iter else base_len

/-- Lines 692-695 of `sequence_current_pattern`: an open window end is set to `count`. -/
def default_seq_end (track : TrackRuntime) (seq : SequenceDef) : TrackRuntime :=
  if track.seq_start > 0 ∧ track.seq_end < 0 then { track with seq_end := seq.count }
  else track

/-- Lines 696-707 of `sequence_current_pattern`: the pattern of the current sequence step;
`NULL` outside the `only` window or when the pattern is not found. -/
def current_step_pattern (engine : EngineState) (track : TrackRuntime) (seq : SequenceDef) :
    Option PatternDef :=
  if track.seq_start > 0 ∧
      (track.seq_pos < track.seq_start - 1 ∨ track.seq_pos > track.seq_end - 1) then none
  else
    match seq.steps.get? track.seq_index.toNat with
    | none => none
    | some step =>
      if dsl_find_pattern engine.program step.pattern < 0 then none
      else engine.program.patterns.get? (dsl_find_pattern engine.program step.pattern).toNat

/-- The function `sequence_current_pattern` (688-708); it may write `seq_end`, so the track
is returned with the pattern. -/
def sequence_current_pattern (engine : EngineState) (track : TrackRuntime) :
    TrackRuntime × Option PatternDef :=
  match track.sequence with
  | none => (track, track.pattern)
  | some seq =>
    if seq.count = 0 then (track, track.pattern)
    else (default_seq_end track seq, current_step_pattern engine (default_seq_end track seq) seq)

/-- The function `update_track_tempo` (735-748). -/
def update_track_tempo (engine : EngineState) (track : TrackRuntime) : TrackRuntime :=
  let idx := engine.tempo_section
  if idx < 1 ∨ idx > 14 then track
  else
    let map := engine.program.tempo_map.getD idx.toNat 0
    let map := if map ≤ 0 then 1 else map
    let mult := track.base_rate * map
    let sps := c_trunc ((engine.base_samples_per_step : ℚ) / mult)
    let sps := if sps < 1 then 1 else sps
    { track with samples_per_step := sps }

/-- The function `update_all_track_tempos` (750-754). -/
def update_all_track_tempos (engine : EngineState) : EngineState :=
  { engine with tracks := engine.tracks.map (update_track_tempo engine) }

/-- The function `advance_sequence` (713-733). `track` is the element of `engine.tracks` the
caller holds by pointer: it is passed and returned beside the engine, and the caller stores
it back, so the tempo recomputation of all tracks is applied to it as well. -/
def advance_sequence (engine : EngineState) (track : TrackRuntime) :
    EngineState × TrackRuntime :=
  match track.sequence with
  | none => (engine, track)
  | some seq =>
    if seq.count = 0 then (engine, track)
    else
      let step_repeat : Int :=
        match seq.steps.get? track.seq_index.toNat with
        | some step => step.repeat_count
        | none => 0
      let track := { track with seq_repeat_done := track.seq_repeat_done + 1 }
      if track.seq_repeat_done ≥ step_repeat then
        let track := { track with seq_repeat_done := 0 }
        let track := { track with seq_index := Int.tmod (track.seq_index + 1) seq.count }
        let track := { track with seq_pos := Int.tmod (track.seq_pos + 1) seq.count }
        let engine := { engine with pattern_epoch := (engine.pattern_epoch + 1) % 2 ^ 64 }
        if track.is_tempo_leader ≠ 0 then
          let max_section : Int := seq.count
          let max_section := if max_section < 1 then 14 else max_section
          let engine :=
            { engine with tempo_section := Int.tmod track.seq_pos max_section + 1 }
          (update_all_track_tempos engine, update_track_tempo engine track)
        else
          (engine, update_track_tempo engine track)
      else (engine, track)

/-- The function `track_active_for_sequence` (756-769). -/
def track_active_for_sequence (track : TrackRuntime) : Bool :=
  match track.sequence with
  | none => true
  | some seq =>
    if seq.count = 0 then true
    else if track.seq_start ≤ 0 then true
    else if track.seq_end < 0 then true
    else
      decide (track.seq_pos ≥ track.seq_start - 1 ∧ track.seq_pos ≤ track.seq_end - 1)

/-- The three xorshift lines `rng ^= rng << 13; rng ^= rng >> 17; rng ^= rng << 5` on a
`uint32_t`. -/
def xorshift32 (x : Nat) : Nat :=
  let x := (x ^^^ (x <<< 13)) % 2 ^ 32
  let x := x ^^^ (x >>> 17)
  (x ^^^ (x <<< 5)) % 2 ^ 32

/-- The draw `(rng & 0xFFFFFF) / 16777215.0f`. -/
def rng_unit (rng : Nat) : ℚ := ((rng &&& 0xFFFFFF : Nat) : ℚ) / 16777215

/-- The voice scan `for (v = 0; v < MAX_VOICES; v++) if (!voices[v].active) { note_on; break; }`:
the new voices and whether a note-on was made. -/
def note_on_first_free (n : NoteOn) : List Voice → List Voice × Bool
  | [] => ([], false)
  | v :: vs =>
    if !v.active then (voice_note_on v n :: vs, true)
    else ((v :: (note_on_first_free n vs).1), (note_on_first_free n vs).2)

/-- What one call of `schedule_track_step` leaves behind: the engine and the track, and, for
observation only, the pattern index computed at lines 805-819 (when the call gets there) and
the note-ons made, in order. -/
structure StepOutcome where
  engine : EngineState
  track : TrackRuntime
  idx : Option Int
  note_ons : List NoteOn
  deriving DecidableEq

/-- Lines 799-819 of `schedule_track_step`: the pattern index for the current `step_index`. -/
def step_pattern_index (track : TrackRuntime) (effective_len : Int) : Int :=
  let step := track.step_index
  let base_step := if track.iter > 1 then Int.tdiv step track.iter else step
  let idx :=
    if track.palindrome ≠ 0 ∧ effective_len > 1 then
      let pal_len := effective_len * 2 - 2
      let p := Int.tmod base_step pal_len
      if p ≥ effective_len then pal_len - p else p
    else Int.tmod base_step effective_len
  if track.rev ≠ 0 then (effective_len - 1) - idx else idx

/-- Lines 821-832: true when the chunk gate skips the step. -/
def chunk_skips (track : TrackRuntime) (effective_len idx : Int) : Bool :=
  if track.chunk > 0 then
    let chunk_count := track.chunk
    let chunk_count := if chunk_count < 1 then 1 else chunk_count
    let chunk_size := Int.tdiv (effective_len + chunk_count - 1) chunk_count
    let step := track.step_index
    let base_step := if track.iter > 1 then Int.tdiv step track.iter else step
    let cycle := Int.tmod (Int.tdiv base_step effective_len) chunk_count
    let chunk_start := cycle * chunk_size
    let chunk_end := chunk_start + chunk_size - 1
    decide (idx < chunk_start ∨ idx > chunk_end)
  else false

/-- Lines 881-918: the ornament (grace note) of a played step. -/
def schedule_ornament (engine : EngineState) (track : TrackRuntime) (s : PatternStep) :
    EngineState × TrackRuntime × List NoteOn :=
  if track.ornament_prob > 0 ∧ s.degree_valid ≠ 0 then
    let rng := xorshift32 track.rng
    if rng_unit rng ≤ track.ornament_prob then
      let grace_dir : Int :=
        if track.ornament_mode = 1 then 1
        else if track.ornament_mode = 2 then (if track.ornament_alt ≠ 0 then 1 else -1)
        else -1
      let alt : Int :=
        if track.ornament_mode ≠ 1 ∧ track.ornament_mode = 2 then
          (if track.ornament_alt ≠ 0 then 0 else 1)
        else track.ornament_alt
      let grace_deg := s.degree + grace_dir
      let grace_oct :=
        if grace_deg < 1 then s.degree_octave - 1
        else if grace_deg > 7 then s.degree_octave + 1 else s.degree_octave
      let grace_deg := if grace_deg < 1 then 7 else if grace_deg > 7 then 1 else grace_deg
      let grace_cents :=
        engine.program.maqam_offsets.getD (grace_deg - 1).toNat 0 + (s.degree_micro : ℚ) * 50
      let grace_midi :=
        engine.program.root_midi + ((grace_oct * 12 : Int) : ℚ) + grace_cents / 100
      let n : NoteOn :=
        { synth := track.synth, freq := Freq.midi grace_midi, sample_rate := engine.sample_rate,
          gate_samples := c_trunc ((track.samples_per_step : ℚ) * (2 / 10)),
          amp_scale := 1 / 2, glide_samples := 0, accent := 0 }
      let r := note_on_first_free n engine.voices
      ({ engine with voices := r.1 }, { track with rng := rng, ornament_alt := alt },
        if r.2 then [n] else [])
    else (engine, { track with rng := rng }, [])
  else (engine, track, [])

/-- Lines 920-930: the stutter bookkeeping behind a played note of frequency `freq`. -/
def set_stutter (track : TrackRuntime) (freq : Freq) : TrackRuntime :=
  if track.stut > 1 then
    let per := Int.tdiv track.samples_per_step track.stut
    { track with stut_remaining := track.stut - 1,
                 stut_samples_per := if per < 1 then 1 else per,
                 stut_samples_until := if per < 1 then 1 else per,
                 stut_freq := freq }
  else { track with stut_remaining := 0 }

/-- Lines 849-932: play the step `s = pattern[idx]` (called when `do_play` holds and
`idx < pattern->length`). -/
def play_step (engine : EngineState) (track : TrackRuntime) (s : PatternStep) :
    EngineState × TrackRuntime × List NoteOn :=
  if s.note ≥ 0 then
    let freq := Freq.midi ((s.note : ℚ) + s.cents / 100)
    let slide_ms := if s.slide_ms ≥ 0 then s.slide_ms else track.slide_ms
    let glide_samples : Int :=
      if slide_ms > 0 then c_trunc (engine.sample_rate * (slide_ms / 1000)) else 0
    let draw := decide (s.accent = 0 ∧ track.accent_prob > 0)
    let rng := if draw then xorshift32 track.rng else track.rng
    let accent : Int :=
      if draw then (if rng_unit rng ≤ track.accent_prob then 1 else s.accent)
      else s.accent
    let n : NoteOn :=
      { synth := track.synth, freq := freq, sample_rate := engine.sample_rate,
        gate_samples := c_trunc ((track.samples_per_step : ℚ) * (9 / 10)),
        amp_scale := 1, glide_samples := glide_samples, accent := accent }
    let r := note_on_first_free n engine.voices
    let o := schedule_ornament { engine with voices := r.1 } { track with rng := rng } s
    (o.1, set_stutter o.2.1 freq, (if r.2 then [n] else []) ++ o.2.2)
  else (engine, track, [])

/-- Lines 834-847 of `schedule_track_step`: the `every` gate and the density draw; the
random state afterwards and `do_play`. -/
def step_gate (track : TrackRuntime) : Nat × Bool :=
  let pass := !decide (track.every > 1 ∧ Int.tmod track.step_index track.every ≠ 0)
  if pass && decide (track.density < 1) then
    (xorshift32 track.rng, !decide (rng_unit (xorshift32 track.rng) > track.density))
  else (track.rng, pass)

/-- Lines 934-942 of `schedule_track_step`: the step counter moves on and, at the end of the
cycle, goes back to 0 and the sequence advances. -/
def finish_step (engine : EngineState) (track : TrackRuntime) (pattern : PatternDef) :
    EngineState × TrackRuntime :=
  let cycle_steps := track_cycle_steps engine track pattern
  if cycle_steps > 0 ∧ track.step_index + 1 ≥ cycle_steps then
    match track.sequence with
    | some _ => advance_sequence engine { track with step_index := 0 }
    | none => (engine, { track with step_index := 0 })
  else (engine, { track with step_index := track.step_index + 1 })

/-- Lines 772-787 of `schedule_track_step`: the call on a track outside its `only` window. -/
def schedule_inactive (engine : EngineState) (track : TrackRuntime) :
    EngineState × TrackRuntime :=
  match track.sequence with
  | none => (engine, track)
  | some seq =>
    if seq.count > 0 then
      match (sequence_current_pattern engine track).2 with
      | none => (engine, (sequence_current_pattern engine track).1)
      | some p =>
        let track := (sequence_current_pattern engine track).1
        let cycle_steps := track_cycle_steps engine track p
        if cycle_steps > 0 then
          if track.step_index + 1 ≥ cycle_steps then
            advance_sequence engine { track with step_index := 0 }
          else (engine, { track with step_index := track.step_index + 1 })
        else (engine, track)
    else (engine, track)

/-- The function `schedule_track_step` (771-943). -/
def schedule_track_step (engine : EngineState) (track : TrackRuntime) : StepOutcome :=
  if !track_active_for_sequence track then
    ⟨(schedule_inactive engine track).1, (schedule_inactive engine track).2, none, []⟩
  else
    match (sequence_current_pattern engine track).2 with
    | none => ⟨engine, (sequence_current_pattern engine track).1, none, []⟩
    | some pattern =>
      let track := (sequence_current_pattern engine track).1
      let effective_len := effective_pattern_length engine pattern
      if pattern.length = 0 ∨ effective_len ≤ 0 then ⟨engine, track, none, []⟩
      else
        let idx := step_pattern_index track effective_len
        if chunk_skips track effective_len idx then
          ⟨engine, { track with step_index := track.step_index + 1 }, some idx, []⟩
        else
          let gate := step_gate track
          let o : EngineState × TrackRuntime × List NoteOn :=
            if gate.2 ∧ idx < pattern.length then
              match pattern.steps.get? idx.toNat with
              | some s => play_step engine { track with rng := gate.1 } s
              | none => (engine, { track with rng := gate.1 }, [])
            else (engine, { track with rng := gate.1 }, [])
          let f := finish_step o.1 o.2.1 pattern
          ⟨f.1, f.2, some idx, o.2.2⟩

/-- Lines 975-988 of `render_callback`: the stutter countdown of a track and the repeat of
its note when it runs out. -/
def stutter_tick (engine : EngineState) (track : TrackRuntime) : EngineState × TrackRuntime :=
  if track.stut_remaining > 0 then
    if track.stut_samples_until - 1 ≤ 0 then
      let n : NoteOn :=
        { synth := track.synth, freq := track.stut_freq, sample_rate := engine.sample_rate,
          gate_samples := c_trunc ((track.stut_samples_per : ℚ) * (8 / 10)),
          amp_scale := 1, glide_samples := 0, accent := 0 }
      ({ engine with voices := (note_on_first_free n engine.voices).1 },
        { track with stut_remaining := track.stut_remaining - 1,
                     stut_samples_until := track.stut_samples_per })
    else (engine, { track with stut_samples_until := track.stut_samples_until - 1 })
  else (engine, track)

/-- The body of the track loop of `render_callback` (967-989) for the track at index `i`:
the track is read from `engine.tracks`, a step is scheduled when its countdown has run out,
the countdown moves on, and the track is stored back. -/
def render_track (engine : EngineState) (i : Nat) : EngineState :=
  match engine.tracks.get? i with
  | none => engine
  | some track =>
    let s : EngineState × TrackRuntime :=
      if track.samples_until_step ≤ 0 then
        ((schedule_track_step engine track).engine,
          { (schedule_track_step engine track).track with
            samples_until_step := (schedule_track_step engine track).track.samples_per_step })
      else (engine, track)
    let r := stutter_tick s.1 { s.2 with samples_until_step := s.2.samples_until_step - 1 }
    { r.1 with tracks := r.1.tracks.set i r.2 }

/-- One frame of `render_callback` (966-994): every track in order, then `voice_render` on
every voice. The mixing of the samples and the meters are left out. -/
def render_frame (engine : EngineState) : EngineState :=
  let engine := (List.range engine.tracks.length).foldl render_track engine
  { engine with voices := engine.voices.map voice_render }

/-- The first `n` frames rendered from `engine`. -/
def render_frames : Nat → EngineState → EngineState
  | 0, engine => engine
  | n + 1, engine => render_frames n (render_frame engine)

/-! ## Building the runtime (`audio_engine.c`) -/

/-- Lines 1094-1103 of `build_runtime`: the rate multiplier of a track. -/
def track_base_rate (track : TrackDef) : ℚ :=
  let mult := track.rate * track.hurry
  let mult := if track.fast > 1 then mult * (track.fast : ℚ) else mult
  let mult := if track.slow > 1 then mult / (track.slow : ℚ) else mult
  if mult ≤ 1 / 1000 then 1 / 1000 else mult

/-- Lines 1062-1117 of `build_runtime`: the runtime of track `i`, its references resolved. -/
def init_track_runtime (engine : EngineState) (i : Nat) (track : TrackDef)
    (pattern : Option PatternDef) (synth : SynthDef) (sequence : Option SequenceDef)
    (is_tempo_leader : Int) : TrackRuntime :=
  let sps := c_trunc ((engine.base_samples_per_step : ℚ) / track_base_rate track)
  update_track_tempo engine
    { pattern := pattern, synth := synth, sequence := sequence, step_index := 0,
      samples_until_step := 0, samples_per_step := if sps < 1 then 1 else sps,
      every := track.every, rev := track.rev, palindrome := track.palindrome,
      iter := track.iter, chunk := track.chunk, stut := track.stut, density := track.density,
      rng := (0x9E3779B9 + i * 2654435761) % 2 ^ 32,
      stut_remaining := 0, stut_samples_until := 0, stut_samples_per := 0,
      stut_freq := Freq.hz 0, seq_index := 0, seq_repeat_done := 0,
      slide_ms := track.slide_ms, ornament_prob := track.ornament_prob,
      ornament_mode := track.ornament_mode, ornament_alt := 0,
      accent_prob := track.accent_prob, seq_start := track.seq_start,
      seq_end := track.seq_end, seq_pos := 0, base_rate := track_base_rate track,
      is_tempo_leader := is_tempo_leader }

/-- The track loop of `build_runtime` (1037-1118) from track `i` on; `leader_set` is
`tempo_leader_set`, `acc` the runtimes built so far. `none` is the return value 0. -/
def build_runtime_loop (engine : EngineState) :
    Nat → Bool → List TrackDef → List TrackRuntime → Option (List TrackRuntime)
  | _, _, [], acc => some acc
  | i, leader_set, track :: rest, acc =>
    let resolved : Option (Option PatternDef × Option SequenceDef) :=
      if track.is_sequence ≠ 0 then
        let sequence_idx := dsl_find_sequence engine.program track.pattern
        if sequence_idx < 0 then none
        else
          match engine.program.sequences.get? sequence_idx.toNat with
          | none => none
          | some seq =>
            if seq.steps.any (fun st => decide (dsl_find_pattern engine.program st.pattern < 0))
            then none
            else some (none, some seq)
      else
        let pattern_idx := dsl_find_pattern engine.program track.pattern
        if pattern_idx < 0 then none
        else some (engine.program.patterns.get? pattern_idx.toNat, none)
    match resolved with
    | none => none
    | some (pattern, sequence) =>
      let synth_idx := dsl_find_synth engine.program track.synth
      if synth_idx < 0 then none
      else
        match engine.program.synths.get? synth_idx.toNat with
        | none => none
        | some synth =>
          let leader : Bool :=
            !leader_set &&
              (match sequence with
                | some seq => decide (seq.count > 0)
                | none => false)
          build_runtime_loop engine (i + 1) (leader_set || leader) rest
            (acc ++ [init_track_runtime engine i track pattern synth sequence
              (if leader then 1 else 0)])

/-- The function `build_runtime` (1033-1121); `none` is the return value 0. -/
def build_runtime (engine : EngineState) : Option EngineState :=
  match build_runtime_loop engine 0 false engine.program.tracks [] with
  | none => none
  | some tracks => some { engine with tracks := tracks }

/-- A zeroed `Program` (`memset` to 0). -/
def zero_program : Program :=
  { tempo := 0, master_amp := 0, root_midi := 0, maqam_offsets := List.replicate 7 0,
    tempo_scale := 0, tempo_map := List.replicate 16 0, time_sig_num := 0, time_sig_den := 0,
    time_sig_num_map := List.replicate 16 0, time_sig_den_map := List.replicate 16 0,
    time_sig_enforce := 0, synths := [], patterns := [], sequences := [], drones := [],
    tracks := [] }

/-- A zeroed `Voice` (`memset` to 0): inactive, and its stage is the enumerator with the
value 0, `ENV_ATTACK`. -/
def zero_voice : Voice :=
  { active := false, env := 0, atk_inc := 0, dec_inc := 0, rel_inc := 0, sus := 0,
    stage := .ENV_ATTACK, gate_samples := 0, trigger := none }

/-- The function `audio_engine_init` (1238-1252), on the fields modelled. -/
def audio_engine_init : EngineState :=
  { sample_rate := 48000, program := zero_program, tracks := [],
    voices := List.replicate MAX_VOICES zero_voice,
    base_samples_per_step := 1, pattern_epoch := 0, tempo_section := 0 }

/-- Lines 1268-1283 of `audio_engine_play_script`: the parsed Program is installed, the step
length computed, the runtime built and the voices reset. `none` when `build_runtime`
fails, and when the step length `sample_rate * 60.0 / tempo / 4.0` is outside the range of
`int`, where the conversion of line 1270 is undefined. The drones and the audio driver that
follow are not modelled. -/
def install_program (engine : EngineState) (program : Program) : Option EngineState :=
  match c_int (engine.sample_rate * 60 / program.tempo / 4) with
  | none => none
  | some sps =>
    match build_runtime
        { engine with program := program, tempo_section := 1,
                      base_samples_per_step := if sps < 1 then 1 else sps } with
    | none => none
    | some engine =>
      some { engine with
        voices := engine.voices.map
          (fun v => { v with active := false, env := 0, stage := .ENV_OFF }) }

/-- Lines 1285-1301 of `audio_engine_play_script`: a long note for each drone on the first
free voice; the message of line 1290 when a drone names a missing synth. -/
def start_drones (engine : EngineState) : List DroneDef → Except (List Char) EngineState
  | [] => .ok engine
  | drone :: rest =>
    if dsl_find_synth engine.program drone.synth < 0 then
      .error ("Drone references missing synth ".toList ++ [Char.ofNat 39] ++ drone.synth
        ++ [Char.ofNat 39])
    else
      match engine.program.synths.get? (dsl_find_synth engine.program drone.synth).toNat with
      | none =>
        .error ("Drone references missing synth ".toList ++ [Char.ofNat 39] ++ drone.synth
          ++ [Char.ofNat 39])
      | some synth =>
        let n : NoteOn :=
          { synth := synth, freq := Freq.midi drone.midi, sample_rate := engine.sample_rate,
            gate_samples := c_trunc (engine.sample_rate * 60), amp_scale := 6 / 10,
            glide_samples := 0, accent := 0 }
        start_drones { engine with voices := (note_on_first_free n engine.voices).1 } rest

/-! ## Score compiler (`dsl.c`): characters, tokens and numbers -/

/-- A string literal as a C string. -/
def cstr (s : String) : CStr := s.toList

def ch_tab : Char := Char.ofNat 9
def ch_newline : Char := Char.ofNat 10
def ch_vtab : Char := Char.ofNat 11
def ch_formfeed : Char := Char.ofNat 12
def ch_return : Char := Char.ofNat 13
def ch_quote : Char := Char.ofNat 34
def ch_hash : Char := Char.ofNat 35
def ch_apostrophe : Char := Char.ofNat 39

/-- The C library `isspace` in the "C" locale. -/
def isspace (c : Char) : Bool :=
  c == ' ' || c == ch_tab || c == ch_newline || c == ch_vtab || c == ch_formfeed ||
    c == ch_return

/-- The C library `isdigit`. -/
def isdigit (c : Char) : Bool := decide ('0'.toNat ≤ c.toNat ∧ c.toNat ≤ '9'.toNat)

/-- The C library `toupper` in the "C" locale. -/
def toupper (c : Char) : Char :=
  if 'a'.toNat ≤ c.toNat ∧ c.toNat ≤ 'z'.toNat then Char.ofNat (c.toNat - 32) else c

/-- The value of the decimal digits `s` read after the value `acc`. -/
def digits_value (acc : Nat) : CStr → Nat
  | [] => acc
  | c :: cs => digits_value (10 * acc + (c.toNat - '0'.toNat)) cs

/-- The C library `atoi`: white space, an optional sign, then the leading digits. -/
def atoi (s : CStr) : Int :=
  match s.dropWhile isspace with
  | '-' :: r => -((digits_value 0 (r.takeWhile isdigit) : Nat) : Int)
  | '+' :: r => ((digits_value 0 (r.takeWhile isdigit) : Nat) : Int)
  | r => ((digits_value 0 (r.takeWhile isdigit) : Nat) : Int)

/-- The exponent part `e[+-]digits` of a decimal literal, as a power of ten; 1 when `s` does
not start with a complete exponent. -/
def atof_exponent (s : CStr) : ℚ :=
  match s with
  | [] => 1
  | e :: r =>
    if e == 'e' || e == 'E' then
      match r with
      | '-' :: d =>
        if (d.takeWhile isdigit).isEmpty then 1
        else 1 / (10 : ℚ) ^ digits_value 0 (d.takeWhile isdigit)
      | '+' :: d =>
        if (d.takeWhile isdigit).isEmpty then 1
        else (10 : ℚ) ^ digits_value 0 (d.takeWhile isdigit)
      | d =>
        if (d.takeWhile isdigit).isEmpty then 1
        else (10 : ℚ) ^ digits_value 0 (d.takeWhile isdigit)
    else 1

/-- The C library `isxdigit`. -/
def isxdigit (c : Char) : Bool :=
  isdigit c || decide ('a'.toNat ≤ c.toNat ∧ c.toNat ≤ 'f'.toNat)
    || decide ('A'.toNat ≤ c.toNat ∧ c.toNat ≤ 'F'.toNat)

/-- The value of the hexadecimal digits `s` read after the value `acc`. -/
def hex_digits_value (acc : Nat) : CStr → Nat
  | [] => acc
  | c :: cs =>
    hex_digits_value
      (16 * acc + (if isdigit c then c.toNat - '0'.toNat
        else if 'a'.toNat ≤ c.toNat then c.toNat - 'a'.toNat + 10
        else c.toNat - 'A'.toNat + 10)) cs

/-- The exponent part `p[+-]digits` of a hexadecimal literal, as a power of two; 1 when `s`
does not start with a complete exponent. -/
def atof_hex_exponent (s : CStr) : ℚ :=
  match s with
  | [] => 1
  | e :: r =>
    if e == 'p' || e == 'P' then
      match r with
      | '-' :: d =>
        if (d.takeWhile isdigit).isEmpty then 1
        else 1 / (2 : ℚ) ^ digits_value 0 (d.takeWhile isdigit)
      | '+' :: d =>
        if (d.takeWhile isdigit).isEmpty then 1
        else (2 : ℚ) ^ digits_value 0 (d.takeWhile isdigit)
      | d =>
        if (d.takeWhile isdigit).isEmpty then 1
        else (2 : ℚ) ^ digits_value 0 (d.takeWhile isdigit)
    else 1

/-- The hexadecimal form of `strtod` behind its `0x`: hexadecimal digits, an optional `.` and
digits, an optional binary exponent; 0 when no digit follows, where `strtod` reads the `0`
alone. -/
def atof_hex (s : CStr) : ℚ :=
  let ip := s.takeWhile isxdigit
  let r := s.dropWhile isxdigit
  let fp : CStr :=
    match r with
    | '.' :: f => f.takeWhile isxdigit
    | _ => []
  let r2 : CStr :=
    match r with
    | '.' :: f => f.dropWhile isxdigit
    | _ => r
  if ip.isEmpty && fp.isEmpty then 0
  else
    (((hex_digits_value 0 ip : Nat) : ℚ)
        + ((hex_digits_value 0 fp : Nat) : ℚ) / (16 : ℚ) ^ fp.length)
      * atof_hex_exponent r2

/-- The decimal form of `strtod`: digits, an optional `.` and digits, an optional
exponent. -/
def atof_decimal (s : CStr) : ℚ :=
  let ip := s.takeWhile isdigit
  let r := s.dropWhile isdigit
  let fp : CStr :=
    match r with
    | '.' :: f => f.takeWhile isdigit
    | _ => []
  let r2 : CStr :=
    match r with
    | '.' :: f => f.dropWhile isdigit
    | _ => r
  if ip.isEmpty && fp.isEmpty then 0
  else
    (((digits_value 0 ip : Nat) : ℚ) + ((digits_value 0 fp : Nat) : ℚ) / (10 : ℚ) ^ fp.length)
      * atof_exponent r2

/-- The unsigned number at the start of `s`, in the hexadecimal form behind `0x` or `0X` and
in the decimal form otherwise; 0 when no number starts the string. -/
def atof_unsigned (s : CStr) : ℚ :=
  match s with
  | '0' :: x :: r => if x == 'x' || x == 'X' then atof_hex r else atof_decimal s
  | _ => atof_decimal s

/-- A value of the C type `float`: a finite number, a NaN or an infinity. -/
inductive CFloat
  | finite (v : ℚ)
  | nan
  | pos_inf
  | neg_inf
  deriving DecidableEq

/-- The number of a finite value, and 0 for a NaN and for an infinity. -/
def CFloat.value : CFloat → ℚ
  | .finite v => v
  | _ => 0

def CFloat.is_finite : CFloat → Bool
  | .finite _ => true
  | _ => false

/-- The C comparison `a < b` with a finite `b`: false for a NaN. -/
def CFloat.lt (a : CFloat) (b : ℚ) : Bool :=
  match a with
  | .finite v => decide (v < b)
  | .nan => false
  | .pos_inf => false
  | .neg_inf => true

/-- The C comparison `a <= b` with a finite `b`: false for a NaN. -/
def CFloat.le (a : CFloat) (b : ℚ) : Bool :=
  match a with
  | .finite v => decide (v ≤ b)
  | .nan => false
  | .pos_inf => false
  | .neg_inf => true

/-- The C comparison `a > b` with a finite `b`: false for a NaN. -/
def CFloat.gt (a : CFloat) (b : ℚ) : Bool :=
  match a with
  | .finite v => decide (v > b)
  | .nan => false
  | .pos_inf => true
  | .neg_inf => false

/-- The C comparison `a == 0` and the sign of a float for the products below. -/
def CFloat.is_zero : CFloat → Bool
  | .finite v => decide (v = 0)
  | _ => false

/-- True for a negative number and for the negative infinity. -/
def CFloat.is_negative : CFloat → Bool
  | .finite v => decide (v < 0)
  | .neg_inf => true
  | _ => false

/-- The conversion of a number to `float`, rounding to the nearest left out: a number of
magnitude `2^128 - 2^103` or more, halfway between the largest float and `2^128`, becomes an
infinity, and a number of magnitude `2^-150` or less, half the smallest float, becomes 0. -/
def float_of_rat (x : ℚ) : CFloat :=
  if x ≥ 2 ^ 128 - 2 ^ 103 then .pos_inf
  else if x ≤ -(2 ^ 128 - 2 ^ 103) then .neg_inf
  else if abs x ≤ 1 / 2 ^ 150 then .finite 0
  else .finite x

/-- The product `a * b` of two floats: a NaN when one of them is a NaN and when 0 meets an
infinity, an infinity when an infinity meets another number, and the product of the numbers
converted to `float` otherwise. -/
def CFloat.mul (a b : CFloat) : CFloat :=
  match a, b with
  | .nan, _ => .nan
  | _, .nan => .nan
  | .finite x, .finite y => float_of_rat (x * y)
  | a, b =>
    if a.is_zero || b.is_zero then .nan
    else if a.is_negative != b.is_negative then .neg_inf
    else .pos_inf

/-- The forms `inf`, `infinity` and `nan` of `strtod`, in any letter case, behind white space
and an optional sign. -/
def strtod_special (s : CStr) : Option CFloat :=
  match s.dropWhile isspace with
  | '-' :: r =>
    if (r.take 3).map toupper = cstr "INF" then some .neg_inf
    else if (r.take 3).map toupper = cstr "NAN" then some .nan
    else none
  | '+' :: r =>
    if (r.take 3).map toupper = cstr "INF" then some .pos_inf
    else if (r.take 3).map toupper = cstr "NAN" then some .nan
    else none
  | r =>
    if (r.take 3).map toupper = cstr "INF" then some .pos_inf
    else if (r.take 3).map toupper = cstr "NAN" then some .nan
    else none

/-- The number `strtod` reads at the start of `s`: white space, an optional sign, a decimal or
hexadecimal number; 0 when no number starts the string. -/
def strtod_value (s : CStr) : ℚ :=
  match s.dropWhile isspace with
  | '-' :: r => -(atof_unsigned r)
  | '+' :: r => atof_unsigned r
  | r => atof_unsigned r

/-- The expression `(float)atof(s)`, which is how the parser reads every number that is not an
integer. -/
def atof_float (s : CStr) : CFloat :=
  match strtod_special s with
  | some f => f
  | none => float_of_rat (strtod_value s)

/-- The number `(float)atof(s)` when it is finite, and 0 when it is a NaN or an infinity,
which `atof_float` and `atof_nonfinite` tell. -/
def atof (s : CStr) : ℚ := (atof_float s).value

/-- True when `(float)atof(s)` is a NaN or an infinity. -/
def atof_nonfinite (s : CStr) : Bool := !(atof_float s).is_finite

/-- One `%d` of `sscanf`: white space, an optional sign and at least one digit; the value and
the rest of the input. -/
def scan_int (s : CStr) : Option (Int × CStr) :=
  let body : CStr → Option (Nat × CStr) := fun r =>
    if (r.takeWhile isdigit).isEmpty then none
    else some (digits_value 0 (r.takeWhile isdigit), r.dropWhile isdigit)
  match s.dropWhile isspace with
  | '-' :: r => (body r).map (fun v => (-(v.1 : Int), v.2))
  | '+' :: r => (body r).map (fun v => ((v.1 : Int), v.2))
  | r => (body r).map (fun v => ((v.1 : Int), v.2))

/-- The call `sscanf(range, "%d-%d", &start, &end)`: the two values when it returns 2. -/
def sscanf_range (range : CStr) : Option (Int × Int) :=
  match scan_int range with
  | none => none
  | some (start, r) =>
    match r with
    | '-' :: r2 =>
      match scan_int r2 with
      | none => none
      | some (e, _) => some (start, e)
    | _ => none

/-- The decimal digits of a `%d` argument (a line number). -/
def fmt_int (n : Nat) : CStr := (Nat.repr n).toList

/-- The function `trim_left` (97-101). -/
def trim_left (p : CStr) : CStr := p.dropWhile isspace

/-- The function `next_token` (103-135): the token, cut to `out_len - 1` bytes, and the
cursor behind it; `none` when the line is exhausted. -/
def next_token (p : CStr) (out_len : Nat) (allow_quoted : Bool) : Option (CStr × CStr) :=
  match trim_left p with
  | [] => none
  | c :: rest =>
    if allow_quoted && (c == ch_quote || c == '(') then
      let close : Char := if c == '(' then ')' else ch_quote
      let body := rest.takeWhile (fun x => x != close)
      let after := (rest.dropWhile (fun x => x != close)).drop 1
      some (body.take (out_len - 1), after)
    else
      some (((c :: rest).takeWhile (fun x => !isspace x)).take (out_len - 1),
        (c :: rest).dropWhile (fun x => !isspace x))

/-- The tokens read by the loops of the form
`while (*c) { skip separators; if (!*c) break; read up to the next separator; ... }`,
in order and uncut. -/
def split_tokens (sep : Char → Bool) : CStr → List CStr
  | [] => []
  | c :: cs =>
    if sep c then split_tokens sep cs
    else
      match cs with
      | [] => [[c]]
      | d :: _ =>
        if sep d then [c] :: split_tokens sep cs
        else
          match split_tokens sep cs with
          | [] => [[c]]
          | t :: ts => (c :: t) :: ts

/-- The separator test of the list loops: white space or a comma. -/
def is_list_sep (c : Char) : Bool := isspace c || c == ','

/-- The part of `s` before the first occurrence of `//` (`strstr` and the NUL written
there). -/
def cut_at_slashes : CStr → CStr
  | [] => []
  | c :: cs =>
    match cs with
    | [] => [c]
    | d :: _ => if c == '/' && d == '/' then [] else c :: cut_at_slashes cs

/-- The part of `s` before the first `ch` (`strchr` and the NUL written there). -/
def cut_at (ch : Char) (s : CStr) : CStr := s.takeWhile (fun x => x != ch)

/-- The part of `s` behind the first `ch` (`strchr(s, ch) + 1`), when there is one. -/
def after_char (ch : Char) (s : CStr) : Option CStr :=
  match s.dropWhile (fun x => x != ch) with
  | [] => none
  | _ :: r => some r

/-! ## Score compiler: defaults, notes and modes -/

/-- The function `set_default_program` (9-25). -/
def set_default_program : Program :=
  { tempo := 120, master_amp := 8 / 10, root_midi := 60,
    maqam_offsets := [0, 200, 400, 500, 700, 900, 1100],
    tempo_scale := 2, tempo_map := List.replicate 16 1,
    time_sig_num := 4, time_sig_den := 4,
    time_sig_num_map := List.replicate 16 4, time_sig_den_map := List.replicate 16 4,
    time_sig_enforce := 0,
    synths := [], patterns := [], sequences := [], drones := [], tracks := [] }

/-- The function `parse_time_sig` (27-54). -/
def parse_time_sig (token : CStr) : Option (Int × Int) :=
  if token.isEmpty then none
  else
    match after_char '/' token with
    | none => none
    | some behind =>
      let nlen := (cut_at '/' token).length
      if nlen = 0 ∨ nlen ≥ 16 then none
      else
        let num := atoi (cut_at '/' token)
        let den := atoi (behind.take 15)
        if num < 1 ∨ num > 32 then none
        else if ¬(den = 1 ∨ den = 2 ∨ den = 4 ∨ den = 8 ∨ den = 16 ∨ den = 32) then none
        else some (num, den)

/-- A rest step as written by `pad_pattern_to_timesig`. -/
def pad_step : PatternStep :=
  { note := -1, cents := 0, degree := 0, degree_octave := 0, degree_micro := 0,
    degree_valid := 0, slide_ms := -1, accent := 0 }

/-- The function `pad_pattern_to_timesig` (56-95). -/
def pad_pattern_to_timesig (program : Program) (pattern : PatternDef) :
    Except CStr PatternDef :=
  if program.time_sig_enforce = 0 then .ok pattern
  else
    let num := program.time_sig_num
    let den := program.time_sig_den
    if num ≤ 0 ∨ den ≤ 0 then .ok pattern
    else if Int.tmod 16 den ≠ 0 then
      .error (cstr "timesig_enforce only supports denominators 1,2,4,8,16")
    else
      let steps_per_beat := Int.tdiv 16 den
      let bar_steps := num * steps_per_beat
      if bar_steps ≤ 0 then .ok pattern
      else
        let rem := Int.tmod (pattern.length : Int) bar_steps
        if rem = 0 then .ok pattern
        else
          let pad := bar_steps - rem
          if (pattern.length : Int) + pad > (DSL_MAX_PATTERN : Int) then
            .error (cstr "Pattern too long after timesig pad (max " ++ fmt_int DSL_MAX_PATTERN
              ++ cstr ")")
          else .ok { pattern with steps := pattern.steps ++ List.replicate pad.toNat pad_step }

/-- The function `parse_synth_type` (137-287). -/
def parse_synth_type (token : CStr) : Option SynthType :=
  if token = cstr "sine" then some .SYNTH_SINE
  else if token = cstr "saw" then some .SYNTH_SAW
  else if token = cstr "supersaw" then some .SYNTH_SUPERSAW
  else if token = cstr "square" then some .SYNTH_SQUARE
  else if token = cstr "tri" ∨ token = cstr "triangle" then some .SYNTH_TRI
  else if token = cstr "noise" then some .SYNTH_NOISE
  else if token = cstr "pulse" then some .SYNTH_PULSE
  else if token = cstr "fm" then some .SYNTH_FM
  else if token = cstr "ring" then some .SYNTH_RING
  else if token = cstr "acid" then some .SYNTH_ACID
  else if token = cstr "kick" then some .SYNTH_KICK
  else if token = cstr "kick808" then some .SYNTH_KICK808
  else if token = cstr "kick909" then some .SYNTH_KICK909
  else if token = cstr "snare" then some .SYNTH_SNARE
  else if token = cstr "snare808" then some .SYNTH_SNARE808
  else if token = cstr "snare909" then some .SYNTH_SNARE909
  else if token = cstr "clap" then some .SYNTH_CLAP
  else if token = cstr "clap909" then some .SYNTH_CLAP909
  else if token = cstr "hatc" ∨ token = cstr "hat_c" ∨ token = cstr "hat-closed" then
    some .SYNTH_HAT_C
  else if token = cstr "hato" ∨ token = cstr "hat_o" ∨ token = cstr "hat-open" then
    some .SYNTH_HAT_O
  else if token = cstr "hat808" then some .SYNTH_HAT808
  else if token = cstr "hat909" then some .SYNTH_HAT909
  else if token = cstr "tom" then some .SYNTH_TOM
  else if token = cstr "rim" ∨ token = cstr "rimshot" then some .SYNTH_RIM
  else if token = cstr "glitch" then some .SYNTH_GLITCH
  else if token = cstr "metal" then some .SYNTH_METAL
  else if token = cstr "bitperc" ∨ token = cstr "bit" then some .SYNTH_BITPERC
  else if token = cstr "fm2" then some .SYNTH_FM2
  else if token = cstr "comb" ∨ token = cstr "res" ∨ token = cstr "resonator" then
    some .SYNTH_COMB
  else if token = cstr "pm_string" ∨ token = cstr "pmstring" then some .SYNTH_PM_STRING
  else if token = cstr "pm_bell" ∨ token = cstr "pmbell" then some .SYNTH_PM_BELL
  else if token = cstr "pm_pipe" ∨ token = cstr "pmpipe" then some .SYNTH_PM_PIPE
  else if token = cstr "pm_kick" ∨ token = cstr "pmkick" then some .SYNTH_PM_KICK
  else if token = cstr "pm_snare" ∨ token = cstr "pmsnare" then some .SYNTH_PM_SNARE
  else if token = cstr "pm_hat" ∨ token = cstr "pmhat" then some .SYNTH_PM_HAT
  else if token = cstr "pm_clap" ∨ token = cstr "pmclap" then some .SYNTH_PM_CLAP
  else if token = cstr "pm_tom" ∨ token = cstr "pmtom" then some .SYNTH_PM_TOM
  else none

/-- The `switch` of `note_name_to_midi` (300-309): the semitone of a note letter. -/
def note_semitone (note : Char) : Option Int :=
  if note == 'C' then some 0
  else if note == 'D' then some 2
  else if note == 'E' then some 4
  else if note == 'F' then some 5
  else if note == 'G' then some 7
  else if note == 'A' then some 9
  else if note == 'B' then some 11
  else none

/-- The function `note_name_to_midi` (289-327); `-1` for the empty token, `-2` for an
invalid one. -/
def note_name_to_midi (token : CStr) : Int :=
  match token with
  | [] => -1
  | c0 :: t1 =>
    if isdigit c0 || (c0 == '-' && (match t1 with | c1 :: _ => isdigit c1 | [] => false)) then
      atoi token
    else
      match note_semitone (toupper c0) with
      | none => -2
      | some semitone =>
        let acc : Int × CStr :=
          match t1 with
          | c1 :: t2 =>
            if c1 == ch_hash then (semitone + 1, t2)
            else if c1 == 'b' || c1 == 'B' then (semitone - 1, t2)
            else (semitone, t1)
          | [] => (semitone, t1)
        match acc.2 with
        | [] => -2
        | c :: _ =>
          if !isdigit c && c != '-' then -2
          else
            let octave := atoi acc.2
            (octave + 1) * 12 + acc.1

/-- The function `set_maqam` (329-397): the offsets of a known mode name. An unknown name
leaves the table as it is. -/
def maqam_table (name : CStr) : Option (List ℚ) :=
  if name = cstr "rast" then some [0, 200, 350, 500, 700, 900, 1100]
  else if name = cstr "bayati" then some [0, 150, 300, 500, 700, 850, 1000]
  else if name = cstr "hijaz" then some [0, 100, 400, 500, 700, 800, 1100]
  else if name = cstr "nahawand" then some [0, 200, 300, 500, 700, 800, 1000]
  else if name = cstr "saba" then some [0, 150, 300, 400, 700, 900, 1000]
  else if name = cstr "kurd" then some [0, 100, 300, 500, 700, 800, 1000]
  else if name = cstr "lydian" then some [0, 200, 400, 600, 700, 900, 1100]
  else if name = cstr "major" ∨ name = cstr "ionian" then
    some [0, 200, 400, 500, 700, 900, 1100]
  else if name = cstr "minor" ∨ name = cstr "aeolian" then
    some [0, 200, 300, 500, 700, 800, 1000]
  else if name = cstr "dorian" then some [0, 200, 300, 500, 700, 900, 1000]
  else if name = cstr "phrygian" then some [0, 100, 300, 500, 700, 800, 1000]
  else if name = cstr "mixolydian" then some [0, 200, 400, 500, 700, 900, 1000]
  else if name = cstr "locrian" then some [0, 100, 300, 500, 600, 800, 1000]
  else if name = cstr "harmonic_minor" ∨ name = cstr "harmonic-minor" then
    some [0, 200, 300, 500, 700, 800, 1100]
  else if name = cstr "melodic_minor" ∨ name = cstr "melodic-minor" then
    some [0, 200, 300, 500, 700, 900, 1100]
  else if name = cstr "pentatonic_major" ∨ name = cstr "pentatonic-major" ∨
      name = cstr "pentatonic" then
    some [0, 200, 400, 700, 900, 1200, 1400]
  else if name = cstr "pentatonic_minor" ∨ name = cstr "pentatonic-minor" then
    some [0, 300, 500, 700, 1000, 1200, 1400]
  else if name = cstr "blues" ∨ name = cstr "blues_minor" ∨ name = cstr "blues-minor" then
    some [0, 300, 500, 600, 700, 1000, 1200]
  else if name = cstr "blues_major" ∨ name = cstr "blues-major" then
    some [0, 200, 300, 400, 700, 900, 1200]
  else if name = cstr "whole_tone" ∨ name = cstr "whole-tone" then
    some [0, 200, 400, 600, 800, 1000, 1200]
  else if name = cstr "octatonic" ∨ name = cstr "octatonic_wh" ∨ name = cstr "octatonic-wh" then
    some [0, 200, 300, 500, 600, 800, 900]
  else if name = cstr "octatonic_hw" ∨ name = cstr "octatonic-hw" then
    some [0, 100, 300, 400, 600, 700, 900]
  else none

def set_maqam (program : Program) (name : CStr) : Program :=
  match maqam_table name with
  | some offsets => { program with maqam_offsets := offsets }
  | none => program

/-- The outputs of `parse_degree_token_info`. -/
structure DegreeInfo where
  midi : ℚ
  degree : Int
  octave : Int
  micro : Int
  deriving DecidableEq

/-- The function `parse_degree_token_info` (399-461); `none` is the return value 0. -/
def parse_degree_token_info (token : CStr) (root_midi : ℚ) (maqam_offsets : List ℚ) :
    Option DegreeInfo :=
  match token with
  | [] => none
  | c0 :: t1 =>
    if token = cstr "." ∨ token = cstr "-" then
      some { midi := -1, degree := 0, octave := 0, micro := 0 }
    else if c0 == 'r' || c0 == 'R' then
      some { midi := root_midi, degree := 1, octave := 0, micro := 0 }
    else
      let degree : Int := (c0.toNat : Int) - ('0'.toNat : Int)
      if degree < 1 ∨ degree > 7 then none
      else
        let ups := t1.takeWhile (fun x => x == ch_apostrophe)
        let t2 := t1.dropWhile (fun x => x == ch_apostrophe)
        let downs := t2.takeWhile (fun x => x == ',')
        let t3 := t2.dropWhile (fun x => x == ',')
        let octave_offset : Int := 12 * (ups.length : Int) - 12 * (downs.length : Int)
        let cents0 := maqam_offsets.getD (degree - 1).toNat 0
        let r : ℚ × Int × CStr :=
          match t3 with
          | c :: t4 =>
            if c == '+' then (cents0 + 50, 1, t4)
            else if c == '-' then (cents0 - 50, -1, t4)
            else (cents0, 0, t3)
          | [] => (cents0, 0, t3)
        if r.2.2 ≠ [] then none
        else
          some { midi := root_midi + (octave_offset : ℚ) + r.1 / 100, degree := degree,
                 octave := Int.tdiv octave_offset 12, micro := r.2.1 }

/-- The function `parse_degree_token` (463-465). -/
def parse_degree_token (token : CStr) (root_midi : ℚ) (maqam_offsets : List ℚ) : Option ℚ :=
  (parse_degree_token_info token root_midi maqam_offsets).map (fun d => d.midi)

/-- The outputs of `split_token_slide`; `nonfinite` is set when the slide is read from a
literal that is a NaN or an infinity, and `slide_ms` is then not the value the code holds. -/
structure TokenParts where
  base : CStr
  slide_ms : ℚ
  accent : Int
  nonfinite : Bool := false
  deriving DecidableEq

/-- The function `split_token_slide` (467-493) with a `base` buffer of `base_len` bytes. -/
def split_token_slide (token : CStr) (base_len : Nat) : TokenParts :=
  let excl := after_char '!' token
  let tilde := after_char '~' token
  let accent : Int := if excl.isSome then 1 else 0
  let len := token.length
  let len := if excl.isSome then (cut_at '!' token).length else len
  let len :=
    if tilde.isSome ∧ (¬ excl.isSome ∨ (cut_at '~' token).length < (cut_at '!' token).length)
    then (cut_at '~' token).length else len
  let len := if len ≥ base_len then base_len - 1 else len
  let base := token.take len
  match tilde with
  | none => { base := base, slide_ms := -1, accent := accent }
  | some behind =>
    { base := base, slide_ms := if (atof_float behind).lt 0 then 0 else atof behind,
      accent := accent, nonfinite := atof_nonfinite behind }

/-! ## Score compiler: patterns -/

/-- A step that carries no scale degree: a rest (`note = -1`) or a named or MIDI note. -/
def plain_step (note : Int) (parts : TokenParts) : PatternStep :=
  { note := note, cents := 0, degree := 0, degree_octave := 0, degree_micro := 0,
    degree_valid := 0, slide_ms := parts.slide_ms, accent := parts.accent,
    nonfinite := parts.nonfinite }

/-- The message `Invalid note token '%s'`. -/
def invalid_note_msg (base : CStr) : CStr :=
  cstr "Invalid note token " ++ [ch_apostrophe] ++ base ++ [ch_apostrophe]

/-- The message `Pattern too long (max %d)`. -/
def pattern_too_long_msg : CStr :=
  cstr "Pattern too long (max " ++ fmt_int DSL_MAX_PATTERN ++ cstr ")"

/-- The body of the token loop of `parse_pattern` (662-704) for one token (already cut to
31 bytes): the step it stores. -/
def parse_pattern_token (program : Program) (token : CStr) : Except CStr PatternStep :=
  let parts := split_token_slide token 32
  if parts.base = cstr "." ∨ parts.base = cstr "-" then .ok (plain_step (-1) parts)
  else
    match parse_degree_token_info parts.base program.root_midi program.maqam_offsets with
    | some d =>
      .ok { note := Rat.floor d.midi, cents := (d.midi - (Rat.floor d.midi : ℚ)) * 100,
            degree := d.degree, degree_octave := d.octave, degree_micro := d.micro,
            degree_valid := 1, slide_ms := parts.slide_ms, accent := parts.accent,
            nonfinite := parts.nonfinite }
    | none =>
      let midi := note_name_to_midi parts.base
      if midi = -2 then .error (invalid_note_msg parts.base)
      else .ok (plain_step midi parts)

/-- The token loop of `parse_pattern` (638-705) over the tokens still to read, `acc` being
the steps stored so far. -/
def parse_pattern_loop (program : Program) : List CStr → List PatternStep →
    Except CStr (List PatternStep)
  | [], acc => .ok acc
  | tok :: rest, acc =>
    if acc.length ≥ DSL_MAX_PATTERN then .error pattern_too_long_msg
    else
      match parse_pattern_token program (tok.take 31) with
      | .error e => .error e
      | .ok step => parse_pattern_loop program rest (acc ++ [step])

/-- The body of the token loop of `parse_pattern_list` (551-574) for one token. -/
def parse_list_token (token : CStr) : Except CStr PatternStep :=
  let parts := split_token_slide token 32
  if parts.base = cstr "." ∨ parts.base = cstr "-" then .ok (plain_step (-1) parts)
  else
    let midi := note_name_to_midi parts.base
    if midi = -2 then .error (invalid_note_msg parts.base)
    else .ok (plain_step midi parts)

/-- The token loop of `parse_pattern_list` (529-575). -/
def parse_list_loop : List CStr → List PatternStep → Except CStr (List PatternStep)
  | [], acc => .ok acc
  | tok :: rest, acc =>
    if acc.length ≥ DSL_MAX_PATTERN then .error pattern_too_long_msg
    else
      match parse_list_token (tok.take 31) with
      | .error e => .error e
      | .ok step => parse_list_loop rest (acc ++ [step])

/-- Lines 582-604 of `parse_pattern_list`: the repeat count written behind the `]`. -/
def parse_list_repeat (behind : CStr) : Except CStr Int :=
  let after := behind.dropWhile (fun c => isspace c || c == ',' || c == ')')
  if after.isEmpty then .ok 1
  else
    let rep := (after.takeWhile (fun c => !isspace c && c != ')')).take 15
    if rep = cstr "inf" then .ok 1
    else if atoi rep < 1 then
      .error (cstr "Repeat must be >= 1 or " ++ [ch_apostrophe] ++ cstr "inf" ++ [ch_apostrophe])
    else .ok (atoi rep)

/-- The function `parse_pattern_list` (495-625): the steps of the pattern. -/
def parse_pattern_list (sequence : CStr) : Except CStr (List PatternStep) :=
  match after_char '[' sequence with
  | none => .error (cstr "Pattern list must be like [60, 62, 64]")
  | some inner =>
    match after_char ']' inner with
    | none => .error (cstr "Pattern list must be like [60, 62, 64]")
    | some behind =>
      let list_buf := (cut_at ']' inner).take 511
      match parse_list_loop (split_tokens is_list_sep list_buf) [] with
      | .error e => .error e
      | .ok base =>
        if base.length = 0 then .error (cstr "Pattern must have at least one step")
        else
          match parse_list_repeat behind with
          | .error e => .error e
          | .ok rep =>
            if rep * (base.length : Int) > (DSL_MAX_PATTERN : Int) then
              .error pattern_too_long_msg
            else .ok (List.replicate rep.toNat base).flatten

/-- The function `parse_pattern` (627-713): the steps of the pattern. -/
def parse_pattern (sequence : CStr) (program : Program) : Except CStr (List PatternStep) :=
  if sequence.contains '[' then parse_pattern_list sequence
  else
    match parse_pattern_loop program (split_tokens is_list_sep (sequence.take 511)) [] with
    | .error e => .error e
    | .ok steps =>
      if steps.length = 0 then .error (cstr "Pattern must have at least one step")
      else .ok steps

/-- The function `set_default_synth` (742-754) on a zeroed synth with its name and type. -/
def set_default_synth (name : CStr) (type : SynthType) : SynthDef :=
  { name := name, type := type, amp := 1 / 2, cutoff := 18000, res := 1 / 10, atk := 1 / 100,
    dec := 1 / 10, sus := 6 / 10, rel := 2 / 10, comb_feedback := 85 / 100,
    comb_damp := 2 / 10, comb_excite := 7 / 10, mods := [] }

/-- The function `set_default_track` (756-775) on a zeroed track with its two names. -/
def set_default_track (pattern synth : CStr) : TrackDef :=
  { pattern := pattern, synth := synth, is_sequence := 0, seq_start := 0, seq_end := -1,
    rate := 1, hurry := 1, fast := 1, slow := 1, every := 1, density := 1, rev := 0,
    palindrome := 0, iter := 1, chunk := 0, stut := 1, slide_ms := 0, ornament_prob := 0,
    ornament_mode := 0, accent_prob := 0 }

/-! ## Score compiler: the commands of `dsl_parse_script` -/

/-- The prefix `Line %d: ` of the parser's messages, followed by `msg`. -/
def line_error {α : Type} (line_num : Nat) (msg : CStr) : Except CStr α :=
  .error (cstr "Line " ++ fmt_int line_num ++ cstr ": " ++ msg)

/-- The text `'%s'`. -/
def quoted (s : CStr) : CStr := [ch_apostrophe] ++ s ++ [ch_apostrophe]

/-- The value `v` clamped to `[0, 1]` by the two `if` lines used for probabilities; a NaN
passes both lines unchanged, and the field is marked `nonfinite` then. -/
def clamp01 (v : ℚ) : ℚ := if v < 0 then 0 else if v > 1 then 1 else v

/-- The command `tempo` (811-826). -/
def cmd_tempo (prog : Program) (line_num : Nat) (cursor : CStr) : Except CStr Program :=
  match next_token cursor 32 false with
  | none => line_error line_num (cstr "tempo requires a value")
  | some (bpm_token, _) =>
    let bpm := atof bpm_token
    if (atof_float bpm_token).lt 20 ∨ (atof_float bpm_token).gt 300 then
      line_error line_num (cstr "tempo out of range")
    else
      .ok { prog with tempo := bpm * prog.tempo_scale,
                      nonfinite := prog.nonfinite || atof_nonfinite bpm_token }

/-- The commands `master` and `master_amp` (828-843). -/
def cmd_master (prog : Program) (line_num : Nat) (cursor : CStr) : Except CStr Program :=
  match next_token cursor 32 false with
  | none => line_error line_num (cstr "master requires a value")
  | some (amp_token, _) =>
    let amp := atof amp_token
    if (atof_float amp_token).lt 0 ∨ (atof_float amp_token).gt 4 then
      line_error line_num (cstr "master out of range")
    else
      .ok { prog with master_amp := amp,
                      nonfinite := prog.nonfinite || atof_nonfinite amp_token }

/-- The command `tempo_scale` (845-860). -/
def cmd_tempo_scale (prog : Program) (line_num : Nat) (cursor : CStr) :
    Except CStr Program :=
  match next_token cursor 32 false with
  | none => line_error line_num (cstr "tempo_scale requires a value")
  | some (scale_token, _) =>
    let scale := atof scale_token
    if (atof_float scale_token).le 0 ∨ (atof_float scale_token).gt 8 then
      line_error line_num (cstr "tempo_scale out of range")
    else
      .ok { prog with tempo_scale := scale,
                      nonfinite := prog.nonfinite || atof_nonfinite scale_token }

/-- What the key of a `key=value` map entry selects (897-921 and 1018-1050): the section
indices to write, an index outside 1-14, or an unknown key. -/
inductive MapKey
  | indices (l : List Nat)
  | bad_index
  | unknown
  deriving DecidableEq

def parse_map_key (key : CStr) : MapKey :=
  if key = cstr "intro" then .indices [1]
  else if key = cstr "verse" then .indices [2, 4]
  else if key = cstr "chorus" then .indices [3, 5]
  else if key = cstr "bridge" then .indices [6]
  else if key = cstr "final" then .indices [7]
  else if (match key with | c :: _ => isdigit c | [] => false) then
    if atoi key < 1 ∨ atoi key > 14 then .bad_index else .indices [(atoi key).toNat]
  else .unknown

/-- The token loop of `tempo_map` (873-922) over the tokens still to read. -/
def tempo_map_loop (line_num : Nat) : List CStr → List ℚ → Except CStr (List ℚ)
  | [], m => .ok m
  | tok :: rest, m =>
    let token := tok.take 63
    match after_char '=' token with
    | none => line_error line_num (cstr "tempo_map expects key=value")
    | some value =>
      let key := cut_at '=' token
      let val := atof value
      if (atof_float value).le 0 ∨ (atof_float value).gt 4 then
        line_error line_num (cstr "tempo_map value out of range")
      else
        match parse_map_key key with
        | .indices l => tempo_map_loop line_num rest (l.foldl (fun a i => a.set i val) m)
        | .bad_index => line_error line_num (cstr "tempo_map index must be 1-14")
        | .unknown => line_error line_num (cstr "unknown tempo_map key " ++ quoted key)

/-- True when a value of the `key=value` tokens of `tempo_map` is a NaN or an infinity. -/
def tempo_map_nonfinite (toks : List CStr) : Bool :=
  toks.any (fun tok =>
    match after_char '=' (tok.take 63) with
    | none => false
    | some value => atof_nonfinite value)

/-- The command `tempo_map` (862-924). -/
def cmd_tempo_map (prog : Program) (line_num : Nat) (cursor : CStr) : Except CStr Program :=
  match next_token cursor 256 true with
  | none => line_error line_num (cstr "tempo_map requires values")
  | some (map, _) =>
    match tempo_map_loop line_num (split_tokens is_list_sep (map.take 255)) prog.tempo_map with
    | .error e => .error e
    | .ok m =>
      .ok { prog with tempo_map := m,
                      nonfinite := prog.nonfinite
                        || tempo_map_nonfinite (split_tokens is_list_sep (map.take 255)) }

/-- The commands `timesig` and `time_signature` (926-962). -/
def cmd_timesig (prog : Program) (line_num : Nat) (cursor : CStr) : Except CStr Program :=
  match next_token cursor 32 false with
  | none => line_error line_num (cstr "timesig requires a value")
  | some (sig_token, cursor) =>
    let parsed : Except CStr (Int × Int) :=
      if sig_token.contains '/' then
        match parse_time_sig sig_token with
        | none => line_error line_num (cstr "invalid timesig " ++ quoted sig_token)
        | some r => .ok r
      else
        match next_token cursor 16 false with
        | none => line_error line_num (cstr "timesig requires numerator/denominator")
        | some (den_token, _) =>
          match parse_time_sig ((sig_token ++ cstr "/" ++ den_token).take 31) with
          | none =>
            line_error line_num
              (cstr "invalid timesig " ++ quoted (sig_token ++ cstr "/" ++ den_token))
          | some r => .ok r
    match parsed with
    | .error e => .error e
    | .ok (num, den) =>
      .ok { prog with
        time_sig_num := num, time_sig_den := den,
        time_sig_num_map := prog.time_sig_num_map.take 1 ++ List.replicate 15 num,
        time_sig_den_map := prog.time_sig_den_map.take 1 ++ List.replicate 15 den }

/-- The command `timesig_enforce` (964-981). -/
def cmd_timesig_enforce (prog : Program) (line_num : Nat) (cursor : CStr) :
    Except CStr Program :=
  match next_token cursor 16 false with
  | none => line_error line_num (cstr "timesig_enforce requires on/off")
  | some (flag, _) =>
    if flag = cstr "on" ∨ flag = cstr "true" ∨ flag = cstr "1" then
      .ok { prog with time_sig_enforce := 1 }
    else if flag = cstr "off" ∨ flag = cstr "false" ∨ flag = cstr "0" then
      .ok { prog with time_sig_enforce := 0 }
    else line_error line_num (cstr "timesig_enforce expects on/off")

/-- The token loop of `timesig_map` (994-1051): the numerator and denominator maps. -/
def timesig_map_loop (line_num : Nat) : List CStr → List Int × List Int →
    Except CStr (List Int × List Int)
  | [], m => .ok m
  | tok :: rest, m =>
    let token := tok.take 63
    match after_char '=' token with
    | none => line_error line_num (cstr "timesig_map expects key=value")
    | some value =>
      let key := cut_at '=' token
      match parse_time_sig value with
      | none => line_error line_num (cstr "invalid timesig " ++ quoted value)
      | some (num, den) =>
        match parse_map_key key with
        | .indices l =>
          timesig_map_loop line_num rest
            (l.foldl (fun a i => a.set i num) m.1, l.foldl (fun a i => a.set i den) m.2)
        | .bad_index => line_error line_num (cstr "timesig_map index must be 1-14")
        | .unknown => line_error line_num (cstr "unknown timesig_map key " ++ quoted key)

/-- The command `timesig_map` (983-1053). -/
def cmd_timesig_map (prog : Program) (line_num : Nat) (cursor : CStr) :
    Except CStr Program :=
  match next_token cursor 256 true with
  | none => line_error line_num (cstr "timesig_map requires values")
  | some (map, _) =>
    match timesig_map_loop line_num (split_tokens is_list_sep (map.take 255))
        (prog.time_sig_num_map, prog.time_sig_den_map) with
    | .error e => .error e
    | .ok m => .ok { prog with time_sig_num_map := m.1, time_sig_den_map := m.2 }

/-- The command `root` (1055-1070). -/
def cmd_root (prog : Program) (line_num : Nat) (cursor : CStr) : Except CStr Program :=
  match next_token cursor 32 false with
  | none => line_error line_num (cstr "root requires a note")
  | some (root_token, _) =>
    let midi := note_name_to_midi root_token
    if midi = -2 then line_error line_num (cstr "invalid root " ++ quoted root_token)
    else .ok { prog with root_midi := (midi : ℚ) }

/-- The command `maqam` (1072-1081). -/
def cmd_maqam (prog : Program) (line_num : Nat) (cursor : CStr) : Except CStr Program :=
  match next_token cursor 32 false with
  | none => line_error line_num (cstr "maqam requires a name")
  | some (name, _) => .ok (set_maqam prog name)

/-- The command `drone` (1083-1111). -/
def cmd_drone (prog : Program) (line_num : Nat) (cursor : CStr) : Except CStr Program :=
  if prog.drone_count ≥ DSL_MAX_DRONES then line_error line_num (cstr "too many drones")
  else
    match next_token cursor DSL_MAX_NAME false with
    | none => line_error line_num (cstr "drone requires synth and note/degree")
    | some (synth, cursor) =>
      match next_token cursor 32 false with
      | none => line_error line_num (cstr "drone requires synth and note/degree")
      | some (note, _) =>
        match parse_degree_token note prog.root_midi prog.maqam_offsets with
        | some midi_f => .ok { prog with drones := prog.drones ++ [⟨synth, midi_f⟩] }
        | none =>
          let midi := note_name_to_midi note
          if midi = -2 then line_error line_num (cstr "invalid drone note " ++ quoted note)
          else .ok { prog with drones := prog.drones ++ [⟨synth, (midi : ℚ)⟩] }

/-- The command `amp` (1113-1122). -/
def cmd_amp (prog : Program) (line_num : Nat) (cursor : CStr) : Except CStr Program :=
  match next_token cursor 32 false with
  | none => line_error line_num (cstr "amp requires a value")
  | some (amp_token, _) =>
    .ok { prog with master_amp := atof amp_token,
                    nonfinite := prog.nonfinite || atof_nonfinite amp_token }

/-- The command `synth` (1124-1149). -/
def cmd_synth (prog : Program) (line_num : Nat) (cursor : CStr) : Except CStr Program :=
  if prog.synth_count ≥ DSL_MAX_SYNTHS then line_error line_num (cstr "too many synths")
  else
    match next_token cursor DSL_MAX_NAME false with
    | none => line_error line_num (cstr "synth requires name and type")
    | some (name, cursor) =>
      match next_token cursor 32 false with
      | none => line_error line_num (cstr "synth requires name and type")
      | some (type_token, _) =>
        match parse_synth_type type_token with
        | none => line_error line_num (cstr "unknown synth type " ++ quoted type_token)
        | some type => .ok { prog with synths := prog.synths ++ [set_default_synth name type] }

/-- The element at index `i` replaced by its image under `f`. -/
def update_at {α : Type} (f : α → α) : Nat → List α → List α
  | _, [] => []
  | 0, x :: xs => f x :: xs
  | i + 1, x :: xs => x :: update_at f i xs

/-- Lines 1170-1184 of `set`: the synth with one parameter written, `none` for an unknown
parameter. -/
def set_synth_param (synth : SynthDef) (param : CStr) (v : ℚ) : Option SynthDef :=
  if param = cstr "amp" then some { synth with amp := v }
  else if param = cstr "cutoff" then some { synth with cutoff := v }
  else if param = cstr "res" then some { synth with res := v }
  else if param = cstr "atk" then some { synth with atk := v }
  else if param = cstr "dec" then some { synth with dec := v }
  else if param = cstr "sus" then some { synth with sus := v }
  else if param = cstr "rel" then some { synth with rel := v }
  else if param = cstr "feedback" then some { synth with comb_feedback := v }
  else if param = cstr "damp" then some { synth with comb_damp := v }
  else if param = cstr "excite" then some { synth with comb_excite := v }
  else none

/-- The command `set` (1151-1186). -/
def cmd_set (prog : Program) (line_num : Nat) (cursor : CStr) : Except CStr Program :=
  match next_token cursor DSL_MAX_NAME false with
  | none => line_error line_num (cstr "set requires synth, param, value")
  | some (name, cursor) =>
    match next_token cursor 32 false with
    | none => line_error line_num (cstr "set requires synth, param, value")
    | some (param, cursor) =>
      match next_token cursor 32 false with
      | none => line_error line_num (cstr "set requires synth, param, value")
      | some (value, _) =>
        let idx := dsl_find_synth prog name
        if idx < 0 then line_error line_num (cstr "unknown synth " ++ quoted name)
        else
          match prog.synths.get? idx.toNat with
          | none => line_error line_num (cstr "unknown synth " ++ quoted name)
          | some synth =>
            match set_synth_param synth param (atof value) with
            | none => line_error line_num (cstr "unknown param " ++ quoted param)
            | some synth1 =>
              .ok { prog with
                synths := update_at
                  (fun _ => { synth1 with nonfinite := synth.nonfinite || atof_nonfinite value })
                  idx.toNat prog.synths }

def parse_mod_dest (t : CStr) : Option ModDest :=
  if t = cstr "amp" then some .MOD_DEST_AMP
  else if t = cstr "cutoff" then some .MOD_DEST_CUTOFF
  else if t = cstr "res" then some .MOD_DEST_RES
  else if t = cstr "pan" then some .MOD_DEST_PAN
  else if t = cstr "pitch" then some .MOD_DEST_PITCH
  else none

def parse_mod_source (t : CStr) : Option ModSource :=
  if t = cstr "lfo" then some .MOD_SRC_LFO
  else if t = cstr "env" then some .MOD_SRC_ENV
  else if t = cstr "noise" then some .MOD_SRC_NOISE
  else if t = cstr "sample_hold" ∨ t = cstr "s&h" then some .MOD_SRC_SAMPLE_HOLD
  else if t = cstr "ring" then some .MOD_SRC_RING
  else if t = cstr "sync" then some .MOD_SRC_SYNC
  else none

/-- Lines 1247-1259 of `mod`: the optional `offset`, `lag_ms` and `slew_ms`. -/
def parse_mod_optionals (cursor : CStr) : ℚ × ℚ × ℚ :=
  match next_token cursor 32 false with
  | none => (0, 0, 0)
  | some (offset_token, cursor) =>
    match next_token cursor 32 false with
    | none => (atof offset_token, 0, 0)
    | some (lag_token, cursor) =>
      match next_token cursor 32 false with
      | none => (atof offset_token, atof lag_token, 0)
      | some (slew_token, _) => (atof offset_token, atof lag_token, atof slew_token)

/-- True when one of the optional values of `mod` is a NaN or an infinity. -/
def mod_optionals_nonfinite (cursor : CStr) : Bool :=
  match next_token cursor 32 false with
  | none => false
  | some (offset_token, cursor) =>
    match next_token cursor 32 false with
    | none => atof_nonfinite offset_token
    | some (lag_token, cursor) =>
      match next_token cursor 32 false with
      | none => atof_nonfinite offset_token || atof_nonfinite lag_token
      | some (slew_token, _) =>
        atof_nonfinite offset_token || atof_nonfinite lag_token || atof_nonfinite slew_token

/-- The command `mod` (1188-1270). -/
def cmd_mod (prog : Program) (line_num : Nat) (cursor : CStr) : Except CStr Program :=
  let usage : CStr := cstr "mod requires synth dest source rate depth [offset] [lag] [slew]"
  match next_token cursor DSL_MAX_NAME false with
  | none => line_error line_num usage
  | some (synth_name, cursor) =>
  match next_token cursor 32 false with
  | none => line_error line_num usage
  | some (dest_token, cursor) =>
  match next_token cursor 32 false with
  | none => line_error line_num usage
  | some (src_token, cursor) =>
  match next_token cursor 32 false with
  | none => line_error line_num usage
  | some (rate_token, cursor) =>
  match next_token cursor 32 false with
  | none => line_error line_num usage
  | some (depth_token, cursor) =>
    let idx := dsl_find_synth prog synth_name
    if idx < 0 then line_error line_num (cstr "unknown synth " ++ quoted synth_name)
    else
      match prog.synths.get? idx.toNat with
      | none => line_error line_num (cstr "unknown synth " ++ quoted synth_name)
      | some synth =>
        if synth.mods.length ≥ 32 then
          line_error line_num
            (cstr "too many mods for synth " ++ quoted synth_name ++ cstr " (max 32)")
        else
          match parse_mod_dest dest_token with
          | none => line_error line_num (cstr "unknown mod dest " ++ quoted dest_token)
          | some dest =>
            match parse_mod_source src_token with
            | none => line_error line_num (cstr "unknown mod source " ++ quoted src_token)
            | some src =>
              let opt := parse_mod_optionals cursor
              let m : ModDef :=
                { source := src, dest := dest, rate := atof rate_token,
                  depth := atof depth_token, offset := opt.1, lag_ms := opt.2.1,
                  slew_ms := opt.2.2 }
              .ok { prog with
                synths := update_at
                  (fun sy => { sy with
                    mods := sy.mods ++ [m],
                    nonfinite := sy.nonfinite || atof_nonfinite rate_token
                      || atof_nonfinite depth_token || mod_optionals_nonfinite cursor })
                  idx.toNat prog.synths }

/-- The command `pattern` (1272-1306). -/
def cmd_pattern (prog : Program) (line_num : Nat) (cursor : CStr) : Except CStr Program :=
  if prog.pattern_count ≥ DSL_MAX_PATTERNS then line_error line_num (cstr "too many patterns")
  else
    let usage : CStr :=
      cstr "pattern requires name and sequence in () or " ++ [ch_quote, ch_quote]
    match next_token cursor DSL_MAX_NAME false with
    | none => line_error line_num usage
    | some (name, cursor) =>
      match next_token cursor 256 true with
      | none => line_error line_num usage
      | some (sequence, _) =>
        match parse_pattern sequence prog with
        | .error e => .error ((cstr "Line " ++ fmt_int line_num ++ cstr ": " ++ e).take 255)
        | .ok steps =>
          match pad_pattern_to_timesig prog { name := name, steps := steps } with
          | .error e => .error ((cstr "Line " ++ fmt_int line_num ++ cstr ": " ++ e).take 255)
          | .ok pattern => .ok { prog with patterns := prog.patterns ++ [pattern] }

/-- The mask loop of `accent` (1326-1344): entry `i` of the mask overwrites the accent of
step `i` while both exist. -/
def accent_loop : List CStr → List PatternStep → List PatternStep
  | _, [] => []
  | [], steps => steps
  | tok :: rest, st :: steps =>
    let t := tok.take 7
    { st with accent := if t = cstr "1" ∨ t = cstr "!" ∨ t = cstr "acc" then 1 else 0 }
      :: accent_loop rest steps

/-- The command `accent` (1308-1346). -/
def cmd_accent (prog : Program) (line_num : Nat) (cursor : CStr) : Except CStr Program :=
  match next_token cursor DSL_MAX_NAME false with
  | none => line_error line_num (cstr "accent requires pattern name and mask")
  | some (name, cursor) =>
    match next_token cursor 256 true with
    | none => line_error line_num (cstr "accent requires pattern name and mask")
    | some (mask, _) =>
      let idx := dsl_find_pattern prog name
      if idx < 0 then line_error line_num (cstr "unknown pattern " ++ quoted name)
      else
        .ok { prog with
          patterns := update_at
            (fun p => { p with
              steps := accent_loop (split_tokens is_list_sep (mask.take 255)) p.steps })
            idx.toNat prog.patterns }

/-- The body of the token loop of `sequence` (1389-1398): the step of one token. -/
def parse_sequence_step (tok : CStr) : SequenceStep :=
  let token := tok.take 63
  match after_char '*' token with
  | none => { pattern := token.take 31, repeat_count := 1 }
  | some count =>
    { pattern := (cut_at '*' token).take 31,
      repeat_count := if atoi count < 1 then 1 else atoi count }

/-- The token loop of `sequence` (1371-1399). -/
def sequence_loop (line_num : Nat) : List CStr → List SequenceStep →
    Except CStr (List SequenceStep)
  | [], acc => .ok acc
  | tok :: rest, acc =>
    if acc.length ≥ DSL_MAX_SEQUENCE_STEPS then line_error line_num (cstr "sequence too long")
    else sequence_loop line_num rest (acc ++ [parse_sequence_step tok])

/-- The command `sequence` (1348-1407). -/
def cmd_sequence (prog : Program) (line_num : Nat) (cursor : CStr) : Except CStr Program :=
  if prog.sequence_count ≥ DSL_MAX_SEQUENCES then
    line_error line_num (cstr "too many sequences")
  else
    match next_token cursor DSL_MAX_NAME false with
    | none => line_error line_num (cstr "sequence requires name and list in ()")
    | some (name, cursor) =>
      match next_token cursor 256 true with
      | none => line_error line_num (cstr "sequence requires name and list in ()")
      | some (sequence, _) =>
        match sequence_loop line_num (split_tokens is_list_sep (sequence.take 255)) [] with
        | .error e => .error e
        | .ok steps =>
          if steps.length = 0 then
            line_error line_num (cstr "sequence needs at least one pattern")
          else .ok { prog with sequences := prog.sequences ++ [⟨name, steps⟩] }

/-- Lines 1484-1493 (and 1642-1651): the ornament mode named by the token behind the
`orn` value, `none` when that token is not a mode and is read again as an option. -/
def parse_orn_mode (tok : CStr) : Option Int :=
  let mode := tok.take 15
  if mode = cstr "up" then some 1
  else if mode = cstr "down" then some 0
  else if mode = cstr "alt" then some 2
  else none

/-- True for the option names of `play` that take a value (1496-1499, `palindrome` apart). -/
def is_value_option (token : CStr) : Bool :=
  token = cstr "rate" || token = cstr "fast" || token = cstr "slow" ||
  token = cstr "every" || token = cstr "density" || token = cstr "hurry" ||
  token = cstr "iter" || token = cstr "chunk" || token = cstr "stut" ||
  token = cstr "slide" || token = cstr "acc"

/-- Lines 1510-1592 of `play`: one option with its value, range checks included. -/
def play_value_option (line_num : Nat) (track : TrackDef) (token value : CStr) :
    Except CStr TrackDef :=
  if token = cstr "rate" then
    if (atof_float value).le 0 then line_error line_num (cstr "rate must be > 0")
    else .ok { track with rate := atof value,
                          nonfinite := track.nonfinite || atof_nonfinite value }
  else if token = cstr "hurry" then
    if (atof_float value).le 0 then line_error line_num (cstr "hurry must be > 0")
    else .ok { track with hurry := atof value,
                          nonfinite := track.nonfinite || atof_nonfinite value }
  else if token = cstr "fast" then
    if atoi value < 1 then line_error line_num (cstr "fast must be >= 1")
    else .ok { track with fast := atoi value }
  else if token = cstr "slow" then
    if atoi value < 1 then line_error line_num (cstr "slow must be >= 1")
    else .ok { track with slow := atoi value }
  else if token = cstr "every" then
    if atoi value < 1 then line_error line_num (cstr "every must be >= 1")
    else .ok { track with every := atoi value }
  else if token = cstr "density" then
    .ok { track with density := clamp01 (atof value),
                     nonfinite := track.nonfinite || atof_nonfinite value }
  else if token = cstr "iter" then
    if atoi value < 1 then line_error line_num (cstr "iter must be >= 1")
    else .ok { track with iter := atoi value }
  else if token = cstr "chunk" then
    if atoi value < 0 then line_error line_num (cstr "chunk must be >= 0")
    else .ok { track with chunk := atoi value }
  else if token = cstr "stut" then
    if atoi value < 1 then line_error line_num (cstr "stut must be >= 1")
    else .ok { track with stut := atoi value }
  else if token = cstr "slide" then
    if (atof_float value).lt 0 then line_error line_num (cstr "slide must be >= 0")
    else .ok { track with slide_ms := atof value,
                          nonfinite := track.nonfinite || atof_nonfinite value }
  else if token = cstr "acc" then
    .ok { track with accent_prob := clamp01 (atof value),
                     nonfinite := track.nonfinite || atof_nonfinite value }
  else .ok track

/-- Lines 1686-1714 of `playseq`: one option with its value; only `acc` is clamped. -/
def playseq_value_option (track : TrackDef) (token value : CStr) : TrackDef :=
  if token = cstr "rate" then
    { track with rate := atof value, nonfinite := track.nonfinite || atof_nonfinite value }
  else if token = cstr "hurry" then
    { track with hurry := atof value, nonfinite := track.nonfinite || atof_nonfinite value }
  else if token = cstr "fast" then { track with fast := atoi value }
  else if token = cstr "slow" then { track with slow := atoi value }
  else if token = cstr "every" then { track with every := atoi value }
  else if token = cstr "density" then
    { track with density := atof value, nonfinite := track.nonfinite || atof_nonfinite value }
  else if token = cstr "iter" then { track with iter := atoi value }
  else if token = cstr "chunk" then { track with chunk := atoi value }
  else if token = cstr "stut" then { track with stut := atoi value }
  else if token = cstr "slide" then
    { track with slide_ms := atof value, nonfinite := track.nonfinite || atof_nonfinite value }
  else if token = cstr "acc" then
    { track with accent_prob := clamp01 (atof value),
                 nonfinite := track.nonfinite || atof_nonfinite value }
  else track

/-- The option loop of `play` (1429-1598) over the white-space separated tokens still to
read on the line; each token is cut to the buffer it is read into. `after_orn` holds right
behind the value of `orn`, where the next token is first tried as an ornament mode
(1484-1493) and read as an option when it is none. -/
def play_options (line_num : Nat) : Bool → TrackDef → List CStr → Except CStr TrackDef
  | _, track, [] => .ok track
  | after_orn, track, tok :: rest =>
    match (if after_orn then parse_orn_mode tok else none) with
    | some mode => play_options line_num false { track with ornament_mode := mode } rest
    | none =>
      let token := tok.take 31
      if token = cstr "rev" then play_options line_num false { track with rev := 1 } rest
      else if token = cstr "only" then
        match rest with
        | [] => line_error line_num (cstr "only requires a range (e.g., 6-7)")
        | range :: rest1 =>
          match sscanf_range (range.take 31) with
          | none => line_error line_num (cstr "invalid only range " ++ quoted (range.take 31))
          | some (a, b) =>
            play_options line_num false { track with seq_start := a, seq_end := b } rest1
      else if token = cstr "orn" ∨ token = cstr "ornament" then
        match rest with
        | [] => line_error line_num (token ++ cstr " requires a value")
        | value :: rest1 =>
          play_options line_num true
            { track with ornament_prob := clamp01 (atof (value.take 31)),
                         nonfinite := track.nonfinite || atof_nonfinite (value.take 31) }
            rest1
      else if token = cstr "palindrome" then
        play_options line_num false { track with palindrome := 1 } rest
      else if is_value_option token then
        match rest with
        | [] => line_error line_num (token ++ cstr " requires a value")
        | value :: rest1 =>
          match play_value_option line_num track token (value.take 31) with
          | .error e => .error e
          | .ok track1 => play_options line_num false track1 rest1
      else line_error line_num (cstr "unknown play option " ++ quoted token)

/-- The option loop of `playseq` (1623-1721), read as `play_options`. -/
def playseq_options (line_num : Nat) : Bool → TrackDef → List CStr → Except CStr TrackDef
  | _, track, [] => .ok track
  | after_orn, track, tok :: rest =>
    match (if after_orn then parse_orn_mode tok else none) with
    | some mode => playseq_options line_num false { track with ornament_mode := mode } rest
    | none =>
      let token := tok.take 31
      if token = cstr "rev" then playseq_options line_num false { track with rev := 1 } rest
      else if token = cstr "orn" ∨ token = cstr "ornament" then
        match rest with
        | [] => line_error line_num (token ++ cstr " requires a value")
        | value :: rest1 =>
          playseq_options line_num true
            { track with ornament_prob := clamp01 (atof (value.take 31)),
                         nonfinite := track.nonfinite || atof_nonfinite (value.take 31) }
            rest1
      else if token = cstr "palindrome" then
        playseq_options line_num false { track with palindrome := 1 } rest
      else if token = cstr "only" then
        match rest with
        | [] => line_error line_num (cstr "only requires a range (e.g., 6-7)")
        | range :: rest1 =>
          match sscanf_range (range.take 31) with
          | none => line_error line_num (cstr "invalid only range " ++ quoted (range.take 31))
          | some (a, b) =>
            playseq_options line_num false { track with seq_start := a, seq_end := b } rest1
      else if is_value_option token then
        match rest with
        | [] => line_error line_num (token ++ cstr " requires a value")
        | value :: rest1 =>
          playseq_options line_num false
            (playseq_value_option track token (value.take 31)) rest1
      else line_error line_num (cstr "unknown playseq option " ++ quoted token)

/-- The command `play` (1409-1600). -/
def cmd_play (prog : Program) (line_num : Nat) (cursor : CStr) : Except CStr Program :=
  if prog.track_count ≥ DSL_MAX_TRACKS then line_error line_num (cstr "too many tracks")
  else
    match next_token cursor DSL_MAX_NAME false with
    | none => line_error line_num (cstr "play requires pattern and synth")
    | some (pattern, cursor) =>
      match next_token cursor DSL_MAX_NAME false with
      | none => line_error line_num (cstr "play requires pattern and synth")
      | some (synth, cursor) =>
        match play_options line_num false (set_default_track pattern synth)
            (split_tokens isspace cursor) with
        | .error e => .error e
        | .ok track => .ok { prog with tracks := prog.tracks ++ [track] }

/-- The command `playseq` (1602-1723). -/
def cmd_playseq (prog : Program) (line_num : Nat) (cursor : CStr) : Except CStr Program :=
  if prog.track_count ≥ DSL_MAX_TRACKS then line_error line_num (cstr "too many tracks")
  else
    match next_token cursor DSL_MAX_NAME false with
    | none => line_error line_num (cstr "playseq requires sequence and synth")
    | some (seq_name, cursor) =>
      match next_token cursor DSL_MAX_NAME false with
      | none => line_error line_num (cstr "playseq requires sequence and synth")
      | some (synth, cursor) =>
        match playseq_options line_num false
            { set_default_track seq_name synth with is_sequence := 1 }
            (split_tokens isspace cursor) with
        | .error e => .error e
        | .ok track => .ok { prog with tracks := prog.tracks ++ [track] }

/-! ## Score compiler: `dsl_parse_script` -/

/-- Lines 790-801: a line with its comments (`//`, then `#`) cut off and the leading white
space skipped. -/
def strip_line (line : CStr) : CStr :=
  trim_left (cut_at ch_hash (cut_at_slashes line))

/-- The body of the line loop of `dsl_parse_script` (789-1727) for one line. -/
def parse_line (prog : Program) (line_num : Nat) (line : CStr) : Except CStr Program :=
  match next_token (strip_line line) 32 false with
  | none => .ok prog
  | some (cmd, cursor) =>
    if cmd = cstr "tempo" then cmd_tempo prog line_num cursor
    else if cmd = cstr "master" ∨ cmd = cstr "master_amp" then cmd_master prog line_num cursor
    else if cmd = cstr "tempo_scale" then cmd_tempo_scale prog line_num cursor
    else if cmd = cstr "tempo_map" then cmd_tempo_map prog line_num cursor
    else if cmd = cstr "timesig" ∨ cmd = cstr "time_signature" then
      cmd_timesig prog line_num cursor
    else if cmd = cstr "timesig_enforce" then cmd_timesig_enforce prog line_num cursor
    else if cmd = cstr "timesig_map" then cmd_timesig_map prog line_num cursor
    else if cmd = cstr "root" then cmd_root prog line_num cursor
    else if cmd = cstr "maqam" then cmd_maqam prog line_num cursor
    else if cmd = cstr "drone" then cmd_drone prog line_num cursor
    else if cmd = cstr "amp" then cmd_amp prog line_num cursor
    else if cmd = cstr "synth" then cmd_synth prog line_num cursor
    else if cmd = cstr "set" then cmd_set prog line_num cursor
    else if cmd = cstr "mod" then cmd_mod prog line_num cursor
    else if cmd = cstr "pattern" then cmd_pattern prog line_num cursor
    else if cmd = cstr "accent" then cmd_accent prog line_num cursor
    else if cmd = cstr "sequence" then cmd_sequence prog line_num cursor
    else if cmd = cstr "play" then cmd_play prog line_num cursor
    else if cmd = cstr "playseq" then cmd_playseq prog line_num cursor
    else line_error line_num (cstr "unknown command " ++ quoted cmd)

/-- The line loop of `dsl_parse_script` over the lines still to read; `line_num` is the
number of lines read so far. -/
def parse_lines (line_num : Nat) : Program → List CStr → Except CStr Program
  | prog, [] => .ok prog
  | prog, line :: rest =>
    match parse_line prog (line_num + 1) line with
    | .error e => .error e
    | .ok prog1 => parse_lines (line_num + 1) prog1 rest

/-- The lines `strtok_r(script, "\n", ...)` yields: the non-empty runs between newlines. -/
def script_lines (script : CStr) : List CStr :=
  split_tokens (fun c => c == ch_newline) script

/-- The function `dsl_parse_script` (777-1738): the Program on success (return value 1),
the error message otherwise. -/
def dsl_parse_script (script : CStr) : Except CStr Program :=
  match parse_lines 0 set_default_program (script_lines script) with
  | .error e => .error e
  | .ok prog =>
    if prog.track_count = 0 then .error (cstr "No play command found") else .ok prog

/-! ## Loading a script -/

/-- The engine after `audio_engine_init` and the load of `script` (`dsl_parse_script`, then
`install_program`); `none` when the script is rejected. -/
def engine_of_script (script : CStr) : Option EngineState :=
  match dsl_parse_script script with
  | .ok program => install_program audio_engine_init program
  | .error _ => none

/-- The engine of `engine_of_script`, or the engine as initialised when the load fails. -/
def loaded_engine (script : CStr) : EngineState :=
  match engine_of_script script with
  | some engine => engine
  | none => audio_engine_init

/-- The runtime of a default track without pattern, used where a track is missing. -/
def empty_track : TrackRuntime :=
  init_track_runtime audio_engine_init 0 (set_default_track [] []) none
    (set_default_synth [] SynthType.SYNTH_SINE) none 0

/-- The first track runtime of an engine. -/
def first_track (engine : EngineState) : TrackRuntime :=
  match engine.tracks with
  | t :: _ => t
  | [] => empty_track

/-- The first pattern of the installed Program. -/
def first_pattern (engine : EngineState) : PatternDef :=
  match engine.program.patterns with
  | p :: _ => p
  | [] => { name := [], steps := [] }

/-- The first sequence of the installed Program. -/
def first_sequence (engine : EngineState) : SequenceDef :=
  match engine.program.sequences with
  | q :: _ => q
  | [] => { name := [], steps := [] }

/-- What is observed of a track over `n` calls of `schedule_track_step`: per call the
pattern index selected and the number of note-ons, then `step_index`, `seq_index` and
`seq_pos` at the end. -/
def observe_steps : Nat → EngineState → TrackRuntime →
    List (Option Int × Nat) × Int × Int × Int
  | 0, _, t => ([], t.step_index, t.seq_index, t.seq_pos)
  | n + 1, e, t =>
    (((schedule_track_step e t).idx, (schedule_track_step e t).note_ons.length) ::
        (observe_steps n (schedule_track_step e t).engine (schedule_track_step e t).track).1,
      (observe_steps n (schedule_track_step e t).engine (schedule_track_step e t).track).2)

/-- A script with the sequence `(a*2 b)` played by one track. -/
def example_sequence_script : CStr :=
  cstr "synth s saw\npattern a (60 62)\npattern b (64)\nsequence S (a*2 b)\nplayseq S s"

/-- A script whose section 1 has the meter 3/8 while patterns are padded to 4/4. -/
def example_meter_script : CStr :=
  cstr "timesig_enforce on\ntimesig_map 1=3/8\nsynth s saw\npattern p (60 62 64 65 67)\nplay p s"

/-- A script with the palindromic pattern `[60,62,64,65]`. -/
def example_palindrome_script : CStr :=
  cstr "synth s saw\npattern p [60,62,64,65]\nplay p s palindrome"

/-- A script with `only 2-3` on a sequence of four two-step patterns. -/
def example_only_script : CStr :=
  cstr ("synth s saw\npattern a (60 62)\npattern b (64 65)\npattern c (67 69)\n" ++
    "pattern d (71 72)\nsequence S (a b c d)\nplayseq S s only 2-3")

/-- A script with root C4 in major mode and the one-step pattern `3'+`. -/
def example_degree_script : CStr :=
  cstr "root C4\nmaqam major\nsynth s saw\npattern p (3'+)\nplay p s"

/-- A script with the drone `3,` and the pattern step `3,`. -/
def example_comma_script : CStr :=
  cstr "synth s saw\ndrone s 3,\npattern p (3,)\nplay p s"

/-- The script of `example_comma_script` with the bare step `3`. -/
def example_bare_script : CStr :=
  cstr "synth s saw\ndrone s 3\npattern p (3)\nplay p s"

/-- A script with the bracket list `[60, 62, 64] 3` written as the pattern line. -/
def example_list_script : CStr :=
  cstr "pattern p [60, 62, 64] 3\nsynth s saw\nplay p s"

/-- The script of `example_list_script` with the list and its count inside `( )`. -/
def example_list_paren_script : CStr :=
  cstr "pattern p ([60, 62, 64] 3)\nsynth s saw\nplay p s"

/-- A script whose root is the sharp note `C#4`. -/
def example_sharp_root_script : CStr :=
  cstr "root C#4\nsynth s saw\npattern p (60)\nplay p s"

/-- A script with the sharp note `C#4` as a pattern step. -/
def example_sharp_step_script : CStr :=
  cstr "synth s saw\npattern p (C#4)\nplay p s"

/-- A script whose `tempo_scale` line follows its `tempo` line. -/
def example_tempo_script : CStr :=
  cstr "tempo 120\ntempo_scale 3\nsynth s saw\npattern p (60)\nplay p s"

/-- A script with `tempo_scale 2.0` and `tempo 120`. -/
def example_tempo_scaled_script : CStr :=
  cstr "tempo_scale 2.0\ntempo 120\nsynth s saw\npattern p (60)\nplay p s"

/-- The Program `dsl_parse_script` returns, or the default Program when it fails. -/
def parsed_program (script : CStr) : Program :=
  match dsl_parse_script script with
  | .ok program => program
  | .error _ => set_default_program

/-! ## Tokens of the specification -/

/-- The degree token of the specification: the digit `d`, `k` apostrophes, then `+` for `m = 1`,
`-` for `m = -1` and nothing otherwise. -/
def degree_token (d k : Nat) (m : Int) : CStr :=
  Char.ofNat (48 + d) :: (List.replicate k ch_apostrophe ++
    (if m = 1 then ['+'] else if m = -1 then ['-'] else []))

/-- The named-note token of the specification: a letter, `b` when flat, `-` when the octave is
negative, and the decimal digits of the octave. -/
def note_token (letter : Char) (flat neg : Bool) (digits : CStr) : CStr :=
  letter :: ((if flat then ['b'] else []) ++ ((if neg then ['-'] else []) ++ digits))

/-- The semitone of a note letter: C=0, D=2, E=4, F=5, G=7, A=9, B=11. -/
def letter_semitone (letter : Char) : Int :=
  if letter = 'C' then 0 else if letter = 'D' then 2 else if letter = 'E' then 4
  else if letter = 'F' then 5 else if letter = 'G' then 7 else if letter = 'A' then 9
  else 11

/-- The number a string of decimal digits denotes. -/
def decimal_value (digits : CStr) : Nat :=
  Nat.ofDigits 10 (digits.reverse.map (fun c => c.toNat - 48))

/-- The note number the specification gives a named-note token: `12 * (o + 1) + s`. -/
def note_token_midi (letter : Char) (flat neg : Bool) (digits : CStr) : Int :=
  12 * ((if neg then -(decimal_value digits : Int) else (decimal_value digits : Int)) + 1)
    + (letter_semitone letter - (if flat then 1 else 0))

/-! ## Lines of a script -/

/-- The command word of a line: the first token behind the comments cut and the leading
white space skipped (`cmd` of lines 803-809); `none` for a line without one. -/
def line_command (line : CStr) : Option CStr :=
  (next_token (strip_line line) 32 false).map Prod.fst

/-- The value token of a `tempo` line (`bpm_token` of lines 812-813); `none` when the line
is not a `tempo` line or has no value. -/
def tempo_operand (line : CStr) : Option CStr :=
  match next_token (strip_line line) 32 false with
  | none => none
  | some (cmd, cursor) =>
    if cmd = cstr "tempo" then (next_token cursor 32 false).map Prod.fst else none

/-- The two programs have the same `tempo` and the same `tempo_scale`. -/
def SameTempo (a b : Program) : Prop := b.tempo = a.tempo ∧ b.tempo_scale = a.tempo_scale

/-- A script with `tempo 35`: the tempo is 70. -/
def example_slow_script : CStr :=
  cstr "tempo 35\nsynth s saw\npattern p (60)\nplay p s"

/-! ## Timing of the tracks -/

/-- A script whose second track leads the tempo: its sequence moves to section 2, whose tempo
map entry is 4, at its first step. -/
def example_leader_script : CStr :=
  cstr ("timesig_enforce off\ntempo_map 2=4\nsynth s saw\npattern a (60)\n"
    ++ "sequence S (a a)\nplay a s\nplayseq S s")

/-- Every track has a step length of at least 1 and a countdown of at least 0. -/
def Timed (e : EngineState) : Prop :=
  ∀ t ∈ e.tracks, 1 ≤ t.samples_per_step ∧ 0 ≤ t.samples_until_step

/-- No track leads the tempo, and every countdown is at most the step length. -/
def Bounded (e : EngineState) : Prop :=
  ∀ t ∈ e.tracks, t.is_tempo_leader = 0 ∧ t.samples_until_step ≤ t.samples_per_step

/-- What a call of the sequencer may do to a track: the countdown and the leader flag are
kept, and a step length of at least 1 stays at least 1. -/
def Retimed (t u : TrackRuntime) : Prop :=
  u.samples_until_step = t.samples_until_step ∧ u.is_tempo_leader = t.is_tempo_leader
    ∧ (1 ≤ t.samples_per_step → 1 ≤ u.samples_per_step)

/-- What a call of the sequencer on the track `t` of `e` may do: `t` and every track of the
engine are retimed, and the tracks of the engine are untouched when `t` does not lead the
tempo. -/
def StepKeeps (e : EngineState) (t : TrackRuntime) (e1 : EngineState) (t1 : TrackRuntime) :
    Prop :=
  Retimed t t1 ∧ List.Forall₂ Retimed e.tracks e1.tracks
    ∧ (t.is_tempo_leader = 0 → e1.tracks = e.tracks)

/-! ## Voices of a playing engine -/

/-- The voice is active exactly when its envelope stage is not `ENV_OFF`. -/
def VoiceOk (v : Voice) : Prop := v.active = true ↔ v.stage ≠ EnvStage.ENV_OFF

/-- The engine states reached from a successful program install by note-ons on the first
free voice (the drones, the steps, the ornaments and the stutters) and by rendered frames. -/
inductive Playing : EngineState → Prop
  | install (e0 e : EngineState) (program : Program) :
      install_program e0 program = some e → Playing e
  | note_on (e : EngineState) (n : NoteOn) :
      Playing e → Playing { e with voices := (note_on_first_free n e.voices).1 }
  | frame (e : EngineState) : Playing e → Playing (render_frame e)

/-- The voice lists reached from `vs` by note-ons on the first free voice. -/
inductive NoteOns : List Voice → List Voice → Prop
  | refl (vs : List Voice) : NoteOns vs vs
  | step (vs ws : List Voice) (n : NoteOn) :
      NoteOns vs ws → NoteOns vs (note_on_first_free n ws).1

/-- A note-on of a sine synth with default parameters, for the examples. -/
def example_note_on : NoteOn :=
  { synth := set_default_synth (cstr "s") SynthType.SYNTH_SINE, freq := Freq.midi 60,
    sample_rate := 48000, gate_samples := 2700, amp_scale := 1, glide_samples := 0,
    accent := 0 }

/-- The tracks a line adds to the default Program, or the message of the error. -/
def line_tracks (line : CStr) : Except CStr (List TrackDef) :=
  (parse_line set_default_program 1 line).map (fun p => p.tracks)

/-- A script whose `play` line sets options, `density` and `acc` above 1 among them. -/
def example_options_script : CStr :=
  cstr ("synth s saw\npattern p (60 62)\n"
    ++ "play p s rate 1.5 fast 2 every 3 density 2 acc 7 orn 5 up stut 2 slide 10")

/-- A script of valid lines without a `play` or `playseq` line. -/
def example_trackless_script : CStr :=
  cstr "tempo 100\nsynth s saw\npattern p (60 62)\nsequence q (p)"

/-- The first track of the Program parsed from `script`. -/
def first_play_track (script : CStr) : TrackDef :=
  (parsed_program script).tracks.getD 0 (set_default_track [] [])

/-- The ranges of the transform parameters of a track none of whose fields has been written
from a NaN or an infinity. -/
def PlayRanges (t : TrackDef) : Prop :=
  t.nonfinite = false →
  t.rate > 0 ∧ t.hurry > 0 ∧ t.fast ≥ 1 ∧ t.slow ≥ 1 ∧ t.every ≥ 1 ∧ t.iter ≥ 1
    ∧ t.chunk ≥ 0 ∧ t.stut ≥ 1 ∧ t.slide_ms ≥ 0
    ∧ (0 ≤ t.density ∧ t.density ≤ 1) ∧ (0 ≤ t.accent_prob ∧ t.accent_prob ≤ 1)
    ∧ (0 ≤ t.ornament_prob ∧ t.ornament_prob ≤ 1)

/-- What the option loop of `play` keeps: the ranges and `is_sequence`. -/
def PlayKept (track out : TrackDef) : Prop :=
  (PlayRanges track → PlayRanges out) ∧ out.is_sequence = track.is_sequence

/-- A script whose unknown command `foo` stands on its line 4, behind two empty lines. -/
def example_empty_lines_script : CStr :=
  cstr "synth s saw\n\n\nfoo bar"

/-- The script `example_empty_lines_script` with a blank in each of its empty lines. -/
def example_blank_lines_script : CStr :=
  cstr "synth s saw\n \n \nfoo bar"

/-! ## The meter of a pattern -/

/-- A script that enforces the meter 4/32 and then defines a pattern. -/
def example_den32_script : CStr :=
  cstr "timesig 4/32\ntimesig_enforce on\nsynth s saw\npattern p (60)\nplay p s"

/-- A script that enforces the meter 32/1, a bar of 512 steps, and then defines a pattern. -/
def example_long_bar_script : CStr :=
  cstr "timesig 32/1\ntimesig_enforce on\nsynth s saw\npattern p (60)\nplay p s"

/-- A script that enforces the meter 3/4, a bar of 12 steps, and then defines a pattern of
two steps. -/
def example_waltz_script : CStr :=
  cstr "timesig 3/4\ntimesig_enforce on\nsynth s saw\npattern p (60 62)\nplay p s"

/-- `L` is the least multiple of `bar` that is at least `len`. -/
def LeastMultiple (bar len L : Int) : Prop :=
  len ≤ L ∧ bar ∣ L ∧ ∀ m : Int, bar ∣ m → len ≤ m → L ≤ m

/-! ## The entries of an accent mask -/

/-- A script with a pattern of 90 steps and an accent mask of 90 entries `1, `, which is 270
characters long. -/
def example_long_mask_script : CStr :=
  cstr "synth s saw\npattern p ([60] 90)\naccent p (" ++ (List.replicate 90 (cstr "1, ")).flatten
    ++ cstr ")\nplay p s"

/-- A script with a pattern of four steps, the second accented, and a mask of three
entries. -/
def example_mask_script : CStr :=
  cstr "synth s saw\npattern p (60 62! 64 65!)\naccent p (acc, 0 x)\nplay p s"

/-- The accent a mask entry stands for: 1 for `1`, `!` and `acc`, 0 for anything else. -/
def mask_accent (entry : CStr) : Int :=
  if entry = cstr "1" ∨ entry = cstr "!" ∨ entry = cstr "acc" then 1 else 0

/-! ## Ranges and capacity of a Program -/

/-- The ranges of the fields of a pattern step; the one of `slide_ms` for a slide that has
not been written from a NaN or an infinity. -/
def StepOk (s : PatternStep) : Prop :=
  (s.accent = 0 ∨ s.accent = 1) ∧ (s.nonfinite = false → s.slide_ms = -1 ∨ 0 ≤ s.slide_ms)
    ∧ (s.degree_valid ≠ 0 →
        (1 ≤ s.degree ∧ s.degree ≤ 7)
          ∧ (s.degree_micro = -1 ∨ s.degree_micro = 0 ∨ s.degree_micro = 1))

/-- A pattern of 1 to 128 steps within their ranges. -/
def PatternOk (p : PatternDef) : Prop :=
  1 ≤ p.steps.length ∧ p.steps.length ≤ 128 ∧ ∀ s ∈ p.steps, StepOk s

/-- A sequence of 1 to 32 steps with repeats of at least 1. -/
def SequenceOk (q : SequenceDef) : Prop :=
  1 ≤ q.steps.length ∧ q.steps.length ≤ 32 ∧ ∀ st ∈ q.steps, 1 ≤ st.repeat_count

/-- The capacity bounds of `dsl.h` and the ranges of the stored items. -/
def ProgramOk (prog : Program) : Prop :=
  prog.synths.length ≤ 32 ∧ prog.patterns.length ≤ 64 ∧ prog.sequences.length ≤ 8
    ∧ prog.drones.length ≤ 4 ∧ prog.tracks.length ≤ 128
    ∧ (∀ p ∈ prog.patterns, PatternOk p) ∧ (∀ q ∈ prog.sequences, SequenceOk q)
    ∧ (∀ sy ∈ prog.synths, sy.mods.length ≤ 32)

/-- Whether `line` is a line of the command `c`: 1 when its command word is `c`, else 0. -/
def line_adds (c : CStr) (line : CStr) : Nat :=
  match line_command line with
  | some cmd => if cmd = c then 1 else 0
  | none => 0

/-- The number of lines of the command `c` among `lines`. -/
def count_lines (c : CStr) (lines : List CStr) : Nat := (lines.map (line_adds c)).sum

/-- The number of modulation routes of all synths together. -/
def total_mods (prog : Program) : Nat := (prog.synths.map (fun sy => sy.mods.length)).sum

/-- The Program `prog1` has `a` synths, `b` patterns, `c` sequences, `d` drones, `e` tracks
and `m` modulation routes more than `prog`. -/
def Added (prog prog1 : Program) (a b c d e m : Nat) : Prop :=
  prog1.synths.length = prog.synths.length + a
    ∧ prog1.patterns.length = prog.patterns.length + b
    ∧ prog1.sequences.length = prog.sequences.length + c
    ∧ prog1.drones.length = prog.drones.length + d
    ∧ prog1.tracks.length = prog.tracks.length + e
    ∧ total_mods prog1 = total_mods prog + m

/-- A script whose pattern line lists 129 steps `1`, in 258 characters. -/
def example_long_pattern_script : CStr :=
  cstr "synth s saw\npattern p (" ++ (List.replicate 129 (cstr "1 ")).flatten
    ++ cstr ")\nplay p s"

/-- A script whose sequence line lists 40 steps `verse_a`, in 320 characters. -/
def example_long_sequence_script : CStr :=
  cstr "synth s saw\npattern verse_a (60)\nsequence S ("
    ++ (List.replicate 40 (cstr "verse_a ")).flatten ++ cstr ")\nplayseq S s"

/-- A script whose sequence line lists 30 steps `verse_one`, in 300 characters. -/
def example_cut_sequence_script : CStr :=
  cstr "synth s saw\npattern verse_one (60)\nsequence S ("
    ++ (List.replicate 30 (cstr "verse_one ")).flatten ++ cstr ")\nplayseq S s"

/-- A script with degree steps, an accent, a slide and a rest. -/
def example_ranges_script : CStr :=
  cstr "synth s saw\npattern p (1 3+~20! 5- . 60~-4)\nplay p s"

/-- A script with a sequence of three steps, one with a repeat suffix. -/
def example_repeat_script : CStr :=
  cstr "synth s saw\npattern a (60)\npattern b (62)\nsequence S (a b*3, a*0)\nplayseq S s"

/-! ## The bracket list of the specification -/

/-- The repeat count the specification gives the text behind a bracket list: 1 for a
missing count and for `inf`, the number written otherwise. -/
def list_repeat_count (count : CStr) : Int :=
  if count = [] ∨ count = cstr "inf" then 1 else atoi count

/-- A script whose bracket list has the count 2 written in 16 characters. -/
def example_long_count_script : CStr :=
  cstr "synth s saw\npattern p ([60, 62] 0000000000000002)\nplay p s"

/-- A token of 32 characters: the note 60 with the slide 500 written behind 26 zeros. -/
def example_long_token : CStr := cstr "60~" ++ List.replicate 26 '0' ++ cstr "500"

/-- A script whose bracket list has `example_long_token` as its first token. -/
def example_long_token_script : CStr :=
  cstr "synth s saw\npattern p ([" ++ example_long_token ++ cstr ", 62])\nplay p s"

/-! ## Names and what they stand for -/

/-- The synth a name stands for: the first one that bears it. -/
def named_synth (prog : Program) (name : CStr) : Option SynthDef :=
  prog.synths.find? (fun s => s.name == name)

/-- The pattern a name stands for: the first one that bears it. -/
def named_pattern (prog : Program) (name : CStr) : Option PatternDef :=
  prog.patterns.find? (fun p => p.name == name)

/-- The sequence a name stands for: the first one that bears it. -/
def named_sequence (prog : Program) (name : CStr) : Option SequenceDef :=
  prog.sequences.find? (fun q => q.name == name)

/-- A track that names an existing synth and either an existing pattern (`play`) or an
existing sequence all of whose steps name existing patterns (`playseq`). -/
def TrackResolves (prog : Program) (track : TrackDef) : Prop :=
  (∃ s ∈ prog.synths, s.name = track.synth)
    ∧ (track.is_sequence = 0 → ∃ p ∈ prog.patterns, p.name = track.pattern)
    ∧ (track.is_sequence ≠ 0 →
        ∃ q, named_sequence prog track.pattern = some q
          ∧ ∀ st ∈ q.steps, ∃ p ∈ prog.patterns, p.name = st.pattern)

/-- A track runtime whose synth and whose pattern or sequence are those its track names in
the Program. -/
def RuntimeResolved (prog : Program) (track : TrackDef) (rt : TrackRuntime) : Prop :=
  named_synth prog track.synth = some rt.synth
    ∧ (track.is_sequence = 0 →
        rt.sequence = none ∧ ∃ p, rt.pattern = some p ∧ named_pattern prog track.pattern = some p)
    ∧ (track.is_sequence ≠ 0 →
        rt.pattern = none
          ∧ ∃ q, rt.sequence = some q ∧ named_sequence prog track.pattern = some q)

/-- A script whose track names a pattern that does not exist. -/
def example_missing_pattern_script : CStr :=
  cstr "synth s saw\npattern a (60)\nplay b s"

/-- A script whose sequence has a step that names a pattern that does not exist. -/
def example_missing_step_script : CStr :=
  cstr "synth s saw\npattern a (60)\nsequence S (a zz)\nplayseq S s"

/-! ## Playing and rendering a script (audio_engine.c) -/

/-- The return value of `audio_engine_play_script` (1258-1309): 0 when the script is
rejected, when `build_runtime` fails, when a drone names a missing synth and when the audio
unit does not start, 1 otherwise. `audio_started` is the return value of
`start_audio_unit`, which is not modelled. -/
def audio_engine_play_script (engine : EngineState) (script : CStr) (audio_started : Bool) :
    Int :=
  match dsl_parse_script script with
  | .error _ => 0
  | .ok program =>
    match install_program engine program with
    | none => 0
    | some engine1 =>
      match start_drones engine1 engine1.program.drones with
      | .error _ => 0
      | .ok _ => if audio_started then 1 else 0

/-- Line 1393 of `audio_engine_render_to_wav`: `(int)(seconds * sample_rate)`; `none` when
the product is outside the range of `int`, where the conversion is undefined. -/
def wav_total_frames (seconds : ℚ) (sample_rate : Int) : Option Int :=
  c_int (seconds * (sample_rate : ℚ))

/-- Line 1394 of `audio_engine_render_to_wav`: `buffer_frames > 0 ? buffer_frames : 256`. -/
def wav_frames_per (buffer_frames : Int) : Int :=
  if buffer_frames > 0 then buffer_frames else 256

/-- The loop of lines 1408-1423, every write succeeding: the sizes of the batches rendered
and written from `rendered` frames on. The loop runs at most `fuel` times; `none` when it
has not ended by then, and when the `int` sum `rendered + batch` of line 1411 is above
`INT_MAX`, where it is undefined. -/
def wav_batches (total_frames frames_per : Int) : Nat → Int → Option (List Int)
  | 0, rendered => if rendered < total_frames then none else some []
  | fuel + 1, rendered =>
    if rendered < total_frames then
      if rendered + frames_per > 2147483647 then none
      else
        let batch :=
          if rendered + frames_per > total_frames then total_frames - rendered
          else frames_per
        (wav_batches total_frames frames_per fuel (rendered + batch)).map
          (fun l => batch :: l)
    else some []

/-- The function `audio_engine_render_to_wav` (1311-1424): the sizes of the batches rendered
and written by a call that returns 1, `none` for a call that returns 0 and for a call with
a conversion to `int` or an `int` sum that is undefined. `file_ok` stands for the creation
of the output file and of the buffer, which are not modelled; the loop is given
`total_frames` rounds, one per frame at least. -/
def audio_engine_render_to_wav (engine : EngineState) (script : CStr) (seconds : ℚ)
    (sample_rate buffer_frames : Int) (file_ok : Bool) : Option (List Int) :=
  if seconds ≤ 0 then none
  else
    match dsl_parse_script script with
    | .error _ => none
    | .ok program =>
      match install_program { engine with sample_rate := (sample_rate : ℚ) } program with
      | none => none
      | some engine1 =>
        match start_drones engine1 engine1.program.drones with
        | .error _ => none
        | .ok _ =>
          if file_ok then
            match wav_total_frames seconds sample_rate with
            | none => none
            | some total_frames =>
              wav_batches total_frames (wav_frames_per buffer_frames) total_frames.toNat 0
          else none

/-- A script whose track names a synth that does not exist. -/
def example_missing_synth_script : CStr :=
  cstr "synth s saw\npattern a (60)\nplay a t"

/-! ## The chunk gate at work -/

/-- A script whose track plays a pattern of four steps in two chunks. -/
def example_chunk_script : CStr :=
  cstr "synth s saw\npattern p (60 62 64 65)\nplay p s chunk 2"

/-! ## The note-ons of a track, frame by frame -/

/-- Lines 968-972 of `render_callback` for the track `track` of `engine`: the step that is
due is scheduled and the countdown set to the step length; then the countdown moves on.
This is the state on which the stutter countdown of lines 974-987 works. -/
def pass_state (engine : EngineState) (track : TrackRuntime) : EngineState × TrackRuntime :=
  if track.samples_until_step ≤ 0 then
    ((schedule_track_step engine track).engine,
      { (schedule_track_step engine track).track with
        samples_until_step := (schedule_track_step engine track).track.samples_per_step - 1 })
  else (engine, { track with samples_until_step := track.samples_until_step - 1 })

/-- The note-on made by the stutter countdown of lines 974-987, for observation: the note of
`stutter_tick` when the countdown runs out and a voice is inactive. -/
def stutter_note_ons (engine : EngineState) (track : TrackRuntime) : List NoteOn :=
  if track.stut_remaining > 0 then
    if track.stut_samples_until - 1 ≤ 0 then
      let n : NoteOn :=
        { synth := track.synth, freq := track.stut_freq, sample_rate := engine.sample_rate,
          gate_samples := c_trunc ((track.stut_samples_per : ℚ) * (8 / 10)),
          amp_scale := 1, glide_samples := 0, accent := 0 }
      if (note_on_first_free n engine.voices).2 then [n] else []
    else []
  else []

/-- The note-ons made in the body of the track loop of `render_callback` (967-989) for the
track at index `i`, in order: those of the step that is due, then that of the stutter. -/
def render_track_note_ons (engine : EngineState) (i : Nat) : List NoteOn :=
  match engine.tracks.get? i with
  | none => []
  | some track =>
    (if track.samples_until_step ≤ 0 then (schedule_track_step engine track).note_ons else [])
      ++ stutter_note_ons (pass_state engine track).1 (pass_state engine track).2

/-- The engine when the track loop of a frame that starts from `engine` reaches the track at
index `i`: the tracks before it have had their turn. -/
def engine_at_track (engine : EngineState) (i : Nat) : EngineState :=
  (List.range i).foldl render_track engine

/-- The note-ons of the track at index `i` in the frame that starts from `engine`. -/
def frame_note_ons (engine : EngineState) (i : Nat) : List NoteOn :=
  render_track_note_ons (engine_at_track engine i) i

/-- The note-ons of the track at index `i` in the first `k` frames from `engine`. -/
def frames_note_ons : Nat → EngineState → Nat → List NoteOn
  | 0, _, _ => []
  | k + 1, engine, i => frame_note_ons engine i ++ frames_note_ons k (render_frame engine) i

/-- Whether the track at index `i` schedules a step in the frame that starts from `engine`:
its countdown has run out when the track loop reaches it. -/
def track_due (engine : EngineState) (i : Nat) : Bool :=
  match (engine_at_track engine i).tracks.get? i with
  | none => false
  | some track => decide (track.samples_until_step ≤ 0)

/-- The voices that the stutter countdown of the track at index `i` scans for an inactive
one in the frame that starts from `engine`. -/
def stutter_voices (engine : EngineState) (i : Nat) : List Voice :=
  match (engine_at_track engine i).tracks.get? i with
  | none => []
  | some track => (pass_state (engine_at_track engine i) track).1.voices

/-- The track `u` is the track `t` with another step length: what the tempo leader's
`update_all_track_tempos` does to the tracks of the engine. -/
def Tempoed (t u : TrackRuntime) : Prop :=
  u = { t with samples_per_step := u.samples_per_step }

/-- What a call of the sequencer does to the tracks of the engine and to its sample rate:
the tracks get other step lengths at most, the sample rate is kept. -/
def EngineKept (e e1 : EngineState) : Prop :=
  List.Forall₂ Tempoed e.tracks e1.tracks ∧ e1.sample_rate = e.sample_rate

/-- A script with a step length of 10 frames and a track with `stut 4`. -/
def example_stutter_script : CStr :=
  cstr "tempo_scale 8\ntempo 300\nsynth s saw\npattern p (60 62)\nplay p s stut 4 fast 30"

/-- The script `example_stutter_script` with degree steps and an ornament on every step. -/
def example_stutter_ornament_script : CStr :=
  cstr "tempo_scale 8\ntempo 300\nsynth s saw\npattern p (1 2)\nplay p s stut 4 fast 30 orn 1"

/-- A script with a step length of 2 frames and a track with `stut 8`. -/
def example_stutter_short_script : CStr :=
  cstr "tempo_scale 8\ntempo 300\nsynth s saw\npattern p (60 62)\nplay p s stut 8 fast 150"

/-! ## The random state of a track -/

/-- A value of a `uint32_t` random state that is not 0. -/
abbrev RngLive (x : Nat) : Prop := 0 < x ∧ x < 2 ^ 32

/-- A property of a track that the track loop keeps: it does not look at the step length,
the countdown or the stutter countdown, and a scheduled step keeps it. -/
structure TrackInvariant (P : TrackRuntime → Prop) : Prop where
  tempoed : ∀ t u, Tempoed t u → P t → P u
  step : ∀ e t, P t → P (schedule_track_step e t).track
  countdown : ∀ t a, P t → P { t with samples_until_step := a }
  stutter : ∀ t a b, P t → P { t with stut_remaining := a, stut_samples_until := b }
  stutter_wait : ∀ t a, P t → P { t with stut_samples_until := a }

/-- A script whose track draws a random number at every step (`density` under 1). -/
def example_density_script : CStr :=
  cstr "synth s saw\npattern p (60 62)\nplay p s density 0.5 fast 4000"

/-! ## The tempo and meter maps -/

/-- The engine with other tempo and meter maps in its Program. -/
def with_maps (e : EngineState) (a : List ℚ) (b c : List Int) : EngineState :=
  { e with program :=
      { e.program with tempo_map := a, time_sig_num_map := b, time_sig_den_map := c } }

/-- The maps `a`, `b`, `c` have the entries of the maps of the Program at the indices 1..14;
at the other indices (0 and 15 of the arrays of 16, and beyond) they are arbitrary. -/
@[reducible] def MapsAgree (p : Program) (a : List ℚ) (b c : List Int) : Prop :=
  ∀ i : Nat, i < 14 →
    a.getD (i + 1) 0 = p.tempo_map.getD (i + 1) 0
      ∧ b.getD (i + 1) 0 = p.time_sig_num_map.getD (i + 1) 0
      ∧ c.getD (i + 1) 0 = p.time_sig_den_map.getD (i + 1) 0

/-- The map `m` with the entries at the indices 0 and 15 replaced by `x`. -/
def scribble {α : Type} (m : List α) (x : α) : List α := (m.set 0 x).set 15 x

/-- A script that enforces the meter 1/16 (a bar of one step) and whose sequence has 16
steps of one step each: the tempo leader moves `tempo_section` through 1..16. -/
def example_sections_script : CStr :=
  cstr ("timesig 1/16\ntimesig_enforce on\ntempo_map 2=2\nsynth s saw\npattern a (60)\n"
    ++ "sequence S (a a a a a a a a a a a a a a a a)\nplayseq S s fast 6000")

/-- The engine of `example_sections_script` after 15 frames: `tempo_section` is 16. -/
def example_sections_engine : EngineState :=
  render_frames 15 (loaded_engine example_sections_script)

/-! ## The grace note of an ornament -/

/-- Lines 889-894 of `schedule_track_step`: the direction of the grace note, -1 (a degree
down) or 1 (a degree up), from the ornament mode (0 down, 1 up, 2 alternating) and the
alternation flag of the track. -/
def grace_direction (track : TrackRuntime) : Int :=
  if track.ornament_mode = 1 then 1
  else if track.ornament_mode = 2 then (if track.ornament_alt ≠ 0 then 1 else -1)
  else -1

/-- Lines 892-893: in the alternating mode the flag `ornament_alt` is negated by an
ornament; the other modes leave it. -/
def grace_alt_after (track : TrackRuntime) : Int :=
  if track.ornament_mode ≠ 1 ∧ track.ornament_mode = 2 then
    (if track.ornament_alt ≠ 0 then 0 else 1)
  else track.ornament_alt

/-- Lines 896-904: the degree and the octave of the grace note of a step with the stored
degree `deg` and octave `oct`, for the direction `dir`. -/
def grace_degree_octave (deg oct dir : Int) : Int × Int :=
  let grace_deg := deg + dir
  if grace_deg < 1 then (7, oct - 1)
  else if grace_deg > 7 then (1, oct + 1)
  else (grace_deg, oct)

/-- Line 882-886: whether the step draws an ornament: the track has an ornament
probability, the step has a degree, and the random draw is at most the probability. -/
def ornament_drawn (track : TrackRuntime) (s : PatternStep) : Bool :=
  decide (track.ornament_prob > 0 ∧ s.degree_valid ≠ 0
    ∧ rng_unit (xorshift32 track.rng) ≤ track.ornament_prob)

/-- The grace degree in the words of the specification: the result `d` of `deg - 1` or
`deg + 1`, where 0 wraps to degree 7 an octave down and 8 to degree 1 an octave up. -/
def spec_grace (d oct : Int) : Int × Int :=
  if d = 0 then (7, oct - 1) else if d = 8 then (1, oct + 1) else (d, oct)

/-- A script whose track ornaments every degree step in the alternating mode. -/
def example_ornament_alt_script : CStr :=
  cstr "synth s saw\npattern p (1 7)\nplay p s orn 1 alt fast 6000"

/-! ## The sequencer with checked divisions -/

/-- The C division `a / b` of two `int`: `none` when the divisor is 0. -/
def c_div (a b : Int) : Option Int := if b = 0 then none else some (Int.tdiv a b)

/-- The C remainder `a % b` of two `int`: `none` when the divisor is 0. -/
def c_mod (a b : Int) : Option Int := if b = 0 then none else some (Int.tmod a b)

/-- The division `a / b` of two floating-point numbers: `none` when the divisor is 0. -/
def f_div (a b : ℚ) : Option ℚ := if b = 0 then none else some (a / b)

/-- The division `a / (b * c)` of floats whose divisor is the float product `b * c`. The
product is rounded to the nearest float, ties to even, and the smallest float above 0 is
`2^-149`: the product is `0.0f`, and the result `none`, when its exact value is `2^-150` or
less in magnitude. -/
def f_div_product (a b c : ℚ) : Option ℚ :=
  if abs (b * c) ≤ 1 / 2 ^ 150 then none else some (a / (b * c))

/-- Every entry of the tempo map that is above 0 is at least `2^-126`, the smallest normal
`float`. -/
def MapNormal (prog : Program) : Prop := ∀ x ∈ prog.tempo_map, x ≤ 0 ∨ 1 / 2 ^ 126 ≤ x

instance (prog : Program) : Decidable (MapNormal prog) := by
  unfold MapNormal
  infer_instance

/-- The function `effective_pattern_length` (135-168) with its divisions checked: `none`
when a divisor is 0. -/
def effective_pattern_length_checked (engine : EngineState) (pattern : PatternDef) :
    Option Int :=
  let len : Int := pattern.length
  if len ≤ 0 then some 0
  else if engine.program.time_sig_enforce = 0 then some len
  else
    let sect : Int := meter_section engine
    let num := engine.program.time_sig_num_map.getD sect.toNat 0
    let den := engine.program.time_sig_den_map.getD sect.toNat 0
    if num ≤ 0 ∨ den ≤ 0 then some len
    else
      match c_mod 16 den with
      | none => none
      | some m =>
        if m ≠ 0 then some len
        else
          match c_div 16 den with
          | none => none
          | some steps_per_beat =>
            let bar_steps := num * steps_per_beat
            if bar_steps ≤ 0 then some len
            else
              match c_mod len bar_steps with
              | none => none
              | some rem => if rem = 0 then some len else some (len + (bar_steps - rem))

/-- The function `track_cycle_steps` (674-686), checked. -/
def track_cycle_steps_checked (engine : EngineState) (track : TrackRuntime)
    (pattern : PatternDef) : Option Int :=
  match effective_pattern_length_checked engine pattern with
  | none => none
  | some base_len =>
    let base_len := if track.palindrome ≠ 0 ∧ base_len > 1 then base_len * 2 - 2 else base_len
    some (if track.iter > 1 then base_len * track.iter else base_len)

/-- The function `update_track_tempo` (735-748), checked: the division by `mult`, the float
product of line 744. -/
def update_track_tempo_checked (engine : EngineState) (track : TrackRuntime) :
    Option TrackRuntime :=
  let idx := engine.tempo_section
  if idx < 1 ∨ idx > 14 then some track
  else
    let map := engine.program.tempo_map.getD idx.toNat 0
    let map := if map ≤ 0 then 1 else map
    match f_div_product (engine.base_samples_per_step : ℚ) track.base_rate map with
    | none => none
    | some q =>
      let sps := c_trunc q
      let sps := if sps < 1 then 1 else sps
      some { track with samples_per_step := sps }

/-- The loop of `update_all_track_tempos` (750-754) over the tracks, checked. -/
def update_tracks_checked (engine : EngineState) : List TrackRuntime → Option (List TrackRuntime)
  | [] => some []
  | t :: ts =>
    match update_track_tempo_checked engine t with
    | none => none
    | some u =>
      match update_tracks_checked engine ts with
      | none => none
      | some us => some (u :: us)

/-- The function `update_all_track_tempos` (750-754), checked. -/
def update_all_track_tempos_checked (engine : EngineState) : Option EngineState :=
  match update_tracks_checked engine engine.tracks with
  | none => none
  | some tracks => some { engine with tracks := tracks }

/-- The function `advance_sequence` (713-733), checked: the remainders by the step count of
the sequence and by `max_section`, and the tempo updates. -/
def advance_sequence_checked (engine : EngineState) (track : TrackRuntime) :
    Option (EngineState × TrackRuntime) :=
  match track.sequence with
  | none => some (engine, track)
  | some seq =>
    if seq.count = 0 then some (engine, track)
    else
      let step_repeat : Int :=
        match seq.steps.get? track.seq_index.toNat with
        | some step => step.repeat_count
        | none => 0
      let track := { track with seq_repeat_done := track.seq_repeat_done + 1 }
      if track.seq_repeat_done ≥ step_repeat then
        let track := { track with seq_repeat_done := 0 }
        match c_mod (track.seq_index + 1) seq.count with
        | none => none
        | some seq_index =>
          let track := { track with seq_index := seq_index }
          match c_mod (track.seq_pos + 1) seq.count with
          | none => none
          | some seq_pos =>
            let track := { track with seq_pos := seq_pos }
            let engine := { engine with pattern_epoch := (engine.pattern_epoch + 1) % 2 ^ 64 }
            if track.is_tempo_leader ≠ 0 then
              let max_section : Int := seq.count
              let max_section := if max_section < 1 then 14 else max_section
              match c_mod track.seq_pos max_section with
              | none => none
              | some r =>
                let engine := { engine with tempo_section := r + 1 }
                match update_all_track_tempos_checked engine with
                | none => none
                | some engine1 =>
                  match update_track_tempo_checked engine track with
                  | none => none
                  | some track1 => some (engine1, track1)
            else
              match update_track_tempo_checked engine track with
              | none => none
              | some track1 => some (engine, track1)
      else some (engine, track)

/-- Lines 799-819 of `schedule_track_step`, checked: the division by `iter` and the
remainders by the palindrome length and by the effective length. -/
def step_pattern_index_checked (track : TrackRuntime) (effective_len : Int) : Option Int :=
  let step := track.step_index
  match (if track.iter > 1 then c_div step track.iter else some step) with
  | none => none
  | some base_step =>
    match (if track.palindrome ≠ 0 ∧ effective_len > 1 then
        match c_mod base_step (effective_len * 2 - 2) with
        | none => none
        | some p => some (if p ≥ effective_len then effective_len * 2 - 2 - p else p)
      else c_mod base_step effective_len) with
    | none => none
    | some idx => some (if track.rev ≠ 0 then (effective_len - 1) - idx else idx)

/-- Lines 821-832, checked: the divisions by the chunk count and by the effective length. -/
def chunk_skips_checked (track : TrackRuntime) (effective_len idx : Int) : Option Bool :=
  if track.chunk > 0 then
    let chunk_count := track.chunk
    let chunk_count := if chunk_count < 1 then 1 else chunk_count
    match c_div (effective_len + chunk_count - 1) chunk_count with
    | none => none
    | some chunk_size =>
      let step := track.step_index
      match (if track.iter > 1 then c_div step track.iter else some step) with
      | none => none
      | some base_step =>
        match c_div base_step effective_len with
        | none => none
        | some cycles =>
          match c_mod cycles chunk_count with
          | none => none
          | some cycle =>
            let chunk_start := cycle * chunk_size
            let chunk_end := chunk_start + chunk_size - 1
            some (decide (idx < chunk_start ∨ idx > chunk_end))
  else some false

/-- Lines 834-847, checked: the remainder by `every`, taken only when `every > 1`. -/
def step_gate_checked (track : TrackRuntime) : Option (Nat × Bool) :=
  match (if track.every > 1 then
      match c_mod track.step_index track.every with
      | none => none
      | some m => some (!decide (m ≠ 0))
    else some true) with
  | none => none
  | some pass =>
    if pass && decide (track.density < 1) then
      some (xorshift32 track.rng, !decide (rng_unit (xorshift32 track.rng) > track.density))
    else some (track.rng, pass)

/-- Lines 920-930, checked: the division of the step length by `stut`. -/
def set_stutter_checked (track : TrackRuntime) (freq : Freq) : Option TrackRuntime :=
  if track.stut > 1 then
    match c_div track.samples_per_step track.stut with
    | none => none
    | some per =>
      some { track with stut_remaining := track.stut - 1,
                        stut_samples_per := if per < 1 then 1 else per,
                        stut_samples_until := if per < 1 then 1 else per,
                        stut_freq := freq }
  else some { track with stut_remaining := 0 }

/-- Lines 849-932, checked; the divisions by the literals 100, 1000 and 16777215 apart, the
only division is that of the stutter. -/
def play_step_checked (engine : EngineState) (track : TrackRuntime) (s : PatternStep) :
    Option (EngineState × TrackRuntime × List NoteOn) :=
  if s.note ≥ 0 then
    let freq := Freq.midi ((s.note : ℚ) + s.cents / 100)
    let slide_ms := if s.slide_ms ≥ 0 then s.slide_ms else track.slide_ms
    let glide_samples : Int :=
      if slide_ms > 0 then c_trunc (engine.sample_rate * (slide_ms / 1000)) else 0
    let draw := decide (s.accent = 0 ∧ track.accent_prob > 0)
    let rng := if draw then xorshift32 track.rng else track.rng
    let accent : Int :=
      if draw then (if rng_unit rng ≤ track.accent_prob then 1 else s.accent)
      else s.accent
    let n : NoteOn :=
      { synth := track.synth, freq := freq, sample_rate := engine.sample_rate,
        gate_samples := c_trunc ((track.samples_per_step : ℚ) * (9 / 10)),
        amp_scale := 1, glide_samples := glide_samples, accent := accent }
    let r := note_on_first_free n engine.voices
    let o := schedule_ornament { engine with voices := r.1 } { track with rng := rng } s
    match set_stutter_checked o.2.1 freq with
    | none => none
    | some track1 => some (o.1, track1, (if r.2 then [n] else []) ++ o.2.2)
  else some (engine, track, [])

/-- Lines 934-942, checked. -/
def finish_step_checked (engine : EngineState) (track : TrackRuntime) (pattern : PatternDef) :
    Option (EngineState × TrackRuntime) :=
  match track_cycle_steps_checked engine track pattern with
  | none => none
  | some cycle_steps =>
    if cycle_steps > 0 ∧ track.step_index + 1 ≥ cycle_steps then
      match track.sequence with
      | some _ => advance_sequence_checked engine { track with step_index := 0 }
      | none => some (engine, { track with step_index := 0 })
    else some (engine, { track with step_index := track.step_index + 1 })

/-- Lines 772-787, checked. -/
def schedule_inactive_checked (engine : EngineState) (track : TrackRuntime) :
    Option (EngineState × TrackRuntime) :=
  match track.sequence with
  | none => some (engine, track)
  | some seq =>
    if seq.count > 0 then
      match (sequence_current_pattern engine track).2 with
      | none => some (engine, (sequence_current_pattern engine track).1)
      | some p =>
        let track := (sequence_current_pattern engine track).1
        match track_cycle_steps_checked engine track p with
        | none => none
        | some cycle_steps =>
          if cycle_steps > 0 then
            if track.step_index + 1 ≥ cycle_steps then
              advance_sequence_checked engine { track with step_index := 0 }
            else some (engine, { track with step_index := track.step_index + 1 })
          else some (engine, track)
    else some (engine, track)

/-- The function `schedule_track_step` (771-943) with every division and remainder whose
divisor is not a literal checked: `none` when a divisor is 0. -/
def schedule_track_step_checked (engine : EngineState) (track : TrackRuntime) :
    Option StepOutcome :=
  if !track_active_for_sequence track then
    match schedule_inactive_checked engine track with
    | none => none
    | some r => some ⟨r.1, r.2, none, []⟩
  else
    match (sequence_current_pattern engine track).2 with
    | none => some ⟨engine, (sequence_current_pattern engine track).1, none, []⟩
    | some pattern =>
      let track := (sequence_current_pattern engine track).1
      match effective_pattern_length_checked engine pattern with
      | none => none
      | some effective_len =>
        if pattern.length = 0 ∨ effective_len ≤ 0 then some ⟨engine, track, none, []⟩
        else
          match step_pattern_index_checked track effective_len with
          | none => none
          | some idx =>
            match chunk_skips_checked track effective_len idx with
            | none => none
            | some skips =>
              if skips then
                some ⟨engine, { track with step_index := track.step_index + 1 }, some idx, []⟩
              else
                match step_gate_checked track with
                | none => none
                | some gate =>
                  match (if gate.2 ∧ idx < pattern.length then
                      match pattern.steps.get? idx.toNat with
                      | some s => play_step_checked engine { track with rng := gate.1 } s
                      | none => some (engine, { track with rng := gate.1 }, [])
                    else some (engine, { track with rng := gate.1 }, [])) with
                  | none => none
                  | some o =>
                    match finish_step_checked o.1 o.2.1 pattern with
                    | none => none
                    | some f => some ⟨f.1, f.2, some idx, o.2.2⟩

/-- Lines 1094-1103 of `build_runtime`, checked: the division by `slow`. -/
def track_base_rate_checked (track : TrackDef) : Option ℚ :=
  let mult := track.rate * track.hurry
  let mult := if track.fast > 1 then mult * (track.fast : ℚ) else mult
  match (if track.slow > 1 then f_div mult (track.slow : ℚ) else some mult) with
  | none => none
  | some mult => some (if mult ≤ 1 / 1000 then 1 / 1000 else mult)

/-- Lines 1062-1117 of `build_runtime`, checked: the divisions by `slow` and by the rate
multiplier, and the one of `update_track_tempo`. -/
def init_track_runtime_checked (engine : EngineState) (i : Nat) (track : TrackDef)
    (pattern : Option PatternDef) (synth : SynthDef) (sequence : Option SequenceDef)
    (is_tempo_leader : Int) : Option TrackRuntime :=
  match track_base_rate_checked track with
  | none => none
  | some base_rate =>
    match f_div (engine.base_samples_per_step : ℚ) base_rate with
    | none => none
    | some q =>
      let sps := c_trunc q
      update_track_tempo_checked engine
        { pattern := pattern, synth := synth, sequence := sequence, step_index := 0,
          samples_until_step := 0, samples_per_step := if sps < 1 then 1 else sps,
          every := track.every, rev := track.rev, palindrome := track.palindrome,
          iter := track.iter, chunk := track.chunk, stut := track.stut,
          density := track.density,
          rng := (0x9E3779B9 + i * 2654435761) % 2 ^ 32,
          stut_remaining := 0, stut_samples_until := 0, stut_samples_per := 0,
          stut_freq := Freq.hz 0, seq_index := 0, seq_repeat_done := 0,
          slide_ms := track.slide_ms, ornament_prob := track.ornament_prob,
          ornament_mode := track.ornament_mode, ornament_alt := 0,
          accent_prob := track.accent_prob, seq_start := track.seq_start,
          seq_end := track.seq_end, seq_pos := 0, base_rate := base_rate,
          is_tempo_leader := is_tempo_leader }

/-- A script whose `playseq` line has the unchecked options 0 and negative. -/
def example_unchecked_script : CStr :=
  cstr ("synth s saw\npattern a (60 62)\nsequence S (a a)\n"
    ++ "playseq S s iter 0 every 0 stut 0 fast 0 slow 0 chunk -3 rate -1")

/-! ## The voice in full (audio_engine.c) -/

/-- The single-precision functions of `math.h` that the synthesis calls. The model works in
exact rationals, where they have no value: they are parameters, and what is proved holds for
every choice of them. -/
structure Libm where
  sinf : ℚ → ℚ
  expf : ℚ → ℚ
  tanhf : ℚ → ℚ
  powf : ℚ → ℚ → ℚ

/-- The constant `(float)M_PI`, the `float` next to pi: `0x40490FDB`. -/
def M_PI_F : ℚ := 13176795 / 4194304

def COMB_MAX_SAMPLES : Nat := 4096

/-- The `float` value of a frequency: `440.0f * powf(2.0f, (midi - 69.0f) / 12.0f)` for a
MIDI pitch (853-854, 907-908, 1293). -/
def freq_value (m : Libm) : Freq → ℚ
  | .hz f => f
  | .midi x => 440 * m.powf 2 ((x - 69) / 12)

/-- The struct `Voice` (23-59) in full: `voice` holds `active` and the envelope fields, the
other fields are those of the synthesis. The field `accent_prob` is never used and left
out. -/
structure SynthVoice where
  voice : Voice
  type : SynthType
  freq : ℚ
  target_freq : ℚ
  glide_step : ℚ
  glide_samples : Int
  phase : ℚ
  age : Int
  pitch_env : ℚ
  pitch_decay : ℚ
  hp_state : ℚ
  svf_lp : ℚ
  svf_bp : ℚ
  cutoff : ℚ
  filter_state : ℚ
  rng : Nat
  amp : ℚ
  res : ℚ
  accent : ℚ
  comb_buf : List ℚ
  comb_idx : Int
  comb_len : Int
  comb_feedback : ℚ
  comb_damp : ℚ
  comb_state : ℚ
  crush_hold : ℚ
  crush_count : Int

/-- The function `is_pm_type` (124-128). -/
def is_pm_type (t : SynthType) : Bool :=
  t = .SYNTH_PM_STRING || t = .SYNTH_PM_BELL || t = .SYNTH_PM_PIPE || t = .SYNTH_PM_KICK
    || t = .SYNTH_PM_SNARE || t = .SYNTH_PM_HAT || t = .SYNTH_PM_CLAP || t = .SYNTH_PM_TOM

/-- The function `is_pm_drum` (130-133). -/
def is_pm_drum (t : SynthType) : Bool :=
  t = .SYNTH_PM_KICK || t = .SYNTH_PM_SNARE || t = .SYNTH_PM_HAT || t = .SYNTH_PM_CLAP
    || t = .SYNTH_PM_TOM

/-- The condition of lines 405-407 of `voice_note_on` (and the `case` labels 279-287 of
`osc_sample`): the types with a delay line. -/
def is_delay_type (t : SynthType) : Bool := t = .SYNTH_COMB || is_pm_type t

/-- The four hat types of lines 376-377. -/
def is_hat_type (t : SynthType) : Bool :=
  t = .SYNTH_HAT_C || t = .SYNTH_HAT_O || t = .SYNTH_HAT808 || t = .SYNTH_HAT909

/-- Lines 444-458 of `voice_note_on`: the length of the delay line for a note of frequency
`freq`. -/
def comb_length (t : SynthType) (freq sample_rate : ℚ) : Int :=
  let len : Int :=
    if t = .SYNTH_PM_KICK then c_trunc (sample_rate / 55)
    else if t = .SYNTH_PM_SNARE then c_trunc (sample_rate / 180)
    else if t = .SYNTH_PM_HAT then c_trunc (sample_rate / 7000)
    else if t = .SYNTH_PM_CLAP then c_trunc (sample_rate / 260)
    else if t = .SYNTH_PM_TOM then c_trunc (sample_rate / 120)
    else c_trunc (sample_rate / max freq 40)
  let len := if len < 8 then 8 else len
  if len > COMB_MAX_SAMPLES then COMB_MAX_SAMPLES else len

/-- Lines 364, 508-514 and 529-531 of `voice_note_on`: the decrement of the pitch envelope
per sample. The kick line 511 reads `1.0 / 0.045 * sample_rate` (0.03 for the 909). -/
def note_on_pitch_decay (t : SynthType) (sample_rate : ℚ) : ℚ :=
  if t = .SYNTH_KICK ∨ t = .SYNTH_KICK808 ∨ t = .SYNTH_KICK909 then
    1 / (if t = .SYNTH_KICK909 then 3 / 100 else 45 / 1000) * sample_rate
  else if t = .SYNTH_TOM then 1 / (6 / 100 * sample_rate)
  else if t = .SYNTH_PM_KICK then 1 / (5 / 100 * sample_rate)
  else 1 / (3 / 100 * sample_rate)

/-- Lines 400-421 and 545-548: the amplitude of the voice. -/
def note_on_amp (synth : SynthDef) (amp_scale : ℚ) (accent : Int) : ℚ :=
  let t := synth.type
  let amp := if t = .SYNTH_COMB then synth.comb_excite * amp_scale else synth.amp * amp_scale
  let amp :=
    if is_delay_type t then
      if t = .SYNTH_PM_KICK then amp * (19 / 10)
      else if t = .SYNTH_PM_TOM then amp * (17 / 10)
      else if t = .SYNTH_PM_HAT then amp * (18 / 10)
      else if t = .SYNTH_PM_SNARE ∨ t = .SYNTH_PM_CLAP then amp * (16 / 10)
      else amp * (15 / 10)
    else amp
  if accent ≠ 0 ∧ t = .SYNTH_ACID then amp * (115 / 100) else amp

/-- Lines 366-381 and 422-443: the frequency, the glide target, the glide length and the
glide step of the voice; the hats and the drum models have fixed pitches. -/
def note_on_pitch (v : SynthVoice) (t : SynthType) (freq : ℚ) (glide_samples : Int) :
    ℚ × ℚ × Int × ℚ :=
  let p : ℚ × ℚ × Int × ℚ :=
    if glide_samples > 0 then
      (v.freq, freq, glide_samples, (freq - v.freq) / (glide_samples : ℚ))
    else (freq, freq, 0, 0)
  let p : ℚ × ℚ × Int × ℚ :=
    if is_hat_type t then
      ((if t = .SYNTH_HAT808 then 7000 else 9000), (if t = .SYNTH_HAT808 then 7000 else 9000),
        0, 0)
    else p
  if t = .SYNTH_PM_KICK then (60, 60, 0, 0)
  else if t = .SYNTH_PM_SNARE then (180, 180, 0, 0)
  else if t = .SYNTH_PM_HAT then (9000, 9000, 0, 0)
  else if t = .SYNTH_PM_CLAP then (240, 240, 0, 0)
  else if t = .SYNTH_PM_TOM then (120, 120, 0, 0)
  else p

/-- Lines 461-496: the feedback and the damping of the delay line. -/
def comb_tone (synth : SynthDef) : ℚ × ℚ :=
  let t := synth.type
  let p : ℚ × ℚ :=
    if t = .SYNTH_PM_STRING then (88 / 100, 18 / 100)
    else if t = .SYNTH_PM_BELL then (94 / 100, 12 / 100)
    else if t = .SYNTH_PM_PIPE then (96 / 100, 6 / 100)
    else if t = .SYNTH_PM_KICK then (95 / 100, 6 / 100)
    else if t = .SYNTH_PM_SNARE then (88 / 100, 28 / 100)
    else if t = .SYNTH_PM_HAT then (75 / 100, 6 / 10)
    else if t = .SYNTH_PM_CLAP then (86 / 100, 3 / 10)
    else if t = .SYNTH_PM_TOM then (92 / 100, 12 / 100)
    else (synth.comb_feedback, synth.comb_damp)
  let p : ℚ × ℚ :=
    if is_pm_type t then (max (1 / 2) (p.1 * (93 / 100)), min (85 / 100) (p.2 + 8 / 100))
    else p
  if t = .SYNTH_PM_BELL ∨ t = .SYNTH_PM_PIPE then
    (max (1 / 2) (p.1 * (9 / 10)), min (9 / 10) (p.2 + 1 / 10))
  else p

/-- The function `voice_note_on` (352-551) on the whole voice. The envelope fields are those
of `voice_note_on`; the delay line is set up for the types that have one, and left as it is
for the others. `(uint32_t)(freq * 1000.0f)` is taken for a frequency in range. -/
def voice_note_on_full (m : Libm) (v : SynthVoice) (n : NoteOn) : SynthVoice :=
  let t := n.synth.type
  let freq := freq_value m n.freq
  let p := note_on_pitch v t freq n.glide_samples
  let len := comb_length t freq n.sample_rate
  { v with
    voice := voice_note_on v.voice n,
    type := t, age := 0, pitch_env := 1,
    pitch_decay := note_on_pitch_decay t n.sample_rate,
    hp_state := 0, svf_lp := 0, svf_bp := 0,
    freq := p.1, target_freq := p.2.1, glide_samples := p.2.2.1, glide_step := p.2.2.2,
    phase := 0, cutoff := n.synth.cutoff, filter_state := 0,
    rng := v.rng ^^^ ((c_trunc (freq * 1000)).toNat % 2 ^ 32),
    res := n.synth.res, accent := if n.accent ≠ 0 then 1 else 0,
    crush_hold := 0, crush_count := 0,
    amp := note_on_amp n.synth n.amp_scale n.accent,
    comb_len := if is_delay_type t then len else v.comb_len,
    comb_idx := if is_delay_type t then 0 else v.comb_idx,
    comb_feedback := if is_delay_type t then (comb_tone n.synth).1 else v.comb_feedback,
    comb_damp := if is_delay_type t then (comb_tone n.synth).2 else v.comb_damp,
    comb_state := if is_delay_type t then 0 else v.comb_state,
    comb_buf :=
      if is_delay_type t then List.replicate len.toNat 0 ++ v.comb_buf.drop len.toNat
      else v.comb_buf }

/-- The noise generator `rng = rng * a + c` on a `uint32_t` and the sample
`((rng >> 8) / 8388608.0f) - 1.0f` made from it. -/
def lcg_noise (a c rng : Nat) : Nat × ℚ :=
  let rng := (rng * a + c) % 2 ^ 32
  (rng, ((rng >>> 8 : Nat) : ℚ) / 8388608 - 1)

/-- The sawtooth `2.0f * (x - floorf(x + 0.5f))` of `x = phase / (2.0f * (float)M_PI)`. -/
def saw_wave (phase : ℚ) : ℚ :=
  let x := phase / (2 * M_PI_F)
  2 * (x - (Rat.floor (x + 1 / 2) : ℚ))

/-- Lines 288-319 of `osc_sample`: the excitation of the delay line during the first 96
samples of a note, with the state of the noise generator. -/
def comb_input (m : Libm) (v : SynthVoice) : Nat × ℚ :=
  if v.age < 96 then
    let excite : ℚ := 1 - (v.age : ℚ) / 96
    if v.type = .SYNTH_PM_BELL then (v.rng, m.sinf (v.phase * 6) * v.amp * excite)
    else if v.type = .SYNTH_PM_KICK then
      (v.rng, m.sinf (v.phase * (11 / 10)) * v.amp * (8 / 10 + excite))
    else if v.type = .SYNTH_PM_SNARE then
      let r := lcg_noise 1664525 1013904223 v.rng
      (r.1, r.2 * v.amp * (7 / 10 + excite))
    else if v.type = .SYNTH_PM_HAT then
      let r := lcg_noise 1664525 1013904223 v.rng
      let m1 := m.sinf (v.phase * (28 / 10))
      let m2 := m.sinf (v.phase * (53 / 10))
      let m3 := m.sinf (v.phase * (91 / 10))
      (r.1, (r.2 * (65 / 100) + (m1 + m2 + m3) * (14 / 100)) * v.amp * (7 / 10 + excite))
    else if v.type = .SYNTH_PM_CLAP then
      let r := lcg_noise 1664525 1013904223 v.rng
      let m1 := m.sinf (v.phase * (36 / 10))
      let m2 := m.sinf (v.phase * (67 / 10))
      (r.1, (r.2 * (55 / 100) + (m1 + m2) * (16 / 100)) * v.amp * (7 / 10 + excite))
    else if v.type = .SYNTH_PM_TOM then
      (v.rng, m.sinf (v.phase * (16 / 10)) * v.amp * (7 / 10 + excite))
    else if v.type = .SYNTH_PM_PIPE then (v.rng, m.sinf (v.phase * 2) * v.amp * excite)
    else
      let r := lcg_noise 1664525 1013904223 v.rng
      (r.1, r.2 * v.amp * excite)
  else (v.rng, 0)

/-- Lines 279-326 of `osc_sample`: one sample of the delay line. The buffer is read and
written at `comb_idx`, which then moves on modulo `comb_len`. -/
def comb_sample (m : Libm) (v : SynthVoice) : SynthVoice × ℚ :=
  let i := comb_input m v
  let y := v.comb_buf.getD v.comb_idx.toNat 0
  let comb_state := (1 - v.comb_damp) * y + v.comb_damp * v.comb_state
  ({ v with
      rng := i.1, comb_state := comb_state,
      comb_buf := v.comb_buf.set v.comb_idx.toNat (i.2 + comb_state * v.comb_feedback),
      comb_idx := Int.tmod (v.comb_idx + 1) v.comb_len },
    comb_state)

/-- The function `osc_sample` (170-330): the voice afterwards and the sample. A type without
a `case` of its own (`SYNTH_SUPERSAW`) leaves `sample` at `0.0f`. -/
def osc_sample (m : Libm) (v : SynthVoice) : SynthVoice × ℚ :=
  match v.type with
  | .SYNTH_SINE => (v, m.sinf v.phase)
  | .SYNTH_SAW => (v, saw_wave v.phase)
  | .SYNTH_SQUARE => (v, if v.phase < M_PI_F then 1 else -1)
  | .SYNTH_TRI => (v, 2 * abs (saw_wave v.phase) - 1)
  | .SYNTH_NOISE =>
    ({ v with rng := (lcg_noise 1664525 1013904223 v.rng).1 },
      (lcg_noise 1664525 1013904223 v.rng).2)
  | .SYNTH_PULSE => (v, if v.phase < M_PI_F * 2 * (3 / 10) then 1 else -1)
  | .SYNTH_FM => (v, m.sinf (v.phase + m.sinf (v.phase * 2) * (25 / 10)))
  | .SYNTH_FM2 =>
    (v, m.sinf (v.phase + m.sinf (v.phase * 7 + m.sinf (v.phase * 3) * 2) * 3))
  | .SYNTH_RING => (v, m.sinf v.phase * saw_wave v.phase)
  | .SYNTH_ACID => (v, saw_wave v.phase)
  | .SYNTH_KICK | .SYNTH_KICK808 | .SYNTH_KICK909 =>
    (v, m.sinf (v.phase * (1 + v.pitch_env * (42 / 10))))
  | .SYNTH_TOM => (v, m.sinf (v.phase * (1 + v.pitch_env * (15 / 10))))
  | .SYNTH_SNARE | .SYNTH_SNARE808 | .SYNTH_SNARE909 | .SYNTH_CLAP | .SYNTH_CLAP909
  | .SYNTH_RIM =>
    ({ v with rng := (lcg_noise 1664525 1013904223 v.rng).1 },
      (lcg_noise 1664525 1013904223 v.rng).2)
  | .SYNTH_HAT_C | .SYNTH_HAT_O | .SYNTH_HAT808 | .SYNTH_HAT909 =>
    ({ v with rng := (lcg_noise 1664525 1013904223 v.rng).1 },
      (lcg_noise 1664525 1013904223 v.rng).2 * (1 / 2)
        + (m.sinf (v.phase * (22 / 10)) + m.sinf (v.phase * (34 / 10))
            + m.sinf (v.phase * (51 / 10)) + m.sinf (v.phase * 8)) * (1 / 10))
  | .SYNTH_GLITCH =>
    ({ v with rng := (lcg_noise 1103515245 12345 v.rng).1 },
      (Rat.floor ((lcg_noise 1103515245 12345 v.rng).2 * 6) : ℚ) / 6
        * (m.sinf (v.phase * 4) * (6 / 10) + 4 / 10))
  | .SYNTH_METAL =>
    let a := m.sinf (v.phase * 2)
    let b := m.sinf (v.phase * 3 + a * (15 / 10))
    let c := m.sinf (v.phase * 5 + b * (12 / 10))
    (v, (a + b + c) * (33 / 100))
  | .SYNTH_BITPERC =>
    ({ v with rng := (lcg_noise 1664525 1013904223 v.rng).1 },
      (Rat.floor ((lcg_noise 1664525 1013904223 v.rng).2 * 8) : ℚ) / 8)
  | .SYNTH_COMB | .SYNTH_PM_STRING | .SYNTH_PM_BELL | .SYNTH_PM_PIPE | .SYNTH_PM_KICK
  | .SYNTH_PM_SNARE | .SYNTH_PM_HAT | .SYNTH_PM_CLAP | .SYNTH_PM_TOM => comb_sample m v
  | .SYNTH_SUPERSAW => (v, 0)

/-- The function `one_pole_lp` (340-344): the new state, which is also the value. -/
def one_pole_lp (m : Libm) (input cutoff_hz sample_rate state : ℚ) : ℚ :=
  let alpha := m.expf (-2 * M_PI_F * min cutoff_hz (sample_rate * (45 / 100)) / sample_rate)
  (1 - alpha) * input + alpha * state

/-- The function `svf_lpf` (332-338): the new `svf_lp` (the value) and `svf_bp`. -/
def svf_lpf (m : Libm) (svf_lp svf_bp input cutoff_hz resonance sample_rate : ℚ) : ℚ × ℚ :=
  let f := 2 * m.sinf (M_PI_F * min cutoff_hz (sample_rate * (45 / 100)) / sample_rate)
  let q := max (1 / 10) (1 - resonance)
  let lp := svf_lp + f * svf_bp
  let hp := input - lp - q * svf_bp
  (lp, svf_bp + f * hp)

/-- Lines 600-606 of `voice_render`: the types whose sample goes through the high-pass of
1200 Hz first. -/
def is_highpassed (t : SynthType) : Bool :=
  is_hat_type t || t = .SYNTH_PM_HAT || t = .SYNTH_PM_SNARE || t = .SYNTH_PM_CLAP
    || t = .SYNTH_RIM || t = .SYNTH_SNARE || t = .SYNTH_SNARE808 || t = .SYNTH_SNARE909
    || t = .SYNTH_CLAP || t = .SYNTH_CLAP909 || t = .SYNTH_BITPERC

/-- Lines 608-636 of `voice_render`: the filter of the type of the voice, on the sample
`x`; the high-pass of 600-606 has been applied where it is due. -/
def tone_filter (m : Libm) (v : SynthVoice) (x sample_rate : ℚ) : SynthVoice × ℚ :=
  let t := v.type
  if t = .SYNTH_ACID then
    let env_depth := 2600 + v.accent * 800
    let cutoff := v.cutoff + v.voice.env * env_depth + v.accent * 200
    let res := min (97 / 100) (v.res + v.accent * (1 / 10))
    let s1 := svf_lpf m v.svf_lp v.svf_bp x cutoff res sample_rate
    let s2 := svf_lpf m s1.1 s1.2 s1.1 cutoff res sample_rate
    ({ v with svf_lp := s2.1, svf_bp := s2.2 },
      m.tanhf (s2.1 * (2 + v.accent * (55 / 100))))
  else if t = .SYNTH_SNARE ∨ t = .SYNTH_SNARE808 ∨ t = .SYNTH_SNARE909
      ∨ t = .SYNTH_PM_SNARE then
    let band := one_pole_lp m x 2400 sample_rate v.filter_state
    ({ v with filter_state := band },
      band * (55 / 100) + m.sinf (v.phase * (1 / 2)) * (45 / 100))
  else if t = .SYNTH_CLAP ∨ t = .SYNTH_CLAP909 ∨ t = .SYNTH_PM_CLAP then
    let band := one_pole_lp m x 2800 sample_rate v.filter_state
    let tm : ℚ := (v.age : ℚ) / sample_rate
    let gate : ℚ :=
      if tm < 6 / 1000 ∨ (tm > 12 / 1000 ∧ tm < 2 / 100) ∨ (tm > 26 / 1000 ∧ tm < 34 / 1000)
      then 1 else 2 / 10
    ({ v with filter_state := band }, band * gate)
  else if is_hat_type t ∨ t = .SYNTH_PM_HAT then
    let band := one_pole_lp m x 9000 sample_rate v.filter_state
    ({ v with filter_state := band }, band)
  else
    let alpha := m.expf (-2 * M_PI_F * v.cutoff / sample_rate)
    let state := (1 - alpha) * x + alpha * v.filter_state
    ({ v with filter_state := state }, state)

/-- Lines 638-668 of `voice_render`, for the physical models: saturation, a band filter, the
transient and the sample-and-hold. -/
def pm_shape (m : Libm) (v : SynthVoice) (x sample_rate : ℚ) : SynthVoice × ℚ :=
  let t := v.type
  let x := m.tanhf (x * (16 / 10))
  let f : ℚ × ℚ × ℚ :=
    if t = .SYNTH_PM_KICK ∨ t = .SYNTH_PM_TOM then
      let lp := one_pole_lp m x 1800 sample_rate v.filter_state
      (v.hp_state, lp, lp)
    else
      let hz : ℚ × ℚ :=
        if t = .SYNTH_PM_SNARE ∨ t = .SYNTH_PM_CLAP then (800, 3800)
        else if t = .SYNTH_PM_HAT then (5000, 12000)
        else (400, 3800)
      let hp_state := one_pole_lp m x hz.1 sample_rate v.hp_state
      let lp := one_pole_lp m (x - hp_state) hz.2 sample_rate v.filter_state
      (hp_state, lp, lp)
  let t_ms : ℚ := (v.age : ℚ) / sample_rate * 1000
  let x := f.2.2 * (1 + (45 / 100) * m.expf (-t_ms / 12))
  let hold : Int := if is_pm_drum t then 2 else 3
  let crush_hold := if v.crush_count ≤ 0 then x else v.crush_hold
  let crush_count := if v.crush_count ≤ 0 then hold else v.crush_count
  ({ v with hp_state := f.1, filter_state := f.2.1, crush_hold := crush_hold,
            crush_count := crush_count - 1 },
    if is_pm_drum t then (Rat.floor (crush_hold * 128) : ℚ) / 128 else crush_hold)

/-- Lines 588-591 of `voice_render`: one sample of the glide. -/
def render_glide (v : SynthVoice) : SynthVoice :=
  if v.glide_samples > 0 then
    { v with freq := v.freq + v.glide_step, glide_samples := v.glide_samples - 1 }
  else v

/-- Lines 592-595 of `voice_render`: one sample of the pitch envelope. -/
def render_pitch_env (v : SynthVoice) : SynthVoice :=
  if v.pitch_env > 0 then
    { v with pitch_env :=
        if v.pitch_env - v.pitch_decay < 0 then 0 else v.pitch_env - v.pitch_decay }
  else v

/-- Lines 599-603 of `voice_render`: the phase moves on and wraps at `2 pi`. -/
def render_phase (v : SynthVoice) (sample_rate : ℚ) : SynthVoice :=
  { v with phase :=
      if v.phase + 2 * M_PI_F * v.freq / sample_rate ≥ 2 * M_PI_F then
        v.phase + 2 * M_PI_F * v.freq / sample_rate - 2 * M_PI_F
      else v.phase + 2 * M_PI_F * v.freq / sample_rate }

/-- Lines 605-611 of `voice_render`: the high-pass `one_pole_hp` of 1200 Hz on the sample
`x`, for the types that have it. -/
def render_highpass (m : Libm) (v : SynthVoice) (x sample_rate : ℚ) : SynthVoice × ℚ :=
  if is_highpassed v.type then
    ({ v with hp_state := one_pole_lp m x 1200 sample_rate v.hp_state },
      x - one_pole_lp m x 1200 sample_rate v.hp_state)
  else (v, x)

/-- The function `voice_render` (553-672) on the whole voice: the voice afterwards and the
sample returned. The envelope section (558-584) is `voice_render`; it returns `0.0f` at once
for an inactive voice, and when the release has run out and left the voice inactive. -/
def voice_render_full (m : Libm) (v : SynthVoice) (sample_rate : ℚ) : SynthVoice × ℚ :=
  if !v.voice.active then (v, 0)
  else if !(voice_render v.voice).active then ({ v with voice := voice_render v.voice }, 0)
  else
    let o := osc_sample m
      (render_pitch_env (render_glide { v with voice := voice_render v.voice }))
    let h := render_highpass m (render_phase o.1 sample_rate) o.2 sample_rate
    let f := tone_filter m h.1 h.2 sample_rate
    let p := if is_pm_type f.1.type then pm_shape m f.1 f.2 sample_rate else f
    ({ p.1 with age := p.1.age + 1 }, p.2 * p.1.voice.env * p.1.amp)

/-- Line 671 of `voice_render`, `return processed * voice->env * voice->amp;`, on floats that
may be a NaN or an infinity. -/
def voice_output (processed env amp : CFloat) : CFloat := (processed.mul env).mul amp

/-- A zeroed `Voice` (`memset` to 0, `audio_engine_init`); its type is the enumerator with
the value 0, `SYNTH_SINE`. -/
def zero_synth_voice : SynthVoice :=
  { voice := zero_voice, type := .SYNTH_SINE, freq := 0, target_freq := 0, glide_step := 0,
    glide_samples := 0, phase := 0, age := 0, pitch_env := 0, pitch_decay := 0, hp_state := 0,
    svf_lp := 0, svf_bp := 0, cutoff := 0, filter_state := 0, rng := 0, amp := 0, res := 0,
    accent := 0, comb_buf := List.replicate COMB_MAX_SAMPLES 0, comb_idx := 0, comb_len := 0,
    comb_feedback := 0, comb_damp := 0, comb_state := 0, crush_hold := 0, crush_count := 0 }

/-- The voice after `k` calls of `voice_render`. -/
def render_voice (m : Libm) (sample_rate : ℚ) : Nat → SynthVoice → SynthVoice
  | 0, v => v
  | k + 1, v => render_voice m sample_rate k (voice_render_full m v sample_rate).1

/-- The samples of the first `k` calls of `voice_render`. -/
def render_samples (m : Libm) (sample_rate : ℚ) : Nat → SynthVoice → List ℚ
  | 0, _ => []
  | k + 1, v =>
    (voice_render_full m v sample_rate).2
      :: render_samples m sample_rate k (voice_render_full m v sample_rate).1

/-- Functions to run the examples with: every one of them is constant 0, but `expf`, which
is constant 1/2. -/
def example_libm : Libm :=
  { sinf := fun _ => 0, expf := fun _ => 1 / 2, tanhf := fun x => x, powf := fun _ _ => 1 }

/-- A script with a synth of the type `supersaw`. -/
def example_supersaw_script : CStr :=
  cstr "synth s supersaw\nset s cutoff 500\npattern p (60 62)\nplay p s"

/-- A note-on of the synth of `example_supersaw_script` at middle C. -/
def example_supersaw_note : NoteOn :=
  { synth := (first_track (loaded_engine example_supersaw_script)).synth,
    freq := Freq.midi 60, sample_rate := 48000, gate_samples := 5400, amp_scale := 1,
    glide_samples := 0, accent := 0 }

/-! ## The delay line of a voice -/

/-- The delay line of a voice is in order: the buffer has its 4096 entries, and a voice of
a type with a delay line has `8 <= comb_len <= 4096` and `0 <= comb_idx < comb_len`. -/
def DelayOk (w : SynthVoice) : Prop :=
  w.comb_buf.length = COMB_MAX_SAMPLES
    ∧ (is_delay_type w.type = true →
        8 ≤ w.comb_len ∧ w.comb_len ≤ 4096 ∧ 0 ≤ w.comb_idx ∧ w.comb_idx < w.comb_len)

/-- A note-on of a default synth of the type `comb` at 440 Hz. -/
def example_comb_note : NoteOn :=
  { synth := set_default_synth (cstr "c") SynthType.SYNTH_COMB, freq := Freq.hz 440,
    sample_rate := 48000, gate_samples := 5400, amp_scale := 1, glide_samples := 0,
    accent := 0 }

/-- The type, the length, the index and the buffer of the delay line are the same. -/
def CombKept (u w : SynthVoice) : Prop :=
  w.type = u.type ∧ w.comb_len = u.comb_len ∧ w.comb_idx = u.comb_idx
    ∧ w.comb_buf = u.comb_buf

/-! ## The delay length of the specification -/

/-- The delay length in the words of the specification:
`max(8, min(4096, floor(sample_rate / freq)))`. -/
def spec_delay_length (freq sample_rate : ℚ) : Int :=
  max 8 (min 4096 (Rat.floor (sample_rate / freq)))

/-- The types with a delay line whose pitch follows the note: `comb`, `pm_string`,
`pm_bell` and `pm_pipe`. -/
def is_pitched_delay (t : SynthType) : Bool :=
  t = .SYNTH_COMB || t = .SYNTH_PM_STRING || t = .SYNTH_PM_BELL || t = .SYNTH_PM_PIPE

/-- A note-on of a default synth of the type `comb` at 20 Hz. -/
def example_low_comb_note : NoteOn :=
  { synth := set_default_synth (cstr "c") SynthType.SYNTH_COMB, freq := Freq.hz 20,
    sample_rate := 48000, gate_samples := 5400, amp_scale := 1, glide_samples := 0,
    accent := 0 }

/-! ## The pitch envelope of a note-on -/

/-- The three kick types of line 508. -/
def is_kick_type (t : SynthType) : Bool :=
  t = .SYNTH_KICK || t = .SYNTH_KICK808 || t = .SYNTH_KICK909

/-- The time constant in seconds in the expression of `pitch_decay` for the type: 0.045 for
kick and kick808, 0.03 for kick909 (line 511), 0.06 for tom (514), 0.05 for pm_kick (531) and
0.03 for every other type (364). -/
def pitch_decay_time (t : SynthType) : ℚ :=
  if t = .SYNTH_KICK ∨ t = .SYNTH_KICK808 then 45 / 1000
  else if t = .SYNTH_KICK909 then 3 / 100
  else if t = .SYNTH_TOM then 6 / 100
  else if t = .SYNTH_PM_KICK then 5 / 100
  else 3 / 100

/-- A note-on of a default synth of the type `kick` at 48000 Hz. -/
def example_kick_note : NoteOn :=
  { synth := set_default_synth (cstr "k") SynthType.SYNTH_KICK, freq := Freq.hz 55,
    sample_rate := 48000, gate_samples := 5400, amp_scale := 1, glide_samples := 0,
    accent := 0 }

/-- A note-on of a default synth of the type `tom` at 48000 Hz. -/
def example_tom_note : NoteOn :=
  { synth := set_default_synth (cstr "t") SynthType.SYNTH_TOM, freq := Freq.hz 110,
    sample_rate := 48000, gate_samples := 5400, amp_scale := 1, glide_samples := 0,
    accent := 0 }

/-! ## The envelope of a note -/

/-- The envelope increments of a voice leave the level where it is or take it down: the
release increment is not negative, and the decay increment is not negative or the decay
stage is left again with the first sample rendered in it. -/
def EnvelopeOk (w : Voice) : Prop :=
  0 ≤ w.rel_inc
    ∧ (0 ≤ w.dec_inc ∨ (1 - w.dec_inc ≤ w.sus ∧ (w.stage = .ENV_DECAY → w.env = 1)))

/-- A script with a synth whose sustain level is 2, whose decay time is 0.00011 seconds and
whose attack time is 0. -/
def example_rising_script : CStr :=
  cstr "synth s saw\nset s sus 2\nset s dec 0.00011\nset s atk 0\npattern p (60)\nplay p s"

/-- A note-on of the synth of `example_rising_script` at 8000 Hz. -/
def example_rising_note : NoteOn :=
  { synth := (first_track (loaded_engine example_rising_script)).synth,
    freq := Freq.midi 60, sample_rate := 8000, gate_samples := 900, amp_scale := 1,
    glide_samples := 0, accent := 0 }

/-- A script with a synth whose attack, decay and release times are 0. -/
def example_short_script : CStr :=
  cstr "synth s sine\nset s atk 0\nset s dec 0\nset s rel 0\npattern p (60)\nplay p s"

/-- A note-on of the synth of `example_short_script` at 48000 Hz with a gate of 3 samples. -/
def example_short_note : NoteOn :=
  { synth := (first_track (loaded_engine example_short_script)).synth,
    freq := Freq.midi 60, sample_rate := 48000, gate_samples := 3, amp_scale := 1,
    glide_samples := 0, accent := 0 }

/-! ## Example scripts: literals that are not numbers -/

/-- A script whose `play` line gives `rate` and `density` the literal `nan`. -/
def example_nan_rate_script : CStr :=
  cstr "synth s saw\npattern p (60)\nplay p s rate nan density nan"

/-- A script whose pattern has a step with the slide `nan`. -/
def example_nan_slide_script : CStr :=
  cstr "synth s saw\npattern p (60~nan 62~5)\nplay p s"

/-- A script whose synth of the type `supersaw` is given the amplitude `inf`. -/
def example_inf_amp_script : CStr :=
  cstr "synth s supersaw\nset s amp inf\npattern p (60)\nplay p s"

/-- A script whose tempo map holds `1e-45`, which is `2^-149` as a float, and whose track has
the rate 0.25. -/
def example_denormal_map_script : CStr :=
  cstr "tempo_map 1=1e-45\nsynth s saw\npattern p (60)\nplay p s rate 0.25"

/-- A script with the tempo `20 * 0.00001`. -/
def example_overflow_script : CStr :=
  cstr "tempo_scale 0.00001\ntempo 20\nsynth s saw\npattern p (60)\nplay p s"

/-! ## Theorems: the sequencer -/

/-- Rounding `len` up to a multiple of `bar` as lines 163-167 do gives the least multiple of
`bar` that is at least `len`. -/
theorem round_up_least (len bar : Int) (hbar : 0 < bar) :
    let r := if len % bar = 0 then len else len + (bar - len % bar)
    len ≤ r ∧ bar ∣ r ∧ ∀ m : Int, bar ∣ m → len ≤ m → r ≤ m := by
  intro r
  have hmod_lt : len % bar < bar := Int.emod_lt_of_pos len hbar
  have hmod_nn : 0 ≤ len % bar := Int.emod_nonneg len (ne_of_gt hbar)
  have hdecomp : bar * (len / bar) + len % bar = len := Int.ediv_add_emod len bar
  by_cases h0 : len % bar = 0
  · have hr : r = len := by simp [r, h0]
    rw [hr]
    refine ⟨le_refl _, Int.dvd_of_emod_eq_zero h0, fun m _ hm => hm⟩
  · have hr : r = len + (bar - len % bar) := by simp [r, h0]
    have hpos : 0 < len % bar := lt_of_le_of_ne hmod_nn (Ne.symm h0)
    rw [hr]
    refine ⟨by linarith, ?_, ?_⟩
    · refine ⟨len / bar + 1, ?_⟩
      linarith [mul_add bar (len / bar) 1]
    · rintro m ⟨k, rfl⟩ hm
      have hk : len / bar < k := by
        by_contra hcon
        push_neg at hcon
        have : bar * k ≤ bar * (len / bar) := mul_le_mul_of_nonneg_left hcon (le_of_lt hbar)
        linarith
      have : bar * (len / bar + 1) ≤ bar * k :=
        mul_le_mul_of_nonneg_left (by omega) (le_of_lt hbar)
      linarith [mul_add bar (len / bar) 1]

/-- C2. For a pattern of length `len > 0` and the meter `num/den` of the current section:
with `timesig_enforce` on and `16 mod den = 0`, `effective_pattern_length` is the least
multiple of `num * (16 / den)` that is at least `len`; with `timesig_enforce` off, or
`16 mod den ≠ 0`, it is `len`. -/
theorem effective_pattern_length_spec (engine : EngineState) (pattern : PatternDef)
    (num den : Int) (hlen : 0 < pattern.length)
    (hnum : engine.program.time_sig_num_map.getD (meter_section engine).toNat 0 = num)
    (hden : engine.program.time_sig_den_map.getD (meter_section engine).toNat 0 = den)
    (hnum_pos : 1 ≤ num) (hden_pos : 1 ≤ den) :
    (engine.program.time_sig_enforce ≠ 0 ∧ 16 % den = 0 →
        (pattern.length : Int) ≤ effective_pattern_length engine pattern ∧
        num * (16 / den) ∣ effective_pattern_length engine pattern ∧
        ∀ m : Int, num * (16 / den) ∣ m → (pattern.length : Int) ≤ m →
          effective_pattern_length engine pattern ≤ m) ∧
    (engine.program.time_sig_enforce = 0 ∨ 16 % den ≠ 0 →
        effective_pattern_length engine pattern = pattern.length) := by
  have hlen' : (0 : Int) < (pattern.length : Int) := by exact_mod_cast hlen
  have hmod : Int.tmod 16 den = 16 % den := Int.tmod_eq_emod (by norm_num) (by omega)
  have hdiv : Int.tdiv 16 den = 16 / den := Int.tdiv_eq_ediv (by norm_num) (by omega)
  constructor
  · rintro ⟨henf, h16⟩
    have hdvd : den ∣ 16 := Int.dvd_of_emod_eq_zero h16
    have hle : den ≤ 16 := Int.le_of_dvd (by norm_num) hdvd
    have hq : 1 ≤ 16 / den := by
      obtain ⟨k, hk⟩ := hdvd
      have hkpos : 0 < k := by
        by_contra hcon
        push_neg at hcon
        have : den * k ≤ 0 := mul_nonpos_of_nonneg_of_nonpos (by omega) hcon
        omega
      rw [hk, Int.mul_ediv_cancel_left k (by omega)]
      omega
    have hbar : 0 < num * (16 / den) := by positivity
    have hmodlen : Int.tmod (pattern.length : Int) (num * (16 / den))
        = (pattern.length : Int) % (num * (16 / den)) :=
      Int.tmod_eq_emod (le_of_lt hlen') (le_of_lt hbar)
    have key := round_up_least (pattern.length : Int) (num * (16 / den)) hbar
    have heq : effective_pattern_length engine pattern
        = if (pattern.length : Int) % (num * (16 / den)) = 0 then (pattern.length : Int)
          else (pattern.length : Int) + (num * (16 / den) - (pattern.length : Int) % (num * (16 / den))) := by
      unfold effective_pattern_length
      simp only [hnum, hden, hmod, hdiv, hmodlen]
      rw [if_neg (by omega), if_neg henf, if_neg (by omega), if_neg (by simp [h16]),
        if_neg (by omega)]
    rw [heq]
    exact key
  · intro h
    unfold effective_pattern_length
    simp only [hnum, hden, hmod, hdiv]
    rw [if_neg (by omega)]
    rcases h with h | h
    · rw [if_pos h]
    · by_cases henf : engine.program.time_sig_enforce = 0
      · rw [if_pos henf]
      · rw [if_neg henf, if_neg (by omega), if_pos h]

/-- The sequence cursor `(seq_index, seq_repeat_done)` after one call of `advance_sequence`
on a track of the sequence `seq`, as a function of the cursor before. -/
def cursor_next (seq : SequenceDef) (c : Int × Int) : Int × Int :=
  let step_repeat : Int :=
    match seq.steps.get? c.1.toNat with
    | some step => step.repeat_count
    | none => 0
  if c.2 + 1 ≥ step_repeat then (Int.tmod (c.1 + 1) seq.count, 0) else (c.1, c.2 + 1)

/-- The sum `Σ steps[i].repeat` over a list of sequence steps. -/
def repeat_sum (steps : List SequenceStep) : Int :=
  (steps.map SequenceStep.repeat_count).sum

theorem update_track_tempo_cursor (engine : EngineState) (track : TrackRuntime) :
    (update_track_tempo engine track).sequence = track.sequence ∧
    (update_track_tempo engine track).seq_index = track.seq_index ∧
    (update_track_tempo engine track).seq_repeat_done = track.seq_repeat_done ∧
    (update_track_tempo engine track).seq_pos = track.seq_pos := by
  simp only [update_track_tempo]
  split_ifs <;> simp

/-- One call of `advance_sequence` keeps the track's sequence and moves its cursor by
`cursor_next`. -/
theorem advance_sequence_cursor (engine : EngineState) (track : TrackRuntime)
    (seq : SequenceDef) (hseq : track.sequence = some seq) (hcount : seq.count ≠ 0) :
    (advance_sequence engine track).2.sequence = some seq ∧
    ((advance_sequence engine track).2.seq_index,
      (advance_sequence engine track).2.seq_repeat_done)
      = cursor_next seq (track.seq_index, track.seq_repeat_done) := by
  simp only [advance_sequence, cursor_next, hseq, hcount, if_false]
  split_ifs <;> simp [update_track_tempo_cursor, hseq]

/-- The calls of `advance_sequence` made one after the other on the same track. -/
def advance_sequence_n (n : Nat) (engine : EngineState) (track : TrackRuntime) :
    EngineState × TrackRuntime :=
  Nat.iterate (fun s => advance_sequence s.1 s.2) n (engine, track)

/-- Whether the call of `advance_sequence` at the cursor `c = (seq_index, seq_repeat_done)`
moves to the next sequence step (the test of line 719). -/
def step_changes (seq : SequenceDef) (c : Int × Int) : Bool :=
  decide (c.2 + 1 ≥
    (match seq.steps.get? c.1.toNat with
      | some step => step.repeat_count
      | none => 0))

/-- The number of moves to the next sequence step among `n` calls of `advance_sequence`
from the cursor `c`. -/
def count_changes (seq : SequenceDef) : Nat → Int × Int → Nat
  | 0, _ => 0
  | n + 1, c => (if step_changes seq c then 1 else 0) + count_changes seq n (cursor_next seq c)

theorem advance_sequence_n_cursor (seq : SequenceDef) (hcount : seq.count ≠ 0) (n : Nat) :
    ∀ (engine : EngineState) (track : TrackRuntime), track.sequence = some seq →
    ((advance_sequence_n n engine track).2.seq_index,
      (advance_sequence_n n engine track).2.seq_repeat_done)
      = Nat.iterate (cursor_next seq) n (track.seq_index, track.seq_repeat_done) := by
  induction n with
  | zero => intro engine track _; rfl
  | succ n ih =>
    intro engine track hseq
    have h := advance_sequence_cursor engine track seq hseq hcount
    unfold advance_sequence_n at ih ⊢
    rw [Function.iterate_succ_apply, Function.iterate_succ_apply]
    rw [ih (advance_sequence engine track).1 (advance_sequence engine track).2 h.1, h.2]

/-- Within one sequence step: from `(i, d)` the cursor reaches the next step after the
remaining `repeat - d` cycles. -/
theorem cursor_next_finish_step (seq : SequenceDef) (i : Nat) (step : SequenceStep)
    (hstep : seq.steps.get? i = some step) (k : Nat) :
    ∀ d : Int, d + k + 1 = step.repeat_count →
      Nat.iterate (cursor_next seq) (k + 1) ((i : Int), d)
        = (Int.tmod ((i : Int) + 1) seq.count, 0) := by
  induction k with
  | zero =>
    intro d hd
    simp only [Nat.zero_add, Function.iterate_one]
    unfold cursor_next
    simp only [Int.toNat_ofNat, hstep]
    rw [if_pos (by simp at hd; omega)]
  | succ k ih =>
    intro d hd
    rw [Function.iterate_succ_apply]
    have hnext : cursor_next seq ((i : Int), d) = ((i : Int), d + 1) := by
      unfold cursor_next
      simp only [Int.toNat_ofNat, hstep]
      rw [if_neg (by push_cast at hd; omega)]
    rw [hnext]
    exact ih (d + 1) (by push_cast at hd ⊢; omega)

theorem repeat_sum_nonneg (l : List SequenceStep) (hl : ∀ s ∈ l, 1 ≤ s.repeat_count) :
    0 ≤ repeat_sum l := by
  induction l with
  | nil => simp [repeat_sum]
  | cons a l ihl =>
    simp only [repeat_sum, List.map_cons, List.sum_cons]
    have h1 := hl a (List.mem_cons_self a l)
    have h2 := ihl (fun s hs => hl s (List.mem_cons_of_mem a hs))
    unfold repeat_sum at h2
    omega

/-- After the cycles of the first `i` steps the cursor stands at the start of step `i`
(modulo `count`). -/
theorem cursor_next_prefix (seq : SequenceDef)
    (hrep : ∀ s ∈ seq.steps, 1 ≤ s.repeat_count) (i : Nat) (hi : i ≤ seq.count) :
    Nat.iterate (cursor_next seq) (repeat_sum (seq.steps.take i)).toNat ((0 : Int), (0 : Int))
      = (Int.tmod (i : Int) seq.count, 0) := by
  induction i with
  | zero => simp [repeat_sum]
  | succ i ih =>
    have hlt : i < seq.steps.length := hi
    have hget : seq.steps.get? i = some seq.steps[i] := by
      rw [List.get?_eq_getElem?]; exact List.getElem?_eq_getElem hlt
    have hr : 1 ≤ (seq.steps[i]).repeat_count := hrep _ (List.getElem_mem hlt)
    have hpre := repeat_sum_nonneg (seq.steps.take i)
      (fun s hs => hrep s (List.mem_of_mem_take hs))
    have htake : repeat_sum (seq.steps.take (i + 1))
        = repeat_sum (seq.steps.take i) + (seq.steps[i]).repeat_count := by
      unfold repeat_sum
      rw [List.map_take, List.map_take, List.sum_take_succ _ i (by simpa using hlt)]
      simp
    have hnat : (repeat_sum (seq.steps.take (i + 1))).toNat
        = ((seq.steps[i]).repeat_count.toNat - 1 + 1)
          + (repeat_sum (seq.steps.take i)).toNat := by
      rw [htake, Int.toNat_add hpre (by omega)]
      omega
    rw [hnat, Function.iterate_add_apply, ih (Nat.le_of_succ_le hi)]
    have hmod : Int.tmod (i : Int) seq.count = (i : Int) := by
      rw [Int.tmod_eq_emod (by omega) (by omega)]
      exact Int.emod_eq_of_lt (by omega) (by unfold SequenceDef.count; omega)
    rw [hmod]
    have := cursor_next_finish_step seq i seq.steps[i] hget
      ((seq.steps[i]).repeat_count.toNat - 1) 0 (by omega)
    simpa using this

/-- C1. For a sequence of `count ≥ 1` steps whose repeats are all at least 1, a track that
starts at the cursor `(seq_index, seq_repeat_done, seq_pos) = (0, 0, 0)` has
`(seq_index, seq_repeat_done) = (0, 0)` again after exactly `Σ steps[i].repeat` calls of
`advance_sequence`. -/
theorem advance_sequence_full_cycle (engine : EngineState) (track : TrackRuntime)
    (seq : SequenceDef) (hseq : track.sequence = some seq) (hcount : 1 ≤ seq.count)
    (hrep : ∀ s ∈ seq.steps, 1 ≤ s.repeat_count)
    (hstart : track.seq_index = 0 ∧ track.seq_repeat_done = 0 ∧ track.seq_pos = 0) :
    (advance_sequence_n (repeat_sum seq.steps).toNat engine track).2.seq_index = 0 ∧
    (advance_sequence_n (repeat_sum seq.steps).toNat engine track).2.seq_repeat_done = 0 := by
  have h := advance_sequence_n_cursor seq (by omega) (repeat_sum seq.steps).toNat
    engine track hseq
  have hp := cursor_next_prefix seq hrep seq.count (le_refl _)
  have htake : seq.steps.take seq.count = seq.steps := List.take_length seq.steps
  rw [htake] at hp
  rw [hstart.1, hstart.2.1, hp] at h
  have hz : Int.tmod (seq.count : Int) (seq.count : Int) = 0 := by
    rw [Int.tmod_eq_emod (by omega) (by omega)]
    exact Int.emod_self
  rw [hz] at h
  exact ⟨congrArg Prod.fst h, congrArg Prod.snd h⟩

/-! ### One step of a track inside its window -/

/-- Two engine and track states with the same program, section, pattern, sequence, cursor,
window and transforms: they differ at most in the step counter, the voices, the random
state, the stutter and ornament bookkeeping and the tempo fields. -/
structure SameSetup (e e1 : EngineState) (t t1 : TrackRuntime) : Prop where
  program : e1.program = e.program
  tempo_section : e1.tempo_section = e.tempo_section
  pattern : t1.pattern = t.pattern
  sequence : t1.sequence = t.sequence
  palindrome : t1.palindrome = t.palindrome
  rev : t1.rev = t.rev
  iter : t1.iter = t.iter
  chunk : t1.chunk = t.chunk
  every : t1.every = t.every
  seq_start : t1.seq_start = t.seq_start
  seq_end : t1.seq_end = t.seq_end
  seq_pos : t1.seq_pos = t.seq_pos
  seq_index : t1.seq_index = t.seq_index
  seq_repeat_done : t1.seq_repeat_done = t.seq_repeat_done

theorem SameSetup.refl (e : EngineState) (t : TrackRuntime) : SameSetup e e t t :=
  ⟨rfl, rfl, rfl, rfl, rfl, rfl, rfl, rfl, rfl, rfl, rfl, rfl, rfl, rfl⟩

theorem SameSetup.trans {e e1 e2 : EngineState} {t t1 t2 : TrackRuntime}
    (h1 : SameSetup e e1 t t1) (h2 : SameSetup e1 e2 t1 t2) : SameSetup e e2 t t2 :=
  ⟨h2.program.trans h1.program, h2.tempo_section.trans h1.tempo_section,
   h2.pattern.trans h1.pattern, h2.sequence.trans h1.sequence,
   h2.palindrome.trans h1.palindrome, h2.rev.trans h1.rev, h2.iter.trans h1.iter,
   h2.chunk.trans h1.chunk, h2.every.trans h1.every, h2.seq_start.trans h1.seq_start,
   h2.seq_end.trans h1.seq_end, h2.seq_pos.trans h1.seq_pos, h2.seq_index.trans h1.seq_index,
   h2.seq_repeat_done.trans h1.seq_repeat_done⟩

theorem schedule_ornament_same (e : EngineState) (t : TrackRuntime) (s : PatternStep) :
    SameSetup e (schedule_ornament e t s).1 t (schedule_ornament e t s).2.1 := by
  unfold schedule_ornament
  by_cases h1 : t.ornament_prob > 0 ∧ s.degree_valid ≠ 0
  · rw [if_pos h1]
    dsimp only
    by_cases h2 : rng_unit (xorshift32 t.rng) ≤ t.ornament_prob
    · rw [if_pos h2]
      exact ⟨rfl, rfl, rfl, rfl, rfl, rfl, rfl, rfl, rfl, rfl, rfl, rfl, rfl, rfl⟩
    · rw [if_neg h2]
      exact ⟨rfl, rfl, rfl, rfl, rfl, rfl, rfl, rfl, rfl, rfl, rfl, rfl, rfl, rfl⟩
  · rw [if_neg h1]
    exact SameSetup.refl e t

theorem set_stutter_same (e : EngineState) (t : TrackRuntime) (f : Freq) :
    SameSetup e e t (set_stutter t f) := by
  unfold set_stutter
  split <;> exact ⟨rfl, rfl, rfl, rfl, rfl, rfl, rfl, rfl, rfl, rfl, rfl, rfl, rfl, rfl⟩

theorem play_step_same (e : EngineState) (t : TrackRuntime) (s : PatternStep) :
    SameSetup e (play_step e t s).1 t (play_step e t s).2.1 := by
  unfold play_step
  split
  · have h0 : ∀ (vs : List Voice) (r : Nat),
        SameSetup e { e with voices := vs } t { t with rng := r } :=
      fun _ _ => ⟨rfl, rfl, rfl, rfl, rfl, rfl, rfl, rfl, rfl, rfl, rfl, rfl, rfl, rfl⟩
    exact SameSetup.trans (h0 _ _)
      (SameSetup.trans (schedule_ornament_same _ _ s) (set_stutter_same _ _ _))
  · exact SameSetup.refl e t

theorem play_step_step_index (e : EngineState) (t : TrackRuntime) (s : PatternStep) :
    (play_step e t s).2.1.step_index = t.step_index := by
  have ho : ∀ (e1 : EngineState) (t1 : TrackRuntime),
      (schedule_ornament e1 t1 s).2.1.step_index = t1.step_index := by
    intro e1 t1
    unfold schedule_ornament
    split
    · dsimp only
      split <;> rfl
    · rfl
  have hst : ∀ (t1 : TrackRuntime) (f : Freq), (set_stutter t1 f).step_index = t1.step_index := by
    intro t1 f
    unfold set_stutter
    split <;> rfl
  unfold play_step
  split
  · dsimp only
    rw [hst, ho]
  · rfl

theorem effective_pattern_length_same {e e1 : EngineState} (p : PatternDef)
    (hp : e1.program = e.program) (hs : e1.tempo_section = e.tempo_section) :
    effective_pattern_length e1 p = effective_pattern_length e p := by
  unfold effective_pattern_length meter_section
  rw [hp, hs]

theorem track_cycle_steps_same {e e1 : EngineState} {t t1 : TrackRuntime} (p : PatternDef)
    (h : SameSetup e e1 t t1) : track_cycle_steps e1 t1 p = track_cycle_steps e t p := by
  unfold track_cycle_steps
  rw [effective_pattern_length_same p h.program h.tempo_section, h.palindrome, h.iter]

theorem track_active_same {e e1 : EngineState} {t t1 : TrackRuntime}
    (h : SameSetup e e1 t t1) :
    track_active_for_sequence t1 = track_active_for_sequence t := by
  unfold track_active_for_sequence
  rw [h.sequence, h.seq_start, h.seq_end, h.seq_pos]

theorem default_seq_end_same (t : TrackRuntime) (seq : SequenceDef)
    (hw : ¬(t.seq_start > 0 ∧ t.seq_end < 0)) : default_seq_end t seq = t := by
  unfold default_seq_end
  rw [if_neg hw]

/-- Without an open window end, `sequence_current_pattern` leaves the track as it is. -/
theorem sequence_current_pattern_track (e : EngineState) (t : TrackRuntime)
    (hw : ¬(t.seq_start > 0 ∧ t.seq_end < 0)) : (sequence_current_pattern e t).1 = t := by
  unfold sequence_current_pattern
  cases t.sequence with
  | none => rfl
  | some seq =>
    dsimp only
    split
    · rfl
    · exact default_seq_end_same t seq hw

/-- The pattern `sequence_current_pattern` returns depends on the setup only. -/
theorem sequence_current_pattern_same {e e1 : EngineState} {t t1 : TrackRuntime}
    (h : SameSetup e e1 t t1) (hw : ¬(t.seq_start > 0 ∧ t.seq_end < 0)) :
    (sequence_current_pattern e1 t1).2 = (sequence_current_pattern e t).2 := by
  have hw1 : ¬(t1.seq_start > 0 ∧ t1.seq_end < 0) := by rw [h.seq_start, h.seq_end]; exact hw
  unfold sequence_current_pattern
  rw [h.sequence, h.pattern]
  cases t.sequence with
  | none => rfl
  | some seq =>
    dsimp only
    split
    · rfl
    · rw [default_seq_end_same t seq hw, default_seq_end_same t1 seq hw1]
      unfold current_step_pattern
      rw [h.seq_start, h.seq_pos, h.seq_end, h.seq_index, h.program]


/-- A track inside its `only` window (or without one) whose current pattern is `pat`, and
whose window end is not left to be defaulted. -/
structure Steady (e : EngineState) (t : TrackRuntime) (pat : PatternDef) : Prop where
  active : track_active_for_sequence t = true
  current : (sequence_current_pattern e t).2 = some pat
  fixed : (sequence_current_pattern e t).1 = t

theorem default_seq_end_fixed (t : TrackRuntime) (seq : SequenceDef)
    (h : default_seq_end t seq = t) : ¬(t.seq_start > 0 ∧ t.seq_end < 0) := by
  intro hw
  unfold default_seq_end at h
  rw [if_pos hw] at h
  have h2 : (seq.count : Int) = t.seq_end := congrArg TrackRuntime.seq_end h
  omega

theorem Steady.same {e e1 : EngineState} {t t1 : TrackRuntime} {pat : PatternDef}
    (h : SameSetup e e1 t t1) (hs : Steady e t pat) : Steady e1 t1 pat := by
  refine ⟨(track_active_same h).trans hs.active, ?_, ?_⟩
  · rw [← hs.current]
    have hfix := hs.fixed
    unfold sequence_current_pattern at hfix ⊢
    rw [h.sequence, h.pattern]
    cases hseq : t.sequence with
    | none => rfl
    | some seq =>
      rw [hseq] at hfix
      dsimp only at hfix ⊢
      split
      · rfl
      · rename_i hc
        rw [if_neg hc] at hfix
        have hw := default_seq_end_fixed t seq hfix
        have hw1 : ¬(t1.seq_start > 0 ∧ t1.seq_end < 0) := by
          rw [h.seq_start, h.seq_end]; exact hw
        rw [default_seq_end_same t seq hw, default_seq_end_same t1 seq hw1]
        unfold current_step_pattern
        rw [h.seq_start, h.seq_pos, h.seq_end, h.seq_index, h.program]
  · have hfix := hs.fixed
    unfold sequence_current_pattern at hfix ⊢
    rw [h.sequence]
    cases hseq : t.sequence with
    | none => rfl
    | some seq =>
      rw [hseq] at hfix
      dsimp only at hfix ⊢
      split
      · rfl
      · rename_i hc
        rw [if_neg hc] at hfix
        have hw := default_seq_end_fixed t seq hfix
        have hw1 : ¬(t1.seq_start > 0 ∧ t1.seq_end < 0) := by
          rw [h.seq_start, h.seq_end]; exact hw
        exact default_seq_end_same t1 seq hw1

theorem sequence_current_pattern_some (e : EngineState) (u : TrackRuntime) (seq : SequenceDef)
    (hseq : u.sequence = some seq) (hc : seq.count ≠ 0) :
    sequence_current_pattern e u
      = (default_seq_end u seq, current_step_pattern e (default_seq_end u seq) seq) := by
  unfold sequence_current_pattern
  rw [hseq]
  dsimp only
  rw [if_neg hc]

/-- What `sequence_current_pattern` returns for a track whose window end is open: the
track with `seq_end = count`, on which a second call changes nothing. -/
theorem sequence_current_pattern_open (e : EngineState) (t : TrackRuntime) (seq : SequenceDef)
    (hseq : t.sequence = some seq) (hc : seq.count ≠ 0)
    (hw : t.seq_start > 0 ∧ t.seq_end < 0) :
    sequence_current_pattern e t
      = ({ t with seq_end := seq.count },
          current_step_pattern e { t with seq_end := seq.count } seq) ∧
    sequence_current_pattern e { t with seq_end := seq.count }
      = ({ t with seq_end := seq.count },
          current_step_pattern e { t with seq_end := seq.count } seq) := by
  have hd : default_seq_end t seq = { t with seq_end := seq.count } := by
    unfold default_seq_end
    rw [if_pos hw]
  have hd1 : default_seq_end { t with seq_end := seq.count } seq
      = { t with seq_end := seq.count } :=
    default_seq_end_same _ seq (by dsimp only; omega)
  constructor
  · rw [sequence_current_pattern_some e t seq hseq hc, hd]
  · rw [sequence_current_pattern_some e { t with seq_end := seq.count } seq hseq hc, hd1]

/-- The track `sequence_current_pattern` returns is the track given, or the track given
with its open window end set. -/
theorem sequence_current_pattern_cases (e : EngineState) (t : TrackRuntime) :
    (sequence_current_pattern e t).1 = t ∨
    ∃ seq, t.sequence = some seq ∧ seq.count ≠ 0 ∧ (t.seq_start > 0 ∧ t.seq_end < 0) := by
  by_cases hw : t.seq_start > 0 ∧ t.seq_end < 0
  · cases hseq : t.sequence with
    | none =>
      left
      unfold sequence_current_pattern
      rw [hseq]
    | some seq =>
      by_cases hc : seq.count = 0
      · left
        unfold sequence_current_pattern
        rw [hseq]
        dsimp only
        rw [if_pos hc]
      · exact Or.inr ⟨seq, rfl, hc, hw⟩
  · exact Or.inl (sequence_current_pattern_track e t hw)

theorem schedule_track_step_of_lookup (e : EngineState) (t u : TrackRuntime)
    (p : Option PatternDef) (h1 : sequence_current_pattern e t = (u, p))
    (h2 : sequence_current_pattern e u = (u, p))
    (ha : track_active_for_sequence t = true) (hu : track_active_for_sequence u = true) :
    schedule_track_step e u = schedule_track_step e t := by
  unfold schedule_track_step
  rw [ha, hu, h1, h2]
  simp only [Bool.not_true, Bool.false_eq_true, if_false]

theorem track_active_of_window (u : TrackRuntime) (seq : SequenceDef)
    (hseq : u.sequence = some seq)
    (hwin : ¬(u.seq_start > 0 ∧ (u.seq_pos < u.seq_start - 1 ∨ u.seq_pos > u.seq_end - 1))) :
    track_active_for_sequence u = true := by
  unfold track_active_for_sequence
  rw [hseq]
  dsimp only
  split
  · rfl
  · split
    · rfl
    · split
      · rfl
      · simp only [decide_eq_true_eq]
        omega

theorem current_step_pattern_window (e : EngineState) (u : TrackRuntime) (seq : SequenceDef)
    (pat : PatternDef) (h : current_step_pattern e u seq = some pat) :
    ¬(u.seq_start > 0 ∧ (u.seq_pos < u.seq_start - 1 ∨ u.seq_pos > u.seq_end - 1)) := by
  intro hcon
  unfold current_step_pattern at h
  rw [if_pos hcon] at h
  exact Option.noConfusion h

/-- After its first call `sequence_current_pattern` has nothing left to write: the track it
returns is steady, keeps the transforms and the step counter, and `schedule_track_step` does
on it what it does on the track given. -/
theorem steady_after_lookup (e : EngineState) (t : TrackRuntime) (pat : PatternDef)
    (hactive : track_active_for_sequence t = true)
    (hcur : (sequence_current_pattern e t).2 = some pat) :
    Steady e (sequence_current_pattern e t).1 pat ∧
    schedule_track_step e (sequence_current_pattern e t).1 = schedule_track_step e t ∧
    (sequence_current_pattern e t).1.palindrome = t.palindrome ∧
    (sequence_current_pattern e t).1.rev = t.rev ∧
    (sequence_current_pattern e t).1.iter = t.iter ∧
    (sequence_current_pattern e t).1.chunk = t.chunk ∧
    (sequence_current_pattern e t).1.step_index = t.step_index := by
  rcases sequence_current_pattern_cases e t with h | ⟨seq, hseq, hc, hw⟩
  · rw [h]
    exact ⟨⟨hactive, hcur, h⟩, rfl, rfl, rfl, rfl, rfl, rfl⟩
  · obtain ⟨h1, h2⟩ := sequence_current_pattern_open e t seq hseq hc hw
    rw [h1] at hcur
    have hact : track_active_for_sequence { t with seq_end := seq.count } = true :=
      track_active_of_window _ seq hseq (current_step_pattern_window e _ seq pat hcur)
    have hstep := schedule_track_step_of_lookup e t _ _ h1 h2 hactive hact
    rw [h1]
    exact ⟨⟨hact, by rw [h2]; exact hcur, by rw [h2]⟩, hstep, rfl, rfl, rfl, rfl, rfl⟩

/-- The step of a track inside its window, when the chunk gate lets it through: the index
is the one of `step_pattern_index`, and the step ends in `finish_step` on a state with the
same setup and step counter. -/
theorem schedule_track_step_steady (e : EngineState) (t : TrackRuntime) (pat : PatternDef)
    (hs : Steady e t pat) (hlen : pat.length ≠ 0) (heff : 0 < effective_pattern_length e pat)
    (hchunk : chunk_skips t (effective_pattern_length e pat)
      (step_pattern_index t (effective_pattern_length e pat)) = false) :
    (schedule_track_step e t).idx
        = some (step_pattern_index t (effective_pattern_length e pat)) ∧
    ∃ e1 t1, SameSetup e e1 t t1 ∧ t1.step_index = t.step_index ∧
      ((schedule_track_step e t).engine, (schedule_track_step e t).track)
        = finish_step e1 t1 pat := by
  unfold schedule_track_step
  rw [hs.active]
  simp only [Bool.not_true, Bool.false_eq_true, if_false]
  rw [hs.current]
  dsimp only
  rw [hs.fixed, if_neg (by omega), hchunk]
  simp only [Bool.false_eq_true, if_false, true_and]
  have hg : SameSetup e e t { t with rng := (step_gate t).1 } :=
    ⟨rfl, rfl, rfl, rfl, rfl, rfl, rfl, rfl, rfl, rfl, rfl, rfl, rfl, rfl⟩
  split
  · split
    · exact ⟨_, _, SameSetup.trans hg (play_step_same _ _ _), play_step_step_index _ _ _, rfl⟩
    · exact ⟨_, _, hg, rfl, rfl⟩
  · exact ⟨_, _, hg, rfl, rfl⟩

theorem Steady.set_step_index {e : EngineState} {t : TrackRuntime} {pat : PatternDef}
    (hs : Steady e t pat) (k : Int) : Steady e { t with step_index := k } pat :=
  Steady.same
    (show SameSetup e e t { t with step_index := k } from
      ⟨rfl, rfl, rfl, rfl, rfl, rfl, rfl, rfl, rfl, rfl, rfl, rfl, rfl, rfl⟩) hs

/-- The calls of `schedule_track_step` made one after the other on the same track: the
pattern indices they select, and the engine and track they leave. -/
def run_steps : Nat → EngineState → TrackRuntime → List (Option Int) × EngineState × TrackRuntime
  | 0, e, t => ([], e, t)
  | n + 1, e, t =>
    ((schedule_track_step e t).idx ::
        (run_steps n (schedule_track_step e t).engine (schedule_track_step e t).track).1,
      (run_steps n (schedule_track_step e t).engine (schedule_track_step e t).track).2)

/-- The index of step `s` of a palindrome cycle over a pattern of length `L`. -/
def palindrome_index (L s : Int) : Int := if s < L then s else 2 * L - 2 - s

theorem step_pattern_index_palindrome (t : TrackRuntime) (L : Int) (hL : 1 < L)
    (hpal : t.palindrome ≠ 0) (hrev : t.rev = 0) (hiter : t.iter = 1)
    (h0 : 0 ≤ t.step_index) (h1 : t.step_index < 2 * L - 2) :
    step_pattern_index t L = palindrome_index L t.step_index := by
  have hmod : Int.tmod t.step_index (L * 2 - 2) = t.step_index := by
    rw [Int.tmod_eq_emod h0 (by omega)]
    exact Int.emod_eq_of_lt h0 (by omega)
  have hi : ¬ (t.iter > 1) := by omega
  have hr : ¬ (t.rev ≠ 0) := by simp [hrev]
  have hp : t.palindrome ≠ 0 ∧ L > 1 := ⟨hpal, hL⟩
  unfold step_pattern_index palindrome_index
  simp only [if_neg hi, if_neg hr, if_pos hp, hmod]
  by_cases h : t.step_index < L
  · rw [if_neg (by omega), if_pos h]
  · rw [if_pos (by omega), if_neg h]; ring

theorem track_cycle_steps_palindrome (e : EngineState) (t : TrackRuntime) (pat : PatternDef)
    (hL : 1 < effective_pattern_length e pat)
    (hpal : t.palindrome ≠ 0) (hiter : t.iter = 1) :
    track_cycle_steps e t pat = 2 * effective_pattern_length e pat - 2 := by
  have hi : ¬ (t.iter > 1) := by omega
  have hp : t.palindrome ≠ 0 ∧ effective_pattern_length e pat > 1 := ⟨hpal, hL⟩
  unfold track_cycle_steps
  simp only [if_neg hi, if_pos hp]
  ring

theorem chunk_skips_zero (t : TrackRuntime) (L idx : Int) (h : t.chunk = 0) :
    chunk_skips t L idx = false := by
  unfold chunk_skips
  rw [if_neg (by omega)]

theorem advance_sequence_step_index (e : EngineState) (t : TrackRuntime) :
    (advance_sequence e t).2.step_index = t.step_index := by
  have hu : ∀ (e1 : EngineState) (t1 : TrackRuntime),
      (update_track_tempo e1 t1).step_index = t1.step_index := by
    intro e1 t1
    simp only [update_track_tempo]
    split_ifs <;> rfl
  unfold advance_sequence
  cases t.sequence with
  | none => rfl
  | some seq =>
    dsimp only
    split
    · rfl
    · split
      · split
        · exact hu _ _
        · exact hu _ _
      · rfl


theorem run_steps_palindrome (pat : PatternDef) (L : Int) (hL : 1 < L) (hlen : pat.length ≠ 0)
    (n : Nat) :
    ∀ (e : EngineState) (t : TrackRuntime), Steady e t pat →
      effective_pattern_length e pat = L → t.palindrome ≠ 0 → t.rev = 0 → t.iter = 1 →
      t.chunk = 0 → t.step_index = 2 * L - 2 - ((n : Int) + 1) → (n : Int) + 1 ≤ 2 * L - 2 →
      (run_steps (n + 1) e t).1
          = (List.range (n + 1)).map
              (fun (j : Nat) =>
                some (palindrome_index L (2 * L - 2 - ((n : Int) + 1) + (j : Int)))) ∧
      (run_steps (n + 1) e t).2.2.step_index = 0 := by
  induction n with
  | zero =>
    intro e t hs heff hpal hrev hiter hchunk hstep hn
    have hstep' : t.step_index = 2 * L - 3 := by rw [hstep]; ring
    have hidx := step_pattern_index_palindrome t L hL hpal hrev hiter (by omega) (by omega)
    obtain ⟨h1, e1, t1, hsame, hsi, h2⟩ := schedule_track_step_steady e t pat hs hlen
      (by rw [heff]; omega) (chunk_skips_zero _ _ _ hchunk)
    rw [heff, hidx] at h1
    have hcyc : track_cycle_steps e1 t1 pat = 2 * L - 2 := by
      rw [track_cycle_steps_same pat hsame,
        track_cycle_steps_palindrome e t pat (by rw [heff]; exact hL) hpal hiter, heff]
    have hfin : (finish_step e1 t1 pat).2.step_index = 0 := by
      unfold finish_step
      dsimp only
      rw [hcyc, if_pos ⟨by omega, by omega⟩]
      split
      · rw [advance_sequence_step_index]
      · rfl
    refine ⟨?_, ?_⟩
    · have ha : (2 * L - 2 - ((0 : Nat) + 1 : Int) + ((0 : Nat) : Int)) = 2 * L - 3 := by
        push_cast; ring
      simp only [run_steps, h1, hstep']
      have hr1 : List.range (0 + 1) = [0] := rfl
      rw [hr1, List.map_singleton, ha]
    · simp only [run_steps]
      rw [← hfin, ← h2]
  | succ n ih =>
    intro e t hs heff hpal hrev hiter hchunk hstep hn
    push_cast at hstep hn
    have hidx := step_pattern_index_palindrome t L hL hpal hrev hiter (by omega) (by omega)
    obtain ⟨h1, e1, t1, hsame, hsi, h2⟩ := schedule_track_step_steady e t pat hs hlen
      (by rw [heff]; omega) (chunk_skips_zero _ _ _ hchunk)
    rw [heff, hidx] at h1
    have hcyc : track_cycle_steps e1 t1 pat = 2 * L - 2 := by
      rw [track_cycle_steps_same pat hsame,
        track_cycle_steps_palindrome e t pat (by rw [heff]; exact hL) hpal hiter, heff]
    have hfin : finish_step e1 t1 pat = (e1, { t1 with step_index := t1.step_index + 1 }) := by
      unfold finish_step
      dsimp only
      rw [hcyc, if_neg (by omega)]
    rw [hfin] at h2
    have he : (schedule_track_step e t).engine = e1 := congrArg Prod.fst h2
    have ht : (schedule_track_step e t).track = { t1 with step_index := t1.step_index + 1 } :=
      congrArg Prod.snd h2
    have hs1 : Steady e1 { t1 with step_index := t1.step_index + 1 } pat :=
      (Steady.same hsame hs).set_step_index _
    have key := ih e1 { t1 with step_index := t1.step_index + 1 } hs1
      (by rw [effective_pattern_length_same pat hsame.program hsame.tempo_section, heff])
      (by show t1.palindrome ≠ 0; rw [hsame.palindrome]; exact hpal)
      (by show t1.rev = 0; rw [hsame.rev]; exact hrev)
      (by show t1.iter = 1; rw [hsame.iter]; exact hiter)
      (by show t1.chunk = 0; rw [hsame.chunk]; exact hchunk)
      (by show t1.step_index + 1 = _; rw [hsi, hstep]; ring)
      (by omega)
    have hrun : run_steps (n + 1 + 1) e t
        = ((schedule_track_step e t).idx ::
            (run_steps (n + 1) (schedule_track_step e t).engine (schedule_track_step e t).track).1,
          (run_steps (n + 1) (schedule_track_step e t).engine (schedule_track_step e t).track).2) := rfl
    rw [hrun, he, ht]
    refine ⟨?_, key.2⟩
    dsimp only
    rw [key.1, h1, hstep, List.range_succ_eq_map (n + 1), List.map_cons, List.map_map]
    congr 1
    · push_cast; congr 2; ring
    · apply List.map_congr_left
      intro j _
      simp only [Function.comp]
      push_cast
      congr 2
      ring

theorem effective_pattern_length_empty (e : EngineState) (pat : PatternDef)
    (h : pat.length = 0) : effective_pattern_length e pat = 0 := by
  unfold effective_pattern_length
  simp [h]

/-- The palindrome indices of the steps `0 .. 2L-3`, written as the way up followed by the
way down. -/
theorem palindrome_index_range (L : Nat) (hL : 1 < L) :
    (List.range (2 * L - 2)).map (fun (j : Nat) => some (palindrome_index (L : Int) (j : Int)))
      = (List.range L).map (fun (j : Nat) => some (j : Int))
        ++ (List.range (L - 2)).map (fun (j : Nat) => some ((L : Int) - 2 - (j : Int))) := by
  have hsplit : 2 * L - 2 = L + (L - 2) := by omega
  rw [hsplit, List.range_add, List.map_append, List.map_map]
  congr 1
  · apply List.map_congr_left
    intro j hj
    have hj' : j < L := List.mem_range.mp hj
    unfold palindrome_index
    rw [if_pos (by exact_mod_cast hj')]
  · apply List.map_congr_left
    intro j hj
    have hj' : j < L - 2 := List.mem_range.mp hj
    simp only [Function.comp]
    unfold palindrome_index
    rw [if_neg (by push_cast; omega)]
    congr 1
    push_cast
    omega

/-- C3. For a track inside its window with palindrome on, rev off, iter 1 and chunk 0, and
a current pattern of effective length `L > 1`, the pattern indices selected by the
`2L - 2` calls of `schedule_track_step` that follow `step_index = 0` are
`0, 1, ..., L-1, L-2, ..., 1`, and `step_index` is 0 again after them. It holds whatever
`every` and `density` are: they gate the note, not the index. -/
theorem palindrome_cycle_order (e : EngineState) (t : TrackRuntime) (pat : PatternDef)
    (L : Nat) (hactive : track_active_for_sequence t = true)
    (hcur : (sequence_current_pattern e t).2 = some pat)
    (hL : effective_pattern_length e pat = (L : Int)) (hL1 : 1 < L)
    (hpal : t.palindrome ≠ 0) (hrev : t.rev = 0) (hiter : t.iter = 1) (hchunk : t.chunk = 0)
    (hstart : t.step_index = 0) :
    (run_steps (2 * L - 2) e t).1
      = (List.range L).map (fun (j : Nat) => some (j : Int))
        ++ (List.range (L - 2)).map (fun (j : Nat) => some ((L : Int) - 2 - (j : Int))) ∧
    (run_steps (2 * L - 2) e t).2.2.step_index = 0 := by
  obtain ⟨hs, hstep, hp, hr, hi, hc, hsi⟩ := steady_after_lookup e t pat hactive hcur
  have hlen : pat.length ≠ 0 := by
    intro h0
    rw [effective_pattern_length_empty e pat h0] at hL
    omega
  have hn : 2 * L - 2 = (2 * L - 3) + 1 := by omega
  have hrun : run_steps (2 * L - 2) e t
      = run_steps (2 * L - 2) e (sequence_current_pattern e t).1 := by
    rw [hn]
    show (_, _) = (_, _)
    rw [hstep]
  have hcast : ((2 * L - 3 : Nat) : Int) + 1 = 2 * (L : Int) - 2 := by omega
  have key := run_steps_palindrome pat (L : Int) (by exact_mod_cast hL1) hlen (2 * L - 3)
    e (sequence_current_pattern e t).1 hs hL (by rw [hp]; exact hpal) (by rw [hr]; exact hrev)
    (by rw [hi]; exact hiter) (by rw [hc]; exact hchunk)
    (by rw [hsi, hstart, hcast]; ring) (by rw [hcast])
  rw [hrun, hn]
  refine ⟨?_, key.2⟩
  rw [key.1, ← hn, ← palindrome_index_range L hL1]
  apply List.map_congr_left
  intro j _
  rw [hcast]
  congr 2
  ring

/-! ### Examples of the sequencer theorems -/

/-- C1 at the sequence `(a*2 b)`: the three cycles `a, a, b` bring the cursor back. -/
theorem advance_sequence_full_cycle_witness :
    ((first_track (loaded_engine example_sequence_script)).sequence
        = some (first_sequence (loaded_engine example_sequence_script)) ∧
      1 ≤ (first_sequence (loaded_engine example_sequence_script)).count ∧
      (∀ s ∈ (first_sequence (loaded_engine example_sequence_script)).steps,
        1 ≤ s.repeat_count) ∧
      repeat_sum (first_sequence (loaded_engine example_sequence_script)).steps = 3) ∧
    (advance_sequence_n 3 (loaded_engine example_sequence_script)
        (first_track (loaded_engine example_sequence_script))).2.seq_index = 0 ∧
    (advance_sequence_n 3 (loaded_engine example_sequence_script)
        (first_track (loaded_engine example_sequence_script))).2.seq_repeat_done = 0 :=
  ⟨⟨by decide!, by decide!, by decide!, by decide!⟩, by
    have h := advance_sequence_full_cycle (loaded_engine example_sequence_script)
      (first_track (loaded_engine example_sequence_script))
      (first_sequence (loaded_engine example_sequence_script))
      (by decide!) (by decide!) (by decide!) (by decide!)
    rw [show repeat_sum (first_sequence (loaded_engine example_sequence_script)).steps = 3
      from by decide!] at h
    exact h⟩

/-- C2 at a pattern padded to 16 steps in a section of meter 3/8: the effective length is
18, the least multiple of `3 * (16 / 8) = 6` from 16 on. -/
theorem effective_pattern_length_spec_witness :
    (0 < (first_pattern (loaded_engine example_meter_script)).length ∧
      (loaded_engine example_meter_script).program.time_sig_num_map.getD
        (meter_section (loaded_engine example_meter_script)).toNat 0 = 3 ∧
      (loaded_engine example_meter_script).program.time_sig_den_map.getD
        (meter_section (loaded_engine example_meter_script)).toNat 0 = 8 ∧
      (first_pattern (loaded_engine example_meter_script)).length = 16 ∧
      effective_pattern_length (loaded_engine example_meter_script)
        (first_pattern (loaded_engine example_meter_script)) = 18) ∧
    ((loaded_engine example_meter_script).program.time_sig_enforce ≠ 0 ∧ (16 : Int) % 8 = 0 →
        ((first_pattern (loaded_engine example_meter_script)).length : Int)
          ≤ effective_pattern_length (loaded_engine example_meter_script)
              (first_pattern (loaded_engine example_meter_script)) ∧
        (3 : Int) * (16 / 8) ∣ effective_pattern_length (loaded_engine example_meter_script)
            (first_pattern (loaded_engine example_meter_script)) ∧
        ∀ m : Int, (3 : Int) * (16 / 8) ∣ m →
          ((first_pattern (loaded_engine example_meter_script)).length : Int) ≤ m →
          effective_pattern_length (loaded_engine example_meter_script)
            (first_pattern (loaded_engine example_meter_script)) ≤ m) ∧
    ((loaded_engine example_meter_script).program.time_sig_enforce = 0 ∨ (16 : Int) % 8 ≠ 0 →
        effective_pattern_length (loaded_engine example_meter_script)
            (first_pattern (loaded_engine example_meter_script))
          = (first_pattern (loaded_engine example_meter_script)).length) :=
  ⟨⟨by decide!, by decide!, by decide!, by decide!, by decide!⟩,
    effective_pattern_length_spec (loaded_engine example_meter_script)
      (first_pattern (loaded_engine example_meter_script)) 3 8
      (by decide!) (by decide!) (by decide!) (by decide) (by decide)⟩

/-- C3 at the pattern `[60,62,64,65]` of length 4: the cycle order is `[0,1,2,3,2,1]`. -/
theorem palindrome_cycle_order_witness :
    (track_active_for_sequence (first_track (loaded_engine example_palindrome_script)) = true ∧
      (sequence_current_pattern (loaded_engine example_palindrome_script)
          (first_track (loaded_engine example_palindrome_script))).2
        = some (first_pattern (loaded_engine example_palindrome_script)) ∧
      (first_pattern (loaded_engine example_palindrome_script)).notes = [60, 62, 64, 65] ∧
      effective_pattern_length (loaded_engine example_palindrome_script)
          (first_pattern (loaded_engine example_palindrome_script)) = 4) ∧
    (run_steps 6 (loaded_engine example_palindrome_script)
        (first_track (loaded_engine example_palindrome_script))).1
      = [some 0, some 1, some 2, some 3, some 2, some 1] ∧
    (run_steps 6 (loaded_engine example_palindrome_script)
        (first_track (loaded_engine example_palindrome_script))).2.2.step_index = 0 :=
  ⟨⟨by decide!, by decide!, by decide!, by decide!⟩,
    palindrome_cycle_order (loaded_engine example_palindrome_script)
      (first_track (loaded_engine example_palindrome_script))
      (first_pattern (loaded_engine example_palindrome_script)) 4
      (by decide!) (by decide!) (by decide!) (by decide) (by decide!) (by decide!) (by decide!)
      (by decide!) (by decide!)⟩

/-- A call of `schedule_track_step` on a sequence track outside its `only` window changes
nothing: `sequence_current_pattern` returns `NULL` there, so lines 775-784 are never
reached. -/
theorem schedule_track_step_outside_window (e : EngineState) (t : TrackRuntime)
    (h : track_active_for_sequence t = false) :
    schedule_track_step e t = ⟨e, t, none, []⟩ := by
  unfold track_active_for_sequence at h
  cases hseq : t.sequence with
  | none => rw [hseq] at h; exact Bool.noConfusion h
  | some seq =>
    rw [hseq] at h
    dsimp only at h
    by_cases hc : seq.count = 0
    · rw [if_pos hc] at h; exact Bool.noConfusion h
    · rw [if_neg hc] at h
      by_cases h1 : t.seq_start ≤ 0
      · rw [if_pos h1] at h; exact Bool.noConfusion h
      · rw [if_neg h1] at h
        by_cases h2 : t.seq_end < 0
        · rw [if_pos h2] at h; exact Bool.noConfusion h
        · rw [if_neg h2] at h
          have hout : ¬(t.seq_pos ≥ t.seq_start - 1 ∧ t.seq_pos ≤ t.seq_end - 1) := by
            simpa using h
          have hact : track_active_for_sequence t = false := by
            unfold track_active_for_sequence
            rw [hseq]
            dsimp only
            rw [if_neg hc, if_neg h1, if_neg h2]
            simpa using hout
          have hd : default_seq_end t seq = t := default_seq_end_same t seq (by omega)
          have hcur : current_step_pattern e t seq = none := by
            unfold current_step_pattern
            rw [if_pos ⟨by omega, by omega⟩]
          have hscp : sequence_current_pattern e t = (t, none) := by
            rw [sequence_current_pattern_some e t seq hseq hc, hd, hcur]
          unfold schedule_track_step
          rw [hact]
          simp only [Bool.not_false, if_true]
          unfold schedule_inactive
          rw [hseq]
          dsimp only
          rw [if_pos (by omega), hscp]

/-- C4, the code at `only 2-3` on a sequence of four two-step patterns: the track starts at
`seq_pos = 0`, outside its window, and eight calls of `schedule_track_step` select no index,
make no note-on and leave `step_index`, `seq_index` and `seq_pos` at 0. The step counter is
not incremented and the sequence cursor never reaches the window. -/
theorem only_window_track_frozen :
    observe_steps 8 (loaded_engine example_only_script)
        (first_track (loaded_engine example_only_script))
      = (List.replicate 8 (none, 0), 0, 0, 0) ∧
    (first_track (loaded_engine example_only_script)).seq_start = 2 ∧
    (first_track (loaded_engine example_only_script)).seq_end = 3 ∧
    track_cycle_steps (loaded_engine example_only_script)
      (first_track (loaded_engine example_only_script))
      (first_pattern (loaded_engine example_only_script)) = 2 := by
  refine ⟨?_, ?_, ?_, ?_⟩ <;> decide!

/-! ## Theorems: the score compiler -/

theorem takeWhile_replicate_append {p : Char → Bool} {a : Char} (ha : p a = true) (k : Nat)
    (l : CStr) :
    (List.replicate k a ++ l).takeWhile p = List.replicate k a ++ l.takeWhile p := by
  induction k with
  | zero => rfl
  | succ k ih => simp [List.replicate_succ, List.takeWhile_cons, ha, ih]

theorem dropWhile_replicate_append {p : Char → Bool} {a : Char} (ha : p a = true) (k : Nat)
    (l : CStr) :
    (List.replicate k a ++ l).dropWhile p = l.dropWhile p := by
  induction k with
  | zero => rfl
  | succ k ih => simp [List.replicate_succ, List.dropWhile_cons, ha, ih]

/-- `parse_degree_token_info` on a degree token. -/
theorem parse_degree_token_info_degree (d k : Nat) (m : Int) (root_midi : ℚ)
    (maqam_offsets : List ℚ) (hd : 1 ≤ d ∧ d ≤ 7) (hm : m = 0 ∨ m = 1 ∨ m = -1) :
    parse_degree_token_info (degree_token d k m) root_midi maqam_offsets
      = some { midi := root_midi + ((12 * (k : Int) : Int) : ℚ)
                 + (maqam_offsets.getD (d - 1) 0 + 50 * (m : ℚ)) / 100,
               degree := d, octave := k, micro := m } := by
  obtain ⟨hd1, hd7⟩ := hd
  have hap : (fun x => x == ch_apostrophe) ch_apostrophe = true := by decide
  interval_cases d <;> rcases hm with rfl | rfl | rfl <;>
    simp [degree_token, parse_degree_token_info, cstr, takeWhile_replicate_append hap,
      dropWhile_replicate_append hap, ch_apostrophe] <;> ring_nf

theorem char_not_mem_degree_token (ch : Char) (d k : Nat) (m : Int) (hd : 1 ≤ d ∧ d ≤ 7)
    (hch : ch = '!' ∨ ch = '~') :
    (degree_token d k m).dropWhile (fun x => x != ch) = [] := by
  obtain ⟨hd1, hd7⟩ := hd
  rw [List.dropWhile_eq_nil_iff]
  intro x hx
  unfold degree_token at hx
  simp only [List.mem_cons, List.mem_append, List.mem_replicate] at hx
  rcases hch with rfl | rfl
  · rcases hx with rfl | ⟨_, rfl⟩ | hx
    · interval_cases d <;> decide
    · decide
    · split_ifs at hx <;> simp at hx <;> subst hx <;> decide
  · rcases hx with rfl | ⟨_, rfl⟩ | hx
    · interval_cases d <;> decide
    · decide
    · split_ifs at hx <;> simp at hx <;> subst hx <;> decide

/-- `split_token_slide` leaves a degree token that fits the buffer as it is. -/
theorem split_token_slide_degree (d k : Nat) (m : Int) (hd : 1 ≤ d ∧ d ≤ 7)
    (hfit : (degree_token d k m).length ≤ 31) :
    split_token_slide (degree_token d k m) 32
      = { base := degree_token d k m, slide_ms := -1, accent := 0 } := by
  have h1 : after_char '!' (degree_token d k m) = none := by
    unfold after_char
    rw [char_not_mem_degree_token '!' d k m hd (Or.inl rfl)]
  have h2 : after_char '~' (degree_token d k m) = none := by
    unfold after_char
    rw [char_not_mem_degree_token '~' d k m hd (Or.inr rfl)]
  unfold split_token_slide
  simp only [h1, h2, Option.isSome_none, Bool.false_eq_true, if_false, false_and]
  rw [if_neg (by omega), List.take_length]

/-- The step `parse_pattern` stores for a degree token that fits the token buffer. -/
theorem parse_pattern_token_degree (program : Program) (d k : Nat) (m : Int)
    (hd : 1 ≤ d ∧ d ≤ 7) (hm : m = 0 ∨ m = 1 ∨ m = -1)
    (hfit : (degree_token d k m).length ≤ 31) :
    parse_pattern_token program (degree_token d k m)
      = .ok { note := ⌊program.root_midi + ((12 * (k : Int) : Int) : ℚ)
                  + (program.maqam_offsets.getD (d - 1) 0 + 50 * (m : ℚ)) / 100⌋,
              cents := (program.root_midi + ((12 * (k : Int) : Int) : ℚ)
                  + (program.maqam_offsets.getD (d - 1) 0 + 50 * (m : ℚ)) / 100
                - (⌊program.root_midi + ((12 * (k : Int) : Int) : ℚ)
                  + (program.maqam_offsets.getD (d - 1) 0 + 50 * (m : ℚ)) / 100⌋ : ℚ)) * 100,
              degree := d, degree_octave := k, degree_micro := m, degree_valid := 1,
              slide_ms := -1, accent := 0 } := by
  have hne : ¬(degree_token d k m = cstr "." ∨ degree_token d k m = cstr "-") := by
    obtain ⟨hd1, hd7⟩ := hd
    interval_cases d <;> simp [degree_token, cstr]
  unfold parse_pattern_token
  simp only [split_token_slide_degree d k m hd hfit, if_neg hne,
    parse_degree_token_info_degree d k m program.root_midi program.maqam_offsets hd hm]
  rfl

/-- The token loop of `parse_pattern` appends one step per token, the step of that token. -/
theorem parse_pattern_loop_steps (program : Program) (toks : List CStr) :
    ∀ (acc steps : List PatternStep), parse_pattern_loop program toks acc = .ok steps →
      ∃ more, steps = acc ++ more ∧
        ∀ (i : Nat) (tok : CStr), toks[i]? = some tok →
          ∃ step, parse_pattern_token program (tok.take 31) = .ok step ∧
            more[i]? = some step := by
  induction toks with
  | nil =>
    intro acc steps h
    simp only [parse_pattern_loop, Except.ok.injEq] at h
    exact ⟨[], by simp [h], fun i tok hi => by simp at hi⟩
  | cons t rest ih =>
    intro acc steps h
    unfold parse_pattern_loop at h
    split at h
    · exact Except.noConfusion h
    · split at h
      · exact Except.noConfusion h
      · rename_i step hstep
        obtain ⟨more, hmore, hget⟩ := ih (acc ++ [step]) steps h
        refine ⟨step :: more, by simp [hmore], ?_⟩
        intro i tok hi
        cases i with
        | zero =>
          simp only [List.getElem?_cons_zero, Option.some.injEq] at hi
          subst hi
          exact ⟨step, hstep, by simp⟩
        | succ i =>
          simp only [List.getElem?_cons_succ] at hi ⊢
          exact hget i tok hi

/-- C5, amended. In a space-separated pattern, the step of a degree token of at most 31
characters made of a digit `d` in 1..7, `k` apostrophes and an optional `+` or `-`
(`m` = 1, -1 or 0) has `note = floor(pitch)` and `cents = 100 * (pitch - floor(pitch))` for
`pitch = root_midi + 12k + (maqam_offsets[d-1] + 50m) / 100`. -/
theorem degree_token_pitch (program : Program) (text : CStr) (steps : List PatternStep)
    (i d k : Nat) (m : Int) (hd : 1 ≤ d ∧ d ≤ 7) (hm : m = 0 ∨ m = 1 ∨ m = -1)
    (hfit : (degree_token d k m).length ≤ 31)
    (hspace : text.contains '[' = false)
    (htok : (split_tokens is_list_sep (text.take 511))[i]? = some (degree_token d k m))
    (hparse : parse_pattern text program = .ok steps) :
    steps[i]?.map (fun s => (s.note, s.cents))
      = some (⌊program.root_midi + 12 * (k : ℚ)
                + (program.maqam_offsets.getD (d - 1) 0 + 50 * (m : ℚ)) / 100⌋,
              100 * (program.root_midi + 12 * (k : ℚ)
                + (program.maqam_offsets.getD (d - 1) 0 + 50 * (m : ℚ)) / 100
                - (⌊program.root_midi + 12 * (k : ℚ)
                + (program.maqam_offsets.getD (d - 1) 0 + 50 * (m : ℚ)) / 100⌋ : ℚ))) := by
  unfold parse_pattern at hparse
  rw [hspace] at hparse
  simp only [Bool.false_eq_true, if_false] at hparse
  split at hparse
  · exact Except.noConfusion hparse
  · rename_i all hall
    split at hparse
    · exact Except.noConfusion hparse
    · simp only [Except.ok.injEq] at hparse
      subst hparse
      obtain ⟨more, hmore, hget⟩ := parse_pattern_loop_steps program _ [] all hall
      obtain ⟨step, hstep, hi⟩ := hget i _ htok
      rw [List.take_of_length_le hfit, parse_pattern_token_degree program d k m hd hm hfit]
        at hstep
      simp only [Except.ok.injEq] at hstep
      rw [List.nil_append] at hmore
      rw [hmore, hi, ← hstep]
      simp only [Option.map_some']
      push_cast
      congr 1
      ring_nf

/-- C5 amended, at the token `3'+` with root C4 in major mode: note 76 and cents 50. -/
theorem degree_token_pitch_witness :
    (degree_token 3 1 1 = cstr "3'+" ∧
      parse_pattern (cstr "3'+") (parsed_program example_degree_script)
        = .ok (first_pattern (loaded_engine example_degree_script)).steps ∧
      (parsed_program example_degree_script).root_midi = 60 ∧
      (first_pattern (loaded_engine example_degree_script)).notes = [76] ∧
      (first_pattern (loaded_engine example_degree_script)).cents = [50]) ∧
    ((first_pattern (loaded_engine example_degree_script)).steps)[0]?.map
        (fun s => (s.note, s.cents))
      = some (⌊(parsed_program example_degree_script).root_midi + 12 * ((1 : Nat) : ℚ)
                + ((parsed_program example_degree_script).maqam_offsets.getD (3 - 1) 0
                    + 50 * ((1 : Int) : ℚ)) / 100⌋,
              100 * ((parsed_program example_degree_script).root_midi + 12 * ((1 : Nat) : ℚ)
                + ((parsed_program example_degree_script).maqam_offsets.getD (3 - 1) 0
                    + 50 * ((1 : Int) : ℚ)) / 100
                - (⌊(parsed_program example_degree_script).root_midi + 12 * ((1 : Nat) : ℚ)
                + ((parsed_program example_degree_script).maqam_offsets.getD (3 - 1) 0
                    + 50 * ((1 : Int) : ℚ)) / 100⌋ : ℚ))) :=
  ⟨⟨by decide!, by decide!, by decide!, by decide!, by decide!⟩,
    degree_token_pitch (parsed_program example_degree_script) (cstr "3'+")
      (first_pattern (loaded_engine example_degree_script)).steps 0 3 1 1
      (by decide) (by decide) (by decide!) (by decide!) (by decide!) (by decide!)⟩

/-- C5 as stated fails for a token longer than the token buffer: the step `3` followed by
31 apostrophes is cut to 30 apostrophes and stored as note `60 + 12 * 30 + 4 = 424`, not as
`floor(60 + 12 * 31 + 400 / 100) = 436`. -/
theorem degree_token_long_counterexample :
    (degree_token 3 31 0).length = 32 ∧
    (parse_pattern (degree_token 3 31 0) set_default_program).toOption.map
        (fun steps => steps.map (fun s => s.note)) = some [424] ∧
    ⌊set_default_program.root_midi + 12 * ((31 : Nat) : ℚ)
        + (set_default_program.maqam_offsets.getD (3 - 1) 0 + 50 * ((0 : Int) : ℚ)) / 100⌋
      = 436 := by
  refine ⟨?_, ?_, ?_⟩ <;> decide!

/-- C6, the code: in a pattern the token `3,` is cut at the comma by the tokenizer of
`parse_pattern`, so its step is the note 64 of the bare `3`, not 52; the `drone` command,
which reads its token up to white space, does resolve `3,` to 52. -/
theorem comma_step_not_lowered :
    (first_pattern (loaded_engine example_comma_script)).notes = [64] ∧
    (first_pattern (loaded_engine example_bare_script)).notes = [64] ∧
    (parsed_program example_comma_script).drones.map (fun d => d.midi) = [52] ∧
    (parsed_program example_bare_script).drones.map (fun d => d.midi) = [64] ∧
    split_tokens is_list_sep (cstr "3,") = [cstr "3"] := by
  refine ⟨?_, ?_, ?_, ?_, ?_⟩ <;> decide!

/-- C7, the code: the line `pattern p [60, 62, 64] 3` is rejected, `next_token` handing
`parse_pattern` the text `[60,` only; with the list and its count inside parentheses the
nine notes are stored. -/
theorem bracket_list_line_rejected :
    dsl_parse_script example_list_script
      = .error (cstr "Line 1: Pattern list must be like [60, 62, 64]") ∧
    (next_token (cstr " [60, 62, 64] 3") 256 true).map (fun r => r.1) = some (cstr "[60,") ∧
    (first_pattern (loaded_engine example_list_paren_script)).notes
      = [60, 62, 64, 60, 62, 64, 60, 62, 64] := by
  refine ⟨?_, ?_, ?_⟩ <;> decide!

/-- C8, the code: a `#` starts a comment, so `root C#4` reaches the note parser as `C` and
is rejected, and so is the pattern step `C#4`; `note_name_to_midi` itself maps `C#4` to
61. -/
theorem sharp_note_rejected :
    dsl_parse_script example_sharp_root_script
      = .error (cstr "Line 1: invalid root " ++ quoted (cstr "C")) ∧
    dsl_parse_script example_sharp_step_script
      = .error (cstr "Line 2: Invalid note token " ++ quoted (cstr "C")) ∧
    strip_line (cstr "root C#4") = cstr "root C" ∧
    note_name_to_midi (cstr "C#4") = 61 ∧ note_name_to_midi (cstr "C4") = 60 := by
  refine ⟨?_, ?_, ?_, ?_, ?_⟩ <;> decide!

/-! ### Named notes and the `root` command -/

theorem decimal_value_cons (c : Char) (cs : CStr) :
    decimal_value (c :: cs) = (c.toNat - 48) * 10 ^ cs.length + decimal_value cs := by
  unfold decimal_value
  rw [List.reverse_cons, List.map_append, Nat.ofDigits_append, List.map_singleton,
    Nat.ofDigits_singleton, List.length_map, List.length_reverse]
  ring

theorem digits_value_eq (digits : CStr) :
    ∀ acc : Nat, digits_value acc digits = acc * 10 ^ digits.length + decimal_value digits := by
  induction digits with
  | nil =>
    intro acc
    show acc = acc * 10 ^ 0 + Nat.ofDigits 10 []
    rw [Nat.ofDigits_nil]
    omega
  | cons c cs ih =>
    intro acc
    have hstep : digits_value acc (c :: cs) = digits_value (10 * acc + (c.toNat - 48)) cs :=
      rfl
    rw [hstep, ih, decimal_value_cons, List.length_cons]
    ring

theorem takeWhile_isdigit_self (digits : CStr) (h : ∀ c ∈ digits, isdigit c = true) :
    digits.takeWhile isdigit = digits := by
  rw [List.takeWhile_eq_self_iff]
  exact h

theorem isdigit_facts (c : Char) (h : isdigit c = true) :
    isspace c = false ∧ c ≠ '-' ∧ c ≠ '+' ∧ c ≠ 'b' ∧ c ≠ 'B' ∧ c ≠ ch_hash ∧ c ≠ '/' := by
  have h1 : 48 ≤ c.toNat ∧ c.toNat ≤ 57 := by
    simpa [isdigit] using h
  have hne : ∀ d : Char, (d.toNat < 48 ∨ 57 < d.toNat) → c ≠ d := by
    intro d hd hcd
    subst hcd
    omega
  refine ⟨?_, hne _ (by decide), hne _ (by decide), hne _ (by decide), hne _ (by decide),
    hne _ (by decide), hne _ (by decide)⟩
  unfold isspace
  have e1 := hne ' ' (by decide)
  have e2 := hne ch_tab (by decide)
  have e3 := hne ch_newline (by decide)
  have e4 := hne ch_vtab (by decide)
  have e5 := hne ch_formfeed (by decide)
  have e6 := hne ch_return (by decide)
  simp [e1, e2, e3, e4, e5, e6]

/-- `atoi` on decimal digits with an optional minus sign. -/
theorem atoi_signed (neg : Bool) (digits : CStr) (hne : digits ≠ [])
    (h : ∀ c ∈ digits, isdigit c = true) :
    atoi ((if neg then ['-'] else []) ++ digits)
      = if neg then -(decimal_value digits : Int) else (decimal_value digits : Int) := by
  obtain ⟨c, cs, rfl⟩ := List.exists_cons_of_ne_nil hne
  have hc := isdigit_facts c (h c (List.mem_cons_self c cs))
  have hv := digits_value_eq (c :: cs) 0
  simp only [zero_mul, zero_add] at hv
  cases neg with
  | true =>
    simp only [if_true, List.singleton_append]
    unfold atoi
    have : ('-' :: c :: cs).dropWhile isspace = '-' :: c :: cs := by
      rw [List.dropWhile_cons_of_neg (by decide)]
    rw [this]
    simp only [takeWhile_isdigit_self _ h, hv]
  | false =>
    simp only [Bool.false_eq_true, if_false, List.nil_append]
    unfold atoi
    have : (c :: cs).dropWhile isspace = c :: cs := by
      rw [List.dropWhile_cons_of_neg (by simp [hc.1])]
    rw [this]
    split
    · rename_i r heq
      exact absurd (List.cons.inj heq).1 hc.2.1
    · rename_i r heq
      exact absurd (List.cons.inj heq).1 hc.2.2.1
    · simp only [takeWhile_isdigit_self _ h, hv]

/-- `note_name_to_midi` on a named-note token gives the note number of the specification. -/
theorem note_name_to_midi_token (letter : Char) (flat neg : Bool) (digits : CStr)
    (hl : letter ∈ ['C', 'D', 'E', 'F', 'G', 'A', 'B']) (hne : digits ≠ [])
    (h : ∀ c ∈ digits, isdigit c = true) :
    note_name_to_midi (note_token letter flat neg digits)
      = note_token_midi letter flat neg digits := by
  obtain ⟨c, cs, hcs⟩ := List.exists_cons_of_ne_nil hne
  have hc := isdigit_facts c (h c (by rw [hcs]; exact List.mem_cons_self c cs))
  have hat := atoi_signed neg digits hne h
  have hd : isdigit c = true := h c (by rw [hcs]; exact List.mem_cons_self c cs)
  have hr : ¬(c.toNat < 48 ∨ 57 < c.toNat) := by
    have : 48 ≤ c.toNat ∧ c.toNat ≤ 57 := by simpa [isdigit] using hd
    omega
  have hh : ¬(c = Char.ofNat 35) := hc.2.2.2.2.2.1
  simp only [List.mem_cons, List.mem_singleton, List.not_mem_nil, or_false] at hl
  unfold note_token_midi
  rw [← hat]
  rcases hl with rfl | rfl | rfl | rfl | rfl | rfl | rfl <;> cases flat <;> cases neg <;>
    simp [note_token, note_name_to_midi, note_semitone, toupper, letter_semitone, isdigit,
      ch_hash, hcs, hc, hr, hh] <;> ring_nf

theorem cut_at_slashes_self (s : CStr) (h : ∀ x ∈ s, x ≠ '/') : cut_at_slashes s = s := by
  induction s with
  | nil => rfl
  | cons c cs ih =>
    have hc : c ≠ '/' := h c (List.mem_cons_self c cs)
    have hcs := ih (fun x hx => h x (List.mem_cons_of_mem c hx))
    cases cs with
    | nil => rfl
    | cons d ds =>
      unfold cut_at_slashes
      simp only [beq_iff_eq, hc, false_and, Bool.false_eq_true, if_false, Bool.and_eq_true]
      rw [hcs]

theorem cut_at_self (ch : Char) (s : CStr) (h : ∀ x ∈ s, x ≠ ch) : cut_at ch s = s := by
  unfold cut_at
  rw [List.takeWhile_eq_self_iff]
  intro x hx
  simpa using h x hx

/-- The first token of a line that starts with the word `w` followed by a blank. -/
theorem next_token_word (w rest : CStr) (hne : w ≠ []) (hw : ∀ x ∈ w, isspace x = false)
    (hlen : w.length ≤ 31) :
    next_token (w ++ ' ' :: rest) 32 false = some (w, ' ' :: rest) := by
  have hns : ∀ x ∈ w, (fun y => !isspace y) x = true := by
    intro x hx
    simp [hw x hx]
  have htw : (w ++ ' ' :: rest).takeWhile (fun y => !isspace y) = w := by
    rw [List.takeWhile_append_of_pos hns, List.takeWhile_cons_of_neg (by decide),
      List.append_nil]
  have hdw : (w ++ ' ' :: rest).dropWhile (fun y => !isspace y) = ' ' :: rest := by
    rw [List.dropWhile_append_of_pos hns, List.dropWhile_cons_of_neg (by decide)]
  obtain ⟨c, cs, rfl⟩ := List.exists_cons_of_ne_nil hne
  have hcsp : isspace c = false := hw c (List.mem_cons_self c cs)
  have htrim : trim_left (c :: cs ++ ' ' :: rest) = c :: cs ++ ' ' :: rest := by
    unfold trim_left
    rw [List.cons_append, List.dropWhile_cons_of_neg (by simp [hcsp])]
  unfold next_token
  rw [htrim]
  rw [List.cons_append] at htw hdw ⊢
  simp only [Bool.false_and, Bool.false_eq_true, if_false, htw, hdw]
  rw [List.take_of_length_le (by simpa using hlen)]

/-- The token read behind a blank: the whole rest of the line when it holds no white space
and fits the token buffer. -/
theorem next_token_last (tok : CStr) (hne : tok ≠ []) (hw : ∀ x ∈ tok, isspace x = false)
    (hlen : tok.length ≤ 31) :
    next_token (' ' :: tok) 32 false = some (tok, []) := by
  have hns : ∀ x ∈ tok, (fun y => !isspace y) x = true := by
    intro x hx
    simp [hw x hx]
  have htw : tok.takeWhile (fun y => !isspace y) = tok := by
    rw [List.takeWhile_eq_self_iff]; exact hns
  have hdw : tok.dropWhile (fun y => !isspace y) = [] := by
    rw [List.dropWhile_eq_nil_iff]; exact hns
  obtain ⟨c, cs, rfl⟩ := List.exists_cons_of_ne_nil hne
  have hcsp : isspace c = false := hw c (List.mem_cons_self c cs)
  unfold next_token trim_left
  have : (' ' :: c :: cs).dropWhile isspace = c :: cs := by
    rw [List.dropWhile_cons_of_pos (by decide), List.dropWhile_cons_of_neg (by simp [hcsp])]
  rw [this]
  simp only [Bool.false_and, Bool.false_eq_true, if_false, htw, hdw]
  rw [List.take_of_length_le (by simpa using hlen)]

/-- A `root` line whose argument is one token without white space, `/` or the comment sign
that fits the token buffer: the line is read as the command `root` with that token. -/
theorem parse_line_root (prog : Program) (line_num : Nat) (tok : CStr) (hne : tok ≠ [])
    (hchars : ∀ x ∈ tok, isspace x = false ∧ x ≠ '/' ∧ x ≠ ch_hash)
    (hlen : tok.length ≤ 31) :
    parse_line prog line_num (cstr "root " ++ tok)
      = if note_name_to_midi tok = -2 then
          line_error line_num (cstr "invalid root " ++ quoted tok)
        else .ok { prog with root_midi := (note_name_to_midi tok : ℚ) } := by
  have hline : ∀ x ∈ cstr "root " ++ tok, x ≠ '/' ∧ x ≠ ch_hash := by
    intro x hx
    rcases List.mem_append.mp hx with h1 | h1
    · have : x ∈ ['r', 'o', 'o', 't', ' '] := h1
      simp only [List.mem_cons, List.mem_singleton, List.not_mem_nil, or_false] at this
      rcases this with rfl | rfl | rfl | rfl | rfl <;> decide
    · exact (hchars x h1).2
  have hstrip : strip_line (cstr "root " ++ tok) = cstr "root" ++ ' ' :: tok := by
    unfold strip_line
    rw [cut_at_slashes_self _ (fun x hx => (hline x hx).1),
      cut_at_self _ _ (fun x hx => (hline x hx).2)]
    rfl
  unfold parse_line
  rw [hstrip, next_token_word (cstr "root") tok (by decide) (by decide) (by decide)]
  simp only [show ¬ (cstr "root" = cstr "tempo") by decide,
    show ¬ (cstr "root" = cstr "master" ∨ cstr "root" = cstr "master_amp") by decide,
    show ¬ (cstr "root" = cstr "tempo_scale") by decide,
    show ¬ (cstr "root" = cstr "tempo_map") by decide,
    show ¬ (cstr "root" = cstr "timesig" ∨ cstr "root" = cstr "time_signature") by decide,
    show ¬ (cstr "root" = cstr "timesig_enforce") by decide,
    show ¬ (cstr "root" = cstr "timesig_map") by decide, if_false, if_true]
  unfold cmd_root
  rw [next_token_last tok hne (fun x hx => (hchars x hx).1) hlen]

theorem note_token_chars (letter : Char) (flat neg : Bool) (digits : CStr)
    (hl : letter ∈ ['C', 'D', 'E', 'F', 'G', 'A', 'B'])
    (h : ∀ c ∈ digits, isdigit c = true) :
    ∀ x ∈ note_token letter flat neg digits, isspace x = false ∧ x ≠ '/' ∧ x ≠ ch_hash := by
  intro x hx
  unfold note_token at hx
  rcases List.mem_cons.mp hx with rfl | hx
  · simp only [List.mem_cons, List.mem_singleton, List.not_mem_nil, or_false] at hl
    rcases hl with rfl | rfl | rfl | rfl | rfl | rfl | rfl <;> decide
  rcases List.mem_append.mp hx with hx | hx
  · cases flat
    · exact absurd hx (List.not_mem_nil x)
    · rw [if_pos rfl, List.mem_singleton] at hx
      subst hx
      decide
  rcases List.mem_append.mp hx with hx | hx
  · cases neg
    · exact absurd hx (List.not_mem_nil x)
    · rw [if_pos rfl, List.mem_singleton] at hx
      subst hx
      decide
  · have hf := isdigit_facts x (h x hx)
    exact ⟨hf.1, hf.2.2.2.2.2.2, hf.2.2.2.2.2.1⟩

/-- C9 (amended). A `root` line whose token is an upper-case letter `C`..`B`, an optional
flat `b`, an optional `-` and a non-empty string of decimal digits is accepted and sets
`root_midi` to `12 * (o + 1) + s`, provided the token fits the 31 characters of the token
buffer, the octave is small enough for the note number to fit an `int`, and the note number
is not `-2` (the token is not `Bb-2`). -/
theorem root_named_note (prog : Program) (line_num : Nat) (letter : Char) (flat neg : Bool)
    (digits : CStr) (hl : letter ∈ ['C', 'D', 'E', 'F', 'G', 'A', 'B'])
    (hne : digits ≠ []) (h : ∀ c ∈ digits, isdigit c = true)
    (hfit : (note_token letter flat neg digits).length ≤ 31)
    (_hint : 12 * (decimal_value digits + 2) < 2 ^ 31)
    (hvalid : note_token_midi letter flat neg digits ≠ -2) :
    parse_line prog line_num (cstr "root " ++ note_token letter flat neg digits)
      = .ok { prog with root_midi := (note_token_midi letter flat neg digits : ℚ) } := by
  have htok : note_token letter flat neg digits ≠ [] := by
    unfold note_token
    exact List.cons_ne_nil _ _
  rw [parse_line_root prog line_num (note_token letter flat neg digits) htok
    (note_token_chars letter flat neg digits hl h) hfit,
    note_name_to_midi_token letter flat neg digits hl hne h, if_neg hvalid]

theorem root_named_note_witness :
    parse_line set_default_program 1 (cstr "root A4")
        = .ok { set_default_program with root_midi := 69 }
      ∧ parse_line set_default_program 1 (cstr "root C-1")
        = .ok { set_default_program with root_midi := 0 } :=
  ⟨root_named_note set_default_program 1 'A' false false ['4'] (by decide) (by decide)
      (by decide) (by decide) (by decide) (by decide),
    root_named_note set_default_program 1 'C' false true ['1'] (by decide) (by decide)
      (by decide) (by decide) (by decide) (by decide)⟩

/-- C9 (counterexample). The token `Bb-2` is a letter, a flat and the octave `-2`, for which
`12 * (o + 1) + s` is `-2`; the line `root Bb-2` is rejected. The token `C` followed by
thirty zeros and `4` names the octave 4; the line sets the root to 12, not to 60. -/
theorem root_named_note_counterexample :
    note_token_midi 'B' true true ['2'] = -2
      ∧ parse_line set_default_program 1 (cstr "root " ++ note_token 'B' true true ['2'])
          = .error (cstr "Line 1: invalid root 'Bb-2'")
      ∧ note_token_midi 'C' false false (List.replicate 30 '0' ++ ['4']) = 60
      ∧ parse_line set_default_program 1
          (cstr "root " ++ note_token 'C' false false (List.replicate 30 '0' ++ ['4']))
          = .ok { set_default_program with root_midi := 12 } := by
  decide!

/-! ### The `tempo` command -/

theorem cmd_master_tempo (prog prog1 : Program) (n : Nat) (cursor : CStr)
    (h : cmd_master prog n cursor = .ok prog1) : SameTempo prog prog1 := by
  unfold cmd_master at h
  try dsimp only at h
  repeat' split at h
  all_goals first | (cases h; exact ⟨rfl, rfl⟩) | (exact Except.noConfusion h)

theorem cmd_tempo_map_tempo (prog prog1 : Program) (n : Nat) (cursor : CStr)
    (h : cmd_tempo_map prog n cursor = .ok prog1) : SameTempo prog prog1 := by
  unfold cmd_tempo_map at h
  try dsimp only at h
  repeat' split at h
  all_goals first | (cases h; exact ⟨rfl, rfl⟩) | (exact Except.noConfusion h)

theorem cmd_timesig_tempo (prog prog1 : Program) (n : Nat) (cursor : CStr)
    (h : cmd_timesig prog n cursor = .ok prog1) : SameTempo prog prog1 := by
  unfold cmd_timesig at h
  try dsimp only at h
  repeat' split at h
  all_goals first | (cases h; exact ⟨rfl, rfl⟩) | (exact Except.noConfusion h)

theorem cmd_timesig_enforce_tempo (prog prog1 : Program) (n : Nat) (cursor : CStr)
    (h : cmd_timesig_enforce prog n cursor = .ok prog1) : SameTempo prog prog1 := by
  unfold cmd_timesig_enforce at h
  try dsimp only at h
  repeat' split at h
  all_goals first | (cases h; exact ⟨rfl, rfl⟩) | (exact Except.noConfusion h)

theorem cmd_timesig_map_tempo (prog prog1 : Program) (n : Nat) (cursor : CStr)
    (h : cmd_timesig_map prog n cursor = .ok prog1) : SameTempo prog prog1 := by
  unfold cmd_timesig_map at h
  try dsimp only at h
  repeat' split at h
  all_goals first | (cases h; exact ⟨rfl, rfl⟩) | (exact Except.noConfusion h)

theorem cmd_root_tempo (prog prog1 : Program) (n : Nat) (cursor : CStr)
    (h : cmd_root prog n cursor = .ok prog1) : SameTempo prog prog1 := by
  unfold cmd_root at h
  try dsimp only at h
  repeat' split at h
  all_goals first | (cases h; exact ⟨rfl, rfl⟩) | (exact Except.noConfusion h)

theorem set_maqam_tempo (prog : Program) (name : CStr) : SameTempo prog (set_maqam prog name) := by
  unfold set_maqam
  split <;> exact ⟨rfl, rfl⟩

theorem cmd_maqam_tempo (prog prog1 : Program) (n : Nat) (cursor : CStr)
    (h : cmd_maqam prog n cursor = .ok prog1) : SameTempo prog prog1 := by
  unfold cmd_maqam at h
  try dsimp only at h
  repeat' split at h
  all_goals first | (cases h; exact set_maqam_tempo _ _) | (exact Except.noConfusion h)

theorem cmd_drone_tempo (prog prog1 : Program) (n : Nat) (cursor : CStr)
    (h : cmd_drone prog n cursor = .ok prog1) : SameTempo prog prog1 := by
  unfold cmd_drone at h
  try dsimp only at h
  repeat' split at h
  all_goals first | (cases h; exact ⟨rfl, rfl⟩) | (exact Except.noConfusion h)

theorem cmd_amp_tempo (prog prog1 : Program) (n : Nat) (cursor : CStr)
    (h : cmd_amp prog n cursor = .ok prog1) : SameTempo prog prog1 := by
  unfold cmd_amp at h
  try dsimp only at h
  repeat' split at h
  all_goals first | (cases h; exact ⟨rfl, rfl⟩) | (exact Except.noConfusion h)

theorem cmd_synth_tempo (prog prog1 : Program) (n : Nat) (cursor : CStr)
    (h : cmd_synth prog n cursor = .ok prog1) : SameTempo prog prog1 := by
  unfold cmd_synth at h
  try dsimp only at h
  repeat' split at h
  all_goals first | (cases h; exact ⟨rfl, rfl⟩) | (exact Except.noConfusion h)

theorem cmd_set_tempo (prog prog1 : Program) (n : Nat) (cursor : CStr)
    (h : cmd_set prog n cursor = .ok prog1) : SameTempo prog prog1 := by
  unfold cmd_set at h
  try dsimp only at h
  repeat' split at h
  all_goals first | (cases h; exact ⟨rfl, rfl⟩) | (exact Except.noConfusion h)

theorem cmd_mod_tempo (prog prog1 : Program) (n : Nat) (cursor : CStr)
    (h : cmd_mod prog n cursor = .ok prog1) : SameTempo prog prog1 := by
  unfold cmd_mod at h
  try dsimp only at h
  repeat' split at h
  all_goals first | (cases h; exact ⟨rfl, rfl⟩) | (exact Except.noConfusion h)

theorem cmd_pattern_tempo (prog prog1 : Program) (n : Nat) (cursor : CStr)
    (h : cmd_pattern prog n cursor = .ok prog1) : SameTempo prog prog1 := by
  unfold cmd_pattern at h
  try dsimp only at h
  repeat' split at h
  all_goals first | (cases h; exact ⟨rfl, rfl⟩) | (exact Except.noConfusion h)

theorem cmd_accent_tempo (prog prog1 : Program) (n : Nat) (cursor : CStr)
    (h : cmd_accent prog n cursor = .ok prog1) : SameTempo prog prog1 := by
  unfold cmd_accent at h
  try dsimp only at h
  repeat' split at h
  all_goals first | (cases h; exact ⟨rfl, rfl⟩) | (exact Except.noConfusion h)

theorem cmd_sequence_tempo (prog prog1 : Program) (n : Nat) (cursor : CStr)
    (h : cmd_sequence prog n cursor = .ok prog1) : SameTempo prog prog1 := by
  unfold cmd_sequence at h
  try dsimp only at h
  repeat' split at h
  all_goals first | (cases h; exact ⟨rfl, rfl⟩) | (exact Except.noConfusion h)

theorem cmd_play_tempo (prog prog1 : Program) (n : Nat) (cursor : CStr)
    (h : cmd_play prog n cursor = .ok prog1) : SameTempo prog prog1 := by
  unfold cmd_play at h
  try dsimp only at h
  repeat' split at h
  all_goals first | (cases h; exact ⟨rfl, rfl⟩) | (exact Except.noConfusion h)

theorem cmd_playseq_tempo (prog prog1 : Program) (n : Nat) (cursor : CStr)
    (h : cmd_playseq prog n cursor = .ok prog1) : SameTempo prog prog1 := by
  unfold cmd_playseq at h
  try dsimp only at h
  repeat' split at h
  all_goals first | (cases h; exact ⟨rfl, rfl⟩) | (exact Except.noConfusion h)

/-- A line whose command is neither `tempo` nor `tempo_scale` leaves both values alone. -/
theorem parse_line_tempo_frame (prog prog1 : Program) (n : Nat) (line : CStr)
    (h1 : line_command line ≠ some (cstr "tempo"))
    (h2 : line_command line ≠ some (cstr "tempo_scale"))
    (h : parse_line prog n line = .ok prog1) : SameTempo prog prog1 := by
  unfold line_command at h1 h2
  unfold parse_line at h
  split at h
  · cases h; exact ⟨rfl, rfl⟩
  · rename_i cmd cursor heq
    rw [heq] at h1 h2
    have c1 : ¬ (cmd = cstr "tempo") := fun hc => h1 (by rw [hc]; rfl)
    have c2 : ¬ (cmd = cstr "tempo_scale") := fun hc => h2 (by rw [hc]; rfl)
    rw [if_neg c1] at h
    by_cases hc : cmd = cstr "master" ∨ cmd = cstr "master_amp"
    · rw [if_pos hc] at h
      exact cmd_master_tempo _ _ _ _ h
    rw [if_neg hc] at h
    clear hc
    rw [if_neg c2] at h
    by_cases hc : cmd = cstr "tempo_map"
    · rw [if_pos hc] at h
      exact cmd_tempo_map_tempo _ _ _ _ h
    rw [if_neg hc] at h
    clear hc
    by_cases hc : cmd = cstr "timesig" ∨ cmd = cstr "time_signature"
    · rw [if_pos hc] at h
      exact cmd_timesig_tempo _ _ _ _ h
    rw [if_neg hc] at h
    clear hc
    by_cases hc : cmd = cstr "timesig_enforce"
    · rw [if_pos hc] at h
      exact cmd_timesig_enforce_tempo _ _ _ _ h
    rw [if_neg hc] at h
    clear hc
    by_cases hc : cmd = cstr "timesig_map"
    · rw [if_pos hc] at h
      exact cmd_timesig_map_tempo _ _ _ _ h
    rw [if_neg hc] at h
    clear hc
    by_cases hc : cmd = cstr "root"
    · rw [if_pos hc] at h
      exact cmd_root_tempo _ _ _ _ h
    rw [if_neg hc] at h
    clear hc
    by_cases hc : cmd = cstr "maqam"
    · rw [if_pos hc] at h
      exact cmd_maqam_tempo _ _ _ _ h
    rw [if_neg hc] at h
    clear hc
    by_cases hc : cmd = cstr "drone"
    · rw [if_pos hc] at h
      exact cmd_drone_tempo _ _ _ _ h
    rw [if_neg hc] at h
    clear hc
    by_cases hc : cmd = cstr "amp"
    · rw [if_pos hc] at h
      exact cmd_amp_tempo _ _ _ _ h
    rw [if_neg hc] at h
    clear hc
    by_cases hc : cmd = cstr "synth"
    · rw [if_pos hc] at h
      exact cmd_synth_tempo _ _ _ _ h
    rw [if_neg hc] at h
    clear hc
    by_cases hc : cmd = cstr "set"
    · rw [if_pos hc] at h
      exact cmd_set_tempo _ _ _ _ h
    rw [if_neg hc] at h
    clear hc
    by_cases hc : cmd = cstr "mod"
    · rw [if_pos hc] at h
      exact cmd_mod_tempo _ _ _ _ h
    rw [if_neg hc] at h
    clear hc
    by_cases hc : cmd = cstr "pattern"
    · rw [if_pos hc] at h
      exact cmd_pattern_tempo _ _ _ _ h
    rw [if_neg hc] at h
    clear hc
    by_cases hc : cmd = cstr "accent"
    · rw [if_pos hc] at h
      exact cmd_accent_tempo _ _ _ _ h
    rw [if_neg hc] at h
    clear hc
    by_cases hc : cmd = cstr "sequence"
    · rw [if_pos hc] at h
      exact cmd_sequence_tempo _ _ _ _ h
    rw [if_neg hc] at h
    clear hc
    by_cases hc : cmd = cstr "play"
    · rw [if_pos hc] at h
      exact cmd_play_tempo _ _ _ _ h
    rw [if_neg hc] at h
    clear hc
    by_cases hc : cmd = cstr "playseq"
    · rw [if_pos hc] at h
      exact cmd_playseq_tempo _ _ _ _ h
    rw [if_neg hc] at h
    clear hc
    exact Except.noConfusion h

/-- Lines without a `tempo` or `tempo_scale` command leave both values alone. -/
theorem parse_lines_tempo_frame (lines : List CStr)
    (hl : ∀ l ∈ lines, line_command l ≠ some (cstr "tempo")
      ∧ line_command l ≠ some (cstr "tempo_scale")) :
    ∀ (n : Nat) (prog prog1 : Program), parse_lines n prog lines = .ok prog1 →
      SameTempo prog prog1 := by
  induction lines with
  | nil =>
    intro n prog prog1 h
    cases h
    exact ⟨rfl, rfl⟩
  | cons l ls ih =>
    intro n prog prog1 h
    unfold parse_lines at h
    split at h
    · exact Except.noConfusion h
    · rename_i p heq
      have hf := parse_line_tempo_frame prog p (n + 1) l (hl l (List.mem_cons_self l ls)).1
        (hl l (List.mem_cons_self l ls)).2 heq
      have hr := ih (fun x hx => hl x (List.mem_cons_of_mem l hx)) (n + 1) p prog1 h
      exact ⟨hr.1.trans hf.1, hr.2.trans hf.2⟩

/-- An accepted `tempo` line stores its value times the scale, which it leaves alone. -/
theorem parse_line_tempo (prog prog1 : Program) (n : Nat) (line b : CStr)
    (hb : tempo_operand line = some b) (h : parse_line prog n line = .ok prog1) :
    prog1.tempo = atof b * prog1.tempo_scale := by
  unfold tempo_operand at hb
  unfold parse_line at h
  split at hb
  · exact Option.noConfusion hb
  · rename_i cmd cursor heq
    rw [heq] at h
    dsimp only at h
    split at hb
    · rename_i hc
      rw [if_pos hc] at h
      unfold cmd_tempo at h
      split at h
      · exact Except.noConfusion h
      · rename_i tok rest heq2
        rw [heq2] at hb
        cases hb
        dsimp only at h
        split at h
        · exact Except.noConfusion h
        · cases h
          rfl
    · exact Option.noConfusion hb

/-- The line loop over a list of lines with one line singled out. -/
theorem parse_lines_append (pre : List CStr) (line : CStr) (post : List CStr) :
    ∀ (n : Nat) (prog prog1 : Program),
      parse_lines n prog (pre ++ line :: post) = .ok prog1 →
      ∃ p0 p1, parse_line p0 (n + pre.length + 1) line = .ok p1
        ∧ parse_lines (n + pre.length + 1) p1 post = .ok prog1 := by
  induction pre with
  | nil =>
    intro n prog prog1 h
    rw [List.nil_append] at h
    unfold parse_lines at h
    split at h
    · exact Except.noConfusion h
    · rename_i p heq
      exact ⟨prog, p, heq, h⟩
  | cons l ls ih =>
    intro n prog prog1 h
    rw [List.cons_append] at h
    unfold parse_lines at h
    split at h
    · exact Except.noConfusion h
    · rename_i p heq
      obtain ⟨p0, p1, h1, h2⟩ := ih (n + 1) p prog1 h
      have e : n + (l :: ls).length + 1 = n + 1 + ls.length + 1 := by
        rw [List.length_cons]; omega
      rw [e]
      exact ⟨p0, p1, h1, h2⟩

/-- C10 (amended). When `dsl_parse_script` accepts a script with a `tempo b` line that no
`tempo` or `tempo_scale` line follows, the Program has `tempo = b * tempo_scale`. -/
theorem tempo_line_scaled (script : CStr) (prog : Program) (pre post : List CStr)
    (line b : CStr)
    (hparse : dsl_parse_script script = .ok prog)
    (hlines : script_lines script = pre ++ line :: post)
    (hline : tempo_operand line = some b)
    (hpost : ∀ l ∈ post, line_command l ≠ some (cstr "tempo")
      ∧ line_command l ≠ some (cstr "tempo_scale")) :
    prog.tempo = atof b * prog.tempo_scale := by
  unfold dsl_parse_script at hparse
  split at hparse
  · exact Except.noConfusion hparse
  · rename_i p heq
    split at hparse
    · exact Except.noConfusion hparse
    · cases hparse
      rw [hlines] at heq
      obtain ⟨p0, p1, h1, h2⟩ := parse_lines_append pre line post 0 set_default_program prog heq
      have hf := parse_lines_tempo_frame post hpost _ p1 prog h2
      rw [hf.1, hf.2]
      exact parse_line_tempo p0 p1 _ line b hline h1

theorem tempo_line_scaled_witness :
    (parsed_program example_tempo_scaled_script).tempo
        = atof (cstr "120") * (parsed_program example_tempo_scaled_script).tempo_scale
      ∧ (parsed_program example_tempo_scaled_script).tempo = 240
      ∧ (parsed_program example_tempo_scaled_script).tempo_scale = 2 :=
  ⟨tempo_line_scaled example_tempo_scaled_script (parsed_program example_tempo_scaled_script)
      [cstr "tempo_scale 2.0"] [cstr "synth s saw", cstr "pattern p (60)", cstr "play p s"]
      (cstr "tempo 120") (cstr "120") (by decide!) (by decide!) (by decide!) (by decide!),
    by decide!, by decide!⟩

/-- C10 (counterexample). The script `example_tempo_script` has the lines `tempo 120` and
`tempo_scale 3` in this order and is accepted; its Program has `tempo_scale = 3` and
`tempo = 240`, not `120 * 3 = 360`. -/
theorem tempo_before_scale_counterexample :
    (dsl_parse_script example_tempo_script).map (fun p => (p.tempo, p.tempo_scale))
        = .ok (240, 3)
      ∧ (script_lines example_tempo_script).take 2 = [cstr "tempo 120", cstr "tempo_scale 3"]
      ∧ atof (cstr "120") * 3 = 360 := by
  decide!

/-! ### The step length of an installed program -/

theorem c_trunc_of_nonneg (x : ℚ) (h : 0 ≤ x) : c_trunc x = ⌊x⌋ := by
  unfold c_trunc
  rw [if_pos h]
  rfl

theorem build_runtime_fields (e e1 : EngineState) (h : build_runtime e = some e1) :
    e1 = { e with tracks := e1.tracks } := by
  unfold build_runtime at h
  split at h
  · exact Option.noConfusion h
  · cases h
    rfl

theorem c_int_of_nonneg (x : ℚ) (h : 0 ≤ x) (hfit : x < 2147483648) : c_int x = some ⌊x⌋ := by
  unfold c_int
  rw [if_pos ⟨by linarith, hfit⟩, c_trunc_of_nonneg x h]

/-- C11 (amended). Installing a program with a positive tempo at a positive sample rate, with
`sr * 60 / tempo / 4` below `2^31`, sets `base_samples_per_step` to `sr * 60 / tempo / 4`
truncated to an integer, and to 1 when that is 0. -/
theorem base_samples_per_step_truncated (engine e1 : EngineState) (program : Program)
    (hsr : 0 < engine.sample_rate) (ht : 0 < program.tempo)
    (hfit : engine.sample_rate * 60 / program.tempo / 4 < 2147483648)
    (h : install_program engine program = some e1) :
    e1.base_samples_per_step = max 1 ⌊engine.sample_rate * 60 / program.tempo / 4⌋ := by
  have hx : 0 ≤ engine.sample_rate * 60 / program.tempo / 4 := by positivity
  unfold install_program at h
  rw [c_int_of_nonneg _ hx hfit] at h
  dsimp only at h
  split at h
  · exact Option.noConfusion h
  · rename_i e2 hb
    cases h
    have hf := build_runtime_fields _ _ hb
    show e2.base_samples_per_step = _
    rw [hf]
    show (if ⌊engine.sample_rate * 60 / program.tempo / 4⌋ < 1 then 1
      else ⌊engine.sample_rate * 60 / program.tempo / 4⌋) = _
    split <;> omega

theorem base_samples_per_step_truncated_witness :
    (loaded_engine example_tempo_scaled_script).base_samples_per_step
        = max 1 ⌊audio_engine_init.sample_rate * 60
            / (parsed_program example_tempo_scaled_script).tempo / 4⌋
      ∧ (audio_engine_init.sample_rate, (parsed_program example_tempo_scaled_script).tempo,
          (loaded_engine example_tempo_scaled_script).base_samples_per_step)
        = (48000, 240, 3000) :=
  ⟨base_samples_per_step_truncated audio_engine_init
      (loaded_engine example_tempo_scaled_script) (parsed_program example_tempo_scaled_script)
      (by decide!) (by decide!) (by decide!) (by decide!), by decide!⟩

/-- C11 (counterexample). The script `example_slow_script` has tempo 70; at the sample rate
48000 the step length `48000 * 60 / 70 / 4 = 10285.71...` is stored as 10285, while
rounding gives 10286. -/
theorem base_samples_per_step_counterexample :
    (engine_of_script example_slow_script).map
        (fun e => (e.sample_rate, e.program.tempo, e.base_samples_per_step))
        = some (48000, 70, 10285)
      ∧ round ((48000 : ℚ) * 60 / 70 / 4) = 10286 := by
  decide!

/-! ### The countdown of a track -/

theorem retimed_refl (t : TrackRuntime) : Retimed t t := ⟨rfl, rfl, id⟩

theorem retimed_trans {t u v : TrackRuntime} (h1 : Retimed t u) (h2 : Retimed u v) :
    Retimed t v :=
  ⟨h2.1.trans h1.1, h2.2.1.trans h1.2.1, fun h => h2.2.2 (h1.2.2 h)⟩

theorem forall₂_retimed_refl (l : List TrackRuntime) : List.Forall₂ Retimed l l := by
  induction l with
  | nil => exact List.Forall₂.nil
  | cons a l ih => exact List.Forall₂.cons (retimed_refl a) ih

theorem forall₂_retimed_trans {l1 l2 l3 : List TrackRuntime}
    (h1 : List.Forall₂ Retimed l1 l2) (h2 : List.Forall₂ Retimed l2 l3) :
    List.Forall₂ Retimed l1 l3 := by
  induction h1 generalizing l3 with
  | nil => cases h2; exact List.Forall₂.nil
  | cons hab _ ih =>
    cases h2 with
    | cons hbc hrest => exact List.Forall₂.cons (retimed_trans hab hbc) (ih hrest)

theorem step_keeps_refl (e : EngineState) (t : TrackRuntime) : StepKeeps e t e t :=
  ⟨retimed_refl t, forall₂_retimed_refl _, fun _ => rfl⟩

theorem step_keeps_trans {e e1 e2 : EngineState} {t t1 t2 : TrackRuntime}
    (h1 : StepKeeps e t e1 t1) (h2 : StepKeeps e1 t1 e2 t2) : StepKeeps e t e2 t2 :=
  ⟨retimed_trans h1.1 h2.1, forall₂_retimed_trans h1.2.1 h2.2.1,
    fun h => (h2.2.2 (h1.1.2.1.trans h)).trans (h1.2.2 h)⟩

theorem update_track_tempo_retimed (e : EngineState) (t : TrackRuntime) :
    Retimed t (update_track_tempo e t) := by
  unfold update_track_tempo
  dsimp only
  split
  · exact retimed_refl t
  · refine ⟨rfl, rfl, fun _ => ?_⟩
    dsimp only
    split <;> omega

theorem forall₂_retimed_map (e : EngineState) (l : List TrackRuntime) :
    List.Forall₂ Retimed l (l.map (update_track_tempo e)) := by
  induction l with
  | nil => exact List.Forall₂.nil
  | cons a l ih => exact List.Forall₂.cons (update_track_tempo_retimed e a) ih

theorem advance_sequence_keeps (e : EngineState) (t : TrackRuntime) :
    StepKeeps e t (advance_sequence e t).1 (advance_sequence e t).2 := by
  unfold advance_sequence
  split
  · exact step_keeps_refl e t
  · dsimp only
    split
    · exact step_keeps_refl e t
    · split
      · split
        · rename_i hl
          refine ⟨retimed_trans ⟨rfl, rfl, id⟩ (update_track_tempo_retimed _ _), ?_, ?_⟩
          · exact forall₂_retimed_map _ _
          · intro h0
            exact absurd h0 hl
        · refine ⟨retimed_trans ⟨rfl, rfl, id⟩ (update_track_tempo_retimed _ _), ?_, ?_⟩
          · exact forall₂_retimed_refl _
          · intro _; rfl
      · exact step_keeps_refl e t

theorem retimed_of_fields (t u : TrackRuntime)
    (h1 : u.samples_until_step = t.samples_until_step)
    (h2 : u.is_tempo_leader = t.is_tempo_leader)
    (h3 : u.samples_per_step = t.samples_per_step) : Retimed t u :=
  ⟨h1, h2, fun h => by rw [h3]; exact h⟩

theorem step_keeps_of_track (e : EngineState) (t u : TrackRuntime) (h : Retimed t u) :
    StepKeeps e t e u :=
  ⟨h, forall₂_retimed_refl _, fun _ => rfl⟩

theorem step_keeps_of_voices (e e1 : EngineState) (t u : TrackRuntime) (h : Retimed t u)
    (he : e1.tracks = e.tracks) : StepKeeps e t e1 u :=
  ⟨h, by rw [he]; exact forall₂_retimed_refl _, fun _ => he⟩

theorem default_seq_end_retimed (t : TrackRuntime) (seq : SequenceDef) :
    Retimed t (default_seq_end t seq) := by
  unfold default_seq_end
  split
  · exact retimed_of_fields _ _ rfl rfl rfl
  · exact retimed_refl t

theorem sequence_current_pattern_retimed (e : EngineState) (t : TrackRuntime) :
    Retimed t (sequence_current_pattern e t).1 := by
  unfold sequence_current_pattern
  split
  · exact retimed_refl t
  · split
    · exact retimed_refl t
    · exact default_seq_end_retimed _ _

theorem schedule_inactive_keeps (e : EngineState) (t : TrackRuntime) :
    StepKeeps e t (schedule_inactive e t).1 (schedule_inactive e t).2 := by
  unfold schedule_inactive
  split
  · exact step_keeps_refl e t
  · split
    · split
      · exact step_keeps_of_track e t _ (sequence_current_pattern_retimed e t)
      · dsimp only
        split
        · split
          · exact step_keeps_trans
              (step_keeps_of_track e t _
                (retimed_trans (sequence_current_pattern_retimed e t)
                  (retimed_of_fields _ _ rfl rfl rfl)))
              (advance_sequence_keeps _ _)
          · exact step_keeps_of_track e t _
              (retimed_trans (sequence_current_pattern_retimed e t)
                (retimed_of_fields _ _ rfl rfl rfl))
        · exact step_keeps_of_track e t _ (sequence_current_pattern_retimed e t)
    · exact step_keeps_refl e t

theorem schedule_ornament_keeps (e : EngineState) (t : TrackRuntime) (s : PatternStep) :
    StepKeeps e t (schedule_ornament e t s).1 (schedule_ornament e t s).2.1 := by
  unfold schedule_ornament
  split
  · dsimp only
    split
    · exact step_keeps_of_voices _ _ _ _ (retimed_of_fields _ _ rfl rfl rfl) rfl
    · exact step_keeps_of_track _ _ _ (retimed_of_fields _ _ rfl rfl rfl)
  · exact step_keeps_refl e t

theorem set_stutter_retimed (t : TrackRuntime) (f : Freq) : Retimed t (set_stutter t f) := by
  unfold set_stutter
  split
  · exact retimed_of_fields _ _ rfl rfl rfl
  · exact retimed_of_fields _ _ rfl rfl rfl

theorem play_step_keeps_aux (e e1 : EngineState) (t t1 : TrackRuntime) (s : PatternStep)
    (f : Freq) (h : StepKeeps e t e1 t1) :
    StepKeeps e t (schedule_ornament e1 t1 s).1
      (set_stutter (schedule_ornament e1 t1 s).2.1 f) :=
  step_keeps_trans h (step_keeps_trans (schedule_ornament_keeps e1 t1 s)
    ⟨set_stutter_retimed _ _, forall₂_retimed_refl _, fun _ => rfl⟩)

theorem play_step_keeps (e : EngineState) (t : TrackRuntime) (s : PatternStep) :
    StepKeeps e t (play_step e t s).1 (play_step e t s).2.1 := by
  unfold play_step
  split
  · dsimp only
    exact play_step_keeps_aux e _ t _ s _
      (step_keeps_of_voices e _ t _ (retimed_of_fields _ _ rfl rfl rfl) rfl)
  · exact step_keeps_refl e t

theorem finish_step_keeps (e : EngineState) (t : TrackRuntime) (p : PatternDef) :
    StepKeeps e t (finish_step e t p).1 (finish_step e t p).2 := by
  unfold finish_step
  dsimp only
  split
  · split
    · exact step_keeps_trans
        (step_keeps_of_track e t _ (retimed_of_fields _ _ rfl rfl rfl))
        (advance_sequence_keeps _ _)
    · exact step_keeps_of_track e t _ (retimed_of_fields _ _ rfl rfl rfl)
  · exact step_keeps_of_track e t _ (retimed_of_fields _ _ rfl rfl rfl)

/-- A call of `schedule_track_step` keeps the countdowns and the leader flags, keeps step
lengths of at least 1 at least 1, and touches no other track unless the track leads the
tempo. -/
theorem schedule_track_step_keeps (e : EngineState) (t : TrackRuntime) :
    StepKeeps e t (schedule_track_step e t).engine (schedule_track_step e t).track := by
  unfold schedule_track_step
  split
  · exact schedule_inactive_keeps e t
  · split
    · exact step_keeps_of_track e t _ (sequence_current_pattern_retimed e t)
    · rename_i pattern hp
      have h0 := step_keeps_of_track e t _ (sequence_current_pattern_retimed e t)
      dsimp only
      split
      · exact h0
      · split
        · exact step_keeps_trans h0
            (step_keeps_of_track _ _ _ (retimed_of_fields _ _ rfl rfl rfl))
        · refine step_keeps_trans h0 ?_
          refine step_keeps_trans ?_ (finish_step_keeps _ _ pattern)
          split
          · split
            · refine step_keeps_trans
                (step_keeps_of_track _ _ _ (retimed_of_fields _ _ rfl rfl rfl)) ?_
              exact play_step_keeps _ _ _
            · exact step_keeps_of_track _ _ _ (retimed_of_fields _ _ rfl rfl rfl)
          · exact step_keeps_of_track _ _ _ (retimed_of_fields _ _ rfl rfl rfl)

theorem stutter_tick_keeps (e : EngineState) (t : TrackRuntime) :
    StepKeeps e t (stutter_tick e t).1 (stutter_tick e t).2 := by
  unfold stutter_tick
  split
  · split
    · exact step_keeps_of_voices _ _ _ _ (retimed_of_fields _ _ rfl rfl rfl) rfl
    · exact step_keeps_of_track _ _ _ (retimed_of_fields _ _ rfl rfl rfl)
  · exact step_keeps_refl e t

theorem stutter_tick_fields (e : EngineState) (t : TrackRuntime) :
    (stutter_tick e t).2.samples_per_step = t.samples_per_step
      ∧ (stutter_tick e t).2.samples_until_step = t.samples_until_step
      ∧ (stutter_tick e t).2.is_tempo_leader = t.is_tempo_leader
      ∧ (stutter_tick e t).1.tracks = e.tracks := by
  unfold stutter_tick
  split
  · split <;> exact ⟨rfl, rfl, rfl, rfl⟩
  · exact ⟨rfl, rfl, rfl, rfl⟩

theorem forall₂_retimed_mem {l1 l2 : List TrackRuntime} (h : List.Forall₂ Retimed l1 l2) :
    ∀ u ∈ l2, ∃ t ∈ l1, Retimed t u := by
  induction h with
  | nil =>
    intro u hu
    exact absurd hu (List.not_mem_nil u)
  | cons hab _ ih =>
    intro u hu
    rcases List.mem_cons.mp hu with rfl | hu
    · exact ⟨_, List.mem_cons_self _ _, hab⟩
    · obtain ⟨t, ht, hr⟩ := ih u hu
      exact ⟨t, List.mem_cons_of_mem _ ht, hr⟩

/-- The body of the track loop for the track at index `i`, described: the other tracks are
retimed (untouched when the track does not lead the tempo), and the track itself ends with a
countdown between 0 and its step length less 1 when it started with a step length of at
least 1 and a countdown of at least 0. -/
theorem render_track_spec (e : EngineState) (i : Nat) (track : TrackRuntime)
    (h : e.tracks.get? i = some track) :
    ∃ (e1 : EngineState) (t1 : TrackRuntime),
      (render_track e i).tracks = e1.tracks.set i t1
        ∧ List.Forall₂ Retimed e.tracks e1.tracks
        ∧ (track.is_tempo_leader = 0 → e1.tracks = e.tracks)
        ∧ t1.is_tempo_leader = track.is_tempo_leader
        ∧ (1 ≤ track.samples_per_step → 0 ≤ track.samples_until_step →
            1 ≤ t1.samples_per_step ∧ 0 ≤ t1.samples_until_step)
        ∧ (1 ≤ track.samples_per_step →
            track.samples_until_step ≤ track.samples_per_step →
            t1.samples_until_step ≤ t1.samples_per_step) := by
  unfold render_track
  rw [h]
  dsimp only
  by_cases hu : track.samples_until_step ≤ 0
  · rw [if_pos hu]
    dsimp only
    have hk := schedule_track_step_keeps e track
    have hs := stutter_tick_fields (schedule_track_step e track).engine
      { (schedule_track_step e track).track with
        samples_until_step := (schedule_track_step e track).track.samples_per_step - 1 }
    refine ⟨_, _, rfl, ?_, ?_, ?_, ?_, ?_⟩
    · rw [hs.2.2.2]; exact hk.2.1
    · intro h0; rw [hs.2.2.2]; exact hk.2.2 h0
    · rw [hs.2.2.1]; exact hk.1.2.1
    · intro h1 _
      rw [hs.1, hs.2.1]
      have := hk.1.2.2 h1
      exact ⟨this, by show 0 ≤ _ - 1; omega⟩
    · intro _ _
      rw [hs.1, hs.2.1]
      show (schedule_track_step e track).track.samples_per_step - 1
        ≤ (schedule_track_step e track).track.samples_per_step
      omega
  · rw [if_neg hu]
    dsimp only
    have hs := stutter_tick_fields e
      { track with samples_until_step := track.samples_until_step - 1 }
    refine ⟨_, _, rfl, ?_, ?_, ?_, ?_, ?_⟩
    · rw [hs.2.2.2]; exact forall₂_retimed_refl _
    · intro _; rw [hs.2.2.2]
    · rw [hs.2.2.1]
    · intro h1 _
      rw [hs.1, hs.2.1]
      exact ⟨h1, by show 0 ≤ _ - 1; omega⟩
    · intro _ h2
      rw [hs.1, hs.2.1]
      show track.samples_until_step - 1 ≤ track.samples_per_step
      omega

theorem render_track_none (e : EngineState) (i : Nat) (h : e.tracks.get? i = none) :
    render_track e i = e := by
  unfold render_track
  rw [h]

theorem render_track_timed (e : EngineState) (i : Nat) (h : Timed e) :
    Timed (render_track e i) := by
  cases hg : e.tracks.get? i with
  | none => rw [render_track_none e i hg]; exact h
  | some track =>
    obtain ⟨e1, t1, hset, hall, _, _, ht, _⟩ := render_track_spec e i track hg
    have hm : track ∈ e.tracks := List.get?_mem hg
    intro u hu
    rw [hset] at hu
    rcases List.mem_or_eq_of_mem_set hu with hu | rfl
    · obtain ⟨t, htm, hr⟩ := forall₂_retimed_mem hall u hu
      exact ⟨hr.2.2 (h t htm).1, by rw [hr.1]; exact (h t htm).2⟩
    · exact ht (h track hm).1 (h track hm).2

theorem render_track_bounded (e : EngineState) (i : Nat) (h : Timed e) (hb : Bounded e) :
    Bounded (render_track e i) := by
  cases hg : e.tracks.get? i with
  | none => rw [render_track_none e i hg]; exact hb
  | some track =>
    obtain ⟨e1, t1, hset, _, hsame, hl, _, hle⟩ := render_track_spec e i track hg
    have hm : track ∈ e.tracks := List.get?_mem hg
    intro u hu
    rw [hset, hsame (hb track hm).1] at hu
    rcases List.mem_or_eq_of_mem_set hu with hu | rfl
    · exact hb u hu
    · exact ⟨hl.trans (hb track hm).1, hle (h track hm).1 (hb track hm).2⟩

theorem render_tracks_timed (l : List Nat) :
    ∀ e : EngineState, Timed e → Timed (l.foldl render_track e) := by
  induction l with
  | nil => intro e h; exact h
  | cons i l ih => intro e h; exact ih _ (render_track_timed e i h)

theorem render_tracks_bounded (l : List Nat) :
    ∀ e : EngineState, Timed e → Bounded e →
      Bounded (l.foldl render_track e) := by
  induction l with
  | nil => intro e _ hb; exact hb
  | cons i l ih =>
    intro e h hb
    exact ih _ (render_track_timed e i h) (render_track_bounded e i h hb)

theorem render_frame_timed (e : EngineState) (h : Timed e) : Timed (render_frame e) :=
  render_tracks_timed _ e h

theorem render_frame_bounded (e : EngineState) (h : Timed e) (hb : Bounded e) :
    Bounded (render_frame e) :=
  render_tracks_bounded _ e h hb

theorem render_frames_timed (n : Nat) :
    ∀ e : EngineState, Timed e → Timed (render_frames n e) := by
  induction n with
  | zero => intro e h; exact h
  | succ n ih => intro e h; exact ih _ (render_frame_timed e h)

theorem render_frames_bounded (n : Nat) :
    ∀ e : EngineState, Timed e → Bounded e → Bounded (render_frames n e) := by
  induction n with
  | zero => intro e _ hb; exact hb
  | succ n ih =>
    intro e h hb
    exact ih _ (render_frame_timed e h) (render_frame_bounded e h hb)

theorem init_track_runtime_timing (e : EngineState) (i : Nat) (td : TrackDef)
    (p : Option PatternDef) (sy : SynthDef) (q : Option SequenceDef) (l : Int) :
    1 ≤ (init_track_runtime e i td p sy q l).samples_per_step
      ∧ (init_track_runtime e i td p sy q l).samples_until_step = 0 := by
  unfold init_track_runtime
  dsimp only
  constructor
  · apply (update_track_tempo_retimed e _).2.2
    show 1 ≤ (if c_trunc ((e.base_samples_per_step : ℚ) / track_base_rate td) < 1 then 1
      else c_trunc ((e.base_samples_per_step : ℚ) / track_base_rate td))
    split <;> omega
  · rw [(update_track_tempo_retimed e _).1]

theorem build_runtime_loop_timing (e : EngineState) (tracks : List TrackDef) :
    ∀ (i : Nat) (leader_set : Bool) (acc out : List TrackRuntime),
      build_runtime_loop e i leader_set tracks acc = some out →
      (∀ t ∈ acc, 1 ≤ t.samples_per_step ∧ t.samples_until_step = 0) →
      ∀ t ∈ out, 1 ≤ t.samples_per_step ∧ t.samples_until_step = 0 := by
  induction tracks with
  | nil =>
    intro i leader_set acc out h hacc
    unfold build_runtime_loop at h
    cases h
    exact hacc
  | cons td rest ih =>
    intro i leader_set acc out h hacc
    unfold build_runtime_loop at h
    dsimp only at h
    split at h
    · exact Option.noConfusion h
    · split at h
      · exact Option.noConfusion h
      · split at h
        · exact Option.noConfusion h
        · refine ih _ _ _ _ h ?_
          intro t ht
          rcases List.mem_append.mp ht with ht | ht
          · exact hacc t ht
          · rw [List.mem_singleton] at ht
            rw [ht]
            exact init_track_runtime_timing _ _ _ _ _ _ _

/-- After `build_runtime` every track has a step length of at least 1 and the countdown 0. -/
theorem build_runtime_timing (e0 e : EngineState) (h : build_runtime e0 = some e) :
    ∀ t ∈ e.tracks, 1 ≤ t.samples_per_step ∧ t.samples_until_step = 0 := by
  unfold build_runtime at h
  split at h
  · exact Option.noConfusion h
  · rename_i tracks hb
    cases h
    exact build_runtime_loop_timing e0 _ _ _ _ _ hb
      (fun t ht => absurd ht (List.not_mem_nil t))

/-- C12 (amended). After `build_runtime`, whatever the voices are, and after every frame
rendered from there, every track has `1 <= samples_per_step` and
`0 <= samples_until_step`; and `samples_until_step <= samples_per_step` as well when no
track leads the tempo. -/
theorem track_countdown_bounds (e0 e : EngineState) (voices : List Voice) (n : Nat)
    (h : build_runtime e0 = some e) :
    ∀ t ∈ (render_frames n { e with voices := voices }).tracks,
      1 ≤ t.samples_per_step ∧ 0 ≤ t.samples_until_step
        ∧ ((∀ x ∈ e.tracks, x.is_tempo_leader = 0) →
            t.samples_until_step ≤ t.samples_per_step) := by
  have hb := build_runtime_timing e0 e h
  have ht : Timed { e with voices := voices } := by
    intro t hm
    have := hb t hm
    exact ⟨this.1, by rw [this.2]⟩
  intro t hm
  refine ⟨(render_frames_timed n _ ht t hm).1, (render_frames_timed n _ ht t hm).2, ?_⟩
  intro hl
  have hbd : Bounded { e with voices := voices } := by
    intro x hx
    have := hb x hx
    exact ⟨hl x hx, by rw [this.2]; omega⟩
  exact (render_frames_bounded n _ ht hbd t hm).2

theorem track_countdown_bounds_witness :
    1 ≤ (first_track (render_frames 3
          { ({ loaded_engine example_tempo_scaled_script with
                voices := audio_engine_init.voices } : EngineState) with
            voices := (loaded_engine example_tempo_scaled_script).voices })).samples_per_step
      ∧ 0 ≤ (first_track (render_frames 3
          { ({ loaded_engine example_tempo_scaled_script with
                voices := audio_engine_init.voices } : EngineState) with
            voices := (loaded_engine example_tempo_scaled_script).voices })).samples_until_step
      ∧ (first_track (render_frames 3
          { ({ loaded_engine example_tempo_scaled_script with
                voices := audio_engine_init.voices } : EngineState) with
            voices := (loaded_engine example_tempo_scaled_script).voices })).samples_until_step
        ≤ (first_track (render_frames 3
          { ({ loaded_engine example_tempo_scaled_script with
                voices := audio_engine_init.voices } : EngineState) with
            voices := (loaded_engine example_tempo_scaled_script).voices })).samples_per_step :=
  ⟨(track_countdown_bounds
      { audio_engine_init with
        program := parsed_program example_tempo_scaled_script, tempo_section := 1,
        base_samples_per_step := 3000 }
      { loaded_engine example_tempo_scaled_script with voices := audio_engine_init.voices }
      (loaded_engine example_tempo_scaled_script).voices 3 (by decide!) _ (by decide!)).1,
    (track_countdown_bounds
      { audio_engine_init with
        program := parsed_program example_tempo_scaled_script, tempo_section := 1,
        base_samples_per_step := 3000 }
      { loaded_engine example_tempo_scaled_script with voices := audio_engine_init.voices }
      (loaded_engine example_tempo_scaled_script).voices 3 (by decide!) _ (by decide!)).2.1,
    (track_countdown_bounds
      { audio_engine_init with
        program := parsed_program example_tempo_scaled_script, tempo_section := 1,
        base_samples_per_step := 3000 }
      { loaded_engine example_tempo_scaled_script with voices := audio_engine_init.voices }
      (loaded_engine example_tempo_scaled_script).voices 3 (by decide!) _ (by decide!)).2.2
      (by decide!)⟩

/-- C12 (counterexample). In `example_leader_script` the track `play a s` comes before the
sequence track that leads the tempo. In the first frame it is given the countdown
`6000 - 1`; then the leader ends its one-step pattern, moves to section 2 and all step
lengths become `6000 / 4`: after the frame the first track has
`samples_until_step = 5999 > 1500 = samples_per_step`. -/
theorem track_countdown_counterexample :
    (engine_of_script example_leader_script).map
        (fun e => e.tracks.map
          (fun t => (t.samples_until_step, t.samples_per_step, t.is_tempo_leader)))
        = some [(0, 6000, 0), (0, 6000, 1)]
      ∧ (render_frame (loaded_engine example_leader_script)).tracks.map
          (fun t => (t.samples_until_step, t.samples_per_step, t.is_tempo_leader))
        = [(5999, 1500, 0), (1499, 1500, 1)] := by
  decide!

/-! ### The envelope stage of a voice -/

theorem voice_note_on_ok (v : Voice) (n : NoteOn) : VoiceOk (voice_note_on v n) := by
  unfold VoiceOk voice_note_on
  dsimp only
  exact ⟨fun _ => by decide, fun _ => rfl⟩

theorem voice_render_ok (v : Voice) (h : VoiceOk v) : VoiceOk (voice_render v) := by
  unfold voice_render
  split
  · exact h
  · rename_i ha
    have hact : v.active = true := by simpa using ha
    have hst : v.stage ≠ EnvStage.ENV_OFF := h.mp hact
    split
    · split
      · exact ⟨fun _ => by dsimp only; decide, fun _ => hact⟩
      · rename_i hs _
        exact ⟨fun _ => by show v.stage ≠ _; exact hst, fun _ => hact⟩
    · split
      · exact ⟨fun _ => by dsimp only; decide, fun _ => hact⟩
      · exact ⟨fun _ => by show v.stage ≠ _; exact hst, fun _ => hact⟩
    · split
      · exact ⟨fun _ => by dsimp only; decide, fun _ => hact⟩
      · exact ⟨fun _ => by show v.stage ≠ _; exact hst, fun _ => hact⟩
    · split
      · exact ⟨fun h0 => Bool.noConfusion h0, fun h0 => absurd rfl h0⟩
      · exact ⟨fun _ => by show v.stage ≠ _; exact hst, fun _ => hact⟩
    · rename_i hs
      exact absurd hs hst

theorem note_on_first_free_ok (n : NoteOn) (vs : List Voice) (h : ∀ v ∈ vs, VoiceOk v) :
    ∀ v ∈ (note_on_first_free n vs).1, VoiceOk v := by
  induction vs with
  | nil =>
    intro v hv
    exact absurd hv (List.not_mem_nil v)
  | cons a vs ih =>
    intro v hv
    unfold note_on_first_free at hv
    split at hv
    · rcases List.mem_cons.mp hv with rfl | hv
      · exact voice_note_on_ok a n
      · exact h v (List.mem_cons_of_mem a hv)
    · rcases List.mem_cons.mp hv with rfl | hv
      · exact h _ (List.mem_cons_self _ vs)
      · exact ih (fun x hx => h x (List.mem_cons_of_mem a hx)) v hv

theorem note_ons_trans {a b c : List Voice} (h1 : NoteOns a b) (h2 : NoteOns b c) :
    NoteOns a c := by
  induction h2 with
  | refl => exact h1
  | step ws n _ ih => exact NoteOns.step a ws n ih

theorem note_ons_of_eq {a b : List Voice} (h : b = a) : NoteOns a b := by
  rw [h]; exact NoteOns.refl a

theorem note_ons_ok {a b : List Voice} (h : NoteOns a b) (ha : ∀ v ∈ a, VoiceOk v) :
    ∀ v ∈ b, VoiceOk v := by
  induction h with
  | refl => exact ha
  | step ws n _ ih => exact note_on_first_free_ok n ws ih

theorem update_all_track_tempos_voices (e : EngineState) :
    (update_all_track_tempos e).voices = e.voices := rfl

theorem advance_sequence_voices (e : EngineState) (t : TrackRuntime) :
    (advance_sequence e t).1.voices = e.voices := by
  unfold advance_sequence
  split
  · rfl
  · dsimp only
    split
    · rfl
    · split
      · split <;> rfl
      · rfl

theorem schedule_ornament_voices (e : EngineState) (t : TrackRuntime) (s : PatternStep) :
    NoteOns e.voices (schedule_ornament e t s).1.voices := by
  unfold schedule_ornament
  split
  · dsimp only
    split
    · exact NoteOns.step _ _ _ (NoteOns.refl _)
    · exact NoteOns.refl _
  · exact NoteOns.refl _

theorem play_step_voices_aux (e1 : EngineState) (t1 : TrackRuntime) (s : PatternStep)
    (vs : List Voice) (h : NoteOns vs e1.voices) :
    NoteOns vs (schedule_ornament e1 t1 s).1.voices :=
  note_ons_trans h (schedule_ornament_voices e1 t1 s)

theorem play_step_voices (e : EngineState) (t : TrackRuntime) (s : PatternStep) :
    NoteOns e.voices (play_step e t s).1.voices := by
  unfold play_step
  split
  · dsimp only
    exact play_step_voices_aux _ _ s _ (NoteOns.step _ _ _ (NoteOns.refl e.voices))
  · exact NoteOns.refl _

theorem finish_step_voices (e : EngineState) (t : TrackRuntime) (p : PatternDef) :
    (finish_step e t p).1.voices = e.voices := by
  unfold finish_step
  dsimp only
  split
  · split
    · exact advance_sequence_voices _ _
    · rfl
  · rfl

theorem schedule_inactive_voices (e : EngineState) (t : TrackRuntime) :
    (schedule_inactive e t).1.voices = e.voices := by
  unfold schedule_inactive
  split
  · rfl
  · split
    · split
      · rfl
      · dsimp only
        split
        · split
          · exact advance_sequence_voices _ _
          · rfl
        · rfl
    · rfl

/-- A call of `schedule_track_step` changes the voices by note-ons on the first free voice
only. -/
theorem schedule_track_step_voices (e : EngineState) (t : TrackRuntime) :
    NoteOns e.voices (schedule_track_step e t).engine.voices := by
  unfold schedule_track_step
  split
  · exact note_ons_of_eq (schedule_inactive_voices e t)
  · split
    · exact NoteOns.refl _
    · rename_i pattern hp
      dsimp only
      split
      · exact NoteOns.refl _
      · split
        · exact NoteOns.refl _
        · refine note_ons_trans ?_ (note_ons_of_eq (finish_step_voices _ _ pattern))
          split
          · split
            · exact play_step_voices _ _ _
            · exact NoteOns.refl _
          · exact NoteOns.refl _

theorem stutter_tick_voices (e : EngineState) (t : TrackRuntime) :
    NoteOns e.voices (stutter_tick e t).1.voices := by
  unfold stutter_tick
  split
  · split
    · exact NoteOns.step _ _ _ (NoteOns.refl _)
    · exact NoteOns.refl _
  · exact NoteOns.refl _

theorem render_track_voices (e : EngineState) (i : Nat) :
    NoteOns e.voices (render_track e i).voices := by
  unfold render_track
  split
  · exact NoteOns.refl _
  · rename_i track _
    dsimp only
    refine note_ons_trans ?_ (stutter_tick_voices _ _)
    split
    · exact schedule_track_step_voices e track
    · exact NoteOns.refl _

theorem render_tracks_voices (l : List Nat) :
    ∀ e : EngineState, NoteOns e.voices (l.foldl render_track e).voices := by
  induction l with
  | nil => intro e; exact NoteOns.refl _
  | cons i l ih => intro e; exact note_ons_trans (render_track_voices e i) (ih _)

theorem render_frame_ok (e : EngineState) (h : ∀ v ∈ e.voices, VoiceOk v) :
    ∀ v ∈ (render_frame e).voices, VoiceOk v := by
  intro v hv
  unfold render_frame at hv
  dsimp only at hv
  obtain ⟨w, hw, rfl⟩ := List.mem_map.mp hv
  exact voice_render_ok w (note_ons_ok (render_tracks_voices _ e) h w hw)

theorem install_program_ok (e0 e : EngineState) (program : Program)
    (h : install_program e0 program = some e) : ∀ v ∈ e.voices, VoiceOk v := by
  unfold install_program at h
  split at h
  · exact Option.noConfusion h
  · split at h
    · exact Option.noConfusion h
    · cases h
      intro v hv
      obtain ⟨w, _, rfl⟩ := List.mem_map.mp hv
      exact ⟨fun h0 => Bool.noConfusion h0, fun h0 => absurd rfl h0⟩

/-- The drones are started by note-ons on the first free voice. -/
theorem start_drones_playing (drones : List DroneDef) :
    ∀ e e1 : EngineState, Playing e → start_drones e drones = .ok e1 → Playing e1 := by
  induction drones with
  | nil =>
    intro e e1 hp h
    unfold start_drones at h
    cases h
    exact hp
  | cons d rest ih =>
    intro e e1 hp h
    unfold start_drones at h
    split at h
    · exact Except.noConfusion h
    · split at h
      · exact Except.noConfusion h
      · exact ih _ e1 (Playing.note_on e _ hp) h

/-- C13 (amended). In every engine state reached from a successful program install by
note-ons and rendered frames, a voice is active if and only if its envelope stage is not
`ENV_OFF`. -/
theorem voice_active_iff_stage (e : EngineState) (h : Playing e) :
    ∀ v ∈ e.voices, (v.active = true ↔ v.stage ≠ EnvStage.ENV_OFF) := by
  induction h with
  | install e0 e program hi => exact install_program_ok e0 e program hi
  | note_on e n _ ih => exact note_on_first_free_ok n e.voices ih
  | frame e _ ih => exact render_frame_ok e ih

theorem voice_active_iff_stage_witness :
    (((render_frame (render_frame (loaded_engine example_leader_script))).voices.getD 0
          zero_voice).active = true
        ↔ ((render_frame (render_frame (loaded_engine example_leader_script))).voices.getD 0
          zero_voice).stage ≠ EnvStage.ENV_OFF)
      ∧ ((render_frame (render_frame (loaded_engine example_leader_script))).voices.getD 0
          zero_voice).active = true :=
  ⟨voice_active_iff_stage _
    (Playing.frame _ (Playing.frame _
      (Playing.install audio_engine_init (loaded_engine example_leader_script)
        (parsed_program example_leader_script) (by decide!)))) _ (by decide!),
    by decide!⟩

/-- C13 (counterexample). Right after `audio_engine_init` each of the 32 voices is
inactive while its stage is `ENV_ATTACK`, the enumerator with the value 0 that `memset`
leaves; a failed `build_runtime` leaves the voices as they are. -/
theorem voice_stage_after_init_counterexample :
    audio_engine_init.voices.length = 32
      ∧ (∀ v ∈ audio_engine_init.voices,
          v.active = false ∧ v.stage = EnvStage.ENV_ATTACK) := by
  decide!

/-! ### The scan for a free voice -/

theorem note_on_first_free_set (n : NoteOn) (voices : List Voice) :
    ∀ (i : Nat) (v : Voice), voices.get? i = some v → v.active = false →
      (∀ w ∈ voices.take i, w.active = true) →
      note_on_first_free n voices = (voices.set i (voice_note_on v n), true) := by
  induction voices with
  | nil =>
    intro i v h
    exact Option.noConfusion h
  | cons a vs ih =>
    intro i v h hv hbefore
    cases i with
    | zero =>
      have ha : a = v := by simpa using h
      subst ha
      unfold note_on_first_free
      simp [hv]
    | succ i =>
      have ha : a.active = true := hbefore a (by simp)
      have hrest := ih i v (by simpa using h) hv
        (fun w hw => hbefore w (by simp [hw]))
      unfold note_on_first_free
      simp [ha, hrest]

theorem note_on_first_free_full (n : NoteOn) (voices : List Voice)
    (h : ∀ v ∈ voices, v.active = true) : note_on_first_free n voices = (voices, false) := by
  induction voices with
  | nil => rfl
  | cons a vs ih =>
    have ha : a.active = true := h a (List.mem_cons_self a vs)
    have hrest := ih (fun w hw => h w (List.mem_cons_of_mem a hw))
    unfold note_on_first_free
    simp [ha, hrest]

/-- C14. A call of `schedule_track_step` changes the voices only by note-ons made by the
scan for the first free voice, and such a note-on, when `i` is the lowest index of an inactive
voice, starts the voice at `i` and changes no other voice; when every voice is active it
changes nothing. -/
theorem note_on_lowest_inactive (e : EngineState) (t : TrackRuntime) (n : NoteOn)
    (voices : List Voice) :
    NoteOns e.voices (schedule_track_step e t).engine.voices
      ∧ (∀ (i : Nat) (v : Voice), voices.get? i = some v → v.active = false →
          (∀ w ∈ voices.take i, w.active = true) →
          note_on_first_free n voices = (voices.set i (voice_note_on v n), true))
      ∧ ((∀ v ∈ voices, v.active = true) → note_on_first_free n voices = (voices, false)) :=
  ⟨schedule_track_step_voices e t, note_on_first_free_set n voices,
    note_on_first_free_full n voices⟩

theorem note_on_lowest_inactive_witness :
    note_on_first_free example_note_on
        [voice_note_on zero_voice example_note_on, zero_voice, zero_voice]
      = ([voice_note_on zero_voice example_note_on, zero_voice, zero_voice].set 1
          (voice_note_on zero_voice example_note_on), true)
    ∧ note_on_first_free example_note_on
        (List.replicate 32 (voice_note_on zero_voice example_note_on))
      = (List.replicate 32 (voice_note_on zero_voice example_note_on), false) :=
  ⟨(note_on_lowest_inactive audio_engine_init empty_track example_note_on
      [voice_note_on zero_voice example_note_on, zero_voice, zero_voice]).2.1
      1 zero_voice (by decide!) (by decide!) (by decide!),
    (note_on_lowest_inactive audio_engine_init empty_track example_note_on
      (List.replicate 32 (voice_note_on zero_voice example_note_on))).2.2 (by decide!)⟩

/-! ### The options of playseq -/

/-- C15, the code: `play` rejects `rate 0` while `playseq` accepts it and stores the rate 0,
and `density 2` is stored as 1 by `play` and as 2 by `playseq`: the option loop of `playseq`
has none of the range checks of `play` and does not clamp `density`. -/
theorem playseq_options_unchecked :
    line_tracks (cstr "play x s rate 0") = .error (cstr "Line 1: rate must be > 0")
      ∧ line_tracks (cstr "playseq x s rate 0")
          = .ok [{ set_default_track (cstr "x") (cstr "s") with is_sequence := 1, rate := 0 }]
      ∧ line_tracks (cstr "play x s density 2")
          = .ok [{ set_default_track (cstr "x") (cstr "s") with density := 1 }]
      ∧ line_tracks (cstr "playseq x s density 2")
          = .ok [{ set_default_track (cstr "x") (cstr "s") with
                    is_sequence := 1, density := 2 }]
      ∧ line_tracks (cstr "play x s stut 0") = .error (cstr "Line 1: stut must be >= 1")
      ∧ line_tracks (cstr "playseq x s stut 0")
          = .ok [{ set_default_track (cstr "x") (cstr "s") with is_sequence := 1, stut := 0 }] := by
  decide!

/-! ### The tracks of an accepted script -/

theorem cmd_tempo_tracks (prog prog1 : Program) (n : Nat) (cursor : CStr)
    (h : cmd_tempo prog n cursor = .ok prog1) : prog1.tracks = prog.tracks := by
  unfold cmd_tempo at h
  try dsimp only at h
  repeat' split at h
  all_goals first | (cases h; rfl) | (exact Except.noConfusion h)

theorem cmd_master_tracks (prog prog1 : Program) (n : Nat) (cursor : CStr)
    (h : cmd_master prog n cursor = .ok prog1) : prog1.tracks = prog.tracks := by
  unfold cmd_master at h
  try dsimp only at h
  repeat' split at h
  all_goals first | (cases h; rfl) | (exact Except.noConfusion h)

theorem cmd_tempo_scale_tracks (prog prog1 : Program) (n : Nat) (cursor : CStr)
    (h : cmd_tempo_scale prog n cursor = .ok prog1) : prog1.tracks = prog.tracks := by
  unfold cmd_tempo_scale at h
  try dsimp only at h
  repeat' split at h
  all_goals first | (cases h; rfl) | (exact Except.noConfusion h)

theorem cmd_tempo_map_tracks (prog prog1 : Program) (n : Nat) (cursor : CStr)
    (h : cmd_tempo_map prog n cursor = .ok prog1) : prog1.tracks = prog.tracks := by
  unfold cmd_tempo_map at h
  try dsimp only at h
  repeat' split at h
  all_goals first | (cases h; rfl) | (exact Except.noConfusion h)

theorem cmd_timesig_tracks (prog prog1 : Program) (n : Nat) (cursor : CStr)
    (h : cmd_timesig prog n cursor = .ok prog1) : prog1.tracks = prog.tracks := by
  unfold cmd_timesig at h
  try dsimp only at h
  repeat' split at h
  all_goals first | (cases h; rfl) | (exact Except.noConfusion h)

theorem cmd_timesig_enforce_tracks (prog prog1 : Program) (n : Nat) (cursor : CStr)
    (h : cmd_timesig_enforce prog n cursor = .ok prog1) : prog1.tracks = prog.tracks := by
  unfold cmd_timesig_enforce at h
  try dsimp only at h
  repeat' split at h
  all_goals first | (cases h; rfl) | (exact Except.noConfusion h)

theorem cmd_timesig_map_tracks (prog prog1 : Program) (n : Nat) (cursor : CStr)
    (h : cmd_timesig_map prog n cursor = .ok prog1) : prog1.tracks = prog.tracks := by
  unfold cmd_timesig_map at h
  try dsimp only at h
  repeat' split at h
  all_goals first | (cases h; rfl) | (exact Except.noConfusion h)

theorem cmd_root_tracks (prog prog1 : Program) (n : Nat) (cursor : CStr)
    (h : cmd_root prog n cursor = .ok prog1) : prog1.tracks = prog.tracks := by
  unfold cmd_root at h
  try dsimp only at h
  repeat' split at h
  all_goals first | (cases h; rfl) | (exact Except.noConfusion h)

theorem set_maqam_tracks (prog : Program) (name : CStr) :
    (set_maqam prog name).tracks = prog.tracks := by
  unfold set_maqam
  split <;> rfl

theorem cmd_maqam_tracks (prog prog1 : Program) (n : Nat) (cursor : CStr)
    (h : cmd_maqam prog n cursor = .ok prog1) : prog1.tracks = prog.tracks := by
  unfold cmd_maqam at h
  try dsimp only at h
  repeat' split at h
  all_goals first | (cases h; exact set_maqam_tracks _ _) | (exact Except.noConfusion h)

theorem cmd_drone_tracks (prog prog1 : Program) (n : Nat) (cursor : CStr)
    (h : cmd_drone prog n cursor = .ok prog1) : prog1.tracks = prog.tracks := by
  unfold cmd_drone at h
  try dsimp only at h
  repeat' split at h
  all_goals first | (cases h; rfl) | (exact Except.noConfusion h)

theorem cmd_amp_tracks (prog prog1 : Program) (n : Nat) (cursor : CStr)
    (h : cmd_amp prog n cursor = .ok prog1) : prog1.tracks = prog.tracks := by
  unfold cmd_amp at h
  try dsimp only at h
  repeat' split at h
  all_goals first | (cases h; rfl) | (exact Except.noConfusion h)

theorem cmd_synth_tracks (prog prog1 : Program) (n : Nat) (cursor : CStr)
    (h : cmd_synth prog n cursor = .ok prog1) : prog1.tracks = prog.tracks := by
  unfold cmd_synth at h
  try dsimp only at h
  repeat' split at h
  all_goals first | (cases h; rfl) | (exact Except.noConfusion h)

theorem cmd_set_tracks (prog prog1 : Program) (n : Nat) (cursor : CStr)
    (h : cmd_set prog n cursor = .ok prog1) : prog1.tracks = prog.tracks := by
  unfold cmd_set at h
  try dsimp only at h
  repeat' split at h
  all_goals first | (cases h; rfl) | (exact Except.noConfusion h)

theorem cmd_mod_tracks (prog prog1 : Program) (n : Nat) (cursor : CStr)
    (h : cmd_mod prog n cursor = .ok prog1) : prog1.tracks = prog.tracks := by
  unfold cmd_mod at h
  try dsimp only at h
  repeat' split at h
  all_goals first | (cases h; rfl) | (exact Except.noConfusion h)

theorem cmd_pattern_tracks (prog prog1 : Program) (n : Nat) (cursor : CStr)
    (h : cmd_pattern prog n cursor = .ok prog1) : prog1.tracks = prog.tracks := by
  unfold cmd_pattern at h
  try dsimp only at h
  repeat' split at h
  all_goals first | (cases h; rfl) | (exact Except.noConfusion h)

theorem cmd_accent_tracks (prog prog1 : Program) (n : Nat) (cursor : CStr)
    (h : cmd_accent prog n cursor = .ok prog1) : prog1.tracks = prog.tracks := by
  unfold cmd_accent at h
  try dsimp only at h
  repeat' split at h
  all_goals first | (cases h; rfl) | (exact Except.noConfusion h)

theorem cmd_sequence_tracks (prog prog1 : Program) (n : Nat) (cursor : CStr)
    (h : cmd_sequence prog n cursor = .ok prog1) : prog1.tracks = prog.tracks := by
  unfold cmd_sequence at h
  try dsimp only at h
  repeat' split at h
  all_goals first | (cases h; rfl) | (exact Except.noConfusion h)

theorem atof_float_finite (s : CStr) (h : atof_nonfinite s = false) :
    atof_float s = .finite (atof s) := by
  unfold atof_nonfinite at h
  unfold atof
  cases hf : atof_float s with
  | finite v => rfl
  | nan =>
    rw [hf] at h
    exact absurd h (by decide)
  | pos_inf =>
    rw [hf] at h
    exact absurd h (by decide)
  | neg_inf =>
    rw [hf] at h
    exact absurd h (by decide)

theorem atof_le_of_finite (s : CStr) (b : ℚ) (h : atof_nonfinite s = false) :
    (atof_float s).le b = true ↔ atof s ≤ b := by
  rw [atof_float_finite s h]
  exact decide_eq_true_iff

theorem atof_lt_of_finite (s : CStr) (b : ℚ) (h : atof_nonfinite s = false) :
    (atof_float s).lt b = true ↔ atof s < b := by
  rw [atof_float_finite s h]
  exact decide_eq_true_iff

theorem atof_gt_of_finite (s : CStr) (b : ℚ) (h : atof_nonfinite s = false) :
    (atof_float s).gt b = true ↔ atof s > b := by
  rw [atof_float_finite s h]
  exact decide_eq_true_iff

theorem clamp01_range (v : ℚ) : 0 ≤ clamp01 v ∧ clamp01 v ≤ 1 := by
  unfold clamp01
  split
  · exact ⟨le_refl 0, zero_le_one⟩
  · split
    · exact ⟨zero_le_one, le_refl 1⟩
    · constructor <;> linarith

theorem set_default_track_ranges (pattern synth : CStr) :
    PlayRanges (set_default_track pattern synth)
      ∧ (set_default_track pattern synth).is_sequence = 0 := by
  unfold PlayRanges set_default_track
  dsimp only
  norm_num

theorem play_kept_refl (t : TrackDef) : PlayKept t t := ⟨id, rfl⟩

theorem play_kept_trans {a b c : TrackDef} (h1 : PlayKept a b) (h2 : PlayKept b c) :
    PlayKept a c :=
  ⟨fun h => h2.1 (h1.1 h), h2.2.trans h1.2⟩

theorem play_kept_after {a b c : TrackDef} (h2 : PlayKept b c) (h1 : PlayKept a b) :
    PlayKept a c :=
  play_kept_trans h1 h2

theorem play_kept_of_fields (a b : TrackDef)
    (h : PlayRanges a → PlayRanges b) (hs : b.is_sequence = a.is_sequence) : PlayKept a b :=
  ⟨h, hs⟩

/-- The checks of `play_value_option`: an accepted value keeps the track within the ranges
and leaves `is_sequence` alone. -/
theorem play_value_option_kept (n : Nat) (track out : TrackDef) (token value : CStr)
    (h : play_value_option n track token value = .ok out) : PlayKept track out := by
  have hcl := clamp01_range (atof value)
  unfold play_value_option at h
  by_cases hc : token = cstr "rate"
  · rw [if_pos hc] at h
    split at h
    · exact Except.noConfusion h
    · rename_i hneg
      cases h
      refine ⟨fun hr hfin => ?_, rfl⟩
      obtain ⟨ht, hv⟩ := Bool.or_eq_false_iff.mp hfin
      obtain ⟨h1, h2, h3, h4, h5, h6, h7, h8, h9, h10, h11, h12⟩ := hr ht
      have hle := atof_le_of_finite value 0 hv
      have hlt := atof_lt_of_finite value 0 hv
      simp only [hle, hlt] at hneg
      refine ⟨?_, ?_, ?_, ?_, ?_, ?_, ?_, ?_, ?_, ?_, ?_, ?_⟩ <;>
        first
          | assumption
          | (dsimp only; linarith)
  rw [if_neg hc] at h
  clear hc
  by_cases hc : token = cstr "hurry"
  · rw [if_pos hc] at h
    split at h
    · exact Except.noConfusion h
    · rename_i hneg
      cases h
      refine ⟨fun hr hfin => ?_, rfl⟩
      obtain ⟨ht, hv⟩ := Bool.or_eq_false_iff.mp hfin
      obtain ⟨h1, h2, h3, h4, h5, h6, h7, h8, h9, h10, h11, h12⟩ := hr ht
      have hle := atof_le_of_finite value 0 hv
      have hlt := atof_lt_of_finite value 0 hv
      simp only [hle, hlt] at hneg
      refine ⟨?_, ?_, ?_, ?_, ?_, ?_, ?_, ?_, ?_, ?_, ?_, ?_⟩ <;>
        first
          | assumption
          | (dsimp only; linarith)
  rw [if_neg hc] at h
  clear hc
  by_cases hc : token = cstr "fast"
  · rw [if_pos hc] at h
    split at h
    · exact Except.noConfusion h
    · cases h
      refine ⟨fun hr hfin => ?_, rfl⟩
      obtain ⟨h1, h2, h3, h4, h5, h6, h7, h8, h9, h10, h11, h12⟩ := hr hfin
      refine ⟨?_, ?_, ?_, ?_, ?_, ?_, ?_, ?_, ?_, ?_, ?_, ?_⟩ <;>
        first
          | assumption
          | (dsimp only; linarith)
  rw [if_neg hc] at h
  clear hc
  by_cases hc : token = cstr "slow"
  · rw [if_pos hc] at h
    split at h
    · exact Except.noConfusion h
    · cases h
      refine ⟨fun hr hfin => ?_, rfl⟩
      obtain ⟨h1, h2, h3, h4, h5, h6, h7, h8, h9, h10, h11, h12⟩ := hr hfin
      refine ⟨?_, ?_, ?_, ?_, ?_, ?_, ?_, ?_, ?_, ?_, ?_, ?_⟩ <;>
        first
          | assumption
          | (dsimp only; linarith)
  rw [if_neg hc] at h
  clear hc
  by_cases hc : token = cstr "every"
  · rw [if_pos hc] at h
    split at h
    · exact Except.noConfusion h
    · cases h
      refine ⟨fun hr hfin => ?_, rfl⟩
      obtain ⟨h1, h2, h3, h4, h5, h6, h7, h8, h9, h10, h11, h12⟩ := hr hfin
      refine ⟨?_, ?_, ?_, ?_, ?_, ?_, ?_, ?_, ?_, ?_, ?_, ?_⟩ <;>
        first
          | assumption
          | (dsimp only; linarith)
  rw [if_neg hc] at h
  clear hc
  by_cases hc : token = cstr "density"
  · rw [if_pos hc] at h
    cases h
    refine ⟨fun hr hfin => ?_, rfl⟩
    obtain ⟨h1, h2, h3, h4, h5, h6, h7, h8, h9, h10, h11, h12⟩ :=
      hr (Bool.or_eq_false_iff.mp hfin).1
    refine ⟨?_, ?_, ?_, ?_, ?_, ?_, ?_, ?_, ?_, ?_, ?_, ?_⟩ <;> assumption
  rw [if_neg hc] at h
  clear hc
  by_cases hc : token = cstr "iter"
  · rw [if_pos hc] at h
    split at h
    · exact Except.noConfusion h
    · cases h
      refine ⟨fun hr hfin => ?_, rfl⟩
      obtain ⟨h1, h2, h3, h4, h5, h6, h7, h8, h9, h10, h11, h12⟩ := hr hfin
      refine ⟨?_, ?_, ?_, ?_, ?_, ?_, ?_, ?_, ?_, ?_, ?_, ?_⟩ <;>
        first
          | assumption
          | (dsimp only; linarith)
  rw [if_neg hc] at h
  clear hc
  by_cases hc : token = cstr "chunk"
  · rw [if_pos hc] at h
    split at h
    · exact Except.noConfusion h
    · cases h
      refine ⟨fun hr hfin => ?_, rfl⟩
      obtain ⟨h1, h2, h3, h4, h5, h6, h7, h8, h9, h10, h11, h12⟩ := hr hfin
      refine ⟨?_, ?_, ?_, ?_, ?_, ?_, ?_, ?_, ?_, ?_, ?_, ?_⟩ <;>
        first
          | assumption
          | (dsimp only; linarith)
  rw [if_neg hc] at h
  clear hc
  by_cases hc : token = cstr "stut"
  · rw [if_pos hc] at h
    split at h
    · exact Except.noConfusion h
    · cases h
      refine ⟨fun hr hfin => ?_, rfl⟩
      obtain ⟨h1, h2, h3, h4, h5, h6, h7, h8, h9, h10, h11, h12⟩ := hr hfin
      refine ⟨?_, ?_, ?_, ?_, ?_, ?_, ?_, ?_, ?_, ?_, ?_, ?_⟩ <;>
        first
          | assumption
          | (dsimp only; linarith)
  rw [if_neg hc] at h
  clear hc
  by_cases hc : token = cstr "slide"
  · rw [if_pos hc] at h
    split at h
    · exact Except.noConfusion h
    · rename_i hneg
      cases h
      refine ⟨fun hr hfin => ?_, rfl⟩
      obtain ⟨ht, hv⟩ := Bool.or_eq_false_iff.mp hfin
      obtain ⟨h1, h2, h3, h4, h5, h6, h7, h8, h9, h10, h11, h12⟩ := hr ht
      have hle := atof_le_of_finite value 0 hv
      have hlt := atof_lt_of_finite value 0 hv
      simp only [hle, hlt] at hneg
      refine ⟨?_, ?_, ?_, ?_, ?_, ?_, ?_, ?_, ?_, ?_, ?_, ?_⟩ <;>
        first
          | assumption
          | (dsimp only; linarith)
  rw [if_neg hc] at h
  clear hc
  by_cases hc : token = cstr "acc"
  · rw [if_pos hc] at h
    cases h
    refine ⟨fun hr hfin => ?_, rfl⟩
    obtain ⟨h1, h2, h3, h4, h5, h6, h7, h8, h9, h10, h11, h12⟩ :=
      hr (Bool.or_eq_false_iff.mp hfin).1
    refine ⟨?_, ?_, ?_, ?_, ?_, ?_, ?_, ?_, ?_, ?_, ?_, ?_⟩ <;> assumption
  rw [if_neg hc] at h
  clear hc
  cases h
  exact play_kept_refl _

theorem play_options_kept_aux (n : Nat) (toks : List CStr) :
    (∀ (f : Bool) (track out : TrackDef),
        play_options n f track toks = .ok out → PlayKept track out)
      ∧ (∀ (tok : CStr) (f : Bool) (track out : TrackDef),
        play_options n f track (tok :: toks) = .ok out → PlayKept track out) := by
  induction toks with
  | nil =>
    have h0 : ∀ (g : Bool) (t1 out : TrackDef), play_options n g t1 [] = .ok out →
        PlayKept t1 out := by
      intro g t1 out h1
      rw [play_options.eq_1] at h1
      cases h1
      exact play_kept_refl _
    refine ⟨h0, ?_⟩
    intro tok f track out h
    rw [play_options.eq_2] at h
    split at h
    · exact play_kept_after (h0 _ _ _ h) ⟨fun hr => hr, rfl⟩
    · dsimp only at h
      by_cases c1 : tok.take 31 = cstr "rev"
      · rw [if_pos c1] at h
        exact play_kept_after (h0 _ _ _ h) ⟨fun hr => hr, rfl⟩
      rw [if_neg c1] at h
      by_cases c2 : tok.take 31 = cstr "only"
      · rw [if_pos c2] at h
        exact Except.noConfusion h
      rw [if_neg c2] at h
      by_cases c3 : tok.take 31 = cstr "orn" ∨ tok.take 31 = cstr "ornament"
      · rw [if_pos c3] at h
        exact Except.noConfusion h
      rw [if_neg c3] at h
      by_cases c4 : tok.take 31 = cstr "palindrome"
      · rw [if_pos c4] at h
        exact play_kept_after (h0 _ _ _ h) ⟨fun hr => hr, rfl⟩
      rw [if_neg c4] at h
      split at h
      · exact Except.noConfusion h
      · exact Except.noConfusion h
  | cons b rest ih =>
    refine ⟨ih.2 b, ?_⟩
    intro tok f track out h
    rw [play_options.eq_3] at h
    split at h
    · exact play_kept_after (ih.2 b _ _ _ h) ⟨fun hr => hr, rfl⟩
    · dsimp only at h
      by_cases c1 : tok.take 31 = cstr "rev"
      · rw [if_pos c1] at h
        exact play_kept_after (ih.2 b _ _ _ h) ⟨fun hr => hr, rfl⟩
      rw [if_neg c1] at h
      by_cases c2 : tok.take 31 = cstr "only"
      · rw [if_pos c2] at h
        split at h
        · exact Except.noConfusion h
        · exact play_kept_after (ih.1 _ _ _ h) ⟨fun hr => hr, rfl⟩
      rw [if_neg c2] at h
      by_cases c3 : tok.take 31 = cstr "orn" ∨ tok.take 31 = cstr "ornament"
      · rw [if_pos c3] at h
        refine play_kept_after (ih.1 _ _ _ h) ⟨?_, rfl⟩
        intro hr hfin
        obtain ⟨h1, h2, h3, h4, h5, h6, h7, h8, h9, h10, h11, _⟩ :=
          hr (Bool.or_eq_false_iff.mp hfin).1
        exact ⟨h1, h2, h3, h4, h5, h6, h7, h8, h9, h10, h11, clamp01_range _⟩
      rw [if_neg c3] at h
      by_cases c4 : tok.take 31 = cstr "palindrome"
      · rw [if_pos c4] at h
        exact play_kept_after (ih.2 b _ _ _ h) ⟨fun hr => hr, rfl⟩
      rw [if_neg c4] at h
      split at h
      · split at h
        · exact Except.noConfusion h
        · rename_i track1 hv
          exact play_kept_after (ih.1 _ _ _ h) (play_value_option_kept n _ _ _ _ hv)
      · exact Except.noConfusion h

/-- The option loop of `play` keeps the ranges and `is_sequence`. -/
theorem play_options_kept (n : Nat) (f : Bool) (track out : TrackDef) (toks : List CStr)
    (h : play_options n f track toks = .ok out) : PlayKept track out :=
  (play_options_kept_aux n toks).1 f track out h

theorem playseq_value_option_seq (track : TrackDef) (token value : CStr) :
    (playseq_value_option track token value).is_sequence = track.is_sequence := by
  unfold playseq_value_option
  by_cases hc : token = cstr "rate"
  · rw [if_pos hc]
  rw [if_neg hc]
  clear hc
  by_cases hc : token = cstr "hurry"
  · rw [if_pos hc]
  rw [if_neg hc]
  clear hc
  by_cases hc : token = cstr "fast"
  · rw [if_pos hc]
  rw [if_neg hc]
  clear hc
  by_cases hc : token = cstr "slow"
  · rw [if_pos hc]
  rw [if_neg hc]
  clear hc
  by_cases hc : token = cstr "every"
  · rw [if_pos hc]
  rw [if_neg hc]
  clear hc
  by_cases hc : token = cstr "density"
  · rw [if_pos hc]
  rw [if_neg hc]
  clear hc
  by_cases hc : token = cstr "iter"
  · rw [if_pos hc]
  rw [if_neg hc]
  clear hc
  by_cases hc : token = cstr "chunk"
  · rw [if_pos hc]
  rw [if_neg hc]
  clear hc
  by_cases hc : token = cstr "stut"
  · rw [if_pos hc]
  rw [if_neg hc]
  clear hc
  by_cases hc : token = cstr "slide"
  · rw [if_pos hc]
  rw [if_neg hc]
  clear hc
  by_cases hc : token = cstr "acc"
  · rw [if_pos hc]
  rw [if_neg hc]

theorem playseq_options_seq_aux (n : Nat) (toks : List CStr) :
    (∀ (f : Bool) (track out : TrackDef),
        playseq_options n f track toks = .ok out → out.is_sequence = track.is_sequence)
      ∧ (∀ (tok : CStr) (f : Bool) (track out : TrackDef),
        playseq_options n f track (tok :: toks) = .ok out →
          out.is_sequence = track.is_sequence) := by
  induction toks with
  | nil =>
    have h0 : ∀ (g : Bool) (t1 out : TrackDef), playseq_options n g t1 [] = .ok out →
        out.is_sequence = t1.is_sequence := by
      intro g t1 out h1
      rw [playseq_options.eq_1] at h1
      cases h1
      rfl
    refine ⟨h0, ?_⟩
    intro tok f track out h
    rw [playseq_options.eq_2] at h
    split at h
    · exact (h0 _ _ _ h).trans rfl
    · dsimp only at h
      by_cases c1 : tok.take 31 = cstr "rev"
      · rw [if_pos c1] at h
        exact (h0 _ _ _ h).trans rfl
      rw [if_neg c1] at h
      by_cases c3 : tok.take 31 = cstr "orn" ∨ tok.take 31 = cstr "ornament"
      · rw [if_pos c3] at h
        exact Except.noConfusion h
      rw [if_neg c3] at h
      by_cases c4 : tok.take 31 = cstr "palindrome"
      · rw [if_pos c4] at h
        exact (h0 _ _ _ h).trans rfl
      rw [if_neg c4] at h
      by_cases c2 : tok.take 31 = cstr "only"
      · rw [if_pos c2] at h
        exact Except.noConfusion h
      rw [if_neg c2] at h
      split at h
      · exact Except.noConfusion h
      · exact Except.noConfusion h
  | cons b rest ih =>
    refine ⟨ih.2 b, ?_⟩
    intro tok f track out h
    rw [playseq_options.eq_3] at h
    split at h
    · exact (ih.2 b _ _ _ h).trans rfl
    · dsimp only at h
      by_cases c1 : tok.take 31 = cstr "rev"
      · rw [if_pos c1] at h
        exact (ih.2 b _ _ _ h).trans rfl
      rw [if_neg c1] at h
      by_cases c3 : tok.take 31 = cstr "orn" ∨ tok.take 31 = cstr "ornament"
      · rw [if_pos c3] at h
        exact (ih.1 _ _ _ h).trans rfl
      rw [if_neg c3] at h
      by_cases c4 : tok.take 31 = cstr "palindrome"
      · rw [if_pos c4] at h
        exact (ih.2 b _ _ _ h).trans rfl
      rw [if_neg c4] at h
      by_cases c2 : tok.take 31 = cstr "only"
      · rw [if_pos c2] at h
        split at h
        · exact Except.noConfusion h
        · exact (ih.1 _ _ _ h).trans rfl
      rw [if_neg c2] at h
      split at h
      · exact (ih.1 _ _ _ h).trans (playseq_value_option_seq _ _ _)
      · exact Except.noConfusion h

/-- An accepted `play` line adds one track, a pattern track within the ranges. -/
theorem cmd_play_tracks (prog prog1 : Program) (n : Nat) (cursor : CStr)
    (h : cmd_play prog n cursor = .ok prog1) :
    ∃ track, prog1.tracks = prog.tracks ++ [track] ∧ track.is_sequence = 0
      ∧ PlayRanges track := by
  unfold cmd_play at h
  split at h
  · exact Except.noConfusion h
  · split at h
    · exact Except.noConfusion h
    · split at h
      · exact Except.noConfusion h
      · split at h
        · exact Except.noConfusion h
        · rename_i track ho
          cases h
          have hk := play_options_kept _ _ _ _ _ ho
          exact ⟨track, rfl, hk.2.trans (set_default_track_ranges _ _).2,
            hk.1 (set_default_track_ranges _ _).1⟩

/-- An accepted `playseq` line adds one track, a sequence track. -/
theorem cmd_playseq_tracks (prog prog1 : Program) (n : Nat) (cursor : CStr)
    (h : cmd_playseq prog n cursor = .ok prog1) :
    ∃ track, prog1.tracks = prog.tracks ++ [track] ∧ track.is_sequence = 1 := by
  unfold cmd_playseq at h
  split at h
  · exact Except.noConfusion h
  · split at h
    · exact Except.noConfusion h
    · split at h
      · exact Except.noConfusion h
      · split at h
        · exact Except.noConfusion h
        · rename_i track ho
          cases h
          exact ⟨track, rfl, (playseq_options_seq_aux _ _).1 _ _ _ ho⟩

/-- What a line does to the tracks: nothing, unless it is an accepted `play` line, which adds
a pattern track within the ranges, or an accepted `playseq` line, which adds a sequence
track. -/
theorem parse_line_tracks (prog prog1 : Program) (n : Nat) (line : CStr)
    (h : parse_line prog n line = .ok prog1) :
    prog1.tracks = prog.tracks
      ∨ ∃ track, prog1.tracks = prog.tracks ++ [track]
          ∧ ((line_command line = some (cstr "play") ∧ track.is_sequence = 0
                ∧ PlayRanges track)
              ∨ (line_command line = some (cstr "playseq") ∧ track.is_sequence = 1)) := by
  unfold parse_line at h
  unfold line_command
  split at h
  · cases h
    exact Or.inl rfl
  · rename_i cmd cursor heq
    rw [heq]
    by_cases hc : cmd = cstr "tempo"
    · rw [if_pos hc] at h
      exact Or.inl (cmd_tempo_tracks _ _ _ _ h)
    rw [if_neg hc] at h
    clear hc
    by_cases hc : cmd = cstr "master" ∨ cmd = cstr "master_amp"
    · rw [if_pos hc] at h
      exact Or.inl (cmd_master_tracks _ _ _ _ h)
    rw [if_neg hc] at h
    clear hc
    by_cases hc : cmd = cstr "tempo_scale"
    · rw [if_pos hc] at h
      exact Or.inl (cmd_tempo_scale_tracks _ _ _ _ h)
    rw [if_neg hc] at h
    clear hc
    by_cases hc : cmd = cstr "tempo_map"
    · rw [if_pos hc] at h
      exact Or.inl (cmd_tempo_map_tracks _ _ _ _ h)
    rw [if_neg hc] at h
    clear hc
    by_cases hc : cmd = cstr "timesig" ∨ cmd = cstr "time_signature"
    · rw [if_pos hc] at h
      exact Or.inl (cmd_timesig_tracks _ _ _ _ h)
    rw [if_neg hc] at h
    clear hc
    by_cases hc : cmd = cstr "timesig_enforce"
    · rw [if_pos hc] at h
      exact Or.inl (cmd_timesig_enforce_tracks _ _ _ _ h)
    rw [if_neg hc] at h
    clear hc
    by_cases hc : cmd = cstr "timesig_map"
    · rw [if_pos hc] at h
      exact Or.inl (cmd_timesig_map_tracks _ _ _ _ h)
    rw [if_neg hc] at h
    clear hc
    by_cases hc : cmd = cstr "root"
    · rw [if_pos hc] at h
      exact Or.inl (cmd_root_tracks _ _ _ _ h)
    rw [if_neg hc] at h
    clear hc
    by_cases hc : cmd = cstr "maqam"
    · rw [if_pos hc] at h
      exact Or.inl (cmd_maqam_tracks _ _ _ _ h)
    rw [if_neg hc] at h
    clear hc
    by_cases hc : cmd = cstr "drone"
    · rw [if_pos hc] at h
      exact Or.inl (cmd_drone_tracks _ _ _ _ h)
    rw [if_neg hc] at h
    clear hc
    by_cases hc : cmd = cstr "amp"
    · rw [if_pos hc] at h
      exact Or.inl (cmd_amp_tracks _ _ _ _ h)
    rw [if_neg hc] at h
    clear hc
    by_cases hc : cmd = cstr "synth"
    · rw [if_pos hc] at h
      exact Or.inl (cmd_synth_tracks _ _ _ _ h)
    rw [if_neg hc] at h
    clear hc
    by_cases hc : cmd = cstr "set"
    · rw [if_pos hc] at h
      exact Or.inl (cmd_set_tracks _ _ _ _ h)
    rw [if_neg hc] at h
    clear hc
    by_cases hc : cmd = cstr "mod"
    · rw [if_pos hc] at h
      exact Or.inl (cmd_mod_tracks _ _ _ _ h)
    rw [if_neg hc] at h
    clear hc
    by_cases hc : cmd = cstr "pattern"
    · rw [if_pos hc] at h
      exact Or.inl (cmd_pattern_tracks _ _ _ _ h)
    rw [if_neg hc] at h
    clear hc
    by_cases hc : cmd = cstr "accent"
    · rw [if_pos hc] at h
      exact Or.inl (cmd_accent_tracks _ _ _ _ h)
    rw [if_neg hc] at h
    clear hc
    by_cases hc : cmd = cstr "sequence"
    · rw [if_pos hc] at h
      exact Or.inl (cmd_sequence_tracks _ _ _ _ h)
    rw [if_neg hc] at h
    clear hc
    by_cases hc : cmd = cstr "play"
    · rw [if_pos hc] at h
      obtain ⟨track, h1, h2, h3⟩ := cmd_play_tracks _ _ _ _ h
      exact Or.inr ⟨track, h1, Or.inl ⟨by rw [hc]; rfl, h2, h3⟩⟩
    rw [if_neg hc] at h
    clear hc
    by_cases hc : cmd = cstr "playseq"
    · rw [if_pos hc] at h
      obtain ⟨track, h1, h2⟩ := cmd_playseq_tracks _ _ _ _ h
      exact Or.inr ⟨track, h1, Or.inr ⟨by rw [hc]; rfl, h2⟩⟩
    rw [if_neg hc] at h
    exact Except.noConfusion h

/-- What the line loop does to the tracks: it appends tracks, each pattern track among them
within the ranges, and it appends none unless some line is a `play` or `playseq` line. -/
theorem parse_lines_tracks (lines : List CStr) :
    ∀ (n : Nat) (prog prog1 : Program), parse_lines n prog lines = .ok prog1 →
      ∃ added : List TrackDef, prog1.tracks = prog.tracks ++ added
        ∧ (∀ t ∈ added, t.is_sequence = 0 → PlayRanges t)
        ∧ (added ≠ [] → ∃ line ∈ lines, line_command line = some (cstr "play")
            ∨ line_command line = some (cstr "playseq")) := by
  induction lines with
  | nil =>
    intro n prog prog1 h
    unfold parse_lines at h
    cases h
    exact ⟨[], (List.append_nil _).symm, fun t ht => absurd ht (List.not_mem_nil t),
      fun hne => absurd rfl hne⟩
  | cons l ls ih =>
    intro n prog prog1 h
    unfold parse_lines at h
    split at h
    · exact Except.noConfusion h
    · rename_i p heq
      obtain ⟨added, h1, h2, h3⟩ := ih (n + 1) p prog1 h
      have hext : added ≠ [] → ∃ line ∈ l :: ls, line_command line = some (cstr "play")
          ∨ line_command line = some (cstr "playseq") := by
        intro hne
        obtain ⟨line, hm, hc⟩ := h3 hne
        exact ⟨line, List.mem_cons_of_mem l hm, hc⟩
      rcases parse_line_tracks prog p (n + 1) l heq with h0 | ⟨track, h0, hk⟩
      · exact ⟨added, by rw [h1, h0], h2, hext⟩
      · refine ⟨track :: added, by rw [h1, h0, List.append_assoc]; rfl, ?_, ?_⟩
        · intro t ht hs
          rcases List.mem_cons.mp ht with rfl | ht
          · rcases hk with ⟨_, _, hr⟩ | ⟨_, hq⟩
            · exact hr
            · rw [hq] at hs
              exact absurd hs (by decide)
          · exact h2 t ht hs
        · intro _
          refine ⟨l, List.mem_cons_self l ls, ?_⟩
          rcases hk with ⟨hc, _, _⟩ | ⟨hc, _⟩
          · exact Or.inl hc
          · exact Or.inr hc

theorem dsl_parse_script_lines (script : CStr) (prog : Program)
    (h : dsl_parse_script script = .ok prog) :
    parse_lines 0 set_default_program (script_lines script) = .ok prog
      ∧ prog.track_count ≠ 0 := by
  unfold dsl_parse_script at h
  split at h
  · exact Except.noConfusion h
  · split at h
    · exact Except.noConfusion h
    · rename_i hne
      cases h
      exact ⟨by assumption, hne⟩

/-- The option loop of `play` on a value option: the value is cut to 31 characters and
handed to `play_value_option`, whose error ends the loop. -/
theorem play_options_value (n : Nat) (f : Bool) (track : TrackDef) (name value : CStr)
    (rest : List CStr) (hmode : parse_orn_mode name = none) (hlen : name.take 31 = name)
    (h1 : ¬ (name = cstr "rev")) (h2 : ¬ (name = cstr "only"))
    (h3 : ¬ (name = cstr "orn" ∨ name = cstr "ornament"))
    (h4 : ¬ (name = cstr "palindrome")) (h5 : is_value_option name = true) :
    play_options n f track (name :: value :: rest)
      = match play_value_option n track name (value.take 31) with
        | .error e => .error e
        | .ok track1 => play_options n false track1 rest := by
  rw [play_options.eq_3]
  have hm : (if f = true then parse_orn_mode name else none) = none := by
    cases f
    · rfl
    · rw [if_pos rfl]; exact hmode
  rw [hm]
  dsimp only
  rw [hlen, if_neg h1, if_neg h2, if_neg h3, if_neg h4]
  exact (if_pos h5).trans
    (by cases play_value_option n track name (List.take 31 value) <;> rfl)

/-- The range checks of `play_value_option`. -/
theorem play_value_option_rejects (n : Nat) (track : TrackDef) (value : CStr) :
    ((atof_float value).le 0 = true →
        play_value_option n track (cstr "rate") value = line_error n (cstr "rate must be > 0"))
      ∧ ((atof_float value).le 0 = true →
        play_value_option n track (cstr "hurry") value = line_error n (cstr "hurry must be > 0"))
      ∧ (atoi value < 1 →
        play_value_option n track (cstr "fast") value = line_error n (cstr "fast must be >= 1"))
      ∧ (atoi value < 1 →
        play_value_option n track (cstr "slow") value = line_error n (cstr "slow must be >= 1"))
      ∧ (atoi value < 1 →
        play_value_option n track (cstr "every") value = line_error n (cstr "every must be >= 1"))
      ∧ (atoi value < 1 →
        play_value_option n track (cstr "iter") value = line_error n (cstr "iter must be >= 1"))
      ∧ (atoi value < 0 →
        play_value_option n track (cstr "chunk") value = line_error n (cstr "chunk must be >= 0"))
      ∧ (atoi value < 1 →
        play_value_option n track (cstr "stut") value = line_error n (cstr "stut must be >= 1"))
      ∧ ((atof_float value).lt 0 = true →
        play_value_option n track (cstr "slide") value = line_error n (cstr "slide must be >= 0")) := by
  refine ⟨?_, ?_, ?_, ?_, ?_, ?_, ?_, ?_, ?_⟩ <;> intro h <;> unfold play_value_option
  · rw [if_pos rfl, if_pos h]
  · rw [if_neg (show ¬ (cstr "hurry" = cstr "rate") by decide),
      if_pos rfl, if_pos h]
  · rw [if_neg (show ¬ (cstr "fast" = cstr "rate") by decide),
      if_neg (show ¬ (cstr "fast" = cstr "hurry") by decide),
      if_pos rfl, if_pos h]
  · rw [if_neg (show ¬ (cstr "slow" = cstr "rate") by decide),
      if_neg (show ¬ (cstr "slow" = cstr "hurry") by decide),
      if_neg (show ¬ (cstr "slow" = cstr "fast") by decide),
      if_pos rfl, if_pos h]
  · rw [if_neg (show ¬ (cstr "every" = cstr "rate") by decide),
      if_neg (show ¬ (cstr "every" = cstr "hurry") by decide),
      if_neg (show ¬ (cstr "every" = cstr "fast") by decide),
      if_neg (show ¬ (cstr "every" = cstr "slow") by decide),
      if_pos rfl, if_pos h]
  · rw [if_neg (show ¬ (cstr "iter" = cstr "rate") by decide),
      if_neg (show ¬ (cstr "iter" = cstr "hurry") by decide),
      if_neg (show ¬ (cstr "iter" = cstr "fast") by decide),
      if_neg (show ¬ (cstr "iter" = cstr "slow") by decide),
      if_neg (show ¬ (cstr "iter" = cstr "every") by decide),
      if_neg (show ¬ (cstr "iter" = cstr "density") by decide),
      if_pos rfl, if_pos h]
  · rw [if_neg (show ¬ (cstr "chunk" = cstr "rate") by decide),
      if_neg (show ¬ (cstr "chunk" = cstr "hurry") by decide),
      if_neg (show ¬ (cstr "chunk" = cstr "fast") by decide),
      if_neg (show ¬ (cstr "chunk" = cstr "slow") by decide),
      if_neg (show ¬ (cstr "chunk" = cstr "every") by decide),
      if_neg (show ¬ (cstr "chunk" = cstr "density") by decide),
      if_neg (show ¬ (cstr "chunk" = cstr "iter") by decide),
      if_pos rfl, if_pos h]
  · rw [if_neg (show ¬ (cstr "stut" = cstr "rate") by decide),
      if_neg (show ¬ (cstr "stut" = cstr "hurry") by decide),
      if_neg (show ¬ (cstr "stut" = cstr "fast") by decide),
      if_neg (show ¬ (cstr "stut" = cstr "slow") by decide),
      if_neg (show ¬ (cstr "stut" = cstr "every") by decide),
      if_neg (show ¬ (cstr "stut" = cstr "density") by decide),
      if_neg (show ¬ (cstr "stut" = cstr "iter") by decide),
      if_neg (show ¬ (cstr "stut" = cstr "chunk") by decide),
      if_pos rfl, if_pos h]
  · rw [if_neg (show ¬ (cstr "slide" = cstr "rate") by decide),
      if_neg (show ¬ (cstr "slide" = cstr "hurry") by decide),
      if_neg (show ¬ (cstr "slide" = cstr "fast") by decide),
      if_neg (show ¬ (cstr "slide" = cstr "slow") by decide),
      if_neg (show ¬ (cstr "slide" = cstr "every") by decide),
      if_neg (show ¬ (cstr "slide" = cstr "density") by decide),
      if_neg (show ¬ (cstr "slide" = cstr "iter") by decide),
      if_neg (show ¬ (cstr "slide" = cstr "chunk") by decide),
      if_neg (show ¬ (cstr "slide" = cstr "stut") by decide),
      if_pos rfl, if_pos h]

/-- C18. An accepted script has at least one track and a `play` or `playseq` line; a script
whose lines are all accepted and hold no `play` or `playseq` line is rejected with the
message `No play command found`. -/
theorem play_line_required (script : CStr) :
    (∀ prog : Program, dsl_parse_script script = .ok prog →
        prog.track_count ≥ 1
          ∧ ∃ line ∈ script_lines script, line_command line = some (cstr "play")
              ∨ line_command line = some (cstr "playseq"))
      ∧ (∀ prog : Program,
          parse_lines 0 set_default_program (script_lines script) = .ok prog →
          (∀ line ∈ script_lines script, line_command line ≠ some (cstr "play")
            ∧ line_command line ≠ some (cstr "playseq")) →
          dsl_parse_script script = .error (cstr "No play command found")) := by
  constructor
  · intro prog h
    obtain ⟨hl, hne⟩ := dsl_parse_script_lines script prog h
    obtain ⟨added, h1, _, h3⟩ := parse_lines_tracks _ _ _ _ hl
    refine ⟨Nat.one_le_iff_ne_zero.mpr hne, h3 ?_⟩
    intro he
    apply hne
    unfold Program.track_count
    rw [h1, he]
    rfl
  · intro prog hl hno
    obtain ⟨added, h1, _, h3⟩ := parse_lines_tracks _ _ _ _ hl
    have he : added = [] := by
      by_contra hne
      obtain ⟨line, hm, hc⟩ := h3 hne
      rcases hc with hc | hc
      · exact (hno line hm).1 hc
      · exact (hno line hm).2 hc
    have ht : prog.track_count = 0 := by
      unfold Program.track_count
      rw [h1, he]
      rfl
    unfold dsl_parse_script
    rw [hl]
    dsimp only
    rw [if_pos ht]

theorem play_line_required_witness :
    ((parsed_program example_options_script).track_count ≥ 1
        ∧ ∃ line ∈ script_lines example_options_script,
            line_command line = some (cstr "play")
              ∨ line_command line = some (cstr "playseq"))
      ∧ dsl_parse_script example_trackless_script = .error (cstr "No play command found") :=
  ⟨(play_line_required example_options_script).1 (parsed_program example_options_script)
      (by decide!),
    (play_line_required example_trackless_script).2
      (match parse_lines 0 set_default_program (script_lines example_trackless_script) with
        | .ok p => p
        | .error _ => set_default_program)
      (by decide!) (by decide!)⟩

/-! ### Line numbers of the messages -/

/-- C17, the code: the lines are cut with `strtok_r(..., "\n", ...)`, which skips empty
lines, and `line_num` counts the lines it yields. The unknown command on line 4 of
`example_empty_lines_script` is reported as `Line 2`; with a blank in the two empty lines it
is reported as `Line 4`. -/
theorem unknown_command_line_number :
    dsl_parse_script example_empty_lines_script
        = .error (cstr "Line 2: unknown command " ++ quoted (cstr "foo"))
      ∧ script_lines example_empty_lines_script = [cstr "synth s saw", cstr "foo bar"]
      ∧ dsl_parse_script example_blank_lines_script
        = .error (cstr "Line 4: unknown command " ++ quoted (cstr "foo")) := by
  decide!

/-! ### Padding a pattern to the meter -/

theorem least_multiple_unique (bar len L r : Int) (h1 : LeastMultiple bar len L)
    (h2 : LeastMultiple bar len r) : L = r :=
  le_antisymm (h1.2.2 r h2.2.1 h2.1) (h2.2.2 L h1.2.1 h1.1)

/-- The function `pad_pattern_to_timesig` for a meter with `num >= 1` and `den >= 1` and a
pattern of at most 128 steps. -/
theorem pad_pattern_to_timesig_spec (prog : Program) (pattern : PatternDef)
    (hnum : 1 ≤ prog.time_sig_num) (hden : 1 ≤ prog.time_sig_den)
    (hlen : pattern.length ≤ 128) :
    (prog.time_sig_enforce = 0 → pad_pattern_to_timesig prog pattern = .ok pattern)
      ∧ (prog.time_sig_enforce ≠ 0 → 16 % prog.time_sig_den ≠ 0 →
          pad_pattern_to_timesig prog pattern
            = .error (cstr "timesig_enforce only supports denominators 1,2,4,8,16"))
      ∧ (prog.time_sig_enforce ≠ 0 → 16 % prog.time_sig_den = 0 → ∀ L : Int,
          LeastMultiple (prog.time_sig_num * (16 / prog.time_sig_den)) pattern.length L →
          (L ≤ 128 → pad_pattern_to_timesig prog pattern
            = .ok { pattern with
                steps := pattern.steps
                  ++ List.replicate (L - pattern.length).toNat pad_step })
          ∧ (128 < L → pad_pattern_to_timesig prog pattern
            = .error (cstr "Pattern too long after timesig pad (max 128)"))) := by
  have hden0 : (0 : Int) ≤ prog.time_sig_den := by omega
  have htmod : Int.tmod 16 prog.time_sig_den = 16 % prog.time_sig_den :=
    Int.tmod_eq_emod (by decide) hden0
  have htdiv : Int.tdiv 16 prog.time_sig_den = 16 / prog.time_sig_den :=
    Int.tdiv_eq_ediv (by decide) hden0
  refine ⟨?_, ?_, ?_⟩
  · intro he
    unfold pad_pattern_to_timesig
    rw [if_pos he]
  · intro he hd
    unfold pad_pattern_to_timesig
    rw [if_neg he]
    dsimp only
    rw [if_neg (by omega), htmod, if_pos hd]
  · intro he hd L hL
    have hq : 1 ≤ 16 / prog.time_sig_den := by
      have hle : prog.time_sig_den ≤ 16 := by
        by_contra hcon
        push_neg at hcon
        rw [Int.emod_eq_of_lt (by decide) hcon] at hd
        exact absurd hd (by decide)
      exact Int.le_ediv_of_mul_le (by omega) (by omega)
    have hbar : 0 < prog.time_sig_num * (16 / prog.time_sig_den) := by positivity
    have hlen0 : (0 : Int) ≤ (pattern.length : Int) := Int.natCast_nonneg _
    have hlen1 : (pattern.length : Int) ≤ 128 := by exact_mod_cast hlen
    have hrem : Int.tmod (pattern.length : Int) (prog.time_sig_num * (16 / prog.time_sig_den))
        = (pattern.length : Int) % (prog.time_sig_num * (16 / prog.time_sig_den)) :=
      Int.tmod_eq_emod hlen0 (le_of_lt hbar)
    have hround := round_up_least (pattern.length : Int)
      (prog.time_sig_num * (16 / prog.time_sig_den)) hbar
    dsimp only at hround
    unfold pad_pattern_to_timesig
    rw [if_neg he]
    dsimp only
    rw [if_neg (by omega), htmod, if_neg (by omega), htdiv, if_neg (by omega), hrem]
    by_cases h0 : (pattern.length : Int) % (prog.time_sig_num * (16 / prog.time_sig_den)) = 0
    · rw [if_pos h0] at hround
      have hLr : L = pattern.length := least_multiple_unique _ _ _ _ hL hround
      rw [if_pos h0, hLr]
      constructor
      · intro _
        have : ((pattern.length : Int) - (pattern.length : Int)).toNat = 0 := by simp
        rw [this, List.replicate_zero, List.append_nil]
      · intro hgt
        omega
    · rw [if_neg h0] at hround
      have hLr : L = (pattern.length : Int)
          + (prog.time_sig_num * (16 / prog.time_sig_den)
            - (pattern.length : Int) % (prog.time_sig_num * (16 / prog.time_sig_den))) :=
        least_multiple_unique _ _ _ _ hL hround
      rw [if_neg h0]
      have hmax : ((DSL_MAX_PATTERN : Nat) : Int) = 128 := rfl
      rw [hmax, ← hLr]
      constructor
      · intro hle
        rw [if_neg (by omega)]
        have hpad : prog.time_sig_num * (16 / prog.time_sig_den)
            - (pattern.length : Int) % (prog.time_sig_num * (16 / prog.time_sig_den))
            = L - pattern.length := by omega
        rw [hpad]
      · intro hgt
        rw [if_pos hgt]
        rfl

theorem parse_pattern_loop_length (prog : Program) (toks : List CStr) :
    ∀ (acc steps : List PatternStep), parse_pattern_loop prog toks acc = .ok steps →
      acc.length ≤ 128 → steps.length ≤ 128 := by
  induction toks with
  | nil =>
    intro acc steps h hacc
    unfold parse_pattern_loop at h
    cases h
    exact hacc
  | cons tok rest ih =>
    intro acc steps h _
    unfold parse_pattern_loop at h
    split at h
    · exact Except.noConfusion h
    · rename_i hlt
      split at h
      · exact Except.noConfusion h
      · refine ih _ _ h ?_
        have : ¬ (acc.length ≥ 128) := hlt
        rw [List.length_append, List.length_singleton]
        omega

theorem parse_pattern_list_length (text : CStr) (steps : List PatternStep)
    (h : parse_pattern_list text = .ok steps) : steps.length ≤ 128 := by
  unfold parse_pattern_list at h
  split at h
  · exact Except.noConfusion h
  · split at h
    · exact Except.noConfusion h
    · dsimp only at h
      split at h
      · exact Except.noConfusion h
      · rename_i base _
        split at h
        · exact Except.noConfusion h
        · split at h
          · exact Except.noConfusion h
          · rename_i rep _
            split at h
            · exact Except.noConfusion h
            · rename_i hle
              cases h
              have hmax : ((DSL_MAX_PATTERN : Nat) : Int) = 128 := rfl
              rw [hmax] at hle
              have hlen : (List.replicate rep.toNat base).flatten.length
                  = rep.toNat * base.length := by
                rw [List.length_flatten, List.map_replicate, List.sum_replicate]
                rfl
              rw [hlen]
              by_cases hr : 0 ≤ rep
              · have h1 : ((rep.toNat * base.length : Nat) : Int) = rep * base.length := by
                  rw [Nat.cast_mul, Int.toNat_of_nonneg hr]
                omega
              · have h0 : rep.toNat = 0 := Int.toNat_eq_zero.mpr (by omega)
                rw [h0]
                omega

/-- An accepted pattern text has at most 128 steps. -/
theorem parse_pattern_length (text : CStr) (prog : Program) (steps : List PatternStep)
    (h : parse_pattern text prog = .ok steps) : steps.length ≤ 128 := by
  unfold parse_pattern at h
  split at h
  · exact parse_pattern_list_length text steps h
  · split at h
    · exact Except.noConfusion h
    · rename_i all hall
      split at h
      · exact Except.noConfusion h
      · cases h
        exact parse_pattern_loop_length prog _ _ _ hall (Nat.zero_le _)

/-- C19 (amended). A `pattern` line read while the global meter is `num/den` and fewer than
64 patterns exist, whose text parses to `steps`: with `timesig_enforce` off the pattern is
stored as parsed; with it on and `16 mod den ≠ 0` the line is rejected; with it on and
`16 mod den = 0` the pattern is stored as the parsed steps followed by rest steps (note -1,
accent 0, slide -1) up to the least multiple `L` of `num * (16 / den)` that is at least the
parsed length when `L <= 128`, and the line is rejected when `L > 128`. -/
theorem pattern_line_padding (prog : Program) (line_num : Nat)
    (cursor rest behind name text : CStr) (steps : List PatternStep)
    (hcount : prog.pattern_count < DSL_MAX_PATTERNS)
    (hname : next_token cursor DSL_MAX_NAME false = some (name, rest))
    (htext : next_token rest 256 true = some (text, behind))
    (hsteps : parse_pattern text prog = .ok steps)
    (hnum : 1 ≤ prog.time_sig_num) (hden : 1 ≤ prog.time_sig_den) :
    (prog.time_sig_enforce = 0 →
        cmd_pattern prog line_num cursor
          = .ok { prog with patterns := prog.patterns ++ [⟨name, steps⟩] })
      ∧ (prog.time_sig_enforce ≠ 0 → 16 % prog.time_sig_den ≠ 0 →
          cmd_pattern prog line_num cursor
            = .error ((cstr "Line " ++ fmt_int line_num ++ cstr ": "
                ++ cstr "timesig_enforce only supports denominators 1,2,4,8,16").take 255))
      ∧ (prog.time_sig_enforce ≠ 0 → 16 % prog.time_sig_den = 0 → ∀ L : Int,
          LeastMultiple (prog.time_sig_num * (16 / prog.time_sig_den)) steps.length L →
          (L ≤ 128 → cmd_pattern prog line_num cursor
            = .ok { prog with
                patterns := prog.patterns
                  ++ [⟨name, steps ++ List.replicate (L - steps.length).toNat pad_step⟩] })
          ∧ (128 < L → cmd_pattern prog line_num cursor
            = .error ((cstr "Line " ++ fmt_int line_num ++ cstr ": "
                ++ cstr "Pattern too long after timesig pad (max 128)").take 255)))
      ∧ (pad_step.note = -1 ∧ pad_step.accent = 0 ∧ pad_step.slide_ms = -1) := by
  have hlen := parse_pattern_length text prog steps hsteps
  have hpad := pad_pattern_to_timesig_spec prog ⟨name, steps⟩ hnum hden hlen
  have hok : ∀ p : PatternDef, pad_pattern_to_timesig prog ⟨name, steps⟩ = .ok p →
      cmd_pattern prog line_num cursor
        = .ok { prog with patterns := prog.patterns ++ [p] } := by
    intro p hp
    unfold cmd_pattern
    rw [if_neg (by omega)]
    dsimp only
    rw [hname]
    dsimp only
    rw [htext]
    dsimp only
    rw [hsteps]
    dsimp only
    rw [hp]
  have herr : ∀ e : CStr, pad_pattern_to_timesig prog ⟨name, steps⟩ = .error e →
      cmd_pattern prog line_num cursor
        = .error ((cstr "Line " ++ fmt_int line_num ++ cstr ": " ++ e).take 255) := by
    intro e hp
    unfold cmd_pattern
    rw [if_neg (by omega)]
    dsimp only
    rw [hname]
    dsimp only
    rw [htext]
    dsimp only
    rw [hsteps]
    dsimp only
    rw [hp]
  refine ⟨?_, ?_, ?_, by decide!⟩
  · intro he
    exact hok _ (hpad.1 he)
  · intro he hd
    exact herr _ (hpad.2.1 he hd)
  · intro he hd L hL
    exact ⟨fun hle => hok _ ((hpad.2.2 he hd L hL).1 hle),
      fun hgt => herr _ ((hpad.2.2 he hd L hL).2 hgt)⟩

theorem pattern_line_padding_witness :
    cmd_pattern
        { set_default_program with time_sig_num := 3, time_sig_den := 4, time_sig_enforce := 1 }
        4 (cstr " p (60 62)")
      = .ok { set_default_program with
          time_sig_num := 3, time_sig_den := 4, time_sig_enforce := 1,
          patterns := [⟨cstr "p",
            [{ pad_step with note := 60 }, { pad_step with note := 62 }]
              ++ List.replicate ((12 : Int) - (2 : Nat)).toNat pad_step⟩] } :=
  ((pattern_line_padding
      { set_default_program with time_sig_num := 3, time_sig_den := 4, time_sig_enforce := 1 }
      4 (cstr " p (60 62)") (cstr " (60 62)") [] (cstr "p") (cstr "60 62")
      [{ pad_step with note := 60 }, { pad_step with note := 62 }]
      (by decide) (by decide!) (by decide!) (by decide!) (by decide) (by decide)).2.2.1
    (by decide) (by decide) 12
    ⟨by decide, ⟨1, by decide⟩, fun m hm hle => by
      obtain ⟨k, rfl⟩ := hm
      have h2 : (2 : Int) ≤ 3 * (16 / 4) * k := hle
      have h3 : (3 : Int) * (16 / 4) = 12 := by decide
      rw [h3] at h2 ⊢
      omega⟩).1 (by decide)

/-- C19 (counterexample). With `timesig_enforce` on, a `pattern` line read under the meter
4/32 (`16 mod 32 ≠ 0`) is not stored as parsed: the line, and with it the script, is
rejected. Under the meter 32/1, whose bar has 512 steps, the pattern is not padded to 512
steps: the line is rejected too. -/
theorem pattern_line_padding_counterexample :
    dsl_parse_script example_den32_script
        = .error (cstr "Line 4: timesig_enforce only supports denominators 1,2,4,8,16")
      ∧ dsl_parse_script example_long_bar_script
        = .error (cstr "Line 4: Pattern too long after timesig pad (max 128)")
      ∧ (first_pattern (loaded_engine example_waltz_script)).notes
        = [60, 62, -1, -1, -1, -1, -1, -1, -1, -1, -1, -1] := by
  decide!

/-! ### The accent mask -/

theorem take_eq_short (e w : CStr) (k : Nat) (hw : w.length < k) : e.take k = w ↔ e = w := by
  constructor
  · intro h
    by_cases hl : e.length ≤ k
    · rw [List.take_of_length_le hl] at h
      exact h
    · exfalso
      have h1 : (e.take k).length = k := by
        rw [List.length_take]
        omega
      rw [h] at h1
      omega
  · intro h
    rw [h]
    exact List.take_of_length_le (by omega)

theorem accent_loop_get (toks : List CStr) :
    ∀ (steps : List PatternStep) (i : Nat) (s : PatternStep), steps.get? i = some s →
      (accent_loop toks steps).get? i
        = some (match toks.get? i with
                | some entry => { s with accent := mask_accent entry }
                | none => s) := by
  induction toks with
  | nil =>
    intro steps i s h
    cases steps with
    | nil => exact Option.noConfusion h
    | cons a l =>
      unfold accent_loop
      rw [h]
      rfl
  | cons tok rest ih =>
    intro steps i s h
    cases steps with
    | nil => exact Option.noConfusion h
    | cons a l =>
      unfold accent_loop
      cases i with
      | zero =>
        have ha : a = s := by simpa using h
        subst ha
        have e1 : (tok.take 7 = cstr "1") = (tok = cstr "1") :=
          propext (take_eq_short tok _ 7 (by decide))
        have e2 : (tok.take 7 = cstr "!") = (tok = cstr "!") :=
          propext (take_eq_short tok _ 7 (by decide))
        have e3 : (tok.take 7 = cstr "acc") = (tok = cstr "acc") :=
          propext (take_eq_short tok _ 7 (by decide))
        simp only [List.get?_cons_zero, mask_accent, e1, e2, e3]
      | succ i =>
        simp only [List.get?_cons_succ] at h ⊢
        exact ih l i s h

theorem accent_loop_length (toks : List CStr) :
    ∀ steps : List PatternStep, (accent_loop toks steps).length = steps.length := by
  induction toks with
  | nil =>
    intro steps
    cases steps <;> rfl
  | cons tok rest ih =>
    intro steps
    cases steps with
    | nil => rfl
    | cons a l =>
      unfold accent_loop
      simp only [List.length_cons, ih l]

theorem update_at_eq_set {α : Type} (f : α → α) (l : List α) :
    ∀ (i : Nat) (x : α), l.get? i = some x → update_at f i l = l.set i (f x) := by
  induction l with
  | nil =>
    intro i x h
    exact Option.noConfusion h
  | cons a l ih =>
    intro i x h
    cases i with
    | zero =>
      have ha : a = x := by simpa using h
      subst ha
      rfl
    | succ i =>
      unfold update_at
      simp only [List.get?_cons_succ] at h
      rw [ih i x h]
      rfl

/-- The token `next_token` reads, with `allow_quoted`, from a text in parentheses that fits
its buffer. -/
theorem next_token_paren (text behind : CStr) (out_len : Nat)
    (hclose : ∀ c ∈ text, c ≠ ')') (hfit : text.length ≤ out_len - 1) :
    next_token (' ' :: '(' :: (text ++ ')' :: behind)) out_len true = some (text, behind) := by
  have hp : ∀ x ∈ text, (fun c => c != ')') x = true := by
    intro x hx
    simpa using hclose x hx
  have htw : (text ++ ')' :: behind).takeWhile (fun c => c != ')') = text := by
    rw [List.takeWhile_append_of_pos hp, List.takeWhile_cons_of_neg (by decide),
      List.append_nil]
  have hdw : (text ++ ')' :: behind).dropWhile (fun c => c != ')') = ')' :: behind := by
    rw [List.dropWhile_append_of_pos hp, List.dropWhile_cons_of_neg (by decide)]
  unfold next_token trim_left
  have htrim : (' ' :: '(' :: (text ++ ')' :: behind)).dropWhile isspace
      = '(' :: (text ++ ')' :: behind) := by
    rw [List.dropWhile_cons_of_pos (by decide), List.dropWhile_cons_of_neg (by decide)]
  rw [htrim]
  have hq : ('(' == '(') = true := by decide
  simp only [Bool.true_and, hq, Bool.or_true, if_true, htw, hdw, List.drop_one,
    List.tail_cons, List.take_of_length_le hfit]

theorem next_token_skip_blank (p : CStr) (out_len : Nat) (q : Bool) :
    next_token (' ' :: p) out_len q = next_token p out_len q := by
  unfold next_token trim_left
  rw [List.dropWhile_cons_of_pos (by decide)]

/-- C20 (amended). An `accent` line that names a pattern found at index `idx` and gives a
mask of at most 255 characters in parentheses replaces that pattern by one with the same
name and as many steps, in which step `i` has the accent of mask entry `i` (1 for `1`, `!`
and `acc`, 0 otherwise) when the mask has an entry `i`, and is the old step otherwise; no
other field of a step and no other pattern is changed. -/
theorem accent_mask_applied (prog : Program) (line_num : Nat) (name mask behind : CStr)
    (idx : Nat) (p : PatternDef)
    (hname : name ≠ []) (hblank : ∀ c ∈ name, isspace c = false) (hlen : name.length ≤ 31)
    (hclose : ∀ c ∈ mask, c ≠ ')') (hfit : mask.length ≤ 255)
    (hfind : dsl_find_pattern prog name = (idx : Int))
    (hp : prog.patterns.get? idx = some p) :
    ∃ q : PatternDef,
      cmd_accent prog line_num (' ' :: (name ++ ' ' :: '(' :: (mask ++ ')' :: behind)))
          = .ok { prog with patterns := prog.patterns.set idx q }
        ∧ q.name = p.name ∧ q.steps.length = p.steps.length
        ∧ ∀ (i : Nat) (s : PatternStep), p.steps.get? i = some s →
            q.steps.get? i
              = some (match (split_tokens is_list_sep mask).get? i with
                      | some entry => { s with accent := mask_accent entry }
                      | none => s) := by
  refine ⟨{ p with steps := accent_loop (split_tokens is_list_sep mask) p.steps },
    ?_, rfl, accent_loop_length _ _, accent_loop_get _ _⟩
  unfold cmd_accent
  rw [next_token_skip_blank]
  have h1 : next_token (name ++ ' ' :: '(' :: (mask ++ ')' :: behind)) DSL_MAX_NAME false
      = some (name, ' ' :: '(' :: (mask ++ ')' :: behind)) :=
    next_token_word name _ hname hblank hlen
  rw [h1]
  dsimp only
  rw [next_token_paren mask behind 256 hclose hfit]
  dsimp only
  rw [hfind, if_neg (by omega), Int.toNat_ofNat, List.take_of_length_le hfit,
    update_at_eq_set _ _ idx p hp]

theorem accent_mask_applied_witness :
    ∃ q : PatternDef,
      cmd_accent
          { set_default_program with
            patterns := [⟨cstr "p", [{ pad_step with note := 60 },
              { pad_step with note := 62, accent := 1 }, { pad_step with note := 64 },
              { pad_step with note := 65, accent := 1 }]⟩] }
          3 (' ' :: (cstr "p" ++ ' ' :: '(' :: (cstr "acc, 0 x" ++ ')' :: [])))
          = .ok { ({ set_default_program with
            patterns := [⟨cstr "p", [{ pad_step with note := 60 },
              { pad_step with note := 62, accent := 1 }, { pad_step with note := 64 },
              { pad_step with note := 65, accent := 1 }]⟩] } : Program) with
            patterns := ([⟨cstr "p", [{ pad_step with note := 60 },
              { pad_step with note := 62, accent := 1 }, { pad_step with note := 64 },
              { pad_step with note := 65, accent := 1 }]⟩] : List PatternDef).set 0 q }
        ∧ q.name = cstr "p" ∧ q.steps.length = 4
        ∧ ∀ (i : Nat) (s : PatternStep),
            ([{ pad_step with note := 60 }, { pad_step with note := 62, accent := 1 },
              { pad_step with note := 64 }, { pad_step with note := 65, accent := 1 }]
                : List PatternStep).get? i = some s →
            q.steps.get? i
              = some (match (split_tokens is_list_sep (cstr "acc, 0 x")).get? i with
                      | some entry => { s with accent := mask_accent entry }
                      | none => s) :=
  accent_mask_applied
    { set_default_program with
      patterns := [⟨cstr "p", [{ pad_step with note := 60 },
        { pad_step with note := 62, accent := 1 }, { pad_step with note := 64 },
        { pad_step with note := 65, accent := 1 }]⟩] }
    3 (cstr "p") (cstr "acc, 0 x") [] 0
    ⟨cstr "p", [{ pad_step with note := 60 }, { pad_step with note := 62, accent := 1 },
      { pad_step with note := 64 }, { pad_step with note := 65, accent := 1 }]⟩
    (by decide) (by decide) (by decide) (by decide) (by decide) (by decide!) (by decide!)

/-- C20 (counterexample). In `example_long_mask_script` the pattern has 90 steps and the
mask 90 entries `1`, written `1, ` each; the mask is read into a buffer of 256 bytes, which
keeps 255 characters and so 85 entries: the last 5 steps keep the accent 0. The script
`example_mask_script` shows a short mask at work. -/
theorem accent_mask_counterexample :
    (split_tokens is_list_sep (List.replicate 90 (cstr "1, ")).flatten).map mask_accent
        = List.replicate 90 1
      ∧ (first_pattern (loaded_engine example_long_mask_script)).steps.map
          (fun s => s.accent)
        = List.replicate 85 1 ++ List.replicate 5 0
      ∧ (first_pattern (loaded_engine example_mask_script)).steps.map (fun s => s.accent)
        = [1, 0, 0, 1] := by
  decide!

/-! ### The parsed Program: ranges and capacity -/

theorem split_token_slide_ok (token : CStr) (k : Nat) :
    ((split_token_slide token k).accent = 0 ∨ (split_token_slide token k).accent = 1)
      ∧ ((split_token_slide token k).nonfinite = false →
          (split_token_slide token k).slide_ms = -1
            ∨ 0 ≤ (split_token_slide token k).slide_ms) := by
  unfold split_token_slide
  dsimp only
  split
  · refine ⟨?_, fun _ => Or.inl rfl⟩
    dsimp only
    split
    · exact Or.inr rfl
    · exact Or.inl rfl
  · rename_i behind _
    refine ⟨?_, fun hfin => Or.inr ?_⟩
    · dsimp only
      split
      · exact Or.inr rfl
      · exact Or.inl rfl
    · have hfin2 : atof_nonfinite behind = false := hfin
      have hlt := atof_lt_of_finite behind 0 hfin2
      dsimp only
      split
      · exact le_refl 0
      · rename_i hc
        exact not_lt.mp (fun h0 => hc (hlt.mpr h0))

theorem plain_step_ok (note : Int) (token : CStr) (k : Nat) :
    StepOk (plain_step note (split_token_slide token k)) := by
  have h := split_token_slide_ok token k
  exact ⟨h.1, h.2, fun hv => absurd rfl hv⟩

theorem parse_degree_token_info_ok (token : CStr) (root : ℚ) (offsets : List ℚ)
    (d : DegreeInfo) (hne : ¬ (token = cstr "." ∨ token = cstr "-"))
    (h : parse_degree_token_info token root offsets = some d) :
    (1 ≤ d.degree ∧ d.degree ≤ 7) ∧ (d.micro = -1 ∨ d.micro = 0 ∨ d.micro = 1) := by
  unfold parse_degree_token_info at h
  split at h
  · exact Option.noConfusion h
  · rename_i c0 t1
    rw [if_neg hne] at h
    split at h
    · cases h
      exact ⟨⟨le_refl (1 : Int), by dsimp only; decide⟩, Or.inr (Or.inl rfl)⟩
    · dsimp only at h
      split at h
      · exact Option.noConfusion h
      · rename_i hdeg
        split at h
        · exact Option.noConfusion h
        · cases h
          have hdeg2 : ¬ ((c0.toNat : Int) - ('0'.toNat : Int) < 1
              ∨ (c0.toNat : Int) - ('0'.toNat : Int) > 7) := hdeg
          refine ⟨by dsimp only; omega, ?_⟩
          dsimp only
          split
          · split
            · exact Or.inr (Or.inr rfl)
            · split
              · exact Or.inl rfl
              · exact Or.inr (Or.inl rfl)
          · exact Or.inr (Or.inl rfl)

theorem parse_pattern_token_ok (prog : Program) (token : CStr) (s : PatternStep)
    (h : parse_pattern_token prog token = .ok s) : StepOk s := by
  unfold parse_pattern_token at h
  dsimp only at h
  split at h
  · cases h
    exact plain_step_ok _ _ _
  · rename_i hne
    split at h
    · rename_i d hd
      cases h
      have hs := split_token_slide_ok token 32
      exact ⟨hs.1, hs.2, fun _ => parse_degree_token_info_ok _ _ _ d hne hd⟩
    · split at h
      · exact Except.noConfusion h
      · cases h
        exact plain_step_ok _ _ _

theorem parse_list_token_ok (token : CStr) (s : PatternStep)
    (h : parse_list_token token = .ok s) : StepOk s := by
  unfold parse_list_token at h
  dsimp only at h
  split at h
  · cases h
    exact plain_step_ok _ _ _
  · split at h
    · exact Except.noConfusion h
    · cases h
      exact plain_step_ok _ _ _

theorem parse_pattern_loop_ok (prog : Program) (toks : List CStr) :
    ∀ (acc steps : List PatternStep), parse_pattern_loop prog toks acc = .ok steps →
      (∀ s ∈ acc, StepOk s) → ∀ s ∈ steps, StepOk s := by
  induction toks with
  | nil =>
    intro acc steps h hacc
    unfold parse_pattern_loop at h
    cases h
    exact hacc
  | cons tok rest ih =>
    intro acc steps h hacc
    unfold parse_pattern_loop at h
    split at h
    · exact Except.noConfusion h
    · split at h
      · exact Except.noConfusion h
      · rename_i step hstep
        refine ih _ _ h ?_
        intro s hs
        rcases List.mem_append.mp hs with hs | hs
        · exact hacc s hs
        · rw [List.mem_singleton] at hs
          rw [hs]
          exact parse_pattern_token_ok prog _ step hstep

theorem parse_list_loop_ok (toks : List CStr) :
    ∀ (acc steps : List PatternStep), parse_list_loop toks acc = .ok steps →
      (∀ s ∈ acc, StepOk s) → ∀ s ∈ steps, StepOk s := by
  induction toks with
  | nil =>
    intro acc steps h hacc
    unfold parse_list_loop at h
    cases h
    exact hacc
  | cons tok rest ih =>
    intro acc steps h hacc
    unfold parse_list_loop at h
    split at h
    · exact Except.noConfusion h
    · split at h
      · exact Except.noConfusion h
      · rename_i step hstep
        refine ih _ _ h ?_
        intro s hs
        rcases List.mem_append.mp hs with hs | hs
        · exact hacc s hs
        · rw [List.mem_singleton] at hs
          rw [hs]
          exact parse_list_token_ok _ step hstep

theorem parse_list_repeat_pos (behind : CStr) (rep : Int)
    (h : parse_list_repeat behind = .ok rep) : 1 ≤ rep := by
  unfold parse_list_repeat at h
  dsimp only at h
  split at h
  · cases h
    exact le_refl 1
  · split at h
    · cases h
      exact le_refl 1
    · split at h
      · exact Except.noConfusion h
      · cases h
        omega

/-- An accepted pattern text has at least one step, and its steps are within their
ranges. -/
theorem parse_pattern_ok (text : CStr) (prog : Program) (steps : List PatternStep)
    (h : parse_pattern text prog = .ok steps) :
    1 ≤ steps.length ∧ ∀ s ∈ steps, StepOk s := by
  unfold parse_pattern at h
  split at h
  · unfold parse_pattern_list at h
    split at h
    · exact Except.noConfusion h
    · split at h
      · exact Except.noConfusion h
      · dsimp only at h
        split at h
        · exact Except.noConfusion h
        · rename_i base hbase
          split at h
          · exact Except.noConfusion h
          · rename_i hk
            split at h
            · exact Except.noConfusion h
            · rename_i rep hrep
              split at h
              · exact Except.noConfusion h
              · cases h
                have hr := parse_list_repeat_pos _ rep hrep
                have hb := parse_list_loop_ok _ _ _ hbase
                  (fun s hs => absurd hs (List.not_mem_nil s))
                constructor
                · rw [List.length_flatten, List.map_replicate, List.sum_replicate]
                  have h1 : 1 ≤ rep.toNat := by omega
                  have h2 : 1 ≤ base.length := Nat.one_le_iff_ne_zero.mpr hk
                  exact Nat.mul_pos h1 h2
                · intro s hs
                  obtain ⟨l, hl, hsl⟩ := List.mem_flatten.mp hs
                  rw [List.eq_of_mem_replicate hl] at hsl
                  exact hb s hsl
  · split at h
    · exact Except.noConfusion h
    · rename_i all hall
      split at h
      · exact Except.noConfusion h
      · rename_i hk
        cases h
        exact ⟨Nat.one_le_iff_ne_zero.mpr hk,
          parse_pattern_loop_ok prog _ _ _ hall (fun s hs => absurd hs (List.not_mem_nil s))⟩

theorem pad_step_ok : StepOk pad_step :=
  ⟨Or.inl rfl, fun _ => Or.inl rfl, fun hv => absurd rfl hv⟩

theorem pad_pattern_to_timesig_ok (prog : Program) (p q : PatternDef)
    (h : pad_pattern_to_timesig prog p = .ok q) (hp : PatternOk p) : PatternOk q := by
  unfold pad_pattern_to_timesig at h
  split at h
  · cases h; exact hp
  · dsimp only at h
    split at h
    · cases h; exact hp
    · split at h
      · exact Except.noConfusion h
      · split at h
        · cases h; exact hp
        · split at h
          · cases h; exact hp
          · split at h
            · exact Except.noConfusion h
            · rename_i hbar hrem hfit
              cases h
              have hmax : ((DSL_MAX_PATTERN : Nat) : Int) = 128 := rfl
              rw [hmax] at hfit
              have hlt : Int.tmod (p.length : Int)
                  (prog.time_sig_num * Int.tdiv 16 prog.time_sig_den)
                    < prog.time_sig_num * Int.tdiv 16 prog.time_sig_den :=
                Int.tmod_lt_of_pos _ (by omega)
              have hlen : p.length = p.steps.length := rfl
              refine ⟨?_, ?_, ?_⟩
              · show 1 ≤ (p.steps ++ _).length
                rw [List.length_append]
                have := hp.1
                omega
              · show (p.steps ++ _).length ≤ 128
                rw [List.length_append, List.length_replicate]
                have hp2 := hp.2.1
                generalize Int.tmod (p.length : Int)
                  (prog.time_sig_num * Int.tdiv 16 prog.time_sig_den) = r at hlt hfit hrem ⊢
                generalize prog.time_sig_num * Int.tdiv 16 prog.time_sig_den = b
                  at hlt hfit hbar ⊢
                omega
              · intro s hs
                rcases List.mem_append.mp hs with hs | hs
                · exact hp.2.2 s hs
                · rw [List.eq_of_mem_replicate hs]
                  exact pad_step_ok

theorem accent_loop_ok (toks : List CStr) :
    ∀ steps : List PatternStep, (∀ s ∈ steps, StepOk s) →
      ∀ s ∈ accent_loop toks steps, StepOk s := by
  induction toks with
  | nil =>
    intro steps h
    cases steps with
    | nil => exact h
    | cons a l => exact h
  | cons tok rest ih =>
    intro steps h
    cases steps with
    | nil => exact h
    | cons a l =>
      intro s hs
      unfold accent_loop at hs
      rcases List.mem_cons.mp hs with hs | hs
      · rw [hs]
        have ha := h a (List.mem_cons_self a l)
        refine ⟨?_, ha.2.1, ha.2.2⟩
        dsimp only
        split
        · exact Or.inr rfl
        · exact Or.inl rfl
      · exact ih l (fun x hx => h x (List.mem_cons_of_mem a hx)) s hs

theorem update_at_length {α : Type} (f : α → α) (l : List α) :
    ∀ i : Nat, (update_at f i l).length = l.length := by
  induction l with
  | nil => intro i; cases i <;> rfl
  | cons a l ih =>
    intro i
    cases i with
    | zero => rfl
    | succ i => exact congrArg Nat.succ (ih i)

theorem update_at_mem {α : Type} (f : α → α) (l : List α) :
    ∀ (i : Nat) (x : α), x ∈ update_at f i l →
      x ∈ l ∨ ∃ y, l.get? i = some y ∧ x = f y := by
  induction l with
  | nil =>
    intro i x h
    cases i <;> exact absurd h (List.not_mem_nil x)
  | cons a l ih =>
    intro i x h
    cases i with
    | zero =>
      rcases List.mem_cons.mp h with h | h
      · exact Or.inr ⟨a, rfl, h⟩
      · exact Or.inl (List.mem_cons_of_mem a h)
    | succ i =>
      rcases List.mem_cons.mp h with h | h
      · exact Or.inl (h ▸ List.mem_cons_self a l)
      · rcases ih i x h with h1 | ⟨y, h1, h2⟩
        · exact Or.inl (List.mem_cons_of_mem a h1)
        · exact Or.inr ⟨y, h1, h2⟩

theorem set_synth_param_mods (synth synth1 : SynthDef) (param : CStr) (v : ℚ)
    (h : set_synth_param synth param v = some synth1) : synth1.mods = synth.mods := by
  unfold set_synth_param at h
  repeat' split at h
  all_goals first | (cases h; rfl) | (exact Option.noConfusion h)

theorem parse_sequence_step_repeat (tok : CStr) : 1 ≤ (parse_sequence_step tok).repeat_count := by
  unfold parse_sequence_step
  dsimp only
  split
  · exact le_refl 1
  · dsimp only
    split
    · exact le_refl 1
    · omega

theorem sequence_loop_ok (n : Nat) (toks : List CStr) :
    ∀ (acc steps : List SequenceStep), sequence_loop n toks acc = .ok steps →
      acc.length ≤ 32 → (∀ st ∈ acc, 1 ≤ st.repeat_count) →
      steps.length ≤ 32 ∧ ∀ st ∈ steps, 1 ≤ st.repeat_count := by
  induction toks with
  | nil =>
    intro acc steps h hl hr
    unfold sequence_loop at h
    cases h
    exact ⟨hl, hr⟩
  | cons tok rest ih =>
    intro acc steps h hl hr
    unfold sequence_loop at h
    split at h
    · exact Except.noConfusion h
    · rename_i hlt
      have hmax : DSL_MAX_SEQUENCE_STEPS = 32 := rfl
      rw [hmax] at hlt
      refine ih _ _ h ?_ ?_
      · rw [List.length_append]
        show acc.length + 1 ≤ 32
        omega
      · intro st hst
        rcases List.mem_append.mp hst with hst | hst
        · exact hr st hst
        · rw [List.mem_singleton] at hst
          rw [hst]
          exact parse_sequence_step_repeat tok

theorem cmd_tempo_ok (prog prog1 : Program) (n : Nat) (cursor : CStr)
    (h : cmd_tempo prog n cursor = .ok prog1) (hp : ProgramOk prog) : ProgramOk prog1 := by
  unfold cmd_tempo at h
  try dsimp only at h
  repeat' split at h
  all_goals first | (cases h; exact hp) | (exact Except.noConfusion h)

theorem cmd_master_ok (prog prog1 : Program) (n : Nat) (cursor : CStr)
    (h : cmd_master prog n cursor = .ok prog1) (hp : ProgramOk prog) : ProgramOk prog1 := by
  unfold cmd_master at h
  try dsimp only at h
  repeat' split at h
  all_goals first | (cases h; exact hp) | (exact Except.noConfusion h)

theorem cmd_tempo_scale_ok (prog prog1 : Program) (n : Nat) (cursor : CStr)
    (h : cmd_tempo_scale prog n cursor = .ok prog1) (hp : ProgramOk prog) : ProgramOk prog1 := by
  unfold cmd_tempo_scale at h
  try dsimp only at h
  repeat' split at h
  all_goals first | (cases h; exact hp) | (exact Except.noConfusion h)

theorem cmd_tempo_map_ok (prog prog1 : Program) (n : Nat) (cursor : CStr)
    (h : cmd_tempo_map prog n cursor = .ok prog1) (hp : ProgramOk prog) : ProgramOk prog1 := by
  unfold cmd_tempo_map at h
  try dsimp only at h
  repeat' split at h
  all_goals first | (cases h; exact hp) | (exact Except.noConfusion h)

theorem cmd_timesig_ok (prog prog1 : Program) (n : Nat) (cursor : CStr)
    (h : cmd_timesig prog n cursor = .ok prog1) (hp : ProgramOk prog) : ProgramOk prog1 := by
  unfold cmd_timesig at h
  try dsimp only at h
  repeat' split at h
  all_goals first | (cases h; exact hp) | (exact Except.noConfusion h)

theorem cmd_timesig_enforce_ok (prog prog1 : Program) (n : Nat) (cursor : CStr)
    (h : cmd_timesig_enforce prog n cursor = .ok prog1) (hp : ProgramOk prog) : ProgramOk prog1 := by
  unfold cmd_timesig_enforce at h
  try dsimp only at h
  repeat' split at h
  all_goals first | (cases h; exact hp) | (exact Except.noConfusion h)

theorem cmd_timesig_map_ok (prog prog1 : Program) (n : Nat) (cursor : CStr)
    (h : cmd_timesig_map prog n cursor = .ok prog1) (hp : ProgramOk prog) : ProgramOk prog1 := by
  unfold cmd_timesig_map at h
  try dsimp only at h
  repeat' split at h
  all_goals first | (cases h; exact hp) | (exact Except.noConfusion h)

theorem cmd_root_ok (prog prog1 : Program) (n : Nat) (cursor : CStr)
    (h : cmd_root prog n cursor = .ok prog1) (hp : ProgramOk prog) : ProgramOk prog1 := by
  unfold cmd_root at h
  try dsimp only at h
  repeat' split at h
  all_goals first | (cases h; exact hp) | (exact Except.noConfusion h)

theorem cmd_amp_ok (prog prog1 : Program) (n : Nat) (cursor : CStr)
    (h : cmd_amp prog n cursor = .ok prog1) (hp : ProgramOk prog) : ProgramOk prog1 := by
  unfold cmd_amp at h
  try dsimp only at h
  repeat' split at h
  all_goals first | (cases h; exact hp) | (exact Except.noConfusion h)

theorem cmd_maqam_ok (prog prog1 : Program) (n : Nat) (cursor : CStr)
    (h : cmd_maqam prog n cursor = .ok prog1) (hp : ProgramOk prog) : ProgramOk prog1 := by
  unfold cmd_maqam at h
  split at h
  · exact Except.noConfusion h
  · cases h
    unfold set_maqam
    split
    · exact hp
    · exact hp

theorem cmd_drone_ok (prog prog1 : Program) (n : Nat) (cursor : CStr)
    (h : cmd_drone prog n cursor = .ok prog1) (hp : ProgramOk prog) : ProgramOk prog1 := by
  have hmax : DSL_MAX_DRONES = 4 := rfl
  have key : ∀ d : DroneDef, ¬ (prog.drone_count ≥ DSL_MAX_DRONES) →
      ProgramOk { prog with drones := prog.drones ++ [d] } := by
    intro d hlt
    rw [hmax] at hlt
    have hlt2 : ¬ (prog.drones.length ≥ 4) := hlt
    refine ⟨hp.1, hp.2.1, hp.2.2.1, ?_, hp.2.2.2.2⟩
    show (prog.drones ++ [d]).length ≤ 4
    rw [List.length_append]
    show prog.drones.length + 1 ≤ 4
    omega
  unfold cmd_drone at h
  split at h
  · exact Except.noConfusion h
  · rename_i hlt
    repeat' split at h
    all_goals try dsimp only at h
    repeat' split at h
    all_goals first | (cases h; exact key _ hlt) | (exact Except.noConfusion h)

theorem cmd_synth_ok (prog prog1 : Program) (n : Nat) (cursor : CStr)
    (h : cmd_synth prog n cursor = .ok prog1) (hp : ProgramOk prog) : ProgramOk prog1 := by
  have hmax : DSL_MAX_SYNTHS = 32 := rfl
  unfold cmd_synth at h
  split at h
  · exact Except.noConfusion h
  · rename_i hlt
    rw [hmax] at hlt
    have hlt2 : ¬ (prog.synths.length ≥ 32) := hlt
    repeat' split at h
    all_goals first | (exact Except.noConfusion h) | skip
    cases h
    refine ⟨?_, hp.2.1, hp.2.2.1, hp.2.2.2.1, hp.2.2.2.2.1, hp.2.2.2.2.2.1,
      hp.2.2.2.2.2.2.1, ?_⟩
    · show (prog.synths ++ [_]).length ≤ 32
      rw [List.length_append]
      show prog.synths.length + 1 ≤ 32
      omega
    · intro sy hsy
      rcases List.mem_append.mp hsy with hsy | hsy
      · exact hp.2.2.2.2.2.2.2 sy hsy
      · rw [List.mem_singleton] at hsy
        rw [hsy]
        exact Nat.zero_le 32

theorem cmd_set_ok (prog prog1 : Program) (n : Nat) (cursor : CStr)
    (h : cmd_set prog n cursor = .ok prog1) (hp : ProgramOk prog) : ProgramOk prog1 := by
  unfold cmd_set at h
  try dsimp only at h
  repeat' split at h
  all_goals first | (exact Except.noConfusion h) | skip
  rename_i synth hget _ synth1 hset
  cases h
  refine ⟨?_, hp.2.1, hp.2.2.1, hp.2.2.2.1, hp.2.2.2.2.1, hp.2.2.2.2.2.1,
    hp.2.2.2.2.2.2.1, ?_⟩
  · show (update_at _ _ prog.synths).length ≤ 32
    rw [update_at_length]
    exact hp.1
  · intro sy hsy
    rcases update_at_mem _ _ _ _ hsy with hsy | ⟨y, hy, hsy⟩
    · exact hp.2.2.2.2.2.2.2 sy hsy
    · rw [hsy, set_synth_param_mods _ _ _ _ hset]
      exact hp.2.2.2.2.2.2.2 synth (List.get?_mem hget)

theorem cmd_mod_ok (prog prog1 : Program) (n : Nat) (cursor : CStr)
    (h : cmd_mod prog n cursor = .ok prog1) (hp : ProgramOk prog) : ProgramOk prog1 := by
  unfold cmd_mod at h
  try dsimp only at h
  repeat' split at h
  all_goals first | (exact Except.noConfusion h) | skip
  rename_i synth hget hlt _ _ _ _ _ _
  cases h
  refine ⟨?_, hp.2.1, hp.2.2.1, hp.2.2.2.1, hp.2.2.2.2.1, hp.2.2.2.2.2.1,
    hp.2.2.2.2.2.2.1, ?_⟩
  · show (update_at _ _ prog.synths).length ≤ 32
    rw [update_at_length]
    exact hp.1
  · intro sy hsy
    rcases update_at_mem _ _ _ _ hsy with hsy | ⟨y, hy, hsy⟩
    · exact hp.2.2.2.2.2.2.2 sy hsy
    · rw [hget] at hy
      cases hy
      rw [hsy]
      show (synth.mods ++ [_]).length ≤ 32
      rw [List.length_append]
      show synth.mods.length + 1 ≤ 32
      omega

theorem cmd_pattern_ok (prog prog1 : Program) (n : Nat) (cursor : CStr)
    (h : cmd_pattern prog n cursor = .ok prog1) (hp : ProgramOk prog) : ProgramOk prog1 := by
  have hmax : DSL_MAX_PATTERNS = 64 := rfl
  unfold cmd_pattern at h
  split at h
  · exact Except.noConfusion h
  · rename_i hlt
    rw [hmax] at hlt
    have hlt2 : ¬ (prog.patterns.length ≥ 64) := hlt
    dsimp only at h
    repeat' split at h
    all_goals first | (exact Except.noConfusion h) | skip
    rename_i steps hsteps _ pattern hpad
    cases h
    have hs := parse_pattern_ok _ _ _ hsteps
    have hl := parse_pattern_length _ _ _ hsteps
    have hpat : PatternOk pattern :=
      pad_pattern_to_timesig_ok prog _ _ hpad ⟨hs.1, hl, hs.2⟩
    refine ⟨hp.1, ?_, hp.2.2.1, hp.2.2.2.1, hp.2.2.2.2.1, ?_, hp.2.2.2.2.2.2⟩
    · show (prog.patterns ++ [_]).length ≤ 64
      rw [List.length_append]
      show prog.patterns.length + 1 ≤ 64
      omega
    · intro p hpm
      rcases List.mem_append.mp hpm with hpm | hpm
      · exact hp.2.2.2.2.2.1 p hpm
      · rw [List.mem_singleton] at hpm
        rw [hpm]
        exact hpat

theorem cmd_accent_ok (prog prog1 : Program) (n : Nat) (cursor : CStr)
    (h : cmd_accent prog n cursor = .ok prog1) (hp : ProgramOk prog) : ProgramOk prog1 := by
  unfold cmd_accent at h
  try dsimp only at h
  repeat' split at h
  all_goals first | (exact Except.noConfusion h) | skip
  cases h
  refine ⟨hp.1, ?_, hp.2.2.1, hp.2.2.2.1, hp.2.2.2.2.1, ?_, hp.2.2.2.2.2.2⟩
  · show (update_at _ _ prog.patterns).length ≤ 64
    rw [update_at_length]
    exact hp.2.1
  · intro p hpm
    rcases update_at_mem _ _ _ _ hpm with hpm | ⟨y, hy, hpm⟩
    · exact hp.2.2.2.2.2.1 p hpm
    · have hy2 := hp.2.2.2.2.2.1 y (List.get?_mem hy)
      rw [hpm]
      refine ⟨?_, ?_, ?_⟩
      · show 1 ≤ (accent_loop _ y.steps).length
        rw [accent_loop_length]
        exact hy2.1
      · show (accent_loop _ y.steps).length ≤ 128
        rw [accent_loop_length]
        exact hy2.2.1
      · exact accent_loop_ok _ _ hy2.2.2

theorem cmd_sequence_ok (prog prog1 : Program) (n : Nat) (cursor : CStr)
    (h : cmd_sequence prog n cursor = .ok prog1) (hp : ProgramOk prog) : ProgramOk prog1 := by
  have hmax : DSL_MAX_SEQUENCES = 8 := rfl
  unfold cmd_sequence at h
  split at h
  · exact Except.noConfusion h
  · rename_i hlt
    rw [hmax] at hlt
    have hlt2 : ¬ (prog.sequences.length ≥ 8) := hlt
    repeat' split at h
    all_goals first | (exact Except.noConfusion h) | skip
    rename_i steps hsteps hne
    cases h
    have hs := sequence_loop_ok _ _ _ _ hsteps (Nat.zero_le 32)
      (fun st hst => absurd hst (List.not_mem_nil st))
    refine ⟨hp.1, hp.2.1, ?_, hp.2.2.2.1, hp.2.2.2.2.1, hp.2.2.2.2.2.1, ?_,
      hp.2.2.2.2.2.2.2⟩
    · show (prog.sequences ++ [_]).length ≤ 8
      rw [List.length_append]
      show prog.sequences.length + 1 ≤ 8
      omega
    · intro q hq
      rcases List.mem_append.mp hq with hq | hq
      · exact hp.2.2.2.2.2.2.1 q hq
      · rw [List.mem_singleton] at hq
        rw [hq]
        exact ⟨Nat.one_le_iff_ne_zero.mpr hne, hs.1, hs.2⟩

theorem cmd_play_ok (prog prog1 : Program) (n : Nat) (cursor : CStr)
    (h : cmd_play prog n cursor = .ok prog1) (hp : ProgramOk prog) : ProgramOk prog1 := by
  have hmax : DSL_MAX_TRACKS = 128 := rfl
  unfold cmd_play at h
  split at h
  · exact Except.noConfusion h
  · rename_i hlt
    rw [hmax] at hlt
    have hlt2 : ¬ (prog.tracks.length ≥ 128) := hlt
    repeat' split at h
    all_goals first | (exact Except.noConfusion h) | skip
    cases h
    refine ⟨hp.1, hp.2.1, hp.2.2.1, hp.2.2.2.1, ?_, hp.2.2.2.2.2⟩
    show (prog.tracks ++ [_]).length ≤ 128
    rw [List.length_append]
    show prog.tracks.length + 1 ≤ 128
    omega

theorem cmd_playseq_ok (prog prog1 : Program) (n : Nat) (cursor : CStr)
    (h : cmd_playseq prog n cursor = .ok prog1) (hp : ProgramOk prog) : ProgramOk prog1 := by
  have hmax : DSL_MAX_TRACKS = 128 := rfl
  unfold cmd_playseq at h
  split at h
  · exact Except.noConfusion h
  · rename_i hlt
    rw [hmax] at hlt
    have hlt2 : ¬ (prog.tracks.length ≥ 128) := hlt
    repeat' split at h
    all_goals first | (exact Except.noConfusion h) | skip
    cases h
    refine ⟨hp.1, hp.2.1, hp.2.2.1, hp.2.2.2.1, ?_, hp.2.2.2.2.2⟩
    show (prog.tracks ++ [_]).length ≤ 128
    rw [List.length_append]
    show prog.tracks.length + 1 ≤ 128
    omega

/-- Every accepted line keeps the capacity bounds and the ranges of the stored items. -/
theorem parse_line_ok (prog prog1 : Program) (n : Nat) (line : CStr)
    (h : parse_line prog n line = .ok prog1) (hp : ProgramOk prog) : ProgramOk prog1 := by
  unfold parse_line at h
  split at h
  · cases h
    exact hp
  · rename_i cmd cursor heq
    by_cases hc : cmd = cstr "tempo"
    · rw [if_pos hc] at h
      exact cmd_tempo_ok _ _ _ _ h hp
    rw [if_neg hc] at h
    clear hc
    by_cases hc : cmd = cstr "master" ∨ cmd = cstr "master_amp"
    · rw [if_pos hc] at h
      exact cmd_master_ok _ _ _ _ h hp
    rw [if_neg hc] at h
    clear hc
    by_cases hc : cmd = cstr "tempo_scale"
    · rw [if_pos hc] at h
      exact cmd_tempo_scale_ok _ _ _ _ h hp
    rw [if_neg hc] at h
    clear hc
    by_cases hc : cmd = cstr "tempo_map"
    · rw [if_pos hc] at h
      exact cmd_tempo_map_ok _ _ _ _ h hp
    rw [if_neg hc] at h
    clear hc
    by_cases hc : cmd = cstr "timesig" ∨ cmd = cstr "time_signature"
    · rw [if_pos hc] at h
      exact cmd_timesig_ok _ _ _ _ h hp
    rw [if_neg hc] at h
    clear hc
    by_cases hc : cmd = cstr "timesig_enforce"
    · rw [if_pos hc] at h
      exact cmd_timesig_enforce_ok _ _ _ _ h hp
    rw [if_neg hc] at h
    clear hc
    by_cases hc : cmd = cstr "timesig_map"
    · rw [if_pos hc] at h
      exact cmd_timesig_map_ok _ _ _ _ h hp
    rw [if_neg hc] at h
    clear hc
    by_cases hc : cmd = cstr "root"
    · rw [if_pos hc] at h
      exact cmd_root_ok _ _ _ _ h hp
    rw [if_neg hc] at h
    clear hc
    by_cases hc : cmd = cstr "maqam"
    · rw [if_pos hc] at h
      exact cmd_maqam_ok _ _ _ _ h hp
    rw [if_neg hc] at h
    clear hc
    by_cases hc : cmd = cstr "drone"
    · rw [if_pos hc] at h
      exact cmd_drone_ok _ _ _ _ h hp
    rw [if_neg hc] at h
    clear hc
    by_cases hc : cmd = cstr "amp"
    · rw [if_pos hc] at h
      exact cmd_amp_ok _ _ _ _ h hp
    rw [if_neg hc] at h
    clear hc
    by_cases hc : cmd = cstr "synth"
    · rw [if_pos hc] at h
      exact cmd_synth_ok _ _ _ _ h hp
    rw [if_neg hc] at h
    clear hc
    by_cases hc : cmd = cstr "set"
    · rw [if_pos hc] at h
      exact cmd_set_ok _ _ _ _ h hp
    rw [if_neg hc] at h
    clear hc
    by_cases hc : cmd = cstr "mod"
    · rw [if_pos hc] at h
      exact cmd_mod_ok _ _ _ _ h hp
    rw [if_neg hc] at h
    clear hc
    by_cases hc : cmd = cstr "pattern"
    · rw [if_pos hc] at h
      exact cmd_pattern_ok _ _ _ _ h hp
    rw [if_neg hc] at h
    clear hc
    by_cases hc : cmd = cstr "accent"
    · rw [if_pos hc] at h
      exact cmd_accent_ok _ _ _ _ h hp
    rw [if_neg hc] at h
    clear hc
    by_cases hc : cmd = cstr "sequence"
    · rw [if_pos hc] at h
      exact cmd_sequence_ok _ _ _ _ h hp
    rw [if_neg hc] at h
    clear hc
    by_cases hc : cmd = cstr "play"
    · rw [if_pos hc] at h
      exact cmd_play_ok _ _ _ _ h hp
    rw [if_neg hc] at h
    clear hc
    by_cases hc : cmd = cstr "playseq"
    · rw [if_pos hc] at h
      exact cmd_playseq_ok _ _ _ _ h hp
    rw [if_neg hc] at h
    clear hc
    exact Except.noConfusion h

theorem parse_lines_ok (lines : List CStr) :
    ∀ (n : Nat) (prog prog1 : Program), parse_lines n prog lines = .ok prog1 →
      ProgramOk prog → ProgramOk prog1 := by
  induction lines with
  | nil =>
    intro n prog prog1 h hp
    unfold parse_lines at h
    cases h
    exact hp
  | cons l ls ih =>
    intro n prog prog1 h hp
    unfold parse_lines at h
    split at h
    · exact Except.noConfusion h
    · rename_i p heq
      exact ih (n + 1) p prog1 h (parse_line_ok prog p (n + 1) l heq hp)

theorem set_default_program_ok : ProgramOk set_default_program :=
  ⟨Nat.zero_le 32, Nat.zero_le 64, Nat.zero_le 8, Nat.zero_le 4, Nat.zero_le 128,
    fun p hp => absurd hp (List.not_mem_nil p), fun q hq => absurd hq (List.not_mem_nil q),
    fun sy hsy => absurd hsy (List.not_mem_nil sy)⟩

/-- Every Program that `dsl_parse_script` returns is within the capacity bounds, and its
patterns, sequences and synths are within their ranges. -/
theorem dsl_parse_script_ok (script : CStr) (prog : Program)
    (h : dsl_parse_script script = .ok prog) : ProgramOk prog :=
  parse_lines_ok _ _ _ _ (dsl_parse_script_lines script prog h).1 set_default_program_ok

theorem added_none (prog : Program) : Added prog prog 0 0 0 0 0 0 :=
  ⟨rfl, rfl, rfl, rfl, rfl, rfl⟩

theorem added_trans {p q r : Program} {a b c d e m a1 b1 c1 d1 e1 m1 : Nat}
    (h1 : Added p q a b c d e m) (h2 : Added q r a1 b1 c1 d1 e1 m1) :
    Added p r (a + a1) (b + b1) (c + c1) (d + d1) (e + e1) (m + m1) := by
  obtain ⟨x1, x2, x3, x4, x5, x6⟩ := h1
  obtain ⟨y1, y2, y3, y4, y5, y6⟩ := h2
  refine ⟨?_, ?_, ?_, ?_, ?_, ?_⟩ <;> omega

theorem update_at_sum {α : Type} (f : α → α) (g : α → Nat) (l : List α) :
    ∀ (i : Nat) (x : α), l.get? i = some x →
      ((update_at f i l).map g).sum + g x = (l.map g).sum + g (f x) := by
  induction l with
  | nil =>
    intro i x h
    exact Option.noConfusion h
  | cons a l ih =>
    intro i x h
    cases i with
    | zero =>
      have hx : a = x := Option.some.inj h
      rw [hx]
      simp only [update_at, List.map_cons, List.sum_cons]
      omega
    | succ i =>
      have h2 := ih i x h
      simp only [update_at, List.map_cons, List.sum_cons]
      omega

theorem update_at_mods_more (f : SynthDef → SynthDef) (k : Nat) (l : List SynthDef) (i : Nat)
    (sy : SynthDef) (h : l.get? i = some sy) (hm : (f sy).mods.length = sy.mods.length + k) :
    ((update_at f i l).map (fun sy => sy.mods.length)).sum
      = (l.map (fun sy => sy.mods.length)).sum + k := by
  have hu := update_at_sum f (fun sy : SynthDef => sy.mods.length) l i sy h
  dsimp only at hu
  omega

theorem cmd_tempo_added (prog prog1 : Program) (n : Nat) (cursor : CStr)
    (h : cmd_tempo prog n cursor = .ok prog1) : Added prog prog1 0 0 0 0 0 0 := by
  unfold cmd_tempo at h
  try dsimp only at h
  repeat' split at h
  all_goals first | (cases h; exact added_none prog) | (exact Except.noConfusion h)

theorem cmd_master_added (prog prog1 : Program) (n : Nat) (cursor : CStr)
    (h : cmd_master prog n cursor = .ok prog1) : Added prog prog1 0 0 0 0 0 0 := by
  unfold cmd_master at h
  try dsimp only at h
  repeat' split at h
  all_goals first | (cases h; exact added_none prog) | (exact Except.noConfusion h)

theorem cmd_tempo_scale_added (prog prog1 : Program) (n : Nat) (cursor : CStr)
    (h : cmd_tempo_scale prog n cursor = .ok prog1) : Added prog prog1 0 0 0 0 0 0 := by
  unfold cmd_tempo_scale at h
  try dsimp only at h
  repeat' split at h
  all_goals first | (cases h; exact added_none prog) | (exact Except.noConfusion h)

theorem cmd_tempo_map_added (prog prog1 : Program) (n : Nat) (cursor : CStr)
    (h : cmd_tempo_map prog n cursor = .ok prog1) : Added prog prog1 0 0 0 0 0 0 := by
  unfold cmd_tempo_map at h
  try dsimp only at h
  repeat' split at h
  all_goals first | (cases h; exact added_none prog) | (exact Except.noConfusion h)

theorem cmd_timesig_added (prog prog1 : Program) (n : Nat) (cursor : CStr)
    (h : cmd_timesig prog n cursor = .ok prog1) : Added prog prog1 0 0 0 0 0 0 := by
  unfold cmd_timesig at h
  try dsimp only at h
  repeat' split at h
  all_goals first | (cases h; exact added_none prog) | (exact Except.noConfusion h)

theorem cmd_timesig_enforce_added (prog prog1 : Program) (n : Nat) (cursor : CStr)
    (h : cmd_timesig_enforce prog n cursor = .ok prog1) : Added prog prog1 0 0 0 0 0 0 := by
  unfold cmd_timesig_enforce at h
  try dsimp only at h
  repeat' split at h
  all_goals first | (cases h; exact added_none prog) | (exact Except.noConfusion h)

theorem cmd_timesig_map_added (prog prog1 : Program) (n : Nat) (cursor : CStr)
    (h : cmd_timesig_map prog n cursor = .ok prog1) : Added prog prog1 0 0 0 0 0 0 := by
  unfold cmd_timesig_map at h
  try dsimp only at h
  repeat' split at h
  all_goals first | (cases h; exact added_none prog) | (exact Except.noConfusion h)

theorem cmd_root_added (prog prog1 : Program) (n : Nat) (cursor : CStr)
    (h : cmd_root prog n cursor = .ok prog1) : Added prog prog1 0 0 0 0 0 0 := by
  unfold cmd_root at h
  try dsimp only at h
  repeat' split at h
  all_goals first | (cases h; exact added_none prog) | (exact Except.noConfusion h)

theorem cmd_amp_added (prog prog1 : Program) (n : Nat) (cursor : CStr)
    (h : cmd_amp prog n cursor = .ok prog1) : Added prog prog1 0 0 0 0 0 0 := by
  unfold cmd_amp at h
  try dsimp only at h
  repeat' split at h
  all_goals first | (cases h; exact added_none prog) | (exact Except.noConfusion h)

theorem cmd_maqam_added (prog prog1 : Program) (n : Nat) (cursor : CStr)
    (h : cmd_maqam prog n cursor = .ok prog1) : Added prog prog1 0 0 0 0 0 0 := by
  unfold cmd_maqam at h
  split at h
  · exact Except.noConfusion h
  · cases h
    unfold set_maqam
    split
    · exact added_none prog
    · exact added_none prog

theorem cmd_drone_added (prog prog1 : Program) (n : Nat) (cursor : CStr)
    (h : cmd_drone prog n cursor = .ok prog1) : Added prog prog1 0 0 0 1 0 0 := by
  have key : ∀ d : DroneDef, Added prog { prog with drones := prog.drones ++ [d] } 0 0 0 1 0 0 :=
    fun d => ⟨rfl, rfl, rfl, List.length_append _ _, rfl, rfl⟩
  unfold cmd_drone at h
  repeat' split at h
  all_goals try dsimp only at h
  repeat' split at h
  all_goals first | (cases h; exact key _) | (exact Except.noConfusion h)

theorem cmd_synth_added (prog prog1 : Program) (n : Nat) (cursor : CStr)
    (h : cmd_synth prog n cursor = .ok prog1) : Added prog prog1 1 0 0 0 0 0 := by
  unfold cmd_synth at h
  repeat' split at h
  all_goals first | (exact Except.noConfusion h) | skip
  cases h
  refine ⟨List.length_append _ _, rfl, rfl, rfl, rfl, ?_⟩
  show ((prog.synths ++ [_]).map (fun sy : SynthDef => sy.mods.length)).sum = _
  rw [List.map_append, List.sum_append]
  rfl

theorem cmd_set_added (prog prog1 : Program) (n : Nat) (cursor : CStr)
    (h : cmd_set prog n cursor = .ok prog1) : Added prog prog1 0 0 0 0 0 0 := by
  unfold cmd_set at h
  try dsimp only at h
  repeat' split at h
  all_goals first | (exact Except.noConfusion h) | skip
  rename_i synth hget _ synth1 hset
  cases h
  refine ⟨update_at_length _ _ _, rfl, rfl, rfl, rfl, ?_⟩
  show ((update_at _ _ prog.synths).map (fun sy => sy.mods.length)).sum
    = (prog.synths.map (fun sy => sy.mods.length)).sum + 0
  refine update_at_mods_more _ 0 _ _ synth hget ?_
  show synth1.mods.length = _
  rw [set_synth_param_mods _ _ _ _ hset]
  rfl

theorem cmd_mod_added (prog prog1 : Program) (n : Nat) (cursor : CStr)
    (h : cmd_mod prog n cursor = .ok prog1) : Added prog prog1 0 0 0 0 0 1 := by
  unfold cmd_mod at h
  try dsimp only at h
  repeat' split at h
  all_goals first | (exact Except.noConfusion h) | skip
  rename_i synth hget hlt _ _ _ _ _ _
  cases h
  refine ⟨update_at_length _ _ _, rfl, rfl, rfl, rfl, ?_⟩
  refine update_at_mods_more _ 1 _ _ synth hget ?_
  show (synth.mods ++ [_]).length = _
  rw [List.length_append]
  rfl

theorem cmd_pattern_added (prog prog1 : Program) (n : Nat) (cursor : CStr)
    (h : cmd_pattern prog n cursor = .ok prog1) : Added prog prog1 0 1 0 0 0 0 := by
  unfold cmd_pattern at h
  try dsimp only at h
  repeat' split at h
  all_goals first | (exact Except.noConfusion h) | skip
  cases h
  exact ⟨rfl, List.length_append _ _, rfl, rfl, rfl, rfl⟩

theorem cmd_accent_added (prog prog1 : Program) (n : Nat) (cursor : CStr)
    (h : cmd_accent prog n cursor = .ok prog1) : Added prog prog1 0 0 0 0 0 0 := by
  unfold cmd_accent at h
  try dsimp only at h
  repeat' split at h
  all_goals first | (exact Except.noConfusion h) | skip
  cases h
  exact ⟨rfl, update_at_length _ _ _, rfl, rfl, rfl, rfl⟩

theorem cmd_sequence_added (prog prog1 : Program) (n : Nat) (cursor : CStr)
    (h : cmd_sequence prog n cursor = .ok prog1) : Added prog prog1 0 0 1 0 0 0 := by
  unfold cmd_sequence at h
  repeat' split at h
  all_goals first | (exact Except.noConfusion h) | skip
  cases h
  exact ⟨rfl, rfl, List.length_append _ _, rfl, rfl, rfl⟩

theorem cmd_play_added (prog prog1 : Program) (n : Nat) (cursor : CStr)
    (h : cmd_play prog n cursor = .ok prog1) : Added prog prog1 0 0 0 0 1 0 := by
  unfold cmd_play at h
  repeat' split at h
  all_goals first | (exact Except.noConfusion h) | skip
  cases h
  exact ⟨rfl, rfl, rfl, rfl, List.length_append _ _, rfl⟩

theorem cmd_playseq_added (prog prog1 : Program) (n : Nat) (cursor : CStr)
    (h : cmd_playseq prog n cursor = .ok prog1) : Added prog prog1 0 0 0 0 1 0 := by
  unfold cmd_playseq at h
  repeat' split at h
  all_goals first | (exact Except.noConfusion h) | skip
  cases h
  exact ⟨rfl, rfl, rfl, rfl, List.length_append _ _, rfl⟩

theorem line_adds_eq (c line cmd cursor : CStr)
    (heq : next_token (strip_line line) 32 false = some (cmd, cursor)) :
    line_adds c line = if cmd = c then 1 else 0 := by
  unfold line_adds line_command
  rw [heq]
  rfl

/-- What an accepted line adds: a `synth`, `pattern`, `sequence` or `drone` line one item of
its kind, a `play` or `playseq` line one track, a `mod` line one modulation route, and no
line anything else. -/
theorem parse_line_added (prog prog1 : Program) (n : Nat) (line : CStr)
    (h : parse_line prog n line = .ok prog1) :
    Added prog prog1 (line_adds (cstr "synth") line) (line_adds (cstr "pattern") line)
      (line_adds (cstr "sequence") line) (line_adds (cstr "drone") line)
      (line_adds (cstr "play") line + line_adds (cstr "playseq") line)
      (line_adds (cstr "mod") line) := by
  unfold parse_line at h
  split at h
  · rename_i heq
    cases h
    have h0 : ∀ c, line_adds c line = 0 := by
      intro c
      unfold line_adds line_command
      rw [heq]
      rfl
    rw [h0, h0, h0, h0, h0, h0, h0]
    exact added_none prog
  · rename_i cmd cursor heq
    rw [line_adds_eq _ line cmd cursor heq, line_adds_eq _ line cmd cursor heq,
      line_adds_eq _ line cmd cursor heq, line_adds_eq _ line cmd cursor heq,
      line_adds_eq _ line cmd cursor heq, line_adds_eq _ line cmd cursor heq,
      line_adds_eq _ line cmd cursor heq]
    clear heq
    by_cases hc : cmd = cstr "tempo"
    · rw [if_pos hc] at h
      subst hc
      exact cmd_tempo_added _ _ _ _ h
    rw [if_neg hc] at h
    clear hc
    by_cases hc : cmd = cstr "master" ∨ cmd = cstr "master_amp"
    · rw [if_pos hc] at h
      rcases hc with hc | hc
      · subst hc
        exact cmd_master_added _ _ _ _ h
      · subst hc
        exact cmd_master_added _ _ _ _ h
    rw [if_neg hc] at h
    clear hc
    by_cases hc : cmd = cstr "tempo_scale"
    · rw [if_pos hc] at h
      subst hc
      exact cmd_tempo_scale_added _ _ _ _ h
    rw [if_neg hc] at h
    clear hc
    by_cases hc : cmd = cstr "tempo_map"
    · rw [if_pos hc] at h
      subst hc
      exact cmd_tempo_map_added _ _ _ _ h
    rw [if_neg hc] at h
    clear hc
    by_cases hc : cmd = cstr "timesig" ∨ cmd = cstr "time_signature"
    · rw [if_pos hc] at h
      rcases hc with hc | hc
      · subst hc
        exact cmd_timesig_added _ _ _ _ h
      · subst hc
        exact cmd_timesig_added _ _ _ _ h
    rw [if_neg hc] at h
    clear hc
    by_cases hc : cmd = cstr "timesig_enforce"
    · rw [if_pos hc] at h
      subst hc
      exact cmd_timesig_enforce_added _ _ _ _ h
    rw [if_neg hc] at h
    clear hc
    by_cases hc : cmd = cstr "timesig_map"
    · rw [if_pos hc] at h
      subst hc
      exact cmd_timesig_map_added _ _ _ _ h
    rw [if_neg hc] at h
    clear hc
    by_cases hc : cmd = cstr "root"
    · rw [if_pos hc] at h
      subst hc
      exact cmd_root_added _ _ _ _ h
    rw [if_neg hc] at h
    clear hc
    by_cases hc : cmd = cstr "maqam"
    · rw [if_pos hc] at h
      subst hc
      exact cmd_maqam_added _ _ _ _ h
    rw [if_neg hc] at h
    clear hc
    by_cases hc : cmd = cstr "drone"
    · rw [if_pos hc] at h
      subst hc
      exact cmd_drone_added _ _ _ _ h
    rw [if_neg hc] at h
    clear hc
    by_cases hc : cmd = cstr "amp"
    · rw [if_pos hc] at h
      subst hc
      exact cmd_amp_added _ _ _ _ h
    rw [if_neg hc] at h
    clear hc
    by_cases hc : cmd = cstr "synth"
    · rw [if_pos hc] at h
      subst hc
      exact cmd_synth_added _ _ _ _ h
    rw [if_neg hc] at h
    clear hc
    by_cases hc : cmd = cstr "set"
    · rw [if_pos hc] at h
      subst hc
      exact cmd_set_added _ _ _ _ h
    rw [if_neg hc] at h
    clear hc
    by_cases hc : cmd = cstr "mod"
    · rw [if_pos hc] at h
      subst hc
      exact cmd_mod_added _ _ _ _ h
    rw [if_neg hc] at h
    clear hc
    by_cases hc : cmd = cstr "pattern"
    · rw [if_pos hc] at h
      subst hc
      exact cmd_pattern_added _ _ _ _ h
    rw [if_neg hc] at h
    clear hc
    by_cases hc : cmd = cstr "accent"
    · rw [if_pos hc] at h
      subst hc
      exact cmd_accent_added _ _ _ _ h
    rw [if_neg hc] at h
    clear hc
    by_cases hc : cmd = cstr "sequence"
    · rw [if_pos hc] at h
      subst hc
      exact cmd_sequence_added _ _ _ _ h
    rw [if_neg hc] at h
    clear hc
    by_cases hc : cmd = cstr "play"
    · rw [if_pos hc] at h
      subst hc
      exact cmd_play_added _ _ _ _ h
    rw [if_neg hc] at h
    clear hc
    by_cases hc : cmd = cstr "playseq"
    · rw [if_pos hc] at h
      subst hc
      exact cmd_playseq_added _ _ _ _ h
    rw [if_neg hc] at h
    clear hc
    exact Except.noConfusion h

theorem parse_lines_added (lines : List CStr) :
    ∀ (n : Nat) (prog prog1 : Program), parse_lines n prog lines = .ok prog1 →
      Added prog prog1 (count_lines (cstr "synth") lines) (count_lines (cstr "pattern") lines)
        (count_lines (cstr "sequence") lines) (count_lines (cstr "drone") lines)
        (count_lines (cstr "play") lines + count_lines (cstr "playseq") lines)
        (count_lines (cstr "mod") lines) := by
  induction lines with
  | nil =>
    intro n prog prog1 h
    unfold parse_lines at h
    cases h
    exact added_none prog
  | cons l ls ih =>
    intro n prog prog1 h
    unfold parse_lines at h
    split at h
    · exact Except.noConfusion h
    · rename_i p heq
      have h1 := added_trans (parse_line_added prog p (n + 1) l heq) (ih (n + 1) p prog1 h)
      have hc : ∀ c, count_lines c (l :: ls) = line_adds c l + count_lines c ls :=
        fun c => rfl
      rw [hc, hc, hc, hc, hc, hc, hc]
      obtain ⟨x1, x2, x3, x4, x5, x6⟩ := h1
      exact ⟨x1, x2, x3, x4, by rw [x5]; omega, x6⟩

theorem sequence_loop_fits (n : Nat) (toks : List CStr) :
    ∀ acc : List SequenceStep, acc.length + toks.length ≤ 32 →
      sequence_loop n toks acc = .ok (acc ++ toks.map parse_sequence_step) := by
  induction toks with
  | nil =>
    intro acc _
    unfold sequence_loop
    rw [List.map_nil, List.append_nil]
  | cons tok rest ih =>
    intro acc h
    have hl : (tok :: rest).length = rest.length + 1 := rfl
    rw [hl] at h
    unfold sequence_loop
    have hmax : DSL_MAX_SEQUENCE_STEPS = 32 := rfl
    rw [hmax, if_neg (by omega), ih _ (by rw [List.length_append]; show acc.length + 1 + _ ≤ 32; omega),
      List.map_cons, List.append_assoc]
    rfl

theorem sequence_loop_long (n : Nat) (toks : List CStr) :
    ∀ acc : List SequenceStep, 32 < acc.length + toks.length → toks ≠ [] →
      sequence_loop n toks acc = line_error n (cstr "sequence too long") := by
  induction toks with
  | nil =>
    intro acc _ hne
    exact absurd rfl hne
  | cons tok rest ih =>
    intro acc h _
    have hl : (tok :: rest).length = rest.length + 1 := rfl
    rw [hl] at h
    unfold sequence_loop
    have hmax : DSL_MAX_SEQUENCE_STEPS = 32 := rfl
    rw [hmax]
    by_cases hacc : acc.length ≥ 32
    · rw [if_pos hacc]
    · rw [if_neg hacc]
      have hne : rest ≠ [] := by
        intro hr
        rw [hr] at h
        have h0 : ([] : List CStr).length = 0 := rfl
        omega
      exact ih _ (by rw [List.length_append]; show 32 < acc.length + 1 + _; omega) hne

theorem after_char_none_cut (ch : Char) (s : CStr) (h : after_char ch s = none) :
    cut_at ch s = s := by
  unfold after_char at h
  unfold cut_at
  split at h
  · rename_i hd
    have := List.takeWhile_append_dropWhile (fun x => x != ch) s
    rw [hd, List.append_nil] at this
    exact this
  · exact Option.noConfusion h

/-- The step of a sequence token of at most 63 characters whose name has at most 31. -/
theorem parse_sequence_step_spec (tok : CStr) (h63 : tok.length ≤ 63)
    (h31 : (cut_at '*' tok).length ≤ 31) :
    (parse_sequence_step tok).pattern = cut_at '*' tok
      ∧ 1 ≤ (parse_sequence_step tok).repeat_count
      ∧ (after_char '*' tok = none → (parse_sequence_step tok).repeat_count = 1)
      ∧ (∀ c, after_char '*' tok = some c → 1 ≤ atoi c →
          (parse_sequence_step tok).repeat_count = atoi c) := by
  refine ⟨?_, parse_sequence_step_repeat tok, ?_, ?_⟩
  · unfold parse_sequence_step
    dsimp only
    rw [List.take_of_length_le h63]
    split
    · rename_i hnone
      show tok.take 31 = cut_at '*' tok
      rw [after_char_none_cut _ _ hnone] at h31 ⊢
      exact List.take_of_length_le h31
    · exact List.take_of_length_le h31
  · intro hnone
    unfold parse_sequence_step
    dsimp only
    rw [List.take_of_length_le h63, hnone]
  · intro c hc hpos
    unfold parse_sequence_step
    dsimp only
    rw [List.take_of_length_le h63, hc]
    exact if_neg (by omega)

theorem cut_at_star (nm c : CStr) (h : ∀ x ∈ nm, x ≠ '*') :
    cut_at '*' (nm ++ '*' :: c) = nm ∧ after_char '*' (nm ++ '*' :: c) = some c := by
  have hp : ∀ x ∈ nm, (fun y => y != '*') x = true := by
    intro x hx
    simpa using h x hx
  constructor
  · unfold cut_at
    rw [List.takeWhile_append_of_pos hp, List.takeWhile_cons_of_neg (by decide),
      List.append_nil]
  · unfold after_char
    rw [List.dropWhile_append_of_pos hp, List.dropWhile_cons_of_neg (by decide)]

theorem after_char_no_star (tok : CStr) (h : ∀ x ∈ tok, x ≠ '*') :
    after_char '*' tok = none := by
  have hp : ∀ x ∈ tok, (fun y => y != '*') x = true := by
    intro x hx
    simpa using h x hx
  unfold after_char
  rw [List.dropWhile_eq_nil_iff.mpr hp]

/-- C21 (amended). A `sequence` line read while fewer than 8 sequences exist, whose list
in parentheses has at most 255 characters, each token at most 63 and each pattern name at
most 31: without a token the line is rejected (`sequence needs at least one pattern`); with
more than 32 tokens it is rejected (`sequence too long`); otherwise a sequence of that
name is stored whose count is the number of tokens, between 1 and 32, and whose step `i`
has a repeat of at least 1 and, for a token without `*`, the token as pattern name and the
repeat 1, and for a token `nm*c`, the pattern name `nm` and the repeat `atoi c` when that
is at least 1, and 1 otherwise. -/
theorem sequence_line_stored (prog : Program) (line_num : Nat) (name text behind : CStr)
    (hcount : prog.sequence_count < DSL_MAX_SEQUENCES)
    (hname : name ≠ []) (hblank : ∀ c ∈ name, isspace c = false) (hlen : name.length ≤ 31)
    (hclose : ∀ c ∈ text, c ≠ ')') (hfit : text.length ≤ 255)
    (htoks : ∀ tok ∈ split_tokens is_list_sep text,
      tok.length ≤ 63 ∧ (cut_at '*' tok).length ≤ 31) :
    (split_tokens is_list_sep text = [] →
        cmd_sequence prog line_num (' ' :: (name ++ ' ' :: '(' :: (text ++ ')' :: behind)))
          = line_error line_num (cstr "sequence needs at least one pattern"))
      ∧ (32 < (split_tokens is_list_sep text).length →
        cmd_sequence prog line_num (' ' :: (name ++ ' ' :: '(' :: (text ++ ')' :: behind)))
          = line_error line_num (cstr "sequence too long"))
      ∧ (split_tokens is_list_sep text ≠ [] → (split_tokens is_list_sep text).length ≤ 32 →
        ∃ q : SequenceDef,
          cmd_sequence prog line_num (' ' :: (name ++ ' ' :: '(' :: (text ++ ')' :: behind)))
              = .ok { prog with sequences := prog.sequences ++ [q] }
            ∧ q.name = name ∧ q.count = (split_tokens is_list_sep text).length
            ∧ 1 ≤ q.count ∧ q.count ≤ 32
            ∧ ∀ (i : Nat) (tok : CStr), (split_tokens is_list_sep text).get? i = some tok →
                ∃ st : SequenceStep, q.steps.get? i = some st ∧ 1 ≤ st.repeat_count
                  ∧ ((∀ x ∈ tok, x ≠ '*') → st.pattern = tok ∧ st.repeat_count = 1)
                  ∧ (∀ nm c : CStr, tok = nm ++ '*' :: c → (∀ x ∈ nm, x ≠ '*') →
                      st.pattern = nm ∧ (1 ≤ atoi c → st.repeat_count = atoi c)
                        ∧ (atoi c < 1 → st.repeat_count = 1))) := by
  have hmax : DSL_MAX_SEQUENCES = 8 := rfl
  have h1 : next_token (name ++ ' ' :: '(' :: (text ++ ')' :: behind)) DSL_MAX_NAME false
      = some (name, ' ' :: '(' :: (text ++ ')' :: behind)) :=
    next_token_word name _ hname hblank hlen
  have herr : ∀ e : CStr, sequence_loop line_num (split_tokens is_list_sep text) [] = .error e →
      cmd_sequence prog line_num (' ' :: (name ++ ' ' :: '(' :: (text ++ ')' :: behind)))
        = .error e := by
    intro e he
    unfold cmd_sequence
    rw [if_neg (by omega), next_token_skip_blank, h1]
    dsimp only
    rw [next_token_paren text behind 256 hclose hfit]
    dsimp only
    rw [List.take_of_length_le hfit, he]
  have hok : ∀ steps : List SequenceStep,
      sequence_loop line_num (split_tokens is_list_sep text) [] = .ok steps →
      cmd_sequence prog line_num (' ' :: (name ++ ' ' :: '(' :: (text ++ ')' :: behind)))
        = if steps.length = 0 then
            line_error line_num (cstr "sequence needs at least one pattern")
          else .ok { prog with sequences := prog.sequences ++ [⟨name, steps⟩] } := by
    intro steps he
    unfold cmd_sequence
    rw [if_neg (by omega), next_token_skip_blank, h1]
    dsimp only
    rw [next_token_paren text behind 256 hclose hfit]
    dsimp only
    rw [List.take_of_length_le hfit, he]
  refine ⟨?_, ?_, ?_⟩
  · intro hnil
    have hloop : sequence_loop line_num (split_tokens is_list_sep text) [] = .ok [] := by
      rw [hnil]
      rfl
    rw [hok _ hloop]
    rfl
  · intro hlong
    have hne : split_tokens is_list_sep text ≠ [] := by
      intro h0
      rw [h0] at hlong
      exact absurd hlong (by decide)
    exact herr _ (sequence_loop_long line_num _ [] (by rw [List.length_nil]; omega) hne)
  · intro hne hle
    have hloop := sequence_loop_fits line_num (split_tokens is_list_sep text) []
      (by rw [List.length_nil]; omega)
    rw [List.nil_append] at hloop
    have hpos : 1 ≤ (split_tokens is_list_sep text).length :=
      Nat.one_le_iff_ne_zero.mpr (fun h0 => hne (List.length_eq_zero.mp h0))
    have hcnt : ((split_tokens is_list_sep text).map parse_sequence_step).length
        = (split_tokens is_list_sep text).length := List.length_map _ _
    refine ⟨⟨name, (split_tokens is_list_sep text).map parse_sequence_step⟩, ?_, rfl, hcnt,
      le_of_le_of_eq hpos hcnt.symm, le_of_eq_of_le hcnt hle, ?_⟩
    · rw [hok _ hloop]
      exact if_neg (by rw [hcnt]; omega)
    · intro i tok hi
      have hmem : tok ∈ split_tokens is_list_sep text := List.get?_mem hi
      have hspec := parse_sequence_step_spec tok (htoks tok hmem).1 (htoks tok hmem).2
      refine ⟨parse_sequence_step tok, ?_, hspec.2.1, ?_, ?_⟩
      · show ((split_tokens is_list_sep text).map parse_sequence_step).get? i = _
        rw [List.get?_eq_getElem?, List.getElem?_map, ← List.get?_eq_getElem?, hi]
        rfl
      · intro hno
        have hnone := after_char_no_star tok hno
        exact ⟨hspec.1.trans (after_char_none_cut _ _ hnone), hspec.2.2.1 hnone⟩
      · intro nm c htok hnm
        have hcut := cut_at_star nm c hnm
        rw [← htok] at hcut
        refine ⟨hspec.1.trans hcut.1, fun hpos => hspec.2.2.2 c hcut.2 hpos, ?_⟩
        intro hlt
        unfold parse_sequence_step
        dsimp only
        rw [List.take_of_length_le (htoks tok hmem).1, hcut.2]
        exact if_pos hlt

theorem sequence_line_stored_witness :
    ∃ q : SequenceDef,
      cmd_sequence set_default_program 4
          (' ' :: (cstr "S" ++ ' ' :: '(' :: (cstr "a b*3, a*0" ++ ')' :: [])))
          = .ok { set_default_program with sequences := set_default_program.sequences ++ [q] }
        ∧ q.name = cstr "S" ∧ q.count = (split_tokens is_list_sep (cstr "a b*3, a*0")).length
        ∧ 1 ≤ q.count ∧ q.count ≤ 32
        ∧ ∀ (i : Nat) (tok : CStr),
            (split_tokens is_list_sep (cstr "a b*3, a*0")).get? i = some tok →
            ∃ st : SequenceStep, q.steps.get? i = some st ∧ 1 ≤ st.repeat_count
              ∧ ((∀ x ∈ tok, x ≠ '*') → st.pattern = tok ∧ st.repeat_count = 1)
              ∧ (∀ nm c : CStr, tok = nm ++ '*' :: c → (∀ x ∈ nm, x ≠ '*') →
                  st.pattern = nm ∧ (1 ≤ atoi c → st.repeat_count = atoi c)
                    ∧ (atoi c < 1 → st.repeat_count = 1)) :=
  (sequence_line_stored set_default_program 4 (cstr "S") (cstr "a b*3, a*0") []
    (by decide) (by decide) (by decide) (by decide) (by decide) (by decide)
    (by decide)).2.2 (by decide) (by decide)

/-- C21 (counterexample). The sequence line of `example_cut_sequence_script` lists 30
tokens `verse_one` in 300 characters; the script is accepted, the list is read into a
buffer that keeps 255 characters, and the stored sequence has 26 steps, the last one under
the pattern name `verse`, which is not the 26th token. The script `example_repeat_script`
shows a short list at work. -/
theorem sequence_line_cut_counterexample :
    (split_tokens is_list_sep (List.replicate 30 (cstr "verse_one ")).flatten)
        = List.replicate 30 (cstr "verse_one")
      ∧ dsl_parse_script example_cut_sequence_script
        = .ok (parsed_program example_cut_sequence_script)
      ∧ (parsed_program example_cut_sequence_script).sequences.map
          (fun q => q.steps.map (fun st => st.pattern))
        = [List.replicate 25 (cstr "verse_one") ++ [cstr "verse"]]
      ∧ (parsed_program example_repeat_script).sequences.map
          (fun q => q.steps.map (fun st => (st.pattern, st.repeat_count)))
        = [[(cstr "a", 1), (cstr "b", 3), (cstr "a", 1)]] := by
  decide!

/-- C22 (amended). In every Program that `dsl_parse_script` returns, the synths, patterns,
sequences, drones and tracks are as many as the `synth`, `pattern`, `sequence`, `drone` and
`play` or `playseq` lines of the script, and the modulation routes as many as its `mod`
lines, so no accepted line is dropped; there are at most 32 synths, 64 patterns, 8
sequences, 4 drones and 128 tracks, each pattern has at most 128 steps, each sequence at
most 32 and each synth at most 32 modulation routes. A script with more lines of a kind
than its bound is therefore rejected. -/
theorem capacity_bounds (script : CStr) (prog : Program)
    (h : dsl_parse_script script = .ok prog) :
    (prog.synth_count = count_lines (cstr "synth") (script_lines script)
        ∧ prog.synth_count ≤ 32)
      ∧ (prog.pattern_count = count_lines (cstr "pattern") (script_lines script)
        ∧ prog.pattern_count ≤ 64)
      ∧ (prog.sequence_count = count_lines (cstr "sequence") (script_lines script)
        ∧ prog.sequence_count ≤ 8)
      ∧ (prog.drone_count = count_lines (cstr "drone") (script_lines script)
        ∧ prog.drone_count ≤ 4)
      ∧ (prog.track_count = count_lines (cstr "play") (script_lines script)
            + count_lines (cstr "playseq") (script_lines script)
        ∧ prog.track_count ≤ 128)
      ∧ total_mods prog = count_lines (cstr "mod") (script_lines script)
      ∧ (∀ p ∈ prog.patterns, p.length ≤ 128)
      ∧ (∀ q ∈ prog.sequences, q.count ≤ 32)
      ∧ (∀ sy ∈ prog.synths, sy.mods.length ≤ 32) := by
  have hok := dsl_parse_script_ok script prog h
  have hadd := parse_lines_added _ _ _ _ (dsl_parse_script_lines script prog h).1
  obtain ⟨x1, x2, x3, x4, x5, x6⟩ := hadd
  have z1 : set_default_program.synths.length = 0 := rfl
  have z2 : set_default_program.patterns.length = 0 := rfl
  have z3 : set_default_program.sequences.length = 0 := rfl
  have z4 : set_default_program.drones.length = 0 := rfl
  have z5 : set_default_program.tracks.length = 0 := rfl
  have z6 : total_mods set_default_program = 0 := rfl
  rw [z1, Nat.zero_add] at x1
  rw [z2, Nat.zero_add] at x2
  rw [z3, Nat.zero_add] at x3
  rw [z4, Nat.zero_add] at x4
  rw [z5, Nat.zero_add] at x5
  rw [z6, Nat.zero_add] at x6
  exact ⟨⟨x1, hok.1⟩, ⟨x2, hok.2.1⟩, ⟨x3, hok.2.2.1⟩, ⟨x4, hok.2.2.2.1⟩,
    ⟨x5, hok.2.2.2.2.1⟩, x6, fun p hp => (hok.2.2.2.2.2.1 p hp).2.1,
    fun q hq => (hok.2.2.2.2.2.2.1 q hq).2.1, hok.2.2.2.2.2.2.2⟩

theorem capacity_bounds_witness :
    dsl_parse_script example_repeat_script = .ok (parsed_program example_repeat_script)
      ∧ (parsed_program example_repeat_script).pattern_count
          = count_lines (cstr "pattern") (script_lines example_repeat_script)
      ∧ (parsed_program example_repeat_script).pattern_count ≤ 64 :=
  ⟨by decide!,
    (capacity_bounds example_repeat_script (parsed_program example_repeat_script)
      (by decide!)).2.1⟩

/-- C22 (counterexample). The pattern line of `example_long_pattern_script` lists 129
steps and the sequence line of `example_long_sequence_script` 40 steps; both scripts are
accepted: the lists are read into a buffer that keeps 255 characters, so the pattern is
stored with 128 steps and the sequence with 32, and the steps behind are dropped without
an error. -/
theorem capacity_dropped_counterexample :
    (split_tokens is_list_sep (List.replicate 129 (cstr "1 ")).flatten).length = 129
      ∧ dsl_parse_script example_long_pattern_script
        = .ok (parsed_program example_long_pattern_script)
      ∧ (parsed_program example_long_pattern_script).patterns.map (fun p => p.length) = [128]
      ∧ (split_tokens is_list_sep (List.replicate 40 (cstr "verse_a ")).flatten).length = 40
      ∧ dsl_parse_script example_long_sequence_script
        = .ok (parsed_program example_long_sequence_script)
      ∧ (parsed_program example_long_sequence_script).sequences.map (fun q => q.count)
        = [32] := by
  decide!

theorem cut_at_char (ch : Char) (nm c : CStr) (h : ∀ x ∈ nm, x ≠ ch) :
    cut_at ch (nm ++ ch :: c) = nm ∧ after_char ch (nm ++ ch :: c) = some c := by
  have hp : ∀ x ∈ nm, (fun y => y != ch) x = true := by
    intro x hx
    simpa using h x hx
  have ht : (ch :: c).takeWhile (fun y => y != ch) = [] := by
    simp [List.takeWhile_cons]
  have hd : (ch :: c).dropWhile (fun y => y != ch) = ch :: c := by
    simp [List.dropWhile_cons]
  constructor
  · unfold cut_at
    rw [List.takeWhile_append_of_pos hp, ht, List.append_nil]
  · unfold after_char
    rw [List.dropWhile_append_of_pos hp, hd]

theorem parse_list_loop_fits (toks : List CStr) :
    ∀ acc : List PatternStep,
      (∀ tok ∈ toks, tok.length ≤ 31 ∧ ∃ s, parse_list_token tok = .ok s) →
      acc.length + toks.length ≤ 128 →
      ∃ base : List PatternStep, parse_list_loop toks acc = .ok (acc ++ base)
        ∧ base.length = toks.length
        ∧ ∀ (j : Nat) (tok : CStr), toks.get? j = some tok →
            ∃ s, base.get? j = some s ∧ parse_list_token tok = .ok s := by
  induction toks with
  | nil =>
    intro acc _ _
    refine ⟨[], ?_, rfl, fun j tok h => Option.noConfusion h⟩
    unfold parse_list_loop
    rw [List.append_nil]
  | cons tok rest ih =>
    intro acc hv hl
    have hlen : (tok :: rest).length = rest.length + 1 := rfl
    rw [hlen] at hl
    obtain ⟨h31, s, hs⟩ := hv tok (List.mem_cons_self tok rest)
    obtain ⟨base, hb, hbl, hbj⟩ := ih (acc ++ [s])
      (fun t ht => hv t (List.mem_cons_of_mem tok ht))
      (by rw [List.length_append]; show acc.length + 1 + _ ≤ 128; omega)
    refine ⟨s :: base, ?_, congrArg Nat.succ hbl, ?_⟩
    · unfold parse_list_loop
      have hmax : DSL_MAX_PATTERN = 128 := rfl
      rw [hmax, if_neg (by omega), List.take_of_length_le h31, hs]
      dsimp only
      rw [hb, List.append_assoc]
      rfl
    · intro j t hj
      cases j with
      | zero =>
        have ht : tok = t := Option.some.inj hj
        rw [← ht]
        exact ⟨s, rfl, hs⟩
      | succ j => exact hbj j t hj

theorem parse_list_loop_long (toks : List CStr) :
    ∀ acc : List PatternStep,
      (∀ tok ∈ toks, tok.length ≤ 31 ∧ ∃ s, parse_list_token tok = .ok s) →
      128 < acc.length + toks.length → toks ≠ [] →
      parse_list_loop toks acc = .error pattern_too_long_msg := by
  induction toks with
  | nil =>
    intro acc _ _ hne
    exact absurd rfl hne
  | cons tok rest ih =>
    intro acc hv hl _
    have hlen : (tok :: rest).length = rest.length + 1 := rfl
    rw [hlen] at hl
    obtain ⟨h31, s, hs⟩ := hv tok (List.mem_cons_self tok rest)
    unfold parse_list_loop
    have hmax : DSL_MAX_PATTERN = 128 := rfl
    rw [hmax]
    by_cases hacc : acc.length ≥ 128
    · rw [if_pos hacc]
    · rw [if_neg hacc, List.take_of_length_le h31, hs]
      dsimp only
      have hne : rest ≠ [] := by
        intro hr
        rw [hr] at hl
        have h0 : ([] : List CStr).length = 0 := rfl
        omega
      exact ih _ (fun t ht => hv t (List.mem_cons_of_mem tok ht))
        (by rw [List.length_append]; show 128 < acc.length + 1 + _; omega) hne

theorem flatten_replicate_length {α : Type} (base : List α) (n : Nat) :
    (List.replicate n base).flatten.length = n * base.length := by
  rw [List.length_flatten, List.map_replicate, List.sum_replicate, smul_eq_mul]

theorem flatten_replicate_get {α : Type} (base : List α) (hk : base ≠ []) (n : Nat) :
    ∀ i : Nat, i < n * base.length →
      (List.replicate n base).flatten.get? i = base.get? (i % base.length) := by
  induction n with
  | zero =>
    intro i hi
    rw [Nat.zero_mul] at hi
    exact absurd hi (Nat.not_lt_zero i)
  | succ n ih =>
    intro i hi
    have hpos : 0 < base.length := List.length_pos.mpr hk
    rw [List.replicate_succ, List.flatten_cons]
    by_cases hlt : i < base.length
    · rw [List.get?_eq_getElem?, List.getElem?_append_left hlt, Nat.mod_eq_of_lt hlt,
        List.get?_eq_getElem?]
    · have hge : base.length ≤ i := Nat.le_of_not_lt hlt
      rw [List.get?_eq_getElem?, List.getElem?_append_right hge, ← List.get?_eq_getElem?,
        ih (i - base.length) (by rw [Nat.succ_mul] at hi; omega),
        Nat.mod_eq_sub_mod hge]

/-- The count read behind the `]`: none for a missing count, the token otherwise. -/
theorem parse_list_repeat_count (count : CStr)
    (hc : ∀ c ∈ count, isspace c = false ∧ c ≠ ')' ∧ c ≠ ',') (hlen : count.length ≤ 15) :
    parse_list_repeat (' ' :: count)
      = if list_repeat_count count < 1 then
          .error (cstr "Repeat must be >= 1 or " ++ [ch_apostrophe] ++ cstr "inf"
            ++ [ch_apostrophe])
        else .ok (list_repeat_count count) := by
  unfold parse_list_repeat list_repeat_count
  dsimp only
  rw [List.dropWhile_cons_of_pos (by decide)]
  cases count with
  | nil =>
    rw [if_pos (Or.inl rfl)]
    rfl
  | cons c cs =>
    obtain ⟨h1, h2, h3⟩ := hc c (List.mem_cons_self c cs)
    have hstop : (c :: cs).dropWhile (fun x => isspace x || x == ',' || x == ')')
        = c :: cs := by
      simp [List.dropWhile_cons, h1, h2, h3]
    rw [hstop]
    have hall : ∀ x ∈ c :: cs, (fun x => !isspace x && x != ')') x = true := by
      intro x hx
      obtain ⟨g1, g2, _⟩ := hc x hx
      simp [g1, g2]
    rw [List.takeWhile_eq_self_iff.mpr hall, List.take_of_length_le hlen]
    have hne : ¬ ((c :: cs) = []) := List.cons_ne_nil c cs
    have hemp : ¬ ((c :: cs).isEmpty = true) := by simp
    rw [if_neg hemp]
    by_cases hinf : c :: cs = cstr "inf"
    · rw [if_pos (Or.inr hinf), if_pos hinf]
      rfl
    · have hor : ¬ (c :: cs = [] ∨ c :: cs = cstr "inf") := fun h => h.elim hne hinf
      rw [if_neg hinf, if_neg hor]

theorem parse_list_token_fields (tok : CStr) (s : PatternStep)
    (h : parse_list_token tok = .ok s) :
    s.slide_ms = (split_token_slide tok 32).slide_ms
      ∧ s.accent = (split_token_slide tok 32).accent
      ∧ s.note = (if (split_token_slide tok 32).base = cstr "."
            ∨ (split_token_slide tok 32).base = cstr "-" then -1
          else note_name_to_midi (split_token_slide tok 32).base) := by
  unfold parse_list_token at h
  dsimp only at h
  split at h
  · rename_i hrest
    cases h
    exact ⟨rfl, rfl, (if_pos hrest).symm⟩
  · rename_i hrest
    split at h
    · exact Except.noConfusion h
    · cases h
      exact ⟨rfl, rfl, (if_neg hrest).symm⟩

/-- C29 (amended). A bracket-list text `[t1, ..., tk] count` whose list has at most 511
characters and `k >= 1` tokens, each of at most 31 characters and accepted as a named-note,
MIDI or rest token, and whose count has at most 15 characters, with `r` the number written
as count, or 1 for a missing count and for `inf`: when `r >= 1` and `k * r <= 128`,
`parse_pattern_list` yields `k * r` steps, and step `i` is the step of token `i mod k`,
with its note, slide and accent; when `r < 1` or `k * r > 128` the text is rejected. -/
theorem bracket_list_repeated (inner count : CStr)
    (hclose : ∀ c ∈ inner, c ≠ ']') (hfit : inner.length ≤ 511)
    (hvalid : ∀ tok ∈ split_tokens is_list_sep inner,
      tok.length ≤ 31 ∧ (parse_list_token tok).isOk = true)
    (hk : split_tokens is_list_sep inner ≠ [])
    (hc : ∀ c ∈ count, isspace c = false ∧ c ≠ ')' ∧ c ≠ ',') (hlen : count.length ≤ 15) :
    (1 ≤ list_repeat_count count →
        ((split_tokens is_list_sep inner).length : Int) * list_repeat_count count ≤ 128 →
        ∃ steps : List PatternStep,
          parse_pattern_list ('[' :: (inner ++ ']' :: ' ' :: count)) = .ok steps
            ∧ (steps.length : Int)
              = ((split_tokens is_list_sep inner).length : Int) * list_repeat_count count
            ∧ ∀ (i : Nat) (tok : CStr), i < steps.length →
                (split_tokens is_list_sep inner).get?
                  (i % (split_tokens is_list_sep inner).length) = some tok →
                ∃ s : PatternStep, steps.get? i = some s ∧ parse_list_token tok = .ok s
                  ∧ s.slide_ms = (split_token_slide tok 32).slide_ms
                  ∧ s.accent = (split_token_slide tok 32).accent
                  ∧ s.note = (if (split_token_slide tok 32).base = cstr "."
                        ∨ (split_token_slide tok 32).base = cstr "-" then -1
                      else note_name_to_midi (split_token_slide tok 32).base))
      ∧ (list_repeat_count count < 1
          ∨ 128 < ((split_tokens is_list_sep inner).length : Int) * list_repeat_count count →
        ∃ e : CStr, parse_pattern_list ('[' :: (inner ++ ']' :: ' ' :: count)) = .error e) := by
  have htoks : ∀ tok ∈ split_tokens is_list_sep inner,
      tok.length ≤ 31 ∧ ∃ s, parse_list_token tok = .ok s := by
    intro tok ht
    refine ⟨(hvalid tok ht).1, ?_⟩
    have hv := (hvalid tok ht).2
    cases hp : parse_list_token tok with
    | error e =>
      rw [hp] at hv
      exact Bool.noConfusion hv
    | ok s => exact ⟨s, rfl⟩
  have hopen : after_char '[' ('[' :: (inner ++ ']' :: ' ' :: count))
      = some (inner ++ ']' :: ' ' :: count) :=
    (cut_at_char '[' [] _ (fun x hx => absurd hx (List.not_mem_nil x))).2
  have hinner := cut_at_char ']' inner (' ' :: count) hclose
  have hrep := parse_list_repeat_count count hc hlen
  have hmax : ((DSL_MAX_PATTERN : Nat) : Int) = 128 := rfl
  have herr : ∀ e : CStr, parse_list_loop (split_tokens is_list_sep inner) [] = .error e →
      parse_pattern_list ('[' :: (inner ++ ']' :: ' ' :: count)) = .error e := by
    intro e he
    unfold parse_pattern_list
    rw [hopen]
    dsimp only
    rw [hinner.2]
    dsimp only
    rw [hinner.1, List.take_of_length_le hfit, he]
  have hrej : ∀ (base : List PatternStep) (e : CStr),
      parse_list_loop (split_tokens is_list_sep inner) [] = .ok base → base.length ≠ 0 →
      parse_list_repeat (' ' :: count) = .error e →
      parse_pattern_list ('[' :: (inner ++ ']' :: ' ' :: count)) = .error e := by
    intro base e he hne hr
    unfold parse_pattern_list
    rw [hopen]
    dsimp only
    rw [hinner.2]
    dsimp only
    rw [hinner.1, List.take_of_length_le hfit, he]
    dsimp only
    rw [if_neg hne, hr]
  have hacc : ∀ (base : List PatternStep) (r : Int),
      parse_list_loop (split_tokens is_list_sep inner) [] = .ok base → base.length ≠ 0 →
      parse_list_repeat (' ' :: count) = .ok r →
      parse_pattern_list ('[' :: (inner ++ ']' :: ' ' :: count))
        = if r * (base.length : Int) > 128 then .error pattern_too_long_msg
          else .ok (List.replicate r.toNat base).flatten := by
    intro base r he hne hr
    unfold parse_pattern_list
    rw [hopen]
    dsimp only
    rw [hinner.2]
    dsimp only
    rw [hinner.1, List.take_of_length_le hfit, he]
    dsimp only
    rw [if_neg hne, hr]
    dsimp only
    rw [hmax]
  have hpos : 0 < (split_tokens is_list_sep inner).length := List.length_pos.mpr hk
  by_cases hmany : (split_tokens is_list_sep inner).length ≤ 128
  · obtain ⟨base, hb, hbl, hbj⟩ := parse_list_loop_fits (split_tokens is_list_sep inner) []
      htoks (by rw [List.length_nil]; omega)
    rw [List.nil_append] at hb
    have hne : base.length ≠ 0 := by omega
    have hbne : base ≠ [] := fun h0 => hne (by rw [h0]; rfl)
    constructor
    · intro hr1 hfits
      rw [if_neg (by omega)] at hrep
      refine ⟨(List.replicate (list_repeat_count count).toNat base).flatten, ?_, ?_, ?_⟩
      · rw [hacc base _ hb hne hrep, hbl]
        exact if_neg (by rw [mul_comm]; omega)
      · rw [flatten_replicate_length, hbl, Nat.cast_mul, Int.toNat_of_nonneg (by omega),
          mul_comm]
      · intro i tok hi hget
        rw [flatten_replicate_length] at hi
        obtain ⟨s, hs, hp⟩ := hbj _ tok hget
        have hf := parse_list_token_fields tok s hp
        refine ⟨s, ?_, hp, hf.1, hf.2.1, hf.2.2⟩
        rw [flatten_replicate_get base hbne _ i hi, hbl]
        exact hs
    · intro hbad
      by_cases hr1 : list_repeat_count count < 1
      · rw [if_pos hr1] at hrep
        exact ⟨_, hrej base _ hb hne hrep⟩
      · rw [if_neg hr1] at hrep
        have hlong : 128 < ((split_tokens is_list_sep inner).length : Int)
            * list_repeat_count count := hbad.resolve_left hr1
        refine ⟨pattern_too_long_msg, ?_⟩
        rw [hacc base _ hb hne hrep, hbl]
        exact if_pos (by rw [mul_comm]; omega)
  · have hlong := parse_list_loop_long (split_tokens is_list_sep inner) [] htoks
      (by rw [List.length_nil]; omega) hk
    constructor
    · intro hr1 hfits
      exfalso
      have h1 : (128 : Int) < ((split_tokens is_list_sep inner).length : Int) := by omega
      nlinarith
    · intro _
      exact ⟨_, herr _ hlong⟩

theorem bracket_list_repeated_witness :
    ∃ steps : List PatternStep,
      parse_pattern_list ('[' :: (cstr "60, C4~30! ." ++ ']' :: ' ' :: cstr "2")) = .ok steps
        ∧ (steps.length : Int)
          = ((split_tokens is_list_sep (cstr "60, C4~30! .")).length : Int)
            * list_repeat_count (cstr "2")
        ∧ ∀ (i : Nat) (tok : CStr), i < steps.length →
            (split_tokens is_list_sep (cstr "60, C4~30! .")).get?
              (i % (split_tokens is_list_sep (cstr "60, C4~30! .")).length) = some tok →
            ∃ s : PatternStep, steps.get? i = some s ∧ parse_list_token tok = .ok s
              ∧ s.slide_ms = (split_token_slide tok 32).slide_ms
              ∧ s.accent = (split_token_slide tok 32).accent
              ∧ s.note = (if (split_token_slide tok 32).base = cstr "."
                    ∨ (split_token_slide tok 32).base = cstr "-" then -1
                  else note_name_to_midi (split_token_slide tok 32).base) :=
  (bracket_list_repeated (cstr "60, C4~30! .") (cstr "2") (by decide) (by decide)
    (by decide!) (by decide) (by decide) (by decide)).1 (by decide) (by decide)

/-- C29 (counterexample). In `example_long_count_script` the list `[60, 62]` has the count 2
written in 16 characters, so `k * r = 4`; `parse_pattern_list` keeps 15 of them, reads 0 and
rejects the line. In `example_long_token_script` the first token has 32 characters and the
slide 500; `parse_pattern_list` keeps 31 of them and stores the slide 50. The list
`[60, C4~30! .] 2` shows a short list at work. -/
theorem bracket_list_cut_counterexample :
    list_repeat_count (cstr "0000000000000002") = 2
      ∧ (split_tokens is_list_sep (cstr "60, 62")).length = 2
      ∧ dsl_parse_script example_long_count_script
        = line_error 2 (cstr "Repeat must be >= 1 or " ++ [ch_apostrophe] ++ cstr "inf"
            ++ [ch_apostrophe])
      ∧ example_long_token.length = 32
      ∧ (split_token_slide example_long_token 32).slide_ms = 500
      ∧ dsl_parse_script example_long_token_script
        = .ok (parsed_program example_long_token_script)
      ∧ (parsed_program example_long_token_script).patterns.map
          (fun p => p.steps.map (fun s => (s.note, s.slide_ms)))
        = [[(60, 50), (62, -1)]]
      ∧ (parse_pattern_list (cstr "[60, C4~30! .] 2")).toOption.map
          (fun steps => steps.map (fun s => (s.note, s.slide_ms, s.accent)))
        = some [(60, -1, 0), (60, 30, 1), (-1, -1, 0), (60, -1, 0), (60, 30, 1), (-1, -1, 0)] := by
  decide!

/-! ### The references of the runtime -/

theorem find_index_ge {α : Type} (f : α → Bool) (l : List α) : -1 ≤ find_index f l := by
  induction l with
  | nil => exact le_refl _
  | cons x xs ih =>
    unfold find_index
    split
    · decide
    · dsimp only
      split
      · exact le_refl _
      · omega

/-- The index `find_index` returns: negative when no element passes the test, and otherwise
the index of the first element that does. -/
theorem find_index_find {α : Type} (f : α → Bool) (l : List α) :
    (find_index f l < 0 ↔ l.find? f = none)
      ∧ (¬ find_index f l < 0 → l.get? (find_index f l).toNat = l.find? f) := by
  induction l with
  | nil =>
    have h0 : find_index f ([] : List α) = -1 := rfl
    rw [h0]
    exact ⟨⟨fun _ => rfl, fun _ => by decide⟩, fun h => absurd (by decide) h⟩
  | cons x xs ih =>
    by_cases hx : f x = true
    · have h0 : find_index f (x :: xs) = 0 := by
        unfold find_index
        rw [if_pos hx]
      have hf : (x :: xs).find? f = some x := by
        rw [List.find?_cons, hx]
      rw [h0, hf]
      exact ⟨⟨fun h => absurd h (by decide), fun h => Option.noConfusion h⟩, fun _ => rfl⟩
    · have hf : (x :: xs).find? f = xs.find? f := by
        rw [List.find?_cons]
        have hx2 : f x = false := by
          cases hfx : f x
          · rfl
          · exact absurd hfx hx
        rw [hx2]
      have h0 : find_index f (x :: xs)
          = if find_index f xs < 0 then -1 else find_index f xs + 1 := by
        rw [find_index]
        rw [if_neg hx]
      have hge := find_index_ge f xs
      rw [h0, hf]
      by_cases hr : find_index f xs < 0
      · rw [if_pos hr]
        exact ⟨⟨fun _ => ih.1.mp hr, fun _ => by decide⟩, fun h => absurd (by decide) h⟩
      · rw [if_neg hr]
        refine ⟨⟨fun h => absurd h (by omega), fun h => absurd (ih.1.mpr h) hr⟩, fun _ => ?_⟩
        have hnat : (find_index f xs + 1).toNat = (find_index f xs).toNat + 1 := by omega
        rw [hnat]
        exact ih.2 hr

theorem find_some_iff {α : Type} (f : α → Bool) (l : List α) :
    (∃ x, l.find? f = some x) ↔ ∃ x ∈ l, f x = true := by
  constructor
  · intro ⟨x, hx⟩
    exact ⟨x, List.mem_of_find?_eq_some hx, List.find?_some hx⟩
  · intro ⟨x, hx, hfx⟩
    cases hf : l.find? f with
    | none =>
      rw [List.find?_eq_none] at hf
      exact absurd hfx (hf x hx)
    | some y => exact ⟨y, rfl⟩

theorem name_test {α : Type} (name_of : α → CStr) (name : CStr) (l : List α) :
    (∃ x ∈ l, (fun y => name_of y == name) x = true) ↔ ∃ x ∈ l, name_of x = name := by
  constructor
  · intro ⟨x, hx, h⟩
    exact ⟨x, hx, by simpa using h⟩
  · intro ⟨x, hx, h⟩
    exact ⟨x, hx, by simpa using h⟩

theorem init_track_runtime_refs (e : EngineState) (i : Nat) (track : TrackDef)
    (pattern : Option PatternDef) (synth : SynthDef) (sequence : Option SequenceDef)
    (l : Int) :
    (init_track_runtime e i track pattern synth sequence l).pattern = pattern
      ∧ (init_track_runtime e i track pattern synth sequence l).synth = synth
      ∧ (init_track_runtime e i track pattern synth sequence l).sequence = sequence := by
  unfold init_track_runtime update_track_tempo
  dsimp only
  split
  · exact ⟨rfl, rfl, rfl⟩
  · exact ⟨rfl, rfl, rfl⟩

theorem steps_checked (prog : Program) (steps : List SequenceStep) :
    (steps.any (fun st => decide (dsl_find_pattern prog st.pattern < 0)) = true)
      ↔ ¬ ∀ st ∈ steps, ∃ p ∈ prog.patterns, p.name = st.pattern := by
  rw [List.any_eq_true]
  constructor
  · intro ⟨st, hst, hneg⟩ hall
    have hlt : dsl_find_pattern prog st.pattern < 0 := of_decide_eq_true hneg
    have hnone := (find_index_find (fun p : PatternDef => p.name == st.pattern)
      prog.patterns).1.mp hlt
    obtain ⟨y, hy⟩ := (find_some_iff _ _).mpr ((name_test _ _ _).mpr (hall st hst))
    rw [hnone] at hy
    exact Option.noConfusion hy
  · intro hnot
    by_contra hno
    apply hnot
    intro st hst
    have hge : ¬ dsl_find_pattern prog st.pattern < 0 := by
      intro hlt
      exact hno ⟨st, hst, decide_eq_true hlt⟩
    have hsome : ∃ y, prog.patterns.find? (fun p : PatternDef => p.name == st.pattern)
        = some y := by
      cases hf : prog.patterns.find? (fun p : PatternDef => p.name == st.pattern) with
      | none =>
        exact absurd ((find_index_find (fun p : PatternDef => p.name == st.pattern)
          prog.patterns).1.mpr hf) hge
      | some y => exact ⟨y, rfl⟩
    exact (name_test _ _ _).mp ((find_some_iff _ _).mp hsome)

/-- The track loop of `build_runtime`, when it returns: a runtime is added for each track,
with the references its track names, and each track resolves. -/
theorem build_runtime_loop_resolved (e : EngineState) (tracks : List TrackDef) :
    ∀ (i : Nat) (leader_set : Bool) (acc out : List TrackRuntime),
      build_runtime_loop e i leader_set tracks acc = some out →
      ∃ added : List TrackRuntime, out = acc ++ added
        ∧ List.Forall₂ (RuntimeResolved e.program) tracks added
        ∧ ∀ track ∈ tracks, TrackResolves e.program track := by
  induction tracks with
  | nil =>
    intro i leader_set acc out h
    unfold build_runtime_loop at h
    cases h
    exact ⟨[], (List.append_nil _).symm, List.Forall₂.nil,
      fun t ht => absurd ht (List.not_mem_nil t)⟩
  | cons td rest ih =>
    intro i leader_set acc out h
    unfold build_runtime_loop at h
    dsimp only at h
    split at h
    · exact Option.noConfusion h
    · rename_i pattern sequence hres
      split at h
      · exact Option.noConfusion h
      · rename_i hsy
        split at h
        · exact Option.noConfusion h
        · rename_i synth hget
          have hps : (td.is_sequence = 0 →
                sequence = none
                  ∧ ∃ p, pattern = some p ∧ named_pattern e.program td.pattern = some p)
              ∧ (td.is_sequence ≠ 0 →
                pattern = none
                  ∧ ∃ q, sequence = some q ∧ named_sequence e.program td.pattern = some q
                    ∧ ∀ st ∈ q.steps, ∃ p ∈ e.program.patterns, p.name = st.pattern) := by
            clear h ih
            by_cases hseq : td.is_sequence ≠ 0
            · rw [if_pos hseq] at hres
              by_cases hq : dsl_find_sequence e.program td.pattern < 0
              · rw [if_pos hq] at hres
                exact Option.noConfusion hres
              · rw [if_neg hq] at hres
                cases hgq : e.program.sequences.get?
                    (dsl_find_sequence e.program td.pattern).toNat with
                | none =>
                  rw [hgq] at hres
                  exact Option.noConfusion hres
                | some seq =>
                  rw [hgq] at hres
                  dsimp only at hres
                  by_cases hany : (seq.steps.any
                      (fun st => decide (dsl_find_pattern e.program st.pattern < 0))) = true
                  · rw [if_pos hany] at hres
                    exact Option.noConfusion hres
                  · rw [if_neg hany] at hres
                    have hpair : (none, some seq) = (pattern, sequence) := Option.some.inj hres
                    have hp1 : pattern = none := (congrArg Prod.fst hpair).symm
                    have hp2 : sequence = some seq := (congrArg Prod.snd hpair).symm
                    have hfq := find_index_find (fun q : SequenceDef => q.name == td.pattern)
                      e.program.sequences
                    have hnq : named_sequence e.program td.pattern = some seq :=
                      ((hfq.2 hq).symm.trans hgq)
                    have hsteps : ∀ st ∈ seq.steps, ∃ p ∈ e.program.patterns,
                        p.name = st.pattern := by
                      by_contra hc
                      exact hany ((steps_checked e.program seq.steps).mpr hc)
                    exact ⟨fun h0 => absurd h0 hseq, fun _ => ⟨hp1, seq, hp2, hnq, hsteps⟩⟩
            · rw [if_neg hseq] at hres
              have hseq0 : td.is_sequence = 0 := not_not.mp hseq
              by_cases hp : dsl_find_pattern e.program td.pattern < 0
              · rw [if_pos hp] at hres
                exact Option.noConfusion hres
              · rw [if_neg hp] at hres
                have hpair : (e.program.patterns.get?
                    (dsl_find_pattern e.program td.pattern).toNat, none)
                      = (pattern, sequence) := Option.some.inj hres
                have hp1 : pattern = e.program.patterns.get?
                    (dsl_find_pattern e.program td.pattern).toNat :=
                  (congrArg Prod.fst hpair).symm
                have hp2 : sequence = none := (congrArg Prod.snd hpair).symm
                have hfp := find_index_find (fun p : PatternDef => p.name == td.pattern)
                  e.program.patterns
                have hget2 := hfp.2 hp
                have hsome : ∃ p, e.program.patterns.find?
                    (fun p : PatternDef => p.name == td.pattern) = some p := by
                  cases hf : e.program.patterns.find?
                      (fun p : PatternDef => p.name == td.pattern) with
                  | none => exact absurd (hfp.1.mpr hf) hp
                  | some y => exact ⟨y, rfl⟩
                obtain ⟨p, hpf⟩ := hsome
                exact ⟨fun _ => ⟨hp2, p, hp1.trans (hget2.trans hpf), hpf⟩,
                  fun hne => absurd hseq0 hne⟩
          obtain ⟨added, hout, hall, hres2⟩ := ih _ _ _ _ h
          have hfs := find_index_find (fun s : SynthDef => s.name == td.synth) e.program.synths
          have hsynth : named_synth e.program td.synth = some synth :=
            ((hfs.2 hsy).symm.trans hget)
          have hsx : ∃ s ∈ e.program.synths, s.name = td.synth :=
            (name_test _ _ _).mp ((find_some_iff _ _).mp ⟨synth, hsynth⟩)
          have hkey : ∀ l : Int, RuntimeResolved e.program td
              (init_track_runtime e i td pattern synth sequence l) := by
            intro l
            have hrefs := init_track_runtime_refs e i td pattern synth sequence l
            refine ⟨hrefs.2.1.symm ▸ hsynth, ?_, ?_⟩
            · intro h0
              obtain ⟨g1, p, g2, g3⟩ := hps.1 h0
              exact ⟨hrefs.2.2.trans g1, p, hrefs.1.trans g2, g3⟩
            · intro h0
              obtain ⟨g1, q, g2, g3, _⟩ := hps.2 h0
              exact ⟨hrefs.1.trans g1, q, hrefs.2.2.trans g2, g3⟩
          have hkey2 : TrackResolves e.program td := by
            refine ⟨hsx, ?_, ?_⟩
            · intro h0
              obtain ⟨_, p, _, g3⟩ := hps.1 h0
              exact (name_test _ _ _).mp ((find_some_iff _ _).mp ⟨p, g3⟩)
            · intro h0
              obtain ⟨_, q, _, g3, g4⟩ := hps.2 h0
              exact ⟨q, g3, g4⟩
          refine ⟨_, hout.trans (List.append_assoc _ _ _), List.Forall₂.cons (hkey _) hall, ?_⟩
          · intro track ht
            rcases List.mem_cons.mp ht with ht | ht
            · rw [ht]
              exact hkey2
            · exact hres2 track ht

/-- The track loop of `build_runtime` returns when every track resolves. -/
theorem build_runtime_loop_complete (e : EngineState) (tracks : List TrackDef) :
    (∀ track ∈ tracks, TrackResolves e.program track) →
    ∀ (i : Nat) (leader_set : Bool) (acc : List TrackRuntime),
      ∃ out, build_runtime_loop e i leader_set tracks acc = some out := by
  induction tracks with
  | nil =>
    intro _ i leader_set acc
    exact ⟨acc, by unfold build_runtime_loop; rfl⟩
  | cons td rest ih =>
    intro hall i leader_set acc
    have htd := hall td (List.mem_cons_self td rest)
    have hrest := ih (fun t ht => hall t (List.mem_cons_of_mem td ht))
    obtain ⟨sy, hsy⟩ := (find_some_iff _ _).mpr ((name_test _ _ _).mpr htd.1)
    have hfs := find_index_find (fun s : SynthDef => s.name == td.synth) e.program.synths
    have hsy0 : ¬ dsl_find_synth e.program td.synth < 0 := by
      intro hlt
      rw [hfs.1.mp hlt] at hsy
      exact Option.noConfusion hsy
    have hsyget : e.program.synths.get? (dsl_find_synth e.program td.synth).toNat = some sy :=
      (hfs.2 hsy0).trans hsy
    by_cases hseq : td.is_sequence ≠ 0
    · obtain ⟨q, hq, hsteps⟩ := htd.2.2 hseq
      have hfq := find_index_find (fun q : SequenceDef => q.name == td.pattern)
        e.program.sequences
      have hq0 : ¬ dsl_find_sequence e.program td.pattern < 0 := by
        intro hlt
        have hnone : named_sequence e.program td.pattern = none := hfq.1.mp hlt
        rw [hnone] at hq
        exact Option.noConfusion hq
      have hqget : e.program.sequences.get? (dsl_find_sequence e.program td.pattern).toNat
          = some q := (hfq.2 hq0).trans hq
      have hany : ¬ ((q.steps.any
          (fun st => decide (dsl_find_pattern e.program st.pattern < 0))) = true) := by
        intro hc
        exact (steps_checked e.program q.steps).mp hc hsteps
      unfold build_runtime_loop
      dsimp only
      rw [if_pos hseq, if_neg hq0, hqget]
      dsimp only
      rw [if_neg hany]
      dsimp only
      rw [if_neg hsy0, hsyget]
      exact hrest _ _ _
    · have hseq0 : td.is_sequence = 0 := not_not.mp hseq
      obtain ⟨p, hp⟩ := (find_some_iff _ _).mpr ((name_test _ _ _).mpr (htd.2.1 hseq0))
      have hfp := find_index_find (fun p : PatternDef => p.name == td.pattern)
        e.program.patterns
      have hp0 : ¬ dsl_find_pattern e.program td.pattern < 0 := by
        intro hlt
        rw [hfp.1.mp hlt] at hp
        exact Option.noConfusion hp
      unfold build_runtime_loop
      dsimp only
      rw [if_neg hseq, if_neg hp0]
      dsimp only
      rw [if_neg hsy0, hsyget]
      exact hrest _ _ _

/-- C24. The function `build_runtime` succeeds if and only if every track of the Program
names an existing synth and either an existing pattern (`play`) or an existing sequence all
of whose steps name existing patterns (`playseq`), a name standing for the first item that
bears it; on success the Program is unchanged and there is one track runtime per track, in
order, whose synth and whose pattern (`play`) or sequence (`playseq`) are the items of the
Program that its track names. -/
theorem build_runtime_iff_resolves (engine : EngineState) :
    ((build_runtime engine).isSome = true
        ↔ ∀ track ∈ engine.program.tracks, TrackResolves engine.program track)
      ∧ ∀ engine1 : EngineState, build_runtime engine = some engine1 →
          engine1.program = engine.program
            ∧ List.Forall₂ (RuntimeResolved engine.program) engine.program.tracks
                engine1.tracks := by
  refine ⟨⟨?_, ?_⟩, ?_⟩
  · intro hsome
    cases hb : build_runtime_loop engine 0 false engine.program.tracks [] with
    | none =>
      unfold build_runtime at hsome
      rw [hb] at hsome
      exact Bool.noConfusion hsome
    | some out =>
      obtain ⟨_, _, _, hall⟩ := build_runtime_loop_resolved engine _ _ _ _ _ hb
      exact hall
  · intro hall
    obtain ⟨out, hout⟩ := build_runtime_loop_complete engine _ hall 0 false []
    unfold build_runtime
    rw [hout]
    rfl
  · intro engine1 h
    unfold build_runtime at h
    split at h
    · exact Option.noConfusion h
    · rename_i out hb
      cases h
      obtain ⟨added, hout, hall, _⟩ := build_runtime_loop_resolved engine _ _ _ _ _ hb
      rw [List.nil_append] at hout
      rw [hout]
      exact ⟨rfl, hall⟩

theorem build_runtime_iff_resolves_witness :
    (build_runtime
        { audio_engine_init with program := parsed_program example_sequence_script }).isSome
        = true
      ∧ TrackResolves (parsed_program example_sequence_script)
          ((parsed_program example_sequence_script).tracks.getD 0
            (set_default_track [] []))
      ∧ (build_runtime
          { audio_engine_init with
            program := parsed_program example_missing_pattern_script }).isSome = false
      ∧ (build_runtime
          { audio_engine_init with
            program := parsed_program example_missing_step_script }).isSome = false :=
  ⟨by decide!,
    (build_runtime_iff_resolves
      { audio_engine_init with program := parsed_program example_sequence_script }).1.mp
      (by decide!) _ (by decide!),
    by decide!, by decide!⟩

/-! ### Playing and rendering a script -/

/-- C25, the code: `audio_engine_play_script` returns 1, not 0, exactly when the script is
parsed, the runtime built, the drones started and the audio unit started, and 0 in every
other case, while the header documents `Returns 0 on success`. -/
theorem play_script_return_value (engine : EngineState) (script : CStr)
    (audio_started : Bool) :
    (audio_engine_play_script engine script audio_started = 1
        ∨ audio_engine_play_script engine script audio_started = 0)
      ∧ (audio_engine_play_script engine script audio_started = 1
        ↔ ∃ (program : Program) (engine1 engine2 : EngineState),
            dsl_parse_script script = .ok program
              ∧ install_program engine program = some engine1
              ∧ start_drones engine1 engine1.program.drones = .ok engine2
              ∧ audio_started = true)
      ∧ audio_engine_play_script audio_engine_init example_sequence_script true = 1
      ∧ audio_engine_play_script audio_engine_init example_missing_synth_script true = 0
      ∧ audio_engine_play_script audio_engine_init example_empty_lines_script true = 0 := by
  refine ⟨?_, ?_, by decide!, by decide!, by decide!⟩
  · unfold audio_engine_play_script
    repeat' split
    all_goals first | exact Or.inl rfl | exact Or.inr rfl
  · unfold audio_engine_play_script
    constructor
    · intro h
      split at h
      · exact absurd h (by decide)
      · rename_i program hp
        split at h
        · exact absurd h (by decide)
        · rename_i engine1 hi
          split at h
          · exact absurd h (by decide)
          · rename_i engine2 hd
            split at h
            · rename_i hs
              exact ⟨program, engine1, engine2, hp, hi, hd, hs⟩
            · exact absurd h (by decide)
    · intro ⟨program, engine1, engine2, hp, hi, hd, hs⟩
      rw [hp]
      dsimp only
      rw [hi]
      dsimp only
      rw [hd]
      dsimp only
      rw [if_pos hs]

theorem wav_batches_spec (total_frames frames_per : Int) (hfp : 1 ≤ frames_per)
    (hfit : total_frames + frames_per ≤ 2147483648) :
    ∀ (fuel : Nat) (rendered : Int), total_frames - rendered ≤ (fuel : Int) →
      ∃ batches : List Int,
        wav_batches total_frames frames_per fuel rendered = some batches
          ∧ batches.sum = max 0 (total_frames - rendered)
          ∧ ∀ b ∈ batches, 1 ≤ b ∧ b ≤ frames_per := by
  intro fuel
  induction fuel with
  | zero =>
    intro rendered h
    refine ⟨[], ?_, ?_, fun b hb => absurd hb (List.not_mem_nil b)⟩
    · unfold wav_batches
      rw [if_neg (by omega)]
    · rw [List.sum_nil, max_eq_left (by omega)]
  | succ fuel ih =>
    intro rendered h
    by_cases hlt : rendered < total_frames
    · have hsum : ¬ rendered + frames_per > 2147483647 := by omega
      by_cases hlast : rendered + frames_per > total_frames
      · obtain ⟨l, hl, hsum2, hall⟩ := ih (rendered + (total_frames - rendered)) (by omega)
        refine ⟨(total_frames - rendered) :: l, ?_, ?_, ?_⟩
        · unfold wav_batches
          rw [if_pos hlt, if_neg hsum]
          dsimp only
          rw [if_pos hlast, hl]
          rfl
        · rw [List.sum_cons, hsum2, max_eq_left (by omega), max_eq_right (by omega)]
          omega
        · intro b hb
          rcases List.mem_cons.mp hb with hb | hb
          · rw [hb]
            omega
          · exact hall b hb
      · obtain ⟨l, hl, hsum2, hall⟩ := ih (rendered + frames_per) (by omega)
        refine ⟨frames_per :: l, ?_, ?_, ?_⟩
        · unfold wav_batches
          rw [if_pos hlt, if_neg hsum]
          dsimp only
          rw [if_neg hlast, hl]
          rfl
        · rw [List.sum_cons, hsum2, max_eq_right (by omega), max_eq_right (by omega)]
          omega
        · intro b hb
          rcases List.mem_cons.mp hb with hb | hb
          · rw [hb]
            omega
          · exact hall b hb
    · refine ⟨[], ?_, ?_, fun b hb => absurd hb (List.not_mem_nil b)⟩
      · unfold wav_batches
        rw [if_neg hlt]
      · rw [List.sum_nil, max_eq_left (by omega)]

/-- C26 (amended). For `seconds > 0` and a sample rate `sr > 0` with
`floor(seconds * sr)` and the batch size (`buffer_frames` when that is above 0, else 256)
together at most `2^31`, a call of `audio_engine_render_to_wav` whose script is parsed,
whose runtime is built, whose drones are started and whose file is created returns 1 and
renders and writes `floor(seconds * sr)` frames in total, in batches of at least 1 and at
most `buffer_frames` frames when `buffer_frames > 0`, and at most 256 frames otherwise; that
is `ceil(seconds * sr)` when `seconds * sr` is a whole number. -/
theorem render_to_wav_frames (engine engine1 engine2 : EngineState) (program : Program)
    (script : CStr) (seconds : ℚ) (sample_rate buffer_frames : Int)
    (hsec : 0 < seconds) (hsr : 0 < sample_rate)
    (hfit : ⌊seconds * (sample_rate : ℚ)⌋ + (if buffer_frames > 0 then buffer_frames else 256)
      ≤ 2147483648)
    (hparse : dsl_parse_script script = .ok program)
    (hinstall : install_program { engine with sample_rate := (sample_rate : ℚ) } program
      = some engine1)
    (hdrones : start_drones engine1 engine1.program.drones = .ok engine2) :
    ∃ batches : List Int,
      audio_engine_render_to_wav engine script seconds sample_rate buffer_frames true
          = some batches
        ∧ batches.sum = ⌊seconds * (sample_rate : ℚ)⌋
        ∧ (∀ b ∈ batches, 1 ≤ b ∧ b ≤ (if buffer_frames > 0 then buffer_frames else 256))
        ∧ ((⌊seconds * (sample_rate : ℚ)⌋ : ℚ) = seconds * (sample_rate : ℚ) →
            batches.sum = ⌈seconds * (sample_rate : ℚ)⌉) := by
  have hx : 0 ≤ seconds * (sample_rate : ℚ) := by positivity
  have hfp : 1 ≤ wav_frames_per buffer_frames := by
    unfold wav_frames_per
    split <;> omega
  have hfit2 : ⌊seconds * (sample_rate : ℚ)⌋ + wav_frames_per buffer_frames ≤ 2147483648 :=
    hfit
  have hsmall : seconds * (sample_rate : ℚ) < 2147483648 := by
    have h1 : ⌊seconds * (sample_rate : ℚ)⌋ < 2147483648 := by omega
    have h2 := Int.floor_lt.mp h1
    exact_mod_cast h2
  have htot : wav_total_frames seconds sample_rate = some ⌊seconds * (sample_rate : ℚ)⌋ :=
    c_int_of_nonneg _ hx hsmall
  have hnn : 0 ≤ ⌊seconds * (sample_rate : ℚ)⌋ := Int.floor_nonneg.mpr hx
  obtain ⟨batches, hb, hsum, hall⟩ := wav_batches_spec ⌊seconds * (sample_rate : ℚ)⌋
    (wav_frames_per buffer_frames) hfp hfit2 ⌊seconds * (sample_rate : ℚ)⌋.toNat 0
    (by omega)
  rw [sub_zero, max_eq_right hnn] at hsum
  refine ⟨batches, ?_, hsum, hall, ?_⟩
  · unfold audio_engine_render_to_wav
    rw [if_neg (not_le.mpr hsec), hparse]
    dsimp only
    rw [hinstall]
    dsimp only
    rw [hdrones]
    dsimp only
    rw [if_pos rfl, htot]
    exact hb
  · intro hint
    rw [hsum]
    have h1 : ⌈((⌊seconds * (sample_rate : ℚ)⌋ : Int) : ℚ)⌉ = ⌊seconds * (sample_rate : ℚ)⌋ :=
      Int.ceil_intCast _
    rw [hint] at h1
    exact h1.symm

theorem render_to_wav_frames_witness :
    ∃ batches : List Int,
      audio_engine_render_to_wav audio_engine_init example_sequence_script 1 48000 512 true
          = some batches
        ∧ batches.sum = ⌊(1 : ℚ) * ((48000 : Int) : ℚ)⌋
        ∧ (∀ b ∈ batches, 1 ≤ b ∧ b ≤ (if (512 : Int) > 0 then 512 else 256))
        ∧ ((⌊(1 : ℚ) * ((48000 : Int) : ℚ)⌋ : ℚ) = (1 : ℚ) * ((48000 : Int) : ℚ) →
            batches.sum = ⌈(1 : ℚ) * ((48000 : Int) : ℚ)⌉) :=
  render_to_wav_frames audio_engine_init
    ((install_program { audio_engine_init with sample_rate := ((48000 : Int) : ℚ) }
      (parsed_program example_sequence_script)).getD audio_engine_init)
    ((install_program { audio_engine_init with sample_rate := ((48000 : Int) : ℚ) }
      (parsed_program example_sequence_script)).getD audio_engine_init)
    (parsed_program example_sequence_script) example_sequence_script 1 48000 512
    (by decide) (by decide) (by decide!) (by decide!) (by decide!) (by decide!)

/-- C26 (counterexample). For `seconds = 1/2` and the sample rate 44101 the call renders
`(int)(22050.5) = 22050` frames, not `ceil(22050.5) = 22051`; with `buffer_frames = 0` the
batches have 256 frames, more than `buffer_frames`. For `seconds = 1` at 48000 the call
renders 48000 frames. -/
theorem render_to_wav_counterexample :
    (audio_engine_render_to_wav audio_engine_init example_sequence_script (1 / 2) 44101 512
          true).map List.sum = some 22050
      ∧ ⌈(1 / 2 : ℚ) * ((44101 : Int) : ℚ)⌉ = 22051
      ∧ (audio_engine_render_to_wav audio_engine_init example_sequence_script (1 / 100) 48000
          0 true) = some [256, 224]
      ∧ (audio_engine_render_to_wav audio_engine_init example_sequence_script 1 48000 512
          true).map List.sum = some 48000 := by
  decide!

/-! ### The pattern epoch -/

theorem count_changes_succ (seq : SequenceDef) (n : Nat) (c : Int × Int) :
    count_changes seq (n + 1) c
      = (if step_changes seq c then 1 else 0) + count_changes seq n (cursor_next seq c) := rfl

theorem update_track_tempo_epoch (engine : EngineState) :
    (update_all_track_tempos engine).pattern_epoch = engine.pattern_epoch := rfl

/-- One call of `advance_sequence` adds 1 to `pattern_epoch`, modulo `2^64`, when it moves
to the next sequence step, and leaves it otherwise. -/
theorem advance_sequence_epoch (engine : EngineState) (track : TrackRuntime)
    (seq : SequenceDef) (hseq : track.sequence = some seq) (hcount : seq.count ≠ 0)
    (hpe : engine.pattern_epoch < 2 ^ 64) :
    (advance_sequence engine track).1.pattern_epoch
      = (engine.pattern_epoch
          + (if step_changes seq (track.seq_index, track.seq_repeat_done) then 1 else 0))
        % 2 ^ 64 := by
  unfold advance_sequence step_changes
  rw [hseq]
  dsimp only
  rw [if_neg hcount]
  cases hg : seq.steps.get? track.seq_index.toNat with
  | none =>
    dsimp only
    by_cases hch : track.seq_repeat_done + 1 ≥ 0
    · rw [if_pos hch, decide_eq_true hch, if_pos rfl]
      split <;> rfl
    · rw [if_neg hch, decide_eq_false hch, if_neg (by decide)]
      exact (Nat.mod_eq_of_lt hpe).symm
  | some step =>
    dsimp only
    by_cases hch : track.seq_repeat_done + 1 ≥ step.repeat_count
    · rw [if_pos hch, decide_eq_true hch, if_pos rfl]
      split <;> rfl
    · rw [if_neg hch, decide_eq_false hch, if_neg (by decide)]
      exact (Nat.mod_eq_of_lt hpe).symm

theorem advance_sequence_epoch_lt (engine : EngineState) (track : TrackRuntime)
    (hpe : engine.pattern_epoch < 2 ^ 64) :
    (advance_sequence engine track).1.pattern_epoch < 2 ^ 64 := by
  have hmod : (engine.pattern_epoch + 1) % 2 ^ 64 < 2 ^ 64 := Nat.mod_lt _ (by decide)
  unfold advance_sequence
  split
  · exact hpe
  · dsimp only
    split
    · exact hpe
    · split
      · split
        · exact hmod
        · exact hmod
      · exact hpe

theorem advance_sequence_n_epoch (seq : SequenceDef) (hcount : seq.count ≠ 0) (n : Nat) :
    ∀ (engine : EngineState) (track : TrackRuntime), track.sequence = some seq →
      engine.pattern_epoch < 2 ^ 64 →
      (advance_sequence_n n engine track).1.pattern_epoch
        = (engine.pattern_epoch
            + count_changes seq n (track.seq_index, track.seq_repeat_done)) % 2 ^ 64 := by
  induction n with
  | zero =>
    intro engine track _ hpe
    exact (Nat.mod_eq_of_lt hpe).symm
  | succ n ih =>
    intro engine track hseq hpe
    have h := advance_sequence_cursor engine track seq hseq hcount
    have he := advance_sequence_epoch engine track seq hseq hcount hpe
    have hlt := advance_sequence_epoch_lt engine track hpe
    have hstep := ih (advance_sequence engine track).1 (advance_sequence engine track).2
      h.1 hlt
    unfold advance_sequence_n at hstep ⊢
    rw [Function.iterate_succ_apply, hstep, h.2, he, count_changes_succ, Nat.mod_add_mod,
      Nat.add_assoc]

theorem count_changes_add (seq : SequenceDef) (a b : Nat) :
    ∀ c : Int × Int, count_changes seq (a + b) c
      = count_changes seq a c + count_changes seq b (Nat.iterate (cursor_next seq) a c) := by
  induction a with
  | zero =>
    intro c
    rw [Nat.zero_add]
    show _ = 0 + _
    rw [Nat.zero_add]
    rfl
  | succ a ih =>
    intro c
    rw [Nat.succ_add, count_changes_succ, count_changes_succ, ih,
      Function.iterate_succ_apply, Nat.add_assoc]

theorem count_changes_finish_step (seq : SequenceDef) (i : Nat) (step : SequenceStep)
    (hstep : seq.steps.get? i = some step) (k : Nat) :
    ∀ d : Int, d + k + 1 = step.repeat_count →
      count_changes seq (k + 1) ((i : Int), d) = 1 := by
  induction k with
  | zero =>
    intro d hd
    have hyes : step_changes seq ((i : Int), d) = true := by
      unfold step_changes
      simp only [Int.toNat_ofNat, hstep]
      exact decide_eq_true (by simp at hd; omega)
    rw [count_changes_succ, hyes]
    rfl
  | succ k ih =>
    intro d hd
    have hnext : cursor_next seq ((i : Int), d) = ((i : Int), d + 1) := by
      unfold cursor_next
      simp only [Int.toNat_ofNat, hstep]
      rw [if_neg (by push_cast at hd; omega)]
    have hno : step_changes seq ((i : Int), d) = false := by
      unfold step_changes
      simp only [Int.toNat_ofNat, hstep]
      exact decide_eq_false (by push_cast at hd; omega)
    rw [count_changes_succ, hnext, hno, ih (d + 1) (by push_cast at hd ⊢; omega)]
    rfl

/-- Over the cycles of the first `i` steps the cursor moves to the next step `i` times. -/
theorem count_changes_prefix (seq : SequenceDef)
    (hrep : ∀ s ∈ seq.steps, 1 ≤ s.repeat_count) (i : Nat) (hi : i ≤ seq.count) :
    count_changes seq (repeat_sum (seq.steps.take i)).toNat ((0 : Int), (0 : Int)) = i := by
  induction i with
  | zero => simp [repeat_sum, count_changes]
  | succ i ih =>
    have hlt : i < seq.steps.length := hi
    have hget : seq.steps.get? i = some seq.steps[i] := by
      rw [List.get?_eq_getElem?]; exact List.getElem?_eq_getElem hlt
    have hr : 1 ≤ (seq.steps[i]).repeat_count := hrep _ (List.getElem_mem hlt)
    have hpre := repeat_sum_nonneg (seq.steps.take i)
      (fun s hs => hrep s (List.mem_of_mem_take hs))
    have htake : repeat_sum (seq.steps.take (i + 1))
        = repeat_sum (seq.steps.take i) + (seq.steps[i]).repeat_count := by
      unfold repeat_sum
      rw [List.map_take, List.map_take, List.sum_take_succ _ i (by simpa using hlt)]
      simp
    have hnat : (repeat_sum (seq.steps.take (i + 1))).toNat
        = (repeat_sum (seq.steps.take i)).toNat
          + ((seq.steps[i]).repeat_count.toNat - 1 + 1) := by
      rw [htake, Int.toNat_add hpre (by omega)]
      omega
    rw [hnat, count_changes_add, ih (Nat.le_of_succ_le hi),
      cursor_next_prefix seq hrep i (Nat.le_of_succ_le hi)]
    have hmod : Int.tmod (i : Int) seq.count = (i : Int) := by
      rw [Int.tmod_eq_emod (by omega) (by omega)]
      exact Int.emod_eq_of_lt (by omega) (by unfold SequenceDef.count; omega)
    rw [hmod, count_changes_finish_step seq i seq.steps[i] hget
      ((seq.steps[i]).repeat_count.toNat - 1) 0 (by omega)]

/-- C27 (amended). For a track that plays a sequence of `count >= 1` steps whose repeats
are all at least 1 and that starts at the cursor `(seq_index, seq_repeat_done) = (0, 0)`,
`pattern_epoch` has grown by `count`, modulo `2^64`, after the `Σ steps[i].repeat` calls
of `advance_sequence` of one full cycle: by 1 for each sequence step, whatever its repeat;
that is 2 for `sequence S (a*2 b)`. -/
theorem pattern_epoch_full_cycle (engine : EngineState) (track : TrackRuntime)
    (seq : SequenceDef) (hseq : track.sequence = some seq) (hcount : 1 ≤ seq.count)
    (hrep : ∀ s ∈ seq.steps, 1 ≤ s.repeat_count)
    (hstart : track.seq_index = 0 ∧ track.seq_repeat_done = 0)
    (hpe : engine.pattern_epoch < 2 ^ 64) :
    (advance_sequence_n (repeat_sum seq.steps).toNat engine track).1.pattern_epoch
      = (engine.pattern_epoch + seq.count) % 2 ^ 64 := by
  have h := advance_sequence_n_epoch seq (by omega) (repeat_sum seq.steps).toNat
    engine track hseq hpe
  have hp := count_changes_prefix seq hrep seq.count (le_refl _)
  have htake : seq.steps.take seq.count = seq.steps := List.take_length seq.steps
  rw [htake] at hp
  rw [hstart.1, hstart.2, hp] at h
  exact h

theorem pattern_epoch_full_cycle_witness :
    repeat_sum (first_sequence (loaded_engine example_sequence_script)).steps = 3
      ∧ (first_sequence (loaded_engine example_sequence_script)).count = 2
      ∧ (loaded_engine example_sequence_script).pattern_epoch = 0
      ∧ (advance_sequence_n
          (repeat_sum (first_sequence (loaded_engine example_sequence_script)).steps).toNat
          (loaded_engine example_sequence_script)
          (first_track (loaded_engine example_sequence_script))).1.pattern_epoch
        = ((loaded_engine example_sequence_script).pattern_epoch
            + (first_sequence (loaded_engine example_sequence_script)).count) % 2 ^ 64 :=
  ⟨by decide!, by decide!, by decide!,
    pattern_epoch_full_cycle (loaded_engine example_sequence_script)
      (first_track (loaded_engine example_sequence_script))
      (first_sequence (loaded_engine example_sequence_script))
      (by decide!) (by decide!) (by decide!) (by decide!) (by decide!)⟩

/-- C27 (counterexample). The single track of `example_sequence_script` plays
`sequence S (a*2 b)`, `a` of 2 steps and `b` of 1. Over the 5 calls of
`schedule_track_step` of one full cycle (the pattern cycles `a, a, b`) the cursor is back
at its start and `pattern_epoch` has grown from 0 to 2, not 3: the first cycle of `a`
leaves it at 0. -/
theorem pattern_epoch_counterexample :
    (loaded_engine example_sequence_script).pattern_epoch = 0
      ∧ (loaded_engine example_sequence_script).tracks.length = 1
      ∧ (List.range 6).map (fun n =>
          ((run_steps n (loaded_engine example_sequence_script)
              (first_track (loaded_engine example_sequence_script))).2.2.seq_index,
            (run_steps n (loaded_engine example_sequence_script)
              (first_track (loaded_engine example_sequence_script))).2.2.seq_repeat_done,
            (run_steps n (loaded_engine example_sequence_script)
              (first_track (loaded_engine example_sequence_script))).2.2.step_index,
            (run_steps n (loaded_engine example_sequence_script)
              (first_track (loaded_engine example_sequence_script))).2.1.pattern_epoch))
        = [(0, 0, 0, 0), (0, 0, 1, 0), (0, 1, 0, 0), (0, 1, 1, 0), (1, 0, 0, 1),
            (0, 0, 0, 2)] := by
  decide!

/-! ### The step counter and the chunk gate -/

theorem pattern_track_steady (e : EngineState) (t : TrackRuntime) (pat : PatternDef)
    (hseq : t.sequence = none) (hpat : t.pattern = some pat) : Steady e t pat := by
  have hcur : sequence_current_pattern e t = (t, t.pattern) := by
    unfold sequence_current_pattern
    rw [hseq]
  refine ⟨?_, ?_, ?_⟩
  · unfold track_active_for_sequence
    rw [hseq]
  · rw [hcur]
    exact hpat
  · rw [hcur]

theorem track_cycle_steps_pos (e : EngineState) (t : TrackRuntime) (pat : PatternDef)
    (heff : 0 < effective_pattern_length e pat) : 0 < track_cycle_steps e t pat := by
  unfold track_cycle_steps
  dsimp only
  have hb : 0 < (if t.palindrome ≠ 0 ∧ effective_pattern_length e pat > 1 then
      effective_pattern_length e pat * 2 - 2 else effective_pattern_length e pat) := by
    split
    · omega
    · exact heff
  split
  · rename_i hi
    exact Int.mul_pos hb (by omega)
  · exact hb

/-- The end of a step of a pattern track: the step counter stays inside the cycle. -/
theorem finish_step_in_cycle (e : EngineState) (t : TrackRuntime) (pat : PatternDef)
    (hseq : t.sequence = none) (h0 : 0 ≤ t.step_index)
    (hpos : 0 < track_cycle_steps e t pat) :
    0 ≤ (finish_step e t pat).2.step_index
      ∧ (finish_step e t pat).2.step_index < track_cycle_steps e t pat := by
  unfold finish_step
  dsimp only
  split
  · rw [hseq]
    exact ⟨le_refl 0, hpos⟩
  · rename_i hno
    constructor
    · show 0 ≤ t.step_index + 1
      omega
    · show t.step_index + 1 < track_cycle_steps e t pat
      by_contra hc
      exact hno ⟨hpos, by omega⟩

/-- A step of a pattern track that the chunk gate lets through leaves the step counter
inside the cycle. -/
theorem schedule_track_step_in_cycle (e : EngineState) (t : TrackRuntime) (pat : PatternDef)
    (hseq : t.sequence = none) (hpat : t.pattern = some pat) (hlen : pat.length ≠ 0)
    (heff : 0 < effective_pattern_length e pat)
    (hchunk : chunk_skips t (effective_pattern_length e pat)
      (step_pattern_index t (effective_pattern_length e pat)) = false)
    (h0 : 0 ≤ t.step_index) :
    0 ≤ (schedule_track_step e t).track.step_index
      ∧ (schedule_track_step e t).track.step_index < track_cycle_steps e t pat := by
  obtain ⟨_, e1, t1, hsame, hstep, hfin⟩ :=
    schedule_track_step_steady e t pat (pattern_track_steady e t pat hseq hpat) hlen heff hchunk
  have hcyc : track_cycle_steps e1 t1 pat = track_cycle_steps e t pat :=
    track_cycle_steps_same pat hsame
  have hf := finish_step_in_cycle e1 t1 pat (hsame.sequence.trans hseq)
    (by rw [hstep]; exact h0) (by rw [hcyc]; exact track_cycle_steps_pos e t pat heff)
  have htrack : (schedule_track_step e t).track = (finish_step e1 t1 pat).2 :=
    congrArg Prod.snd hfin
  rw [htrack, ← hcyc]
  exact hf

/-- A step that the chunk gate skips adds 1 to the step counter and returns: the counter is
not compared with the cycle length. -/
theorem schedule_track_step_chunk_skip (e : EngineState) (t : TrackRuntime)
    (pat : PatternDef) (hs : Steady e t pat) (hlen : pat.length ≠ 0)
    (heff : 0 < effective_pattern_length e pat)
    (hchunk : chunk_skips t (effective_pattern_length e pat)
      (step_pattern_index t (effective_pattern_length e pat)) = true) :
    (schedule_track_step e t).track = { t with step_index := t.step_index + 1 }
      ∧ (schedule_track_step e t).engine = e := by
  unfold schedule_track_step
  rw [hs.active]
  simp only [Bool.not_true, Bool.false_eq_true, if_false]
  rw [hs.current]
  dsimp only
  rw [hs.fixed, if_neg (by omega), hchunk]
  exact ⟨rfl, rfl⟩

/-- C30 (amended). On a pattern track whose pattern has steps, under a fixed meter, a call
of `schedule_track_step` that finds `0 <= step_index` and that the chunk gate lets through,
which is every call when `chunk` is 0 or less, leaves `0 <= step_index < cycle_steps`; a
call that the chunk gate skips adds 1 to `step_index` and returns without the comparison
with `cycle_steps`. -/
theorem chunk_gate_step_index (e : EngineState) (t : TrackRuntime) (pat : PatternDef)
    (hseq : t.sequence = none) (hpat : t.pattern = some pat) (hlen : pat.length ≠ 0)
    (heff : 0 < effective_pattern_length e pat) (h0 : 0 ≤ t.step_index) :
    (chunk_skips t (effective_pattern_length e pat)
        (step_pattern_index t (effective_pattern_length e pat)) = false →
      0 ≤ (schedule_track_step e t).track.step_index
        ∧ (schedule_track_step e t).track.step_index < track_cycle_steps e t pat)
    ∧ (t.chunk ≤ 0 →
      0 ≤ (schedule_track_step e t).track.step_index
        ∧ (schedule_track_step e t).track.step_index < track_cycle_steps e t pat)
    ∧ (chunk_skips t (effective_pattern_length e pat)
        (step_pattern_index t (effective_pattern_length e pat)) = true →
      (schedule_track_step e t).track.step_index = t.step_index + 1) := by
  refine ⟨fun hchunk => schedule_track_step_in_cycle e t pat hseq hpat hlen heff hchunk h0,
    fun hc => schedule_track_step_in_cycle e t pat hseq hpat hlen heff ?_ h0,
    fun hchunk => ?_⟩
  · unfold chunk_skips
    rw [if_neg (by omega)]
  · rw [(schedule_track_step_chunk_skip e t pat (pattern_track_steady e t pat hseq hpat) hlen
      heff hchunk).1]

/-- The theorem at the first call on the track of `example_chunk_script`, which the chunk
gate lets through: the step counter goes from 0 to 1, inside the cycle of 4 steps. -/
theorem chunk_gate_step_index_witness :
    (first_track (loaded_engine example_chunk_script)).sequence = none
      ∧ (first_track (loaded_engine example_chunk_script)).step_index = 0
      ∧ track_cycle_steps (loaded_engine example_chunk_script)
          (first_track (loaded_engine example_chunk_script))
          (first_pattern (loaded_engine example_chunk_script)) = 4
      ∧ 0 ≤ (schedule_track_step (loaded_engine example_chunk_script)
          (first_track (loaded_engine example_chunk_script))).track.step_index
      ∧ (schedule_track_step (loaded_engine example_chunk_script)
          (first_track (loaded_engine example_chunk_script))).track.step_index
        < track_cycle_steps (loaded_engine example_chunk_script)
          (first_track (loaded_engine example_chunk_script))
          (first_pattern (loaded_engine example_chunk_script)) :=
  ⟨by decide!, by decide!, by decide!,
    (chunk_gate_step_index (loaded_engine example_chunk_script)
      (first_track (loaded_engine example_chunk_script))
      (first_pattern (loaded_engine example_chunk_script))
      (by decide!) (by decide!) (by decide!) (by decide!) (by decide!)).1 (by decide!)⟩

/-- C30 (counterexample). The track of `example_chunk_script` plays a pattern of 4 steps with
`chunk 2`, so `cycle_steps = 4` and the chunks are the steps 0, 1 and 2, 3. Its step counter
after 0, 1, ..., 8 calls is 0, 1, 2, 3, 4, 5, 6, 0, 1: it is 4, 5 and 6, not below
`cycle_steps`, after the fourth, fifth and sixth call. The pattern index of the calls is
0, 1, 2, 3, 0, 1, 2, 0, and the quotient `step_index / 4` of line 825, which is 1 at the
fifth to seventh call, is what selects the second chunk: the seventh call plays step 2. -/
theorem chunk_gate_counterexample :
    track_cycle_steps (loaded_engine example_chunk_script)
        (first_track (loaded_engine example_chunk_script))
        (first_pattern (loaded_engine example_chunk_script)) = 4
      ∧ (first_track (loaded_engine example_chunk_script)).sequence = none
      ∧ (first_track (loaded_engine example_chunk_script)).chunk = 2
      ∧ (List.range 9).map (fun n =>
          (run_steps n (loaded_engine example_chunk_script)
            (first_track (loaded_engine example_chunk_script))).2.2.step_index)
        = [0, 1, 2, 3, 4, 5, 6, 0, 1]
      ∧ (run_steps 8 (loaded_engine example_chunk_script)
          (first_track (loaded_engine example_chunk_script))).1
        = [some 0, some 1, some 2, some 3, some 0, some 1, some 2, some 0]
      ∧ (List.range 8).map (fun n =>
          chunk_skips
            (run_steps n (loaded_engine example_chunk_script)
              (first_track (loaded_engine example_chunk_script))).2.2
            4
            (step_pattern_index
              (run_steps n (loaded_engine example_chunk_script)
                (first_track (loaded_engine example_chunk_script))).2.2 4))
        = [false, false, true, true, true, true, false, false] := by
  decide!

/-! ### The stutter -/

theorem tempoed_refl (t : TrackRuntime) : Tempoed t t := rfl

theorem tempoed_trans {t u v : TrackRuntime} (h1 : Tempoed t u) (h2 : Tempoed u v) :
    Tempoed t v := by
  unfold Tempoed at *
  rw [h2, h1]

theorem update_track_tempo_tempoed (e : EngineState) (t : TrackRuntime) :
    Tempoed t (update_track_tempo e t) := by
  unfold update_track_tempo
  dsimp only
  split
  · exact tempoed_refl t
  · rfl

theorem forall₂_tempoed_refl (l : List TrackRuntime) : List.Forall₂ Tempoed l l := by
  induction l with
  | nil => exact List.Forall₂.nil
  | cons a l ih => exact List.Forall₂.cons (tempoed_refl a) ih

theorem forall₂_tempoed_trans {l1 l2 l3 : List TrackRuntime}
    (h1 : List.Forall₂ Tempoed l1 l2) (h2 : List.Forall₂ Tempoed l2 l3) :
    List.Forall₂ Tempoed l1 l3 := by
  induction h1 generalizing l3 with
  | nil =>
    cases h2
    exact List.Forall₂.nil
  | cons hab _ ih =>
    cases h2 with
    | cons hbc hrest => exact List.Forall₂.cons (tempoed_trans hab hbc) (ih hrest)

theorem forall₂_tempoed_map (e : EngineState) (l : List TrackRuntime) :
    List.Forall₂ Tempoed l (l.map (update_track_tempo e)) := by
  induction l with
  | nil => exact List.Forall₂.nil
  | cons a l ih => exact List.Forall₂.cons (update_track_tempo_tempoed e a) ih

theorem forall₂_tempoed_get {l1 l2 : List TrackRuntime} (h : List.Forall₂ Tempoed l1 l2) :
    ∀ (i : Nat) (t : TrackRuntime), l1.get? i = some t →
      ∃ u, l2.get? i = some u ∧ Tempoed t u := by
  induction h with
  | nil =>
    intro i t ht
    exact Option.noConfusion ht
  | cons hab _ ih =>
    intro i t ht
    cases i with
    | zero =>
      have : _ = t := Option.some.inj ht
      rw [← this]
      exact ⟨_, rfl, hab⟩
    | succ i => exact ih i t ht

theorem engine_kept_refl (e : EngineState) : EngineKept e e :=
  ⟨forall₂_tempoed_refl _, rfl⟩

theorem engine_kept_trans {e e1 e2 : EngineState} (h1 : EngineKept e e1)
    (h2 : EngineKept e1 e2) : EngineKept e e2 :=
  ⟨forall₂_tempoed_trans h1.1 h2.1, h2.2.trans h1.2⟩

theorem engine_kept_of_eq (e e1 : EngineState) (ht : e1.tracks = e.tracks)
    (hs : e1.sample_rate = e.sample_rate) : EngineKept e e1 :=
  ⟨by rw [ht]; exact forall₂_tempoed_refl _, hs⟩

theorem advance_sequence_engine_kept (e : EngineState) (t : TrackRuntime) :
    EngineKept e (advance_sequence e t).1 := by
  unfold advance_sequence
  split
  · exact engine_kept_refl e
  · dsimp only
    split
    · exact engine_kept_refl e
    · split
      · split
        · exact ⟨forall₂_tempoed_map _ _, rfl⟩
        · exact engine_kept_of_eq _ _ rfl rfl
      · exact engine_kept_refl e

theorem schedule_inactive_engine_kept (e : EngineState) (t : TrackRuntime) :
    EngineKept e (schedule_inactive e t).1 := by
  unfold schedule_inactive
  split
  · exact engine_kept_refl e
  · split
    · split
      · exact engine_kept_refl e
      · dsimp only
        split
        · split
          · exact advance_sequence_engine_kept _ _
          · exact engine_kept_refl e
        · exact engine_kept_refl e
    · exact engine_kept_refl e

theorem schedule_ornament_engine_kept (e : EngineState) (t : TrackRuntime) (s : PatternStep) :
    EngineKept e (schedule_ornament e t s).1 := by
  unfold schedule_ornament
  split
  · dsimp only
    split
    · exact engine_kept_of_eq _ _ rfl rfl
    · exact engine_kept_refl e
  · exact engine_kept_refl e

theorem play_step_engine_kept (e : EngineState) (t : TrackRuntime) (s : PatternStep) :
    EngineKept e (play_step e t s).1 := by
  unfold play_step
  split
  · dsimp only
    refine engine_kept_trans ?_ (schedule_ornament_engine_kept _ _ s)
    exact engine_kept_of_eq _ _ rfl rfl
  · exact engine_kept_refl e

theorem finish_step_engine_kept (e : EngineState) (t : TrackRuntime) (p : PatternDef) :
    EngineKept e (finish_step e t p).1 := by
  unfold finish_step
  dsimp only
  split
  · split
    · exact advance_sequence_engine_kept _ _
    · exact engine_kept_refl e
  · exact engine_kept_refl e

/-- A call of `schedule_track_step` keeps the sample rate and gives the tracks of the engine
other step lengths at most. -/
theorem schedule_track_step_engine_kept (e : EngineState) (t : TrackRuntime) :
    EngineKept e (schedule_track_step e t).engine := by
  unfold schedule_track_step
  split
  · exact schedule_inactive_engine_kept e t
  · split
    · exact engine_kept_refl e
    · rename_i pattern hp
      dsimp only
      split
      · exact engine_kept_refl e
      · split
        · exact engine_kept_refl e
        · refine engine_kept_trans ?_ (finish_step_engine_kept _ _ pattern)
          split
          · split
            · exact play_step_engine_kept _ _ _
            · exact engine_kept_refl e
          · exact engine_kept_refl e

theorem stutter_tick_engine (e : EngineState) (t : TrackRuntime) :
    (stutter_tick e t).1.tracks = e.tracks
      ∧ (stutter_tick e t).1.sample_rate = e.sample_rate := by
  unfold stutter_tick
  split
  · split <;> exact ⟨rfl, rfl⟩
  · exact ⟨rfl, rfl⟩

theorem pass_state_engine_kept (e : EngineState) (t : TrackRuntime) :
    EngineKept e (pass_state e t).1 := by
  unfold pass_state
  split
  · exact schedule_track_step_engine_kept e t
  · exact engine_kept_refl e

/-- The body of the track loop, written with `pass_state`. -/
theorem render_track_pass (e : EngineState) (i : Nat) (t : TrackRuntime)
    (h : e.tracks.get? i = some t) :
    render_track e i
      = { (stutter_tick (pass_state e t).1 (pass_state e t).2).1 with
          tracks := (stutter_tick (pass_state e t).1 (pass_state e t).2).1.tracks.set i
            (stutter_tick (pass_state e t).1 (pass_state e t).2).2 } := by
  unfold render_track pass_state
  rw [h]
  dsimp only
  split <;> rfl

theorem note_on_first_free_found (n : NoteOn) (vs : List Voice) :
    (note_on_first_free n vs).2 = true ↔ ∃ v ∈ vs, v.active = false := by
  induction vs with
  | nil =>
    constructor
    · intro h
      exact Bool.noConfusion h
    · intro ⟨v, hv, _⟩
      exact absurd hv (List.not_mem_nil v)
  | cons a vs ih =>
    unfold note_on_first_free
    cases ha : a.active
    · simp [ha]
    · simp only [Bool.not_true, Bool.false_eq_true, if_false]
      rw [ih]
      constructor
      · intro ⟨v, hv, hf⟩
        exact ⟨v, List.mem_cons_of_mem a hv, hf⟩
      · intro ⟨v, hv, hf⟩
        rcases List.mem_cons.mp hv with hv | hv
        · rw [hv, ha] at hf
          exact Bool.noConfusion hf
        · exact ⟨v, hv, hf⟩

theorem note_on_first_free_none (n : NoteOn) (vs : List Voice)
    (h : (note_on_first_free n vs).2 = false) : ∀ v ∈ vs, v.active = true := by
  intro v hv
  cases hva : v.active
  · have := (note_on_first_free_found n vs).mpr ⟨v, hv, hva⟩
    rw [h] at this
    exact Bool.noConfusion this
  · rfl

theorem render_track_length (e : EngineState) (j : Nat) :
    (render_track e j).tracks.length = e.tracks.length := by
  cases hg : e.tracks.get? j with
  | none => rw [render_track_none e j hg]
  | some t =>
    rw [render_track_pass e j t hg]
    show (List.set _ j _).length = _
    rw [List.length_set, (stutter_tick_engine _ _).1]
    exact (pass_state_engine_kept e t).1.length_eq.symm

theorem render_track_rate (e : EngineState) (j : Nat) :
    (render_track e j).sample_rate = e.sample_rate := by
  cases hg : e.tracks.get? j with
  | none => rw [render_track_none e j hg]
  | some t =>
    rw [render_track_pass e j t hg]
    show (stutter_tick _ _).1.sample_rate = _
    rw [(stutter_tick_engine _ _).2]
    exact (pass_state_engine_kept e t).2

/-- The turn of the track at index `j` gives another track another step length at most. -/
theorem render_track_other (e : EngineState) (j i : Nat) (hji : j ≠ i) (t : TrackRuntime)
    (h : e.tracks.get? i = some t) :
    ∃ u, (render_track e j).tracks.get? i = some u ∧ Tempoed t u := by
  cases hg : e.tracks.get? j with
  | none =>
    rw [render_track_none e j hg]
    exact ⟨t, h, tempoed_refl t⟩
  | some tj =>
    rw [render_track_pass e j tj hg]
    show ∃ u, (List.set _ j _).get? i = some u ∧ Tempoed t u
    rw [List.get?_eq_getElem?, List.getElem?_set_ne hji, ← List.get?_eq_getElem?,
      (stutter_tick_engine _ _).1]
    exact forall₂_tempoed_get (pass_state_engine_kept e tj).1 i t h

/-- The turn of the track at index `i` stores the track that the stutter countdown leaves. -/
theorem render_track_self (e : EngineState) (i : Nat) (t : TrackRuntime)
    (h : e.tracks.get? i = some t) :
    (render_track e i).tracks.get? i
      = some (stutter_tick (pass_state e t).1 (pass_state e t).2).2 := by
  rw [render_track_pass e i t h]
  show (List.set _ i _).get? i = _
  obtain ⟨u, hu, _⟩ := forall₂_tempoed_get (pass_state_engine_kept e t).1 i t h
  have hlt : i < (stutter_tick (pass_state e t).1 (pass_state e t).2).1.tracks.length := by
    rw [(stutter_tick_engine _ _).1]
    exact (List.get?_eq_some.mp hu).1
  rw [List.get?_eq_getElem?, List.getElem?_set_self hlt]

theorem fold_render_track_other (l : List Nat) (i : Nat) (hi : i ∉ l) :
    ∀ (e : EngineState) (t : TrackRuntime), e.tracks.get? i = some t →
      ∃ u, (l.foldl render_track e).tracks.get? i = some u ∧ Tempoed t u := by
  induction l with
  | nil =>
    intro e t h
    exact ⟨t, h, tempoed_refl t⟩
  | cons j l ih =>
    intro e t h
    have hji : j ≠ i := fun hc => hi (hc ▸ List.mem_cons_self j l)
    obtain ⟨u, hu, htu⟩ := render_track_other e j i hji t h
    obtain ⟨v, hv, huv⟩ := ih (fun hc => hi (List.mem_cons_of_mem j hc)) (render_track e j) u hu
    exact ⟨v, hv, tempoed_trans htu huv⟩

theorem fold_render_track_length (l : List Nat) :
    ∀ e : EngineState, (l.foldl render_track e).tracks.length = e.tracks.length := by
  induction l with
  | nil => intro e; rfl
  | cons j l ih =>
    intro e
    exact (ih (render_track e j)).trans (render_track_length e j)

theorem range_split (i len : Nat) (h : i < len) :
    List.range len = List.range i ++ i :: List.range' (i + 1) (len - i - 1) := by
  have h1 : len = (len - i - 1 + 1) + i := by omega
  have h2 : List.range' i (len - i - 1 + 1) = i :: List.range' (i + 1) (len - i - 1) :=
    List.range'_succ _ _ _
  rw [← h2, List.range_eq_range', List.range_eq_range']
  have h3 := List.range'_append 0 i (len - i - 1 + 1) 1
  rw [Nat.zero_add, Nat.one_mul, ← h1] at h3
  exact h3.symm

/-- From one frame to the next: the track that the loop finds at index `i` in the next
frame is the track that its turn in this frame leaves, with another step length at most. -/
theorem next_turn_track (e : EngineState) (i : Nat) (t : TrackRuntime)
    (h : (engine_at_track e i).tracks.get? i = some t) :
    ∃ u, (engine_at_track (render_frame e) i).tracks.get? i = some u
      ∧ Tempoed (stutter_tick (pass_state (engine_at_track e i) t).1
          (pass_state (engine_at_track e i) t).2).2 u := by
  have hlen : i < e.tracks.length := by
    have h1 : i < (engine_at_track e i).tracks.length := by
      rw [List.get?_eq_some] at h
      exact h.1
    unfold engine_at_track at h1
    rw [fold_render_track_length] at h1
    exact h1
  have hself := render_track_self (engine_at_track e i) i t h
  have hrest : i ∉ List.range' (i + 1) (e.tracks.length - i - 1) := by
    intro hm
    rw [List.mem_range'] at hm
    obtain ⟨k, _, hk⟩ := hm
    omega
  obtain ⟨u, hu, htu⟩ := fold_render_track_other _ i hrest _ _ hself
  have hframe : (render_frame e).tracks
      = ((List.range' (i + 1) (e.tracks.length - i - 1)).foldl render_track
          (render_track (engine_at_track e i) i)).tracks := by
    unfold render_frame engine_at_track
    dsimp only
    rw [range_split i e.tracks.length hlen, List.foldl_append, List.foldl_cons]
  have hu2 : (render_frame e).tracks.get? i = some u := by
    rw [hframe]
    exact hu
  have hnot : i ∉ List.range i := by
    intro hm
    rw [List.mem_range] at hm
    omega
  obtain ⟨v, hv, huv⟩ := fold_render_track_other (List.range i) i hnot (render_frame e) u hu2
  exact ⟨v, hv, tempoed_trans htu huv⟩

theorem tempoed_fields {t u : TrackRuntime} (h : Tempoed t u) :
    u.samples_until_step = t.samples_until_step ∧ u.stut_remaining = t.stut_remaining
      ∧ u.stut_samples_until = t.stut_samples_until
      ∧ u.stut_samples_per = t.stut_samples_per ∧ u.stut_freq = t.stut_freq := by
  have h2 : u = { t with samples_per_step := u.samples_per_step } := h
  exact ⟨(congrArg TrackRuntime.samples_until_step h2).trans rfl,
    (congrArg TrackRuntime.stut_remaining h2).trans rfl,
    (congrArg TrackRuntime.stut_samples_until h2).trans rfl,
    (congrArg TrackRuntime.stut_samples_per h2).trans rfl,
    (congrArg TrackRuntime.stut_freq h2).trans rfl⟩

theorem pass_state_waiting (e : EngineState) (t : TrackRuntime)
    (h : ¬ t.samples_until_step ≤ 0) :
    pass_state e t = (e, { t with samples_until_step := t.samples_until_step - 1 }) := by
  unfold pass_state
  rw [if_neg h]

/-- The stutter countdown of one turn, on a track with `r` repeats left and the countdown
`u`: a repeat is made when `r > 0` and `u <= 1`, on an inactive voice if there is one. -/
theorem stutter_turn (e : EngineState) (t : TrackRuntime) :
    (0 < t.stut_remaining → t.stut_samples_until - 1 ≤ 0 →
        (stutter_tick e t).2
            = { t with stut_remaining := t.stut_remaining - 1,
                       stut_samples_until := t.stut_samples_per }
          ∧ ((∃ v ∈ e.voices, v.active = false) →
              ∃ n : NoteOn, stutter_note_ons e t = [n] ∧ n.freq = t.stut_freq)
          ∧ (stutter_note_ons e t).length ≤ 1
          ∧ ∀ x ∈ stutter_note_ons e t, x.freq = t.stut_freq)
      ∧ (0 < t.stut_remaining → ¬ t.stut_samples_until - 1 ≤ 0 →
        (stutter_tick e t).2 = { t with stut_samples_until := t.stut_samples_until - 1 }
          ∧ stutter_note_ons e t = [])
      ∧ (¬ 0 < t.stut_remaining →
        (stutter_tick e t).2 = t ∧ stutter_note_ons e t = []) := by
  refine ⟨?_, ?_, ?_⟩
  · intro hr hu
    have hr2 : t.stut_remaining > 0 := hr
    refine ⟨?_, ?_, ?_, ?_⟩
    · unfold stutter_tick
      rw [if_pos hr2, if_pos hu]
    · intro hfree
      unfold stutter_note_ons
      rw [if_pos hr2, if_pos hu]
      dsimp only
      rw [if_pos ((note_on_first_free_found _ _).mpr hfree)]
      exact ⟨_, rfl, rfl⟩
    · unfold stutter_note_ons
      rw [if_pos hr2, if_pos hu]
      dsimp only
      split
      · exact le_refl 1
      · exact Nat.zero_le 1
    · intro x hx
      unfold stutter_note_ons at hx
      rw [if_pos hr2, if_pos hu] at hx
      dsimp only at hx
      split at hx
      · rw [List.mem_singleton] at hx
        rw [hx]
      · exact absurd hx (List.not_mem_nil x)
  · intro hr hu
    have hr2 : t.stut_remaining > 0 := hr
    constructor
    · unfold stutter_tick
      rw [if_pos hr2, if_neg hu]
    · unfold stutter_note_ons
      rw [if_pos hr2, if_neg hu]
  · intro hr
    have hr2 : ¬ t.stut_remaining > 0 := hr
    constructor
    · unfold stutter_tick
      rw [if_neg hr2]
    · unfold stutter_note_ons
      rw [if_neg hr2]

theorem frame_note_ons_waiting (e : EngineState) (i : Nat) (t : TrackRuntime)
    (h : (engine_at_track e i).tracks.get? i = some t) (hw : ¬ t.samples_until_step ≤ 0) :
    frame_note_ons e i
        = stutter_note_ons (engine_at_track e i)
            { t with samples_until_step := t.samples_until_step - 1 }
      ∧ stutter_voices e i = (engine_at_track e i).voices
      ∧ track_due e i = false := by
  refine ⟨?_, ?_, ?_⟩
  · unfold frame_note_ons render_track_note_ons
    rw [h]
    dsimp only
    rw [if_neg hw, pass_state_waiting _ t hw]
    rfl
  · unfold stutter_voices
    rw [h]
    dsimp only
    rw [pass_state_waiting _ t hw]
  · unfold track_due
    rw [h]
    exact decide_eq_false hw

/-- The frames between two steps of the track at index `i`: with `c` frames to go to its
next step, `r` repeats left that fit into these frames and an inactive voice at every
repeat, the track makes `r` note-ons, all at the stutter frequency, and its next step is due
after `c` frames and not before. -/
theorem stutter_run (i : Nat) (per : Int) (f : Freq) (hper : 1 ≤ per) :
    ∀ (c : Nat) (e : EngineState) (t : TrackRuntime),
      (engine_at_track e i).tracks.get? i = some t →
      t.samples_until_step = (c : Int) →
      t.stut_samples_per = per → t.stut_freq = f → 1 ≤ t.stut_samples_until →
      (t.stut_remaining ≤ 0 ∨ t.stut_samples_until + (t.stut_remaining - 1) * per ≤ c) →
      (∀ k < c, ∃ v ∈ stutter_voices (render_frames k e) i, v.active = false) →
      ((frames_note_ons c e i).length : Int) = max 0 t.stut_remaining
        ∧ (∀ x ∈ frames_note_ons c e i, x.freq = f)
        ∧ (∀ k < c, track_due (render_frames k e) i = false)
        ∧ track_due (render_frames c e) i = true := by
  intro c
  induction c with
  | zero =>
    intro e t hget hc _ _ hu hfit _
    have hr : t.stut_remaining ≤ 0 := by
      rcases hfit with hfit | hfit
      · exact hfit
      · by_contra hpos
        have h1 : 0 ≤ (t.stut_remaining - 1) * per :=
          Int.mul_nonneg (by omega) (by omega)
        have h0 : ((0 : Nat) : Int) = 0 := rfl
        omega
    refine ⟨?_, fun x hx => absurd hx (List.not_mem_nil x),
      fun k hk => absurd hk (Nat.not_lt_zero k), ?_⟩
    · show ((0 : Nat) : Int) = _
      rw [max_eq_left hr]
      rfl
    · show track_due e i = true
      unfold track_due
      rw [hget]
      exact decide_eq_true (by rw [hc]; exact le_refl _)
  | succ c ih =>
    intro e t hget hc hp hf hu hfit hvoice
    have hw : ¬ t.samples_until_step ≤ 0 := by
      rw [hc]
      push_cast
      omega
    obtain ⟨hnotes, hvs, hdue⟩ := frame_note_ons_waiting e i t hget hw
    obtain ⟨u, hu1, hu2⟩ := next_turn_track e i t hget
    rw [pass_state_waiting _ t hw] at hu2
    have hfree : ∃ v ∈ (engine_at_track e i).voices, v.active = false := by
      rw [← hvs]
      exact hvoice 0 (Nat.succ_pos c)
    have hturn := stutter_turn (engine_at_track e i)
      { t with samples_until_step := t.samples_until_step - 1 }
    have hvoice2 : ∀ k < c, ∃ v ∈ stutter_voices (render_frames k (render_frame e)) i,
        v.active = false := fun k hk => hvoice (k + 1) (Nat.succ_lt_succ hk)
    have hsplit : frames_note_ons (c + 1) e i
        = frame_note_ons e i ++ frames_note_ons c (render_frame e) i := rfl
    have hc2 : t.samples_until_step - 1 = (c : Int) := by
      rw [hc]
      push_cast
      omega
    by_cases hr : 0 < t.stut_remaining
    · by_cases hfire : t.stut_samples_until - 1 ≤ 0
      · obtain ⟨htrack, hnote, _, _⟩ := hturn.1 hr hfire
        obtain ⟨n, hn, hnf⟩ := hnote hfree
        rw [htrack] at hu2
        have hfu := tempoed_fields hu2
        have hmul : per + (t.stut_remaining - 1 - 1) * per = (t.stut_remaining - 1) * per := by
          ring
        have hfit2 : t.stut_samples_until + (t.stut_remaining - 1) * per ≤ ((c + 1 : Nat) : Int) :=
          hfit.resolve_left (by omega)
        obtain ⟨g1, g2, g3, g4⟩ := ih (render_frame e) u hu1
          (hfu.1.trans hc2) (hfu.2.2.2.1.trans hp) (hfu.2.2.2.2.trans hf)
          (by rw [hfu.2.2.1]; show 1 ≤ t.stut_samples_per; rw [hp]; exact hper)
          (by
            rw [hfu.2.1, hfu.2.2.1]
            show t.stut_remaining - 1 ≤ 0
              ∨ t.stut_samples_per + (t.stut_remaining - 1 - 1) * per ≤ (c : Int)
            rw [hp, hmul]
            right
            push_cast at hfit2
            omega)
          hvoice2
        rw [hfu.2.1] at g1
        refine ⟨?_, ?_, ?_, g4⟩
        · rw [hsplit, hnotes, hn, List.length_append, Nat.cast_add, g1]
          show ((1 : Nat) : Int) + max 0 (t.stut_remaining - 1) = max 0 t.stut_remaining
          rw [max_eq_right (by omega), max_eq_right (by omega)]
          push_cast
          omega
        · intro x hx
          rw [hsplit, hnotes, hn] at hx
          rcases List.mem_append.mp hx with hx | hx
          · rw [List.mem_singleton] at hx
            rw [hx, hnf]
            exact hf
          · exact g2 x hx
        · intro k hk
          cases k with
          | zero => exact hdue
          | succ k => exact g3 k (Nat.lt_of_succ_lt_succ hk)
      · obtain ⟨htrack, hnone⟩ := hturn.2.1 hr hfire
        rw [htrack] at hu2
        have hfu := tempoed_fields hu2
        have hfit2 : t.stut_samples_until + (t.stut_remaining - 1) * per ≤ ((c + 1 : Nat) : Int) :=
          hfit.resolve_left (by omega)
        obtain ⟨g1, g2, g3, g4⟩ := ih (render_frame e) u hu1
          (hfu.1.trans hc2) (hfu.2.2.2.1.trans hp) (hfu.2.2.2.2.trans hf)
          (by rw [hfu.2.2.1]; show 1 ≤ t.stut_samples_until - 1; omega)
          (by
            rw [hfu.2.1, hfu.2.2.1]
            show t.stut_remaining ≤ 0
              ∨ t.stut_samples_until - 1 + (t.stut_remaining - 1) * per ≤ (c : Int)
            right
            push_cast at hfit2
            omega)
          hvoice2
        rw [hfu.2.1] at g1
        refine ⟨?_, ?_, ?_, g4⟩
        · rw [hsplit, hnotes, hnone, List.nil_append]
          exact g1
        · intro x hx
          rw [hsplit, hnotes, hnone, List.nil_append] at hx
          exact g2 x hx
        · intro k hk
          cases k with
          | zero => exact hdue
          | succ k => exact g3 k (Nat.lt_of_succ_lt_succ hk)
    · obtain ⟨htrack, hnone⟩ := hturn.2.2 hr
      rw [htrack] at hu2
      have hfu := tempoed_fields hu2
      obtain ⟨g1, g2, g3, g4⟩ := ih (render_frame e) u hu1
        (hfu.1.trans hc2) (hfu.2.2.2.1.trans hp) (hfu.2.2.2.2.trans hf)
        (by rw [hfu.2.2.1]; exact hu)
        (by
          rw [hfu.2.1]
          left
          show t.stut_remaining ≤ 0
          omega)
        hvoice2
      rw [hfu.2.1] at g1
      refine ⟨?_, ?_, ?_, g4⟩
      · rw [hsplit, hnotes, hnone, List.nil_append]
        exact g1
      · intro x hx
        rw [hsplit, hnotes, hnone, List.nil_append] at hx
        exact g2 x hx
      · intro k hk
        cases k with
        | zero => exact hdue
        | succ k => exact g3 k (Nat.lt_of_succ_lt_succ hk)

theorem update_track_tempo_stutter (e : EngineState) (t : TrackRuntime) :
    (update_track_tempo e t).stut_remaining = t.stut_remaining
      ∧ (update_track_tempo e t).stut_samples_until = t.stut_samples_until
      ∧ (update_track_tempo e t).stut_samples_per = t.stut_samples_per
      ∧ (update_track_tempo e t).stut_freq = t.stut_freq :=
  let h := tempoed_fields (update_track_tempo_tempoed e t)
  ⟨h.2.1, h.2.2.1, h.2.2.2.1, h.2.2.2.2⟩

theorem advance_sequence_stutter (e : EngineState) (t : TrackRuntime) :
    (advance_sequence e t).2.stut_remaining = t.stut_remaining
      ∧ (advance_sequence e t).2.stut_samples_until = t.stut_samples_until
      ∧ (advance_sequence e t).2.stut_samples_per = t.stut_samples_per
      ∧ (advance_sequence e t).2.stut_freq = t.stut_freq := by
  unfold advance_sequence
  split
  · exact ⟨rfl, rfl, rfl, rfl⟩
  · dsimp only
    split
    · exact ⟨rfl, rfl, rfl, rfl⟩
    · split
      · split
        · exact update_track_tempo_stutter _ _
        · exact update_track_tempo_stutter _ _
      · exact ⟨rfl, rfl, rfl, rfl⟩

theorem finish_step_stutter (e : EngineState) (t : TrackRuntime) (p : PatternDef) :
    (finish_step e t p).2.stut_remaining = t.stut_remaining
      ∧ (finish_step e t p).2.stut_samples_until = t.stut_samples_until
      ∧ (finish_step e t p).2.stut_samples_per = t.stut_samples_per
      ∧ (finish_step e t p).2.stut_freq = t.stut_freq := by
  unfold finish_step
  dsimp only
  split
  · split
    · exact advance_sequence_stutter _ _
    · exact ⟨rfl, rfl, rfl, rfl⟩
  · exact ⟨rfl, rfl, rfl, rfl⟩

theorem sequence_current_pattern_stut (e : EngineState) (t : TrackRuntime) :
    (sequence_current_pattern e t).1.stut = t.stut
      ∧ (sequence_current_pattern e t).1.samples_per_step = t.samples_per_step := by
  unfold sequence_current_pattern
  split
  · exact ⟨rfl, rfl⟩
  · split
    · exact ⟨rfl, rfl⟩
    · dsimp only
      unfold default_seq_end
      split <;> exact ⟨rfl, rfl⟩

theorem schedule_ornament_stut (e : EngineState) (t : TrackRuntime) (s : PatternStep) :
    (schedule_ornament e t s).2.1.stut = t.stut
      ∧ (schedule_ornament e t s).2.1.samples_per_step = t.samples_per_step := by
  unfold schedule_ornament
  split
  · dsimp only
    split <;> exact ⟨rfl, rfl⟩
  · exact ⟨rfl, rfl⟩

theorem schedule_ornament_full (e : EngineState) (t : TrackRuntime) (s : PatternStep)
    (h : ∀ v ∈ e.voices, v.active = true) : (schedule_ornament e t s).2.2 = [] := by
  unfold schedule_ornament
  split
  · dsimp only
    split
    · rw [note_on_first_free_full _ _ h]
      rfl
    · rfl
  · rfl

theorem set_stutter_fields (t : TrackRuntime) (f : Freq) (h : 1 < t.stut) :
    (set_stutter t f).stut_remaining = t.stut - 1
      ∧ (set_stutter t f).stut_samples_until = max 1 (Int.tdiv t.samples_per_step t.stut)
      ∧ (set_stutter t f).stut_samples_per = max 1 (Int.tdiv t.samples_per_step t.stut)
      ∧ (set_stutter t f).stut_freq = f := by
  have hmax : (if Int.tdiv t.samples_per_step t.stut < 1 then 1
      else Int.tdiv t.samples_per_step t.stut) = max 1 (Int.tdiv t.samples_per_step t.stut) := by
    split
    · rw [max_eq_left (by omega)]
    · rw [max_eq_right (by omega)]
  unfold set_stutter
  rw [if_pos (by omega)]
  dsimp only
  rw [hmax]
  exact ⟨rfl, rfl, rfl, rfl⟩

theorem play_notes_head (r2 : Bool) (n n0 : NoteOn) (orn : List NoteOn)
    (h : (if r2 = true then [n] else []) ++ orn = [n0]) (horn : r2 = false → orn = []) :
    n = n0 := by
  cases r2 with
  | false =>
    rw [horn rfl] at h
    exact absurd h (by simp)
  | true =>
    rw [if_pos rfl] at h
    exact List.head_eq_of_cons_eq h

/-- The parts of `play_step` on a step with a note. -/
theorem play_step_parts (e : EngineState) (t : TrackRuntime) (s : PatternStep)
    (hnote : s.note ≥ 0) :
    ∃ (e1 : EngineState) (t1 : TrackRuntime) (n : NoteOn) (r2 : Bool) (f : Freq),
      t1.stut = t.stut ∧ t1.samples_per_step = t.samples_per_step ∧ n.freq = f
        ∧ (r2 = false → ∀ v ∈ e1.voices, v.active = true)
        ∧ play_step e t s
          = ((schedule_ornament e1 t1 s).1, set_stutter (schedule_ornament e1 t1 s).2.1 f,
              (if r2 = true then [n] else []) ++ (schedule_ornament e1 t1 s).2.2) := by
  unfold play_step
  rw [if_pos hnote]
  dsimp only
  refine ⟨_, _, _, _, _, ?_, ?_, ?_, ?_, rfl⟩
  · rfl
  · rfl
  · rfl
  · intro hf
    have hfull := note_on_first_free_none _ _ hf
    show ∀ v ∈ (note_on_first_free _ e.voices).1, v.active = true
    rw [note_on_first_free_full _ _ hfull]
    exact hfull

/-- A played step that makes exactly one note-on, on a track with `stut > 1`: the note-on
is that of the note of the step, and the stutter is set up for `stut - 1` repeats of its
frequency, `max 1 (samples_per_step / stut)` frames apart. -/
theorem play_step_stutter (e : EngineState) (t : TrackRuntime) (s : PatternStep)
    (n0 : NoteOn) (h : (play_step e t s).2.2 = [n0]) (hstut : 1 < t.stut) :
    (play_step e t s).2.1.stut_remaining = t.stut - 1
      ∧ (play_step e t s).2.1.stut_samples_until
          = max 1 (Int.tdiv t.samples_per_step t.stut)
      ∧ (play_step e t s).2.1.stut_samples_per = max 1 (Int.tdiv t.samples_per_step t.stut)
      ∧ (play_step e t s).2.1.stut_freq = n0.freq := by
  by_cases hnote : s.note ≥ 0
  · obtain ⟨e1, t1, n, r2, f, h1, h2, hnf, h3, heq⟩ := play_step_parts e t s hnote
    rw [heq] at h ⊢
    rw [← hnf]
    have ho := schedule_ornament_stut e1 t1 s
    have hs := set_stutter_fields (schedule_ornament e1 t1 s).2.1 n.freq
      (by rw [ho.1, h1]; exact hstut)
    rw [ho.1, ho.2, h1, h2] at hs
    have hn : n = n0 :=
      play_notes_head r2 n n0 _ h (fun hf => schedule_ornament_full e1 t1 s (h3 hf))
    rw [← hn]
    exact hs
  · unfold play_step at h
    rw [if_neg hnote] at h
    exact absurd h (by simp)

/-- A call of `schedule_track_step` that makes exactly one note-on, on a track with
`stut > 1`: the stutter is set up for `stut - 1` repeats of the frequency of that note-on,
`max 1 (samples_per_step / stut)` frames apart. -/
theorem schedule_track_step_stutter (e : EngineState) (t : TrackRuntime) (n0 : NoteOn)
    (hplay : (schedule_track_step e t).note_ons = [n0]) (hstut : 1 < t.stut) :
    (schedule_track_step e t).track.stut_remaining = t.stut - 1
      ∧ (schedule_track_step e t).track.stut_samples_until
          = max 1 (Int.tdiv t.samples_per_step t.stut)
      ∧ (schedule_track_step e t).track.stut_samples_per
          = max 1 (Int.tdiv t.samples_per_step t.stut)
      ∧ (schedule_track_step e t).track.stut_freq = n0.freq := by
  have hcur := sequence_current_pattern_stut e t
  revert hplay
  unfold schedule_track_step
  split
  · intro h
    exact absurd h (by simp)
  · split
    · intro h
      exact absurd h (by simp)
    · dsimp only
      split
      · intro h
        exact absurd h (by simp)
      · split
        · intro h
          exact absurd h (by simp)
        · rename_i pattern _ _ _
          split
          · split
            · rename_i st _
              intro h
              have hp := play_step_stutter e
                { (sequence_current_pattern e t).1 with
                  rng := (step_gate (sequence_current_pattern e t).1).1 } st n0 h
                (by show 1 < (sequence_current_pattern e t).1.stut; rw [hcur.1]; exact hstut)
              have hf := finish_step_stutter
                (play_step e
                  { (sequence_current_pattern e t).1 with
                    rng := (step_gate (sequence_current_pattern e t).1).1 } st).1
                (play_step e
                  { (sequence_current_pattern e t).1 with
                    rng := (step_gate (sequence_current_pattern e t).1).1 } st).2.1 pattern
              have hsps : ({ (sequence_current_pattern e t).1 with
                  rng := (step_gate (sequence_current_pattern e t).1).1 } : TrackRuntime).samples_per_step
                    = t.samples_per_step := hcur.2
              have hst : ({ (sequence_current_pattern e t).1 with
                  rng := (step_gate (sequence_current_pattern e t).1).1 } : TrackRuntime).stut
                    = t.stut := hcur.1
              rw [hsps, hst] at hp
              exact ⟨hf.1.trans hp.1, hf.2.1.trans hp.2.1, hf.2.2.1.trans hp.2.2.1,
                hf.2.2.2.trans hp.2.2.2⟩
            · intro h
              exact absurd h (by simp)
          · intro h
            exact absurd h (by simp)

theorem frame_note_ons_due (e : EngineState) (i : Nat) (t : TrackRuntime)
    (h : (engine_at_track e i).tracks.get? i = some t) (hd : t.samples_until_step ≤ 0) :
    frame_note_ons e i
        = (schedule_track_step (engine_at_track e i) t).note_ons
          ++ stutter_note_ons (schedule_track_step (engine_at_track e i) t).engine
            { (schedule_track_step (engine_at_track e i) t).track with
              samples_until_step :=
                (schedule_track_step (engine_at_track e i) t).track.samples_per_step - 1 }
      ∧ stutter_voices e i = (schedule_track_step (engine_at_track e i) t).engine.voices
      ∧ track_due e i = true
      ∧ pass_state (engine_at_track e i) t
        = ((schedule_track_step (engine_at_track e i) t).engine,
            { (schedule_track_step (engine_at_track e i) t).track with
              samples_until_step :=
                (schedule_track_step (engine_at_track e i) t).track.samples_per_step - 1 }) := by
  have hpass : pass_state (engine_at_track e i) t
      = ((schedule_track_step (engine_at_track e i) t).engine,
          { (schedule_track_step (engine_at_track e i) t).track with
            samples_until_step :=
              (schedule_track_step (engine_at_track e i) t).track.samples_per_step - 1 }) := by
    unfold pass_state
    rw [if_pos hd]
  refine ⟨?_, ?_, ?_, hpass⟩
  · unfold frame_note_ons render_track_note_ons
    rw [h]
    dsimp only
    rw [if_pos hd, hpass]
  · unfold stutter_voices
    rw [h]
    dsimp only
    rw [hpass]
  · unfold track_due
    rw [h]
    exact decide_eq_true hd

/-- C28 (amended). For the track at index `i` with `stut n`, `n > 1`, and a step of it that
makes exactly one note-on (the note of the step and no grace note): if the `n - 1` repeats,
`max 1 (samples_per_step / n)` frames apart, fit into the step length that the step leaves,
and an inactive voice is there in every frame of the step when the stutter countdown of the
track scans the voices, then the track makes exactly `n` note-ons from that step up to (not
including) its next step, every one of them at the frequency of the note of the step; its
next step is due after as many frames as the step length, and not before. -/
theorem stutter_note_ons_in_step (e : EngineState) (i : Nat) (t : TrackRuntime) (n0 : NoteOn)
    (hget : (engine_at_track e i).tracks.get? i = some t)
    (hdue : t.samples_until_step ≤ 0) (hstut : 1 < t.stut)
    (hplay : (schedule_track_step (engine_at_track e i) t).note_ons = [n0])
    (hfit : (t.stut - 1) * max 1 (Int.tdiv t.samples_per_step t.stut)
      ≤ (schedule_track_step (engine_at_track e i) t).track.samples_per_step)
    (hvoice : ∀ k : Nat,
      k < (schedule_track_step (engine_at_track e i) t).track.samples_per_step.toNat →
      ∃ v ∈ stutter_voices (render_frames k e) i, v.active = false) :
    ((frames_note_ons
        (schedule_track_step (engine_at_track e i) t).track.samples_per_step.toNat e i).length
          : Int) = t.stut
      ∧ (∀ x ∈ frames_note_ons
          (schedule_track_step (engine_at_track e i) t).track.samples_per_step.toNat e i,
          x.freq = n0.freq)
      ∧ track_due e i = true
      ∧ (∀ k : Nat, 0 < k →
          k < (schedule_track_step (engine_at_track e i) t).track.samples_per_step.toNat →
          track_due (render_frames k e) i = false)
      ∧ track_due (render_frames
          (schedule_track_step (engine_at_track e i) t).track.samples_per_step.toNat e) i
        = true := by
  obtain ⟨hnotes, hvs, hd, hpass⟩ := frame_note_ons_due e i t hget hdue
  obtain ⟨hs1, hs2, hs3, hs4⟩ :=
    schedule_track_step_stutter (engine_at_track e i) t n0 hplay hstut
  obtain ⟨u, hu1, hu2⟩ := next_turn_track e i t hget
  rw [hpass] at hu2
  have hturn := stutter_turn (schedule_track_step (engine_at_track e i) t).engine
    { (schedule_track_step (engine_at_track e i) t).track with
      samples_until_step :=
        (schedule_track_step (engine_at_track e i) t).track.samples_per_step - 1 }
  revert hfit hvoice hnotes hvs hu2 hturn hs1 hs2 hs3 hs4
  generalize (schedule_track_step (engine_at_track e i) t).track = o
  generalize (schedule_track_step (engine_at_track e i) t).engine = oe
  generalize hper : max 1 (Int.tdiv t.samples_per_step t.stut) = per
  intro hfit hvoice hnotes hvs hs1 hs2 hs3 hs4 hu2 hturn
  rw [hplay] at hnotes
  have hper1 : 1 ≤ per := by
    rw [← hper]
    exact le_max_left _ _
  have hprod : per + (t.stut - 1 - 1) * per = (t.stut - 1) * per := by ring
  have hprod0 : 0 ≤ (t.stut - 1 - 1) * per := Int.mul_nonneg (by omega) (by omega)
  have hsps : 1 ≤ o.samples_per_step := by omega
  obtain ⟨c, hc⟩ : ∃ c : Nat, o.samples_per_step.toNat = c + 1 :=
    ⟨o.samples_per_step.toNat - 1, by omega⟩
  have hcz : (c : Int) = o.samples_per_step - 1 := by omega
  rw [hc] at hvoice ⊢
  have hsplit : frames_note_ons (c + 1) e i
      = frame_note_ons e i ++ frames_note_ons c (render_frame e) i := rfl
  have hfree : ∃ v ∈ oe.voices, v.active = false := by
    rw [← hvs]
    exact hvoice 0 (Nat.succ_pos c)
  have hvoice2 : ∀ k < c, ∃ v ∈ stutter_voices (render_frames k (render_frame e)) i,
      v.active = false := fun k hk => hvoice (k + 1) (Nat.succ_lt_succ hk)
  have hrem : 0 < ({ o with samples_until_step := o.samples_per_step - 1 }
      : TrackRuntime).stut_remaining := by
    show 0 < o.stut_remaining
    omega
  by_cases hfire : ({ o with samples_until_step := o.samples_per_step - 1 }
      : TrackRuntime).stut_samples_until - 1 ≤ 0
  · obtain ⟨htrack, hnote, _, _⟩ := hturn.1 hrem hfire
    obtain ⟨n, hn, hnf⟩ := hnote hfree
    rw [htrack] at hu2
    have hfu := tempoed_fields hu2
    have hfire2 : o.stut_samples_until - 1 ≤ 0 := hfire
    obtain ⟨g1, g2, g3, g4⟩ := stutter_run i per n0.freq hper1 c (render_frame e) u hu1
      (hfu.1.trans hcz.symm) (hfu.2.2.2.1.trans hs3) (hfu.2.2.2.2.trans hs4)
      (by rw [hfu.2.2.1]; show 1 ≤ o.stut_samples_per; omega)
      (by
        rw [hfu.2.1, hfu.2.2.1]
        show o.stut_remaining - 1 ≤ 0
          ∨ o.stut_samples_per + (o.stut_remaining - 1 - 1) * per ≤ (c : Int)
        rw [hs1, hs3]
        by_cases hsmall : t.stut - 1 - 1 ≤ 0
        · exact Or.inl hsmall
        · right
          have h3 : per + (t.stut - 1 - 1 - 1) * per = (t.stut - 1 - 1) * per := by ring
          omega)
      hvoice2
    rw [hfu.2.1] at g1
    refine ⟨?_, ?_, hd, ?_, g4⟩
    · rw [hsplit, hnotes, hn, List.length_append, List.length_append, Nat.cast_add,
        Nat.cast_add, g1]
      show ((1 : Nat) : Int) + ((1 : Nat) : Int) + max 0 (o.stut_remaining - 1) = t.stut
      rw [hs1, max_eq_right (by omega)]
      push_cast
      omega
    · intro x hx
      rw [hsplit, hnotes, hn] at hx
      rcases List.mem_append.mp hx with hx | hx
      · rcases List.mem_append.mp hx with hx | hx
        · rw [List.mem_singleton] at hx
          rw [hx]
        · rw [List.mem_singleton] at hx
          rw [hx, hnf]
          exact hs4
      · exact g2 x hx
    · intro k hk0 hk
      cases k with
      | zero => exact absurd hk0 (Nat.lt_irrefl 0)
      | succ k => exact g3 k (Nat.lt_of_succ_lt_succ hk)
  · obtain ⟨htrack, hnone⟩ := hturn.2.1 hrem hfire
    rw [htrack] at hu2
    have hfu := tempoed_fields hu2
    have hfire2 : ¬ o.stut_samples_until - 1 ≤ 0 := hfire
    obtain ⟨g1, g2, g3, g4⟩ := stutter_run i per n0.freq hper1 c (render_frame e) u hu1
      (hfu.1.trans hcz.symm) (hfu.2.2.2.1.trans hs3) (hfu.2.2.2.2.trans hs4)
      (by rw [hfu.2.2.1]; show 1 ≤ o.stut_samples_until - 1; omega)
      (by
        rw [hfu.2.1, hfu.2.2.1]
        show o.stut_remaining ≤ 0
          ∨ o.stut_samples_until - 1 + (o.stut_remaining - 1) * per ≤ (c : Int)
        rw [hs1, hs2]
        right
        omega)
      hvoice2
    rw [hfu.2.1] at g1
    refine ⟨?_, ?_, hd, ?_, g4⟩
    · rw [hsplit, hnotes, hnone, List.append_nil, List.length_append, Nat.cast_add, g1]
      show ((1 : Nat) : Int) + max 0 o.stut_remaining = t.stut
      rw [hs1, max_eq_right (by omega)]
      push_cast
      omega
    · intro x hx
      rw [hsplit, hnotes, hnone, List.append_nil] at hx
      rcases List.mem_append.mp hx with hx | hx
      · rw [List.mem_singleton] at hx
        rw [hx]
      · exact g2 x hx
    · intro k hk0 hk
      cases k with
      | zero => exact absurd hk0 (Nat.lt_irrefl 0)
      | succ k => exact g3 k (Nat.lt_of_succ_lt_succ hk)

theorem stutter_note_ons_in_step_witness :
    (engine_at_track (loaded_engine example_stutter_script) 0).tracks.get? 0
        = some (first_track (loaded_engine example_stutter_script))
      ∧ (first_track (loaded_engine example_stutter_script)).samples_until_step ≤ 0
      ∧ (first_track (loaded_engine example_stutter_script)).stut = 4
      ∧ (schedule_track_step (engine_at_track (loaded_engine example_stutter_script) 0)
          (first_track (loaded_engine example_stutter_script))).track.samples_per_step = 10
      ∧ ((frames_note_ons 10 (loaded_engine example_stutter_script) 0).length : Int) = 4
      ∧ (∀ x ∈ frames_note_ons 10 (loaded_engine example_stutter_script) 0,
          x.freq = Freq.midi 60)
      ∧ track_due (loaded_engine example_stutter_script) 0 = true
      ∧ (∀ k : Nat, 0 < k → k < 10 →
          track_due (render_frames k (loaded_engine example_stutter_script)) 0 = false)
      ∧ track_due (render_frames 10 (loaded_engine example_stutter_script)) 0 = true := by
  have hs : (schedule_track_step (engine_at_track (loaded_engine example_stutter_script) 0)
      (first_track (loaded_engine example_stutter_script))).track.samples_per_step.toNat
        = 10 := by decide!
  have h := stutter_note_ons_in_step (loaded_engine example_stutter_script) 0
    (first_track (loaded_engine example_stutter_script))
    { synth := (first_track (loaded_engine example_stutter_script)).synth,
      freq := Freq.midi 60, sample_rate := 48000, gate_samples := 9, amp_scale := 1,
      glide_samples := 0, accent := 0 }
    (by decide!) (by decide!) (by decide!) (by decide!) (by decide!)
    (by rw [hs]; decide!)
  rw [hs] at h
  exact ⟨by decide!, by decide!, by decide!, by decide!, h.1.trans (by decide!), h.2⟩

/-- C28 (counterexample). Two tracks with `stut n`, `n > 1`, whose first step plays a note
while an inactive voice is there in every frame. With `stut 4 orn 1` and a step of 10
frames the track makes 5 note-ons before its next step, and the second, the grace note of
the ornament, is a semitone under the note of the step. With `stut 8` and a step of 2
frames the next step is due after 2 frames and the track has made 3 note-ons by then, not
8. -/
theorem stutter_note_ons_counterexample :
    ((first_track (loaded_engine example_stutter_ornament_script)).stut = 4
      ∧ (List.range 11).map (fun k =>
          track_due (render_frames k (loaded_engine example_stutter_ornament_script)) 0)
        = [true, false, false, false, false, false, false, false, false, false, true]
      ∧ (∀ k : Nat, k < 10 →
          ∃ v ∈ stutter_voices
            (render_frames k (loaded_engine example_stutter_ornament_script)) 0,
            v.active = false)
      ∧ (frames_note_ons 10 (loaded_engine example_stutter_ornament_script) 0).map
          (fun n => n.freq)
        = [Freq.midi 60, Freq.midi 59, Freq.midi 60, Freq.midi 60, Freq.midi 60])
      ∧ ((first_track (loaded_engine example_stutter_short_script)).stut = 8
        ∧ (List.range 3).map (fun k =>
            track_due (render_frames k (loaded_engine example_stutter_short_script)) 0)
          = [true, false, true]
        ∧ (∀ k : Nat, k < 2 →
            ∃ v ∈ stutter_voices
              (render_frames k (loaded_engine example_stutter_short_script)) 0,
              v.active = false)
        ∧ (frames_note_ons 2 (loaded_engine example_stutter_short_script) 0).map
            (fun n => n.freq)
          = [Freq.midi 60, Freq.midi 60, Freq.midi 60]) := by
  decide!

/-! ### The random state of a track -/

theorem xor_shift_left_pos (x s : Nat) (hs : 0 < s) (h : 0 < x ∧ x < 2 ^ 32) :
    0 < (x ^^^ (x <<< s)) % 2 ^ 32 := by
  have hne : x ≠ 0 := by omega
  have hex : ∃ i, x.testBit i = true := Nat.ne_zero_implies_bit_true hne
  have hk := Nat.find_spec hex
  have hmin : ∀ j, j < Nat.find hex → x.testBit j = false := by
    intro j hj
    have := Nat.find_min hex hj
    simpa using this
  have hk32 : Nat.find hex < 32 := by
    by_contra hge
    have hlt : x < 2 ^ (Nat.find hex) :=
      lt_of_lt_of_le h.2 (Nat.pow_le_pow_right (by decide) (by omega))
    rw [Nat.testBit_lt_two_pow hlt] at hk
    exact Bool.noConfusion hk
  have hbit : ((x ^^^ (x <<< s)) % 2 ^ 32).testBit (Nat.find hex) = true := by
    rw [Nat.testBit_mod_two_pow, Nat.testBit_xor, Nat.testBit_shiftLeft, hk]
    by_cases hc : s ≤ Nat.find hex
    · have := hmin (Nat.find hex - s) (by omega)
      simp [hk32, this]
    · simp [hk32, hc]
  by_contra h0
  have hz : (x ^^^ (x <<< s)) % 2 ^ 32 = 0 := by omega
  rw [hz] at hbit
  simp at hbit

theorem xor_shift_right_live (x s : Nat) (hs : 0 < s) (h : 0 < x ∧ x < 2 ^ 32) :
    0 < x ^^^ (x >>> s) ∧ x ^^^ (x >>> s) < 2 ^ 32 := by
  have hne : x ≠ 0 := by omega
  obtain ⟨i, hi, hmax⟩ := Nat.exists_most_significant_bit hne
  have hbit : (x ^^^ (x >>> s)).testBit i = true := by
    rw [Nat.testBit_xor, Nat.testBit_shiftRight, hi, hmax (s + i) (by omega)]
    rfl
  refine ⟨?_, ?_⟩
  · by_contra h0
    have hz : x ^^^ (x >>> s) = 0 := by omega
    rw [hz] at hbit
    simp at hbit
  · apply Nat.xor_lt_two_pow h.2
    rw [Nat.shiftRight_eq_div_pow]
    exact lt_of_le_of_lt (Nat.div_le_self _ _) h.2

theorem xorshift32_live (x : Nat) (h : RngLive x) : RngLive (xorshift32 x) := by
  unfold xorshift32 RngLive
  dsimp only
  have h1 : 0 < (x ^^^ (x <<< 13)) % 2 ^ 32 ∧ (x ^^^ (x <<< 13)) % 2 ^ 32 < 2 ^ 32 :=
    ⟨xor_shift_left_pos x 13 (by decide) h, Nat.mod_lt _ (by decide)⟩
  have h2 := xor_shift_right_live _ 17 (by decide) h1
  exact ⟨xor_shift_left_pos _ 5 (by decide) h2, Nat.mod_lt _ (by decide)⟩

theorem update_track_tempo_rng (e : EngineState) (t : TrackRuntime) :
    (update_track_tempo e t).rng = t.rng ∧ (update_track_tempo e t).base_rate = t.base_rate := by
  unfold update_track_tempo
  dsimp only
  split <;> exact ⟨rfl, rfl⟩

theorem advance_sequence_rng (e : EngineState) (t : TrackRuntime) :
    (advance_sequence e t).2.rng = t.rng
      ∧ (advance_sequence e t).2.base_rate = t.base_rate := by
  unfold advance_sequence
  split
  · exact ⟨rfl, rfl⟩
  · dsimp only
    split
    · exact ⟨rfl, rfl⟩
    · split
      · split
        · exact update_track_tempo_rng _ _
        · exact update_track_tempo_rng _ _
      · exact ⟨rfl, rfl⟩

theorem finish_step_rng (e : EngineState) (t : TrackRuntime) (p : PatternDef) :
    (finish_step e t p).2.rng = t.rng ∧ (finish_step e t p).2.base_rate = t.base_rate := by
  unfold finish_step
  dsimp only
  split
  · split
    · exact advance_sequence_rng _ _
    · exact ⟨rfl, rfl⟩
  · exact ⟨rfl, rfl⟩

theorem sequence_current_pattern_rng (e : EngineState) (t : TrackRuntime) :
    (sequence_current_pattern e t).1.rng = t.rng
      ∧ (sequence_current_pattern e t).1.base_rate = t.base_rate := by
  unfold sequence_current_pattern
  split
  · exact ⟨rfl, rfl⟩
  · split
    · exact ⟨rfl, rfl⟩
    · dsimp only
      unfold default_seq_end
      split <;> exact ⟨rfl, rfl⟩

theorem schedule_inactive_rng (e : EngineState) (t : TrackRuntime) :
    (schedule_inactive e t).2.rng = t.rng
      ∧ (schedule_inactive e t).2.base_rate = t.base_rate := by
  have hc := sequence_current_pattern_rng e t
  unfold schedule_inactive
  split
  · exact ⟨rfl, rfl⟩
  · split
    · split
      · exact hc
      · dsimp only
        split
        · split
          · exact ⟨(advance_sequence_rng _ _).1.trans hc.1,
              (advance_sequence_rng _ _).2.trans hc.2⟩
          · exact hc
        · exact hc
    · exact ⟨rfl, rfl⟩

theorem set_stutter_rng (t : TrackRuntime) (f : Freq) :
    (set_stutter t f).rng = t.rng ∧ (set_stutter t f).base_rate = t.base_rate := by
  unfold set_stutter
  split <;> exact ⟨rfl, rfl⟩

theorem schedule_ornament_rng (e : EngineState) (t : TrackRuntime) (s : PatternStep) :
    ((schedule_ornament e t s).2.1.rng = t.rng
        ∨ (schedule_ornament e t s).2.1.rng = xorshift32 t.rng)
      ∧ (schedule_ornament e t s).2.1.base_rate = t.base_rate := by
  unfold schedule_ornament
  split
  · dsimp only
    split <;> exact ⟨Or.inr rfl, rfl⟩
  · exact ⟨Or.inl rfl, rfl⟩

theorem rng_live_step {x y : Nat} (h : RngLive x) (hy : y = x ∨ y = xorshift32 x) :
    RngLive y := by
  rcases hy with hy | hy
  · rw [hy]; exact h
  · rw [hy]; exact xorshift32_live x h

theorem play_step_rng (e : EngineState) (t : TrackRuntime) (s : PatternStep)
    (h : RngLive t.rng) :
    RngLive (play_step e t s).2.1.rng ∧ (play_step e t s).2.1.base_rate = t.base_rate := by
  unfold play_step
  split
  · dsimp only
    have ho := schedule_ornament_rng
      { e with voices := (note_on_first_free
          { synth := t.synth, freq := Freq.midi ((s.note : ℚ) + s.cents / 100),
            sample_rate := e.sample_rate,
            gate_samples := c_trunc ((t.samples_per_step : ℚ) * (9 / 10)),
            amp_scale := 1,
            glide_samples :=
              if (if s.slide_ms ≥ 0 then s.slide_ms else t.slide_ms) > 0 then
                c_trunc (e.sample_rate
                  * ((if s.slide_ms ≥ 0 then s.slide_ms else t.slide_ms) / 1000))
              else 0,
            accent :=
              if decide (s.accent = 0 ∧ t.accent_prob > 0) = true then
                (if rng_unit (if decide (s.accent = 0 ∧ t.accent_prob > 0) = true
                    then xorshift32 t.rng else t.rng) ≤ t.accent_prob then 1 else s.accent)
              else s.accent } e.voices).1 }
      { t with rng := if decide (s.accent = 0 ∧ t.accent_prob > 0) = true
          then xorshift32 t.rng else t.rng } s
    have h1 : RngLive (if decide (s.accent = 0 ∧ t.accent_prob > 0) = true
        then xorshift32 t.rng else t.rng) := by
      split
      · exact xorshift32_live _ h
      · exact h
    exact ⟨by rw [(set_stutter_rng _ _).1]; exact rng_live_step h1 ho.1,
      (set_stutter_rng _ _).2.trans ho.2⟩
  · exact ⟨h, rfl⟩

theorem step_gate_rng (t : TrackRuntime) (h : RngLive t.rng) : RngLive (step_gate t).1 := by
  unfold step_gate
  dsimp only
  split
  · exact xorshift32_live _ h
  · exact h

theorem schedule_track_step_rng (e : EngineState) (t : TrackRuntime) (h : RngLive t.rng) :
    RngLive (schedule_track_step e t).track.rng
      ∧ (schedule_track_step e t).track.base_rate = t.base_rate := by
  have hc := sequence_current_pattern_rng e t
  have hg : RngLive (step_gate (sequence_current_pattern e t).1).1 :=
    step_gate_rng _ (by rw [hc.1]; exact h)
  unfold schedule_track_step
  split
  · have hi := schedule_inactive_rng e t
    exact ⟨by show RngLive (schedule_inactive e t).2.rng; rw [hi.1]; exact h, hi.2⟩
  · split
    · exact ⟨by show RngLive (sequence_current_pattern e t).1.rng; rw [hc.1]; exact h, hc.2⟩
    · dsimp only
      split
      · exact ⟨by show RngLive (sequence_current_pattern e t).1.rng; rw [hc.1]; exact h, hc.2⟩
      · split
        · exact ⟨by show RngLive (sequence_current_pattern e t).1.rng; rw [hc.1]; exact h,
            hc.2⟩
        · rename_i pattern _ _ _
          split
          · split
            · rename_i st _
              have hp := play_step_rng e
                { (sequence_current_pattern e t).1 with
                  rng := (step_gate (sequence_current_pattern e t).1).1 } st hg
              have hf := finish_step_rng
                (play_step e
                  { (sequence_current_pattern e t).1 with
                    rng := (step_gate (sequence_current_pattern e t).1).1 } st).1
                (play_step e
                  { (sequence_current_pattern e t).1 with
                    rng := (step_gate (sequence_current_pattern e t).1).1 } st).2.1 pattern
              exact ⟨by
                show RngLive (finish_step _ _ pattern).2.rng
                rw [hf.1]; exact hp.1, hf.2.trans (hp.2.trans hc.2)⟩
            · have hf := finish_step_rng e
                { (sequence_current_pattern e t).1 with
                  rng := (step_gate (sequence_current_pattern e t).1).1 } pattern
              exact ⟨by
                show RngLive (finish_step _ _ pattern).2.rng
                rw [hf.1]; exact hg, hf.2.trans hc.2⟩
          · have hf := finish_step_rng e
              { (sequence_current_pattern e t).1 with
                rng := (step_gate (sequence_current_pattern e t).1).1 } pattern
            exact ⟨by
              show RngLive (finish_step _ _ pattern).2.rng
              rw [hf.1]; exact hg, hf.2.trans hc.2⟩

theorem forall₂_tempoed_inv {P : TrackRuntime → Prop} (hP : TrackInvariant P)
    {l1 l2 : List TrackRuntime} (h : List.Forall₂ Tempoed l1 l2) :
    (∀ t ∈ l1, P t) → ∀ u ∈ l2, P u := by
  induction h with
  | nil =>
    intro _ u hu
    exact absurd hu (List.not_mem_nil u)
  | cons hab _ ih =>
    intro h1 u hu
    rcases List.mem_cons.mp hu with hu | hu
    · rw [hu]
      exact hP.tempoed _ _ hab (h1 _ (List.mem_cons_self _ _))
    · exact ih (fun t ht => h1 t (List.mem_cons_of_mem _ ht)) u hu

theorem stutter_tick_inv {P : TrackRuntime → Prop} (hP : TrackInvariant P)
    (e : EngineState) (t : TrackRuntime) (h : P t) : P (stutter_tick e t).2 := by
  unfold stutter_tick
  split
  · split
    · exact hP.stutter _ _ _ h
    · exact hP.stutter_wait _ _ h
  · exact h

theorem pass_state_inv {P : TrackRuntime → Prop} (hP : TrackInvariant P)
    (e : EngineState) (t : TrackRuntime) (h : P t) : P (pass_state e t).2 := by
  unfold pass_state
  split
  · exact hP.countdown _ _ (hP.step e t h)
  · exact hP.countdown _ _ h

theorem render_track_inv {P : TrackRuntime → Prop} (hP : TrackInvariant P)
    (e : EngineState) (j : Nat) (h : ∀ t ∈ e.tracks, P t) :
    ∀ t ∈ (render_track e j).tracks, P t := by
  cases hg : e.tracks.get? j with
  | none => rw [render_track_none e j hg]; exact h
  | some tj =>
    rw [render_track_pass e j tj hg]
    intro t ht
    have ht2 : t ∈ (stutter_tick (pass_state e tj).1 (pass_state e tj).2).1.tracks.set j
        (stutter_tick (pass_state e tj).1 (pass_state e tj).2).2 := ht
    rcases List.mem_or_eq_of_mem_set ht2 with hm | hm
    · rw [(stutter_tick_engine _ _).1] at hm
      exact forall₂_tempoed_inv hP (pass_state_engine_kept e tj).1 h t hm
    · rw [hm]
      exact stutter_tick_inv hP _ _ (pass_state_inv hP e tj (h tj (List.get?_mem hg)))

theorem fold_render_track_inv {P : TrackRuntime → Prop} (hP : TrackInvariant P)
    (l : List Nat) :
    ∀ e : EngineState, (∀ t ∈ e.tracks, P t) → ∀ t ∈ (l.foldl render_track e).tracks, P t := by
  induction l with
  | nil => intro e h; exact h
  | cons j l ih => intro e h; exact ih (render_track e j) (render_track_inv hP e j h)

theorem render_frames_inv {P : TrackRuntime → Prop} (hP : TrackInvariant P) (n : Nat) :
    ∀ e : EngineState, (∀ t ∈ e.tracks, P t) → ∀ t ∈ (render_frames n e).tracks, P t := by
  induction n with
  | zero => intro e h; exact h
  | succ n ih =>
    intro e h
    exact ih (render_frame e) (fold_render_track_inv hP _ e h)

theorem tempoed_rng {t u : TrackRuntime} (h : Tempoed t u) :
    u.rng = t.rng ∧ u.base_rate = t.base_rate := by
  have h2 : u = { t with samples_per_step := u.samples_per_step } := h
  exact ⟨(congrArg TrackRuntime.rng h2).trans rfl,
    (congrArg TrackRuntime.base_rate h2).trans rfl⟩

theorem rng_live_invariant : TrackInvariant (fun t => RngLive t.rng) where
  tempoed := fun t u h ht => by
    show RngLive u.rng
    rw [(tempoed_rng h).1]; exact ht
  step := fun e t ht => (schedule_track_step_rng e t ht).1
  countdown := fun _ _ ht => ht
  stutter := fun _ _ _ ht => ht
  stutter_wait := fun _ _ ht => ht

theorem init_rng_live : ∀ i : Nat, i < 128 → RngLive ((0x9E3779B9 + i * 2654435761) % 2 ^ 32) := by
  unfold RngLive
  decide

theorem init_track_runtime_rng (e : EngineState) (i : Nat) (track : TrackDef)
    (pattern : Option PatternDef) (synth : SynthDef) (sequence : Option SequenceDef)
    (l : Int) :
    (init_track_runtime e i track pattern synth sequence l).rng
      = (0x9E3779B9 + i * 2654435761) % 2 ^ 32 := by
  unfold init_track_runtime
  exact (update_track_tempo_rng _ _).1

theorem build_runtime_loop_rng (e : EngineState) (tracks : List TrackDef) :
    ∀ (i : Nat) (leader_set : Bool) (acc out : List TrackRuntime),
      build_runtime_loop e i leader_set tracks acc = some out →
      i + tracks.length ≤ 128 → (∀ t ∈ acc, RngLive t.rng) → ∀ t ∈ out, RngLive t.rng := by
  induction tracks with
  | nil =>
    intro i leader_set acc out h _ hacc
    unfold build_runtime_loop at h
    cases h
    exact hacc
  | cons td rest ih =>
    intro i leader_set acc out h hlen hacc
    have hl : i + 1 + rest.length ≤ 128 := by
      rw [List.length_cons] at hlen; omega
    unfold build_runtime_loop at h
    dsimp only at h
    split at h
    · exact Option.noConfusion h
    · split at h
      · exact Option.noConfusion h
      · split at h
        · exact Option.noConfusion h
        · refine ih _ _ _ _ h hl ?_
          intro t ht
          rcases List.mem_append.mp ht with ht | ht
          · exact hacc t ht
          · rw [List.mem_singleton] at ht
            rw [ht, init_track_runtime_rng]
            exact init_rng_live i (by rw [List.length_cons] at hlen; omega)

/-- C39. The random state that `build_runtime` gives the track at index `i`,
`(0x9E3779B9 + i * 2654435761) mod 2^32`, is not 0 for `i` in 0..127; the three xorshift
lines map a 32-bit state that is not 0 to a 32-bit state that is not 0; so every track that
`build_runtime` makes from a Program of at most 128 tracks starts with a state that is not
0, a call of `schedule_track_step` (the draws for density, accent and ornament) keeps it
that way, and so does every rendered frame for every track of the engine. -/
theorem track_rng_never_zero :
    (∀ i : Nat, i < 128 → (0x9E3779B9 + i * 2654435761) % 2 ^ 32 ≠ 0)
      ∧ (∀ x : Nat, x ≠ 0 → x < 2 ^ 32 → xorshift32 x ≠ 0 ∧ xorshift32 x < 2 ^ 32)
      ∧ (∀ e0 e : EngineState, build_runtime e0 = some e →
          e0.program.tracks.length ≤ 128 → ∀ t ∈ e.tracks, t.rng ≠ 0 ∧ t.rng < 2 ^ 32)
      ∧ (∀ (e : EngineState) (t : TrackRuntime), t.rng ≠ 0 → t.rng < 2 ^ 32 →
          (schedule_track_step e t).track.rng ≠ 0
            ∧ (schedule_track_step e t).track.rng < 2 ^ 32)
      ∧ (∀ (e : EngineState) (n : Nat), (∀ t ∈ e.tracks, t.rng ≠ 0 ∧ t.rng < 2 ^ 32) →
          ∀ t ∈ (render_frames n e).tracks, t.rng ≠ 0 ∧ t.rng < 2 ^ 32) := by
  have hlive : ∀ x : Nat, RngLive x ↔ (x ≠ 0 ∧ x < 2 ^ 32) := fun x =>
    ⟨fun h => ⟨Nat.pos_iff_ne_zero.mp h.1, h.2⟩, fun h => ⟨Nat.pos_iff_ne_zero.mpr h.1, h.2⟩⟩
  refine ⟨?_, ?_, ?_, ?_, ?_⟩
  · intro i hi
    exact ((hlive _).mp (init_rng_live i hi)).1
  · intro x h0 h32
    exact (hlive _).mp (xorshift32_live x ((hlive x).mpr ⟨h0, h32⟩))
  · intro e0 e h hcap t ht
    unfold build_runtime at h
    split at h
    · exact Option.noConfusion h
    · rename_i tracks hb
      cases h
      exact (hlive _).mp (build_runtime_loop_rng e0 _ 0 false [] tracks hb (by omega)
        (fun t ht => absurd ht (List.not_mem_nil t)) t ht)
  · intro e t h0 h32
    exact (hlive _).mp (schedule_track_step_rng e t ((hlive _).mpr ⟨h0, h32⟩)).1
  · intro e n h t ht
    exact (hlive _).mp (render_frames_inv rng_live_invariant n e
      (fun t ht => (hlive _).mpr (h t ht)) t ht)

theorem track_rng_never_zero_witness :
    (xorshift32 0x9E3779B9 ≠ 0 ∧ xorshift32 0x9E3779B9 < 2 ^ 32)
      ∧ (∀ t ∈ (loaded_engine example_density_script).tracks, t.rng ≠ 0 ∧ t.rng < 2 ^ 32)
      ∧ (first_track (render_frames 24 (loaded_engine example_density_script))).rng
          ≠ (first_track (loaded_engine example_density_script)).rng
      ∧ (∀ t ∈ (render_frames 24 (loaded_engine example_density_script)).tracks,
          t.rng ≠ 0 ∧ t.rng < 2 ^ 32) :=
  ⟨track_rng_never_zero.2.1 0x9E3779B9 (by decide) (by decide), by decide!, by decide!,
    track_rng_never_zero.2.2.2.2 (loaded_engine example_density_script) 24 (by decide!)⟩

/-! ### The tempo and meter maps -/

theorem maps_agree_at {p : Program} {a : List ℚ} {b c : List Int} (h : MapsAgree p a b c)
    (i : Nat) (h1 : 1 ≤ i) (h2 : i ≤ 14) :
    a.getD i 0 = p.tempo_map.getD i 0 ∧ b.getD i 0 = p.time_sig_num_map.getD i 0
      ∧ c.getD i 0 = p.time_sig_den_map.getD i 0 := by
  have := h (i - 1) (by omega)
  rw [Nat.sub_add_cancel h1] at this
  exact this

theorem meter_section_range (e : EngineState) :
    1 ≤ (meter_section e).toNat ∧ (meter_section e).toNat ≤ 14 := by
  unfold meter_section
  split <;> omega

theorem effective_pattern_length_maps (e : EngineState) (a : List ℚ) (b c : List Int)
    (h : MapsAgree e.program a b c) (p : PatternDef) :
    effective_pattern_length (with_maps e a b c) p = effective_pattern_length e p := by
  have hr := meter_section_range e
  have hs : meter_section (with_maps e a b c) = meter_section e := rfl
  have hg := maps_agree_at h (meter_section e).toNat hr.1 hr.2
  unfold effective_pattern_length
  rw [hs]
  show (if (p.length : Int) ≤ 0 then (0 : Int)
    else if e.program.time_sig_enforce = 0 then (p.length : Int)
    else
      let num := b.getD (meter_section e).toNat 0
      let den := c.getD (meter_section e).toNat 0
      if num ≤ 0 ∨ den ≤ 0 then (p.length : Int)
      else if Int.tmod 16 den ≠ 0 then (p.length : Int)
      else
        if num * Int.tdiv 16 den ≤ 0 then (p.length : Int)
        else
          if Int.tmod p.length (num * Int.tdiv 16 den) = 0 then (p.length : Int)
          else p.length + (num * Int.tdiv 16 den - Int.tmod p.length (num * Int.tdiv 16 den))) = _
  rw [hg.2.1, hg.2.2]

theorem track_cycle_steps_maps (e : EngineState) (a : List ℚ) (b c : List Int)
    (h : MapsAgree e.program a b c) (t : TrackRuntime) (p : PatternDef) :
    track_cycle_steps (with_maps e a b c) t p = track_cycle_steps e t p := by
  unfold track_cycle_steps
  rw [effective_pattern_length_maps e a b c h]

theorem sequence_current_pattern_maps (e : EngineState) (a : List ℚ) (b c : List Int)
    (t : TrackRuntime) :
    sequence_current_pattern (with_maps e a b c) t = sequence_current_pattern e t := rfl

theorem update_track_tempo_maps (e : EngineState) (a : List ℚ) (b c : List Int)
    (h : MapsAgree e.program a b c) (t : TrackRuntime) :
    update_track_tempo (with_maps e a b c) t = update_track_tempo e t := by
  have hts : (with_maps e a b c).tempo_section = e.tempo_section := rfl
  have hbs : (with_maps e a b c).base_samples_per_step = e.base_samples_per_step := rfl
  have hmap : (with_maps e a b c).program.tempo_map = a := rfl
  unfold update_track_tempo
  dsimp only
  rw [hts, hbs, hmap]
  split
  · rfl
  · rw [(maps_agree_at h e.tempo_section.toNat (by omega) (by omega)).1]

theorem update_all_track_tempos_maps (e : EngineState) (a : List ℚ) (b c : List Int)
    (h : MapsAgree e.program a b c) :
    update_all_track_tempos (with_maps e a b c) = with_maps (update_all_track_tempos e) a b c := by
  unfold update_all_track_tempos
  have hf : update_track_tempo (with_maps e a b c) = update_track_tempo e :=
    funext (update_track_tempo_maps e a b c h)
  show ({ with_maps e a b c with
    tracks := e.tracks.map (update_track_tempo (with_maps e a b c)) } : EngineState) = _
  rw [hf]
  rfl

theorem advance_sequence_maps (e : EngineState) (a : List ℚ) (b c : List Int)
    (h : MapsAgree e.program a b c) (t : TrackRuntime) :
    advance_sequence (with_maps e a b c) t
      = (with_maps (advance_sequence e t).1 a b c, (advance_sequence e t).2) := by
  unfold advance_sequence
  split
  · rfl
  · dsimp only
    split
    · rfl
    · split
      · split
        · exact Prod.ext
            (update_all_track_tempos_maps
              { e with pattern_epoch := (e.pattern_epoch + 1) % 2 ^ 64,
                       tempo_section := _ } a b c h)
            (update_track_tempo_maps
              { e with pattern_epoch := (e.pattern_epoch + 1) % 2 ^ 64,
                       tempo_section := _ } a b c h _)
        · exact Prod.ext rfl
            (update_track_tempo_maps
              { e with pattern_epoch := (e.pattern_epoch + 1) % 2 ^ 64 } a b c h _)
      · rfl

theorem schedule_ornament_maps (e : EngineState) (a : List ℚ) (b c : List Int)
    (t : TrackRuntime) (s : PatternStep) :
    schedule_ornament (with_maps e a b c) t s
      = (with_maps (schedule_ornament e t s).1 a b c, (schedule_ornament e t s).2) := by
  unfold schedule_ornament
  split
  · dsimp only
    split
    · rfl
    · rfl
  · rfl

theorem set_voices_maps (e : EngineState) (a : List ℚ) (b c : List Int) (vs : List Voice) :
    ({ with_maps e a b c with voices := vs } : EngineState)
      = with_maps { e with voices := vs } a b c := rfl

theorem play_step_maps (e : EngineState) (a : List ℚ) (b c : List Int)
    (t : TrackRuntime) (s : PatternStep) :
    play_step (with_maps e a b c) t s
      = (with_maps (play_step e t s).1 a b c, (play_step e t s).2) := by
  unfold play_step
  split
  · dsimp only
    rw [set_voices_maps, schedule_ornament_maps]
    rfl
  · rfl

theorem finish_step_maps (e : EngineState) (a : List ℚ) (b c : List Int)
    (h : MapsAgree e.program a b c) (t : TrackRuntime) (p : PatternDef) :
    finish_step (with_maps e a b c) t p
      = (with_maps (finish_step e t p).1 a b c, (finish_step e t p).2) := by
  unfold finish_step
  rw [track_cycle_steps_maps e a b c h]
  dsimp only
  split
  · split
    · exact advance_sequence_maps e a b c h _
    · rfl
  · rfl

theorem schedule_inactive_maps (e : EngineState) (a : List ℚ) (b c : List Int)
    (h : MapsAgree e.program a b c) (t : TrackRuntime) :
    schedule_inactive (with_maps e a b c) t
      = (with_maps (schedule_inactive e t).1 a b c, (schedule_inactive e t).2) := by
  unfold schedule_inactive
  rw [sequence_current_pattern_maps]
  split
  · rfl
  · split
    · split
      · rfl
      · dsimp only
        rw [track_cycle_steps_maps e a b c h]
        split
        · split
          · exact advance_sequence_maps e a b c h _
          · rfl
        · rfl
    · rfl

theorem update_all_track_tempos_program (e : EngineState) :
    (update_all_track_tempos e).program = e.program := rfl

theorem advance_sequence_program (e : EngineState) (t : TrackRuntime) :
    (advance_sequence e t).1.program = e.program := by
  unfold advance_sequence
  split
  · rfl
  · dsimp only
    split
    · rfl
    · split
      · split <;> rfl
      · rfl

theorem schedule_ornament_program (e : EngineState) (t : TrackRuntime) (s : PatternStep) :
    (schedule_ornament e t s).1.program = e.program := by
  unfold schedule_ornament
  split
  · dsimp only
    split <;> rfl
  · rfl

theorem play_step_program (e : EngineState) (t : TrackRuntime) (s : PatternStep) :
    (play_step e t s).1.program = e.program := by
  unfold play_step
  split
  · dsimp only
    rw [schedule_ornament_program]
  · rfl

theorem finish_step_program (e : EngineState) (t : TrackRuntime) (p : PatternDef) :
    (finish_step e t p).1.program = e.program := by
  unfold finish_step
  dsimp only
  split
  · split
    · exact advance_sequence_program _ _
    · rfl
  · rfl

theorem schedule_inactive_program (e : EngineState) (t : TrackRuntime) :
    (schedule_inactive e t).1.program = e.program := by
  unfold schedule_inactive
  split
  · rfl
  · split
    · split
      · rfl
      · dsimp only
        split
        · split
          · exact advance_sequence_program _ _
          · rfl
        · rfl
    · rfl

theorem schedule_track_step_program (e : EngineState) (t : TrackRuntime) :
    (schedule_track_step e t).engine.program = e.program := by
  unfold schedule_track_step
  split
  · exact schedule_inactive_program e t
  · split
    · rfl
    · dsimp only
      split
      · rfl
      · split
        · rfl
        · split
          · split
            · exact (finish_step_program _ _ _).trans (play_step_program _ _ _)
            · exact finish_step_program _ _ _
          · exact finish_step_program _ _ _

theorem schedule_track_step_maps (e : EngineState) (a : List ℚ) (b c : List Int)
    (h : MapsAgree e.program a b c) (t : TrackRuntime) :
    schedule_track_step (with_maps e a b c) t
      = ⟨with_maps (schedule_track_step e t).engine a b c, (schedule_track_step e t).track,
          (schedule_track_step e t).idx, (schedule_track_step e t).note_ons⟩ := by
  unfold schedule_track_step
  rw [sequence_current_pattern_maps]
  split
  · rw [schedule_inactive_maps e a b c h]
  · split
    · rfl
    · dsimp only
      rw [effective_pattern_length_maps e a b c h]
      split
      · rfl
      · split
        · rfl
        · split
          · split
            · rw [play_step_maps]
              dsimp only
              rw [finish_step_maps _ a b c
                (by rw [(play_step_program _ _ _)]; exact h)]
            · rw [finish_step_maps e a b c h]
          · rw [finish_step_maps e a b c h]

theorem stutter_tick_maps (e : EngineState) (a : List ℚ) (b c : List Int)
    (t : TrackRuntime) :
    stutter_tick (with_maps e a b c) t
      = (with_maps (stutter_tick e t).1 a b c, (stutter_tick e t).2) := by
  unfold stutter_tick
  split
  · split <;> rfl
  · rfl

theorem stutter_tick_program (e : EngineState) (t : TrackRuntime) :
    (stutter_tick e t).1.program = e.program := by
  unfold stutter_tick
  split
  · split <;> rfl
  · rfl

theorem render_track_program (e : EngineState) (i : Nat) :
    (render_track e i).program = e.program := by
  unfold render_track
  split
  · rfl
  · dsimp only
    split
    · exact (stutter_tick_program _ _).trans (schedule_track_step_program _ _)
    · exact stutter_tick_program _ _

theorem pass_state_maps (e : EngineState) (a : List ℚ) (b c : List Int)
    (h : MapsAgree e.program a b c) (t : TrackRuntime) :
    pass_state (with_maps e a b c) t
      = (with_maps (pass_state e t).1 a b c, (pass_state e t).2) := by
  unfold pass_state
  rw [schedule_track_step_maps e a b c h]
  split <;> rfl

theorem render_track_maps (e : EngineState) (a : List ℚ) (b c : List Int)
    (h : MapsAgree e.program a b c) (i : Nat) :
    render_track (with_maps e a b c) i = with_maps (render_track e i) a b c := by
  cases hg : e.tracks.get? i with
  | none =>
    rw [render_track_none e i hg, render_track_none (with_maps e a b c) i hg]
  | some t =>
    rw [render_track_pass e i t hg, render_track_pass (with_maps e a b c) i t hg,
      pass_state_maps e a b c h, stutter_tick_maps]
    rfl

theorem fold_render_track_maps (a : List ℚ) (b c : List Int) (l : List Nat) :
    ∀ e : EngineState, MapsAgree e.program a b c →
      l.foldl render_track (with_maps e a b c) = with_maps (l.foldl render_track e) a b c := by
  induction l with
  | nil => intro e _; rfl
  | cons j l ih =>
    intro e h
    show l.foldl render_track (render_track (with_maps e a b c) j) = _
    rw [render_track_maps e a b c h j]
    exact ih (render_track e j) (by rw [render_track_program]; exact h)

theorem fold_render_track_program (l : List Nat) :
    ∀ e : EngineState, (l.foldl render_track e).program = e.program := by
  induction l with
  | nil => intro e; rfl
  | cons j l ih => intro e; exact (ih (render_track e j)).trans (render_track_program e j)

theorem render_frame_maps (e : EngineState) (a : List ℚ) (b c : List Int)
    (h : MapsAgree e.program a b c) :
    render_frame (with_maps e a b c) = with_maps (render_frame e) a b c := by
  unfold render_frame
  show ({ (List.range e.tracks.length).foldl render_track (with_maps e a b c) with
    voices := ((List.range e.tracks.length).foldl render_track
      (with_maps e a b c)).voices.map voice_render } : EngineState) = _
  rw [fold_render_track_maps a b c _ e h]
  rfl

theorem render_frame_program (e : EngineState) : (render_frame e).program = e.program :=
  fold_render_track_program _ e

theorem render_frames_maps (a : List ℚ) (b c : List Int) (n : Nat) :
    ∀ e : EngineState, MapsAgree e.program a b c →
      render_frames n (with_maps e a b c) = with_maps (render_frames n e) a b c := by
  induction n with
  | zero => intro e _; rfl
  | succ n ih =>
    intro e h
    show render_frames n (render_frame (with_maps e a b c)) = _
    rw [render_frame_maps e a b c h]
    exact ih (render_frame e) (by rw [render_frame_program]; exact h)

theorem effective_pattern_length_fallback (e : EngineState) (p : PatternDef)
    (h : e.tempo_section < 1 ∨ 14 < e.tempo_section) :
    effective_pattern_length e p = effective_pattern_length { e with tempo_section := 1 } p := by
  have h1 : meter_section e = 1 := by
    unfold meter_section
    rw [if_pos (by omega)]
  have h2 : meter_section { e with tempo_section := 1 } = 1 := rfl
  unfold effective_pattern_length
  rw [h1, h2]

theorem update_track_tempo_outside (e : EngineState) (t : TrackRuntime)
    (h : e.tempo_section < 1 ∨ 14 < e.tempo_section) : update_track_tempo e t = t := by
  unfold update_track_tempo
  dsimp only
  rw [if_pos (by omega)]

/-- C38. The sequencer reads `tempo_map`, `time_sig_num_map` and `time_sig_den_map` only at
the indices 1..14. When `tempo_section` is outside 1..14, `effective_pattern_length` gives
what it gives for section 1 and `update_track_tempo` leaves the track as it is. And whatever
stands in the maps outside the indices 1..14 is never looked at: with maps that agree with
those of the Program at 1..14 and are arbitrary elsewhere, `effective_pattern_length`,
`update_track_tempo`, a call of `schedule_track_step` and every number of rendered frames
give the same result, for every state of the engine. -/
theorem tempo_maps_read_in_range (e : EngineState) (a : List ℚ) (b c : List Int)
    (h : MapsAgree e.program a b c) :
    ((e.tempo_section < 1 ∨ 14 < e.tempo_section) →
        (∀ p : PatternDef, effective_pattern_length e p
          = effective_pattern_length { e with tempo_section := 1 } p)
        ∧ ∀ t : TrackRuntime, update_track_tempo e t = t)
      ∧ (∀ p : PatternDef,
          effective_pattern_length (with_maps e a b c) p = effective_pattern_length e p)
      ∧ (∀ t : TrackRuntime, update_track_tempo (with_maps e a b c) t = update_track_tempo e t)
      ∧ (∀ t : TrackRuntime, schedule_track_step (with_maps e a b c) t
          = ⟨with_maps (schedule_track_step e t).engine a b c, (schedule_track_step e t).track,
              (schedule_track_step e t).idx, (schedule_track_step e t).note_ons⟩)
      ∧ (∀ n : Nat, render_frames n (with_maps e a b c) = with_maps (render_frames n e) a b c) :=
  ⟨fun ho => ⟨fun p => effective_pattern_length_fallback e p ho,
      fun t => update_track_tempo_outside e t ho⟩,
    effective_pattern_length_maps e a b c h, update_track_tempo_maps e a b c h,
    schedule_track_step_maps e a b c h, fun n => render_frames_maps a b c n e h⟩

theorem tempo_maps_read_in_range_witness :
    example_sections_engine.tempo_section = 16
      ∧ example_sections_engine.program.time_sig_enforce = 1
      ∧ (scribble example_sections_engine.program.time_sig_den_map 0).getD 15 1 = 0
      ∧ MapsAgree example_sections_engine.program
          (scribble example_sections_engine.program.tempo_map 99)
          (scribble example_sections_engine.program.time_sig_num_map 7)
          (scribble example_sections_engine.program.time_sig_den_map 0)
      ∧ effective_pattern_length example_sections_engine
            (first_pattern example_sections_engine)
          = effective_pattern_length { example_sections_engine with tempo_section := 1 }
              (first_pattern example_sections_engine)
      ∧ update_track_tempo example_sections_engine (first_track example_sections_engine)
          = first_track example_sections_engine
      ∧ render_frames 3
          (with_maps example_sections_engine
            (scribble example_sections_engine.program.tempo_map 99)
            (scribble example_sections_engine.program.time_sig_num_map 7)
            (scribble example_sections_engine.program.time_sig_den_map 0))
          = with_maps (render_frames 3 example_sections_engine)
              (scribble example_sections_engine.program.tempo_map 99)
              (scribble example_sections_engine.program.time_sig_num_map 7)
              (scribble example_sections_engine.program.time_sig_den_map 0) :=
  ⟨by decide!, by decide!, by decide!, by decide!,
    ((tempo_maps_read_in_range example_sections_engine
      (scribble example_sections_engine.program.tempo_map 99)
      (scribble example_sections_engine.program.time_sig_num_map 7)
      (scribble example_sections_engine.program.time_sig_den_map 0) (by decide!)).1
        (by decide!)).1 _,
    ((tempo_maps_read_in_range example_sections_engine
      (scribble example_sections_engine.program.tempo_map 99)
      (scribble example_sections_engine.program.time_sig_num_map 7)
      (scribble example_sections_engine.program.time_sig_den_map 0) (by decide!)).1
        (by decide!)).2 _,
    (tempo_maps_read_in_range example_sections_engine
      (scribble example_sections_engine.program.tempo_map 99)
      (scribble example_sections_engine.program.time_sig_num_map 7)
      (scribble example_sections_engine.program.time_sig_den_map 0) (by decide!)).2.2.2.2 3⟩

/-! ### The pattern index of a step -/

theorem step_pattern_index_range (t : TrackRuntime) (L : Int) (hstep : 0 ≤ t.step_index)
    (hL : 1 ≤ L) : 0 ≤ step_pattern_index t L ∧ step_pattern_index t L < L := by
  have hb : 0 ≤ (if t.iter > 1 then Int.tdiv t.step_index t.iter else t.step_index) := by
    split
    · exact Int.tdiv_nonneg hstep (by omega)
    · exact hstep
  unfold step_pattern_index
  dsimp only
  generalize (if t.iter > 1 then Int.tdiv t.step_index t.iter else t.step_index) = base at hb
  have hidx : 0 ≤ (if t.palindrome ≠ 0 ∧ L > 1 then
        if Int.tmod base (L * 2 - 2) ≥ L then L * 2 - 2 - Int.tmod base (L * 2 - 2)
        else Int.tmod base (L * 2 - 2)
      else Int.tmod base L)
      ∧ (if t.palindrome ≠ 0 ∧ L > 1 then
        if Int.tmod base (L * 2 - 2) ≥ L then L * 2 - 2 - Int.tmod base (L * 2 - 2)
        else Int.tmod base (L * 2 - 2)
      else Int.tmod base L) < L := by
    split
    · rename_i hp
      have h1 := Int.tmod_nonneg (L * 2 - 2) hb
      have h2 := Int.tmod_lt_of_pos base (show 0 < L * 2 - 2 by omega)
      split <;> omega
    · have h1 := Int.tmod_nonneg L hb
      have h2 := Int.tmod_lt_of_pos base (show 0 < L by omega)
      omega
  generalize (if t.palindrome ≠ 0 ∧ L > 1 then
        if Int.tmod base (L * 2 - 2) ≥ L then L * 2 - 2 - Int.tmod base (L * 2 - 2)
        else Int.tmod base (L * 2 - 2)
      else Int.tmod base L) = idx at hidx
  split <;> omega

theorem effective_pattern_length_ge (e : EngineState) (p : PatternDef) :
    (p.length : Int) ≤ effective_pattern_length e p := by
  unfold effective_pattern_length
  dsimp only
  split
  · omega
  · split
    · exact le_refl _
    · split
      · exact le_refl _
      · split
        · exact le_refl _
        · split
          · exact le_refl _
          · rename_i hbar
            split
            · exact le_refl _
            · have := Int.tmod_lt_of_pos (p.length : Int) (lt_of_not_ge hbar)
              omega

theorem sequence_current_pattern_step_index (e : EngineState) (t : TrackRuntime) :
    (sequence_current_pattern e t).1.step_index = t.step_index := by
  unfold sequence_current_pattern
  split
  · rfl
  · split
    · rfl
    · dsimp only
      unfold default_seq_end
      split <;> rfl

/-- C36. For a track with `step_index >= 0`: the index that lines 799-819 of
`schedule_track_step` compute for an effective length `L >= 1` is in `0 .. L - 1`, whatever
`palindrome`, `rev` and `iter` are. When a call of `schedule_track_step` computes the index
`i`, the current pattern has an effective length of at least 1 and at least its stored
length, `0 <= i` and `i` is under the effective length; when `i` is under the stored
length the step read, `pattern[i]`, is one of the stored steps; and when `i` is in the
padding behind the stored length the call makes no note-on and leaves the voices as they
are. -/
theorem pattern_index_in_range (e : EngineState) (t : TrackRuntime)
    (hstep : 0 ≤ t.step_index) :
    (∀ L : Int, 1 ≤ L → 0 ≤ step_pattern_index t L ∧ step_pattern_index t L < L)
      ∧ ∀ i : Int, (schedule_track_step e t).idx = some i →
          ∃ pattern : PatternDef, (sequence_current_pattern e t).2 = some pattern
            ∧ 1 ≤ effective_pattern_length e pattern
            ∧ (pattern.length : Int) ≤ effective_pattern_length e pattern
            ∧ i = step_pattern_index (sequence_current_pattern e t).1
                (effective_pattern_length e pattern)
            ∧ 0 ≤ i ∧ i < effective_pattern_length e pattern
            ∧ (i < pattern.length → ∃ s, pattern.steps.get? i.toNat = some s)
            ∧ (¬ i < pattern.length →
                (schedule_track_step e t).note_ons = []
                  ∧ (schedule_track_step e t).engine.voices = e.voices) := by
  refine ⟨fun L hL => step_pattern_index_range t L hstep hL, ?_⟩
  have hsi := sequence_current_pattern_step_index e t
  intro i
  unfold schedule_track_step
  split
  · intro h
    exact Option.noConfusion h
  · split
    · intro h
      exact Option.noConfusion h
    · rename_i pattern hp
      dsimp only
      split
      · intro h
        exact Option.noConfusion h
      · rename_i hlen
        have hL : 1 ≤ effective_pattern_length e pattern := by omega
        have hge := effective_pattern_length_ge e pattern
        have hr := step_pattern_index_range (sequence_current_pattern e t).1
          (effective_pattern_length e pattern) (by rw [hsi]; exact hstep) hL
        have hget : i < pattern.length → 0 ≤ i →
            ∃ s, pattern.steps.get? i.toNat = some s := by
          intro h1 h0
          have hlt : i.toNat < pattern.steps.length := by
            have : (i.toNat : Int) < (pattern.steps.length : Int) := by
              rw [Int.toNat_of_nonneg h0]
              exact h1
            exact_mod_cast this
          exact ⟨pattern.steps.get ⟨i.toNat, hlt⟩, List.get?_eq_get hlt⟩
        split
        · intro h
          have hi : step_pattern_index (sequence_current_pattern e t).1
              (effective_pattern_length e pattern) = i := Option.some.inj h
          rw [← hi]
          rw [← hi] at hget
          exact ⟨pattern, hp, hL, hge, rfl, hr.1, hr.2, fun h1 => hget h1 hr.1,
            fun _ => ⟨rfl, rfl⟩⟩
        · intro h
          have hi : step_pattern_index (sequence_current_pattern e t).1
              (effective_pattern_length e pattern) = i := Option.some.inj h
          rw [← hi]
          rw [← hi] at hget
          refine ⟨pattern, hp, hL, hge, rfl, hr.1, hr.2, fun h1 => hget h1 hr.1, ?_⟩
          intro hpad
          rw [if_neg (fun hc => hpad hc.2)]
          exact ⟨rfl, finish_step_voices _ _ _⟩

theorem pattern_index_in_range_witness :
    (0 : Int) ≤ ({ first_track (loaded_engine example_meter_script) with
          step_index := 17 } : TrackRuntime).step_index
      ∧ (first_pattern (loaded_engine example_meter_script)).length = 16
      ∧ effective_pattern_length (loaded_engine example_meter_script)
          (first_pattern (loaded_engine example_meter_script)) = 18
      ∧ (schedule_track_step (loaded_engine example_meter_script)
          { first_track (loaded_engine example_meter_script) with step_index := 17 }).idx
          = some 17
      ∧ ∃ pattern : PatternDef,
          (sequence_current_pattern (loaded_engine example_meter_script)
            { first_track (loaded_engine example_meter_script) with step_index := 17 }).2
              = some pattern
            ∧ 1 ≤ effective_pattern_length (loaded_engine example_meter_script) pattern
            ∧ (pattern.length : Int)
                ≤ effective_pattern_length (loaded_engine example_meter_script) pattern
            ∧ (17 : Int) = step_pattern_index
                (sequence_current_pattern (loaded_engine example_meter_script)
                  { first_track (loaded_engine example_meter_script) with
                    step_index := 17 }).1
                (effective_pattern_length (loaded_engine example_meter_script) pattern)
            ∧ (0 : Int) ≤ 17
            ∧ (17 : Int) < effective_pattern_length (loaded_engine example_meter_script) pattern
            ∧ ((17 : Int) < pattern.length → ∃ s, pattern.steps.get? (17 : Int).toNat = some s)
            ∧ (¬ (17 : Int) < pattern.length →
                (schedule_track_step (loaded_engine example_meter_script)
                  { first_track (loaded_engine example_meter_script) with
                    step_index := 17 }).note_ons = []
                  ∧ (schedule_track_step (loaded_engine example_meter_script)
                      { first_track (loaded_engine example_meter_script) with
                        step_index := 17 }).engine.voices
                    = (loaded_engine example_meter_script).voices) :=
  ⟨by decide!, by decide!, by decide!, by decide!,
    (pattern_index_in_range (loaded_engine example_meter_script)
      { first_track (loaded_engine example_meter_script) with step_index := 17 }
      (by decide!)).2 17 (by decide!)⟩

/-! ### The grace note of an ornament -/

theorem grace_degree_octave_fst (deg oct dir : Int) :
    (grace_degree_octave deg oct dir).1
      = if deg + dir < 1 then 7 else if deg + dir > 7 then 1 else deg + dir := by
  unfold grace_degree_octave
  dsimp only
  split
  · rfl
  · split <;> rfl

theorem grace_degree_octave_snd (deg oct dir : Int) :
    (grace_degree_octave deg oct dir).2
      = if deg + dir < 1 then oct - 1 else if deg + dir > 7 then oct + 1 else oct := by
  unfold grace_degree_octave
  dsimp only
  split
  · rfl
  · split <;> rfl

theorem mem_if_singleton {α : Type} {c : Prop} [Decidable c] {x n : α}
    (h : n ∈ (if c then [x] else [])) : n = x := by
  split at h
  · exact List.mem_singleton.mp h
  · exact absurd h (List.not_mem_nil n)

theorem schedule_ornament_grace (e : EngineState) (t : TrackRuntime) (s : PatternStep) :
    (ornament_drawn t s = true →
        (schedule_ornament e t s).2.1.ornament_alt = grace_alt_after t
          ∧ (schedule_ornament e t s).2.1.ornament_mode = t.ornament_mode
          ∧ ∀ n ∈ (schedule_ornament e t s).2.2,
              n.freq = Freq.midi (e.program.root_midi
                + (((grace_degree_octave s.degree s.degree_octave (grace_direction t)).2 * 12
                    : Int) : ℚ)
                + (e.program.maqam_offsets.getD
                    ((grace_degree_octave s.degree s.degree_octave
                      (grace_direction t)).1 - 1).toNat 0
                  + (s.degree_micro : ℚ) * 50) / 100))
      ∧ (ornament_drawn t s = false →
          (schedule_ornament e t s).2.1.ornament_alt = t.ornament_alt
            ∧ (schedule_ornament e t s).2.1.ornament_mode = t.ornament_mode
            ∧ (schedule_ornament e t s).2.2 = []) := by
  rw [grace_degree_octave_fst, grace_degree_octave_snd]
  unfold schedule_ornament ornament_drawn grace_direction
  split
  · rename_i h1
    dsimp only
    split
    · rename_i h2
      refine ⟨fun _ => ⟨rfl, rfl, ?_⟩, fun hc => ?_⟩
      · intro n hn
        rw [mem_if_singleton hn]
      · rw [decide_eq_false_iff_not] at hc
        exact absurd ⟨h1.1, h1.2, h2⟩ hc
    · rename_i h2
      refine ⟨fun hc => ?_, fun _ => ⟨rfl, rfl, rfl⟩⟩
      rw [decide_eq_true_iff] at hc
      exact absurd hc.2.2 h2
  · rename_i h1
    refine ⟨fun hc => ?_, fun _ => ⟨rfl, rfl, rfl⟩⟩
    rw [decide_eq_true_iff] at hc
    exact absurd ⟨hc.1, hc.2.1⟩ h1

theorem update_track_tempo_alt (e : EngineState) (t : TrackRuntime) :
    (update_track_tempo e t).ornament_alt = t.ornament_alt := by
  unfold update_track_tempo
  dsimp only
  split <;> rfl

theorem advance_sequence_alt (e : EngineState) (t : TrackRuntime) :
    (advance_sequence e t).2.ornament_alt = t.ornament_alt := by
  unfold advance_sequence
  split
  · rfl
  · dsimp only
    split
    · rfl
    · split
      · split
        · exact update_track_tempo_alt _ _
        · exact update_track_tempo_alt _ _
      · rfl

theorem finish_step_alt (e : EngineState) (t : TrackRuntime) (p : PatternDef) :
    (finish_step e t p).2.ornament_alt = t.ornament_alt := by
  unfold finish_step
  dsimp only
  split
  · split
    · exact advance_sequence_alt _ _
    · rfl
  · rfl

theorem sequence_current_pattern_alt (e : EngineState) (t : TrackRuntime) :
    (sequence_current_pattern e t).1.ornament_alt = t.ornament_alt
      ∧ (sequence_current_pattern e t).1.ornament_mode = t.ornament_mode := by
  unfold sequence_current_pattern
  split
  · exact ⟨rfl, rfl⟩
  · split
    · exact ⟨rfl, rfl⟩
    · dsimp only
      unfold default_seq_end
      split <;> exact ⟨rfl, rfl⟩

theorem schedule_inactive_alt (e : EngineState) (t : TrackRuntime) :
    (schedule_inactive e t).2.ornament_alt = t.ornament_alt := by
  have hc := (sequence_current_pattern_alt e t).1
  unfold schedule_inactive
  split
  · rfl
  · split
    · split
      · exact hc
      · dsimp only
        split
        · split
          · exact (advance_sequence_alt _ _).trans hc
          · exact hc
        · exact hc
    · rfl

theorem set_stutter_alt (t : TrackRuntime) (f : Freq) :
    (set_stutter t f).ornament_alt = t.ornament_alt := by
  unfold set_stutter
  split <;> rfl

theorem grace_alt_after_rng (t : TrackRuntime) (x : Nat) :
    grace_alt_after { t with rng := x } = grace_alt_after t := rfl

theorem schedule_ornament_alt (e : EngineState) (t : TrackRuntime) (s : PatternStep) :
    (schedule_ornament e t s).2.1.ornament_alt = t.ornament_alt
      ∨ (schedule_ornament e t s).2.1.ornament_alt = grace_alt_after t := by
  cases hd : ornament_drawn t s with
  | true => exact Or.inr ((schedule_ornament_grace e t s).1 hd).1
  | false => exact Or.inl ((schedule_ornament_grace e t s).2 hd).1

theorem play_step_alt (e : EngineState) (t : TrackRuntime) (s : PatternStep) :
    (play_step e t s).2.1.ornament_alt = t.ornament_alt
      ∨ (play_step e t s).2.1.ornament_alt = grace_alt_after t := by
  unfold play_step
  split
  · dsimp only
    rw [set_stutter_alt]
    exact schedule_ornament_alt _ _ s
  · exact Or.inl rfl

theorem schedule_track_step_alt (e : EngineState) (t : TrackRuntime) :
    (schedule_track_step e t).track.ornament_alt = t.ornament_alt
      ∨ (schedule_track_step e t).track.ornament_alt = grace_alt_after t := by
  have hc := sequence_current_pattern_alt e t
  have hg : grace_alt_after (sequence_current_pattern e t).1 = grace_alt_after t := by
    unfold grace_alt_after
    rw [hc.1, hc.2]
  unfold schedule_track_step
  split
  · exact Or.inl (schedule_inactive_alt e t)
  · split
    · exact Or.inl hc.1
    · dsimp only
      split
      · exact Or.inl hc.1
      · split
        · exact Or.inl hc.1
        · rename_i pattern _ _ _
          split
          · split
            · rename_i st _
              have hp := play_step_alt e
                { (sequence_current_pattern e t).1 with
                  rng := (step_gate (sequence_current_pattern e t).1).1 } st
              rw [grace_alt_after_rng, hg] at hp
              rcases hp with hp | hp
              · exact Or.inl ((finish_step_alt _ _ _).trans (hp.trans hc.1))
              · exact Or.inr ((finish_step_alt _ _ _).trans hp)
            · exact Or.inl ((finish_step_alt _ _ _).trans hc.1)
          · exact Or.inl ((finish_step_alt _ _ _).trans hc.1)

theorem init_track_runtime_alt (e : EngineState) (i : Nat) (track : TrackDef)
    (pattern : Option PatternDef) (synth : SynthDef) (sequence : Option SequenceDef)
    (l : Int) :
    (init_track_runtime e i track pattern synth sequence l).ornament_alt = 0 := by
  unfold init_track_runtime
  exact update_track_tempo_alt _ _

/-- C33. For a step with a stored degree `deg` in 1..7 and octave `oct` that draws an
ornament: the degree and the octave of the grace note are those of `deg - 1` in the mode
down (0) and of `deg + 1` in the mode up (1); in the mode alt (2) they are those of
`deg - 1` when the flag `ornament_alt` is 0, and the ornament sets the flag to 1, and
those of `deg + 1` when the flag is not 0, and the ornament sets it to 0; a result 0 is
degree 7 an octave down and a result 8 degree 1 an octave up, so the grace degree is in
1..7. The grace note made has the pitch of that degree and octave. `build_runtime` starts
the flag at 0, a step that draws no ornament leaves it, and a call of
`schedule_track_step` changes it by the ornament of the step at most. -/
theorem grace_degree_wraps (e : EngineState) (t : TrackRuntime) (s : PatternStep)
    (hdeg : 1 ≤ s.degree ∧ s.degree ≤ 7) :
    (t.ornament_mode = 0 →
        grace_degree_octave s.degree s.degree_octave (grace_direction t)
          = spec_grace (s.degree - 1) s.degree_octave)
      ∧ (t.ornament_mode = 1 →
        grace_degree_octave s.degree s.degree_octave (grace_direction t)
          = spec_grace (s.degree + 1) s.degree_octave)
      ∧ (t.ornament_mode = 2 →
        (t.ornament_alt = 0 →
          grace_degree_octave s.degree s.degree_octave (grace_direction t)
              = spec_grace (s.degree - 1) s.degree_octave
            ∧ grace_alt_after t = 1)
        ∧ (t.ornament_alt ≠ 0 →
          grace_degree_octave s.degree s.degree_octave (grace_direction t)
              = spec_grace (s.degree + 1) s.degree_octave
            ∧ grace_alt_after t = 0))
      ∧ (1 ≤ (grace_degree_octave s.degree s.degree_octave (grace_direction t)).1
        ∧ (grace_degree_octave s.degree s.degree_octave (grace_direction t)).1 ≤ 7)
      ∧ (ornament_drawn t s = true →
        (schedule_ornament e t s).2.1.ornament_alt = grace_alt_after t
          ∧ ∀ n ∈ (schedule_ornament e t s).2.2,
              n.freq = Freq.midi (e.program.root_midi
                + (((grace_degree_octave s.degree s.degree_octave (grace_direction t)).2 * 12
                    : Int) : ℚ)
                + (e.program.maqam_offsets.getD
                    ((grace_degree_octave s.degree s.degree_octave
                      (grace_direction t)).1 - 1).toNat 0
                  + (s.degree_micro : ℚ) * 50) / 100))
      ∧ (ornament_drawn t s = false →
        (schedule_ornament e t s).2.1.ornament_alt = t.ornament_alt
          ∧ (schedule_ornament e t s).2.2 = [])
      ∧ ((schedule_track_step e t).track.ornament_alt = t.ornament_alt
        ∨ (schedule_track_step e t).track.ornament_alt = grace_alt_after t)
      ∧ ∀ (i : Nat) (d : TrackDef) (p : Option PatternDef) (sy : SynthDef)
          (q : Option SequenceDef) (l : Int),
          (init_track_runtime e i d p sy q l).ornament_alt = 0 := by
  have hdown : grace_degree_octave s.degree s.degree_octave (-1)
      = spec_grace (s.degree - 1) s.degree_octave := by
    unfold grace_degree_octave spec_grace
    dsimp only
    by_cases h1 : s.degree = 1
    · rw [if_pos (by omega), if_pos (by omega)]
    · rw [if_neg (by omega), if_neg (by omega), if_neg (by omega), if_neg (by omega)]
      rfl
  have hup : grace_degree_octave s.degree s.degree_octave 1
      = spec_grace (s.degree + 1) s.degree_octave := by
    unfold grace_degree_octave spec_grace
    dsimp only
    by_cases h7 : s.degree = 7
    · rw [if_neg (by omega), if_pos (by omega), if_neg (by omega), if_pos (by omega)]
    · rw [if_neg (by omega), if_neg (by omega), if_neg (by omega), if_neg (by omega)]
  have hrange : ∀ dir : Int,
      1 ≤ (grace_degree_octave s.degree s.degree_octave dir).1
        ∧ (grace_degree_octave s.degree s.degree_octave dir).1 ≤ 7 := by
    intro dir
    rw [grace_degree_octave_fst]
    split
    · omega
    · split <;> omega
  have hg := schedule_ornament_grace e t s
  refine ⟨?_, ?_, ?_, hrange _, fun hd => ⟨(hg.1 hd).1, (hg.1 hd).2.2⟩,
    fun hd => ⟨(hg.2 hd).1, (hg.2 hd).2.2⟩, schedule_track_step_alt e t,
    fun i d p sy q l => init_track_runtime_alt e i d p sy q l⟩
  · intro hm
    have : grace_direction t = -1 := by
      unfold grace_direction
      rw [if_neg (by omega), if_neg (by omega)]
    rw [this]
    exact hdown
  · intro hm
    have : grace_direction t = 1 := by
      unfold grace_direction
      rw [if_pos hm]
    rw [this]
    exact hup
  · intro hm
    refine ⟨fun ha => ?_, fun ha => ?_⟩
    · have : grace_direction t = -1 := by
        unfold grace_direction
        rw [if_neg (by omega), if_pos hm, if_neg (by omega)]
      rw [this]
      refine ⟨hdown, ?_⟩
      unfold grace_alt_after
      rw [if_pos ⟨by omega, hm⟩, if_neg (by omega)]
    · have : grace_direction t = 1 := by
        unfold grace_direction
        rw [if_neg (by omega), if_pos hm, if_pos ha]
      rw [this]
      refine ⟨hup, ?_⟩
      unfold grace_alt_after
      rw [if_pos ⟨by omega, hm⟩, if_pos ha]

theorem grace_degree_wraps_witness :
    ((1 : Int) ≤ ((first_pattern (loaded_engine example_ornament_alt_script)).steps.getD 0
          pad_step).degree
        ∧ ((first_pattern (loaded_engine example_ornament_alt_script)).steps.getD 0
          pad_step).degree ≤ 7)
      ∧ ((first_pattern (loaded_engine example_ornament_alt_script)).steps.getD 0
          pad_step).degree = 1
      ∧ (first_track (loaded_engine example_ornament_alt_script)).ornament_mode = 2
      ∧ (first_track (loaded_engine example_ornament_alt_script)).ornament_alt = 0
      ∧ spec_grace
          (((first_pattern (loaded_engine example_ornament_alt_script)).steps.getD 0
            pad_step).degree - 1)
          ((first_pattern (loaded_engine example_ornament_alt_script)).steps.getD 0
            pad_step).degree_octave = (7, -1)
      ∧ grace_degree_octave
          ((first_pattern (loaded_engine example_ornament_alt_script)).steps.getD 0
            pad_step).degree
          ((first_pattern (loaded_engine example_ornament_alt_script)).steps.getD 0
            pad_step).degree_octave
          (grace_direction (first_track (loaded_engine example_ornament_alt_script)))
        = spec_grace
            (((first_pattern (loaded_engine example_ornament_alt_script)).steps.getD 0
              pad_step).degree - 1)
            ((first_pattern (loaded_engine example_ornament_alt_script)).steps.getD 0
              pad_step).degree_octave
      ∧ grace_alt_after (first_track (loaded_engine example_ornament_alt_script)) = 1 :=
  ⟨by decide!, by decide!, by decide!, by decide!, by decide!,
    ((grace_degree_wraps (loaded_engine example_ornament_alt_script)
      (first_track (loaded_engine example_ornament_alt_script))
      ((first_pattern (loaded_engine example_ornament_alt_script)).steps.getD 0 pad_step)
      (by decide!)).2.2.1 (by decide!)).1 (by decide!)⟩

/-! ### Divisions of the sequencer -/

theorem c_div_some (a : Int) {b : Int} (h : b ≠ 0) : c_div a b = some (Int.tdiv a b) := by
  unfold c_div
  rw [if_neg h]

theorem c_mod_some (a : Int) {b : Int} (h : b ≠ 0) : c_mod a b = some (Int.tmod a b) := by
  unfold c_mod
  rw [if_neg h]

theorem f_div_some (a : ℚ) {b : ℚ} (h : b ≠ 0) : f_div a b = some (a / b) := by
  unfold f_div
  rw [if_neg h]

theorem f_div_product_some (a : ℚ) {b c : ℚ} (hb : 1 / 1000 ≤ b) (hc : 1 / 2 ^ 126 ≤ c) :
    f_div_product a b c = some (a / (b * c)) := by
  unfold f_div_product
  have hpos : (0 : ℚ) < 1 / 2 ^ 126 := by positivity
  have hprod : 1 / 1000 * (1 / 2 ^ 126) ≤ b * c :=
    mul_le_mul hb hc (le_of_lt hpos) (by linarith)
  have hsmall : (1 : ℚ) / 2 ^ 150 < 1 / 1000 * (1 / 2 ^ 126) := by norm_num
  rw [if_neg]
  rw [abs_of_pos (by linarith)]
  linarith

theorem map_normal_getD (prog : Program) (hm : MapNormal prog) (i : Nat) :
    prog.tempo_map.getD i 0 ≤ 0 ∨ 1 / 2 ^ 126 ≤ prog.tempo_map.getD i 0 := by
  by_cases hi : i < prog.tempo_map.length
  · rw [List.getD_eq_getElem _ _ hi]
    exact hm _ (List.getElem_mem _)
  · rw [List.getD_eq_default _ _ (by omega)]
    exact Or.inl (le_refl 0)

theorem render_frames_program (n : Nat) :
    ∀ e : EngineState, (render_frames n e).program = e.program := by
  induction n with
  | zero => intro e; rfl
  | succ n ih => intro e; exact (ih (render_frame e)).trans (render_frame_program e)

theorem effective_pattern_length_total (e : EngineState) (p : PatternDef) :
    effective_pattern_length_checked e p = some (effective_pattern_length e p) := by
  unfold effective_pattern_length_checked effective_pattern_length
  dsimp only
  split
  · rfl
  · split
    · rfl
    · split
      · rfl
      · rename_i hnd
        have hden : e.program.time_sig_den_map.getD (meter_section e).toNat 0 ≠ 0 := by omega
        rw [c_mod_some 16 hden, c_div_some 16 hden]
        dsimp only
        split
        · rfl
        · split
          · rfl
          · rename_i hbar
            rw [c_mod_some _ (show e.program.time_sig_num_map.getD (meter_section e).toNat 0
              * Int.tdiv 16 (e.program.time_sig_den_map.getD (meter_section e).toNat 0) ≠ 0
              by omega)]
            dsimp only
            split <;> rfl

theorem track_cycle_steps_total (e : EngineState) (t : TrackRuntime) (p : PatternDef) :
    track_cycle_steps_checked e t p = some (track_cycle_steps e t p) := by
  unfold track_cycle_steps_checked track_cycle_steps
  rw [effective_pattern_length_total]

theorem update_track_tempo_total (e : EngineState) (t : TrackRuntime)
    (hm : MapNormal e.program) (h : 1 / 1000 ≤ t.base_rate) :
    update_track_tempo_checked e t = some (update_track_tempo e t) := by
  unfold update_track_tempo_checked update_track_tempo
  dsimp only
  split
  · rfl
  · have hmap : 1 / 2 ^ 126 ≤ (if e.program.tempo_map.getD e.tempo_section.toNat 0 ≤ 0
        then (1 : ℚ) else e.program.tempo_map.getD e.tempo_section.toNat 0) := by
      split
      · norm_num
      · rename_i hpos
        exact (map_normal_getD e.program hm _).resolve_left hpos
    rw [f_div_product_some _ h hmap]

theorem update_tracks_total (e : EngineState) (ts : List TrackRuntime)
    (hm : MapNormal e.program) (h : ∀ t ∈ ts, 1 / 1000 ≤ t.base_rate) :
    update_tracks_checked e ts = some (ts.map (update_track_tempo e)) := by
  induction ts with
  | nil => rfl
  | cons t ts ih =>
    unfold update_tracks_checked
    rw [update_track_tempo_total e t hm (h t (List.mem_cons_self t ts)),
      ih (fun u hu => h u (List.mem_cons_of_mem t hu))]
    rfl

theorem update_all_track_tempos_total (e : EngineState) (hm : MapNormal e.program)
    (h : ∀ t ∈ e.tracks, 1 / 1000 ≤ t.base_rate) :
    update_all_track_tempos_checked e = some (update_all_track_tempos e) := by
  unfold update_all_track_tempos_checked update_all_track_tempos
  rw [update_tracks_total e e.tracks hm h]

theorem advance_sequence_rest (e : EngineState) (t : TrackRuntime)
    (hm : MapNormal e.program) (he : ∀ u ∈ e.tracks, 1 / 1000 ≤ u.base_rate)
    (h : 1 / 1000 ≤ t.base_rate) :
    ∀ (rep : Int) (seq : SequenceDef), ¬ seq.count = 0 →
    (if t.seq_repeat_done + 1 ≥ rep then
      match c_mod (t.seq_index + 1) seq.count with
      | none => none
      | some seq_index =>
        match c_mod (t.seq_pos + 1) seq.count with
        | none => none
        | some seq_pos =>
          if t.is_tempo_leader ≠ 0 then
            match c_mod seq_pos (if (seq.count : Int) < 1 then 14 else (seq.count : Int)) with
            | none => none
            | some r =>
              match update_all_track_tempos_checked
                  { e with pattern_epoch := (e.pattern_epoch + 1) % 2 ^ 64,
                           tempo_section := r + 1 } with
              | none => none
              | some engine1 =>
                match update_track_tempo_checked
                    { e with pattern_epoch := (e.pattern_epoch + 1) % 2 ^ 64,
                             tempo_section := r + 1 }
                    { t with seq_repeat_done := 0, seq_index := seq_index,
                             seq_pos := seq_pos } with
                | none => none
                | some track1 => some (engine1, track1)
          else
            match update_track_tempo_checked
                { e with pattern_epoch := (e.pattern_epoch + 1) % 2 ^ 64 }
                { t with seq_repeat_done := 0, seq_index := seq_index,
                         seq_pos := seq_pos } with
            | none => none
            | some track1 =>
              some ({ e with pattern_epoch := (e.pattern_epoch + 1) % 2 ^ 64 }, track1)
    else some (e, { t with seq_repeat_done := t.seq_repeat_done + 1 }))
    = some (if t.seq_repeat_done + 1 ≥ rep then
        if t.is_tempo_leader ≠ 0 then
          (update_all_track_tempos
              { e with pattern_epoch := (e.pattern_epoch + 1) % 2 ^ 64,
                       tempo_section :=
                        Int.tmod (Int.tmod (t.seq_pos + 1) seq.count)
                          (if (seq.count : Int) < 1 then 14 else (seq.count : Int)) + 1 },
            update_track_tempo
              { e with pattern_epoch := (e.pattern_epoch + 1) % 2 ^ 64,
                       tempo_section :=
                        Int.tmod (Int.tmod (t.seq_pos + 1) seq.count)
                          (if (seq.count : Int) < 1 then 14 else (seq.count : Int)) + 1 }
              { t with seq_repeat_done := 0,
                       seq_index := Int.tmod (t.seq_index + 1) seq.count,
                       seq_pos := Int.tmod (t.seq_pos + 1) seq.count })
        else
          ({ e with pattern_epoch := (e.pattern_epoch + 1) % 2 ^ 64 },
            update_track_tempo { e with pattern_epoch := (e.pattern_epoch + 1) % 2 ^ 64 }
              { t with seq_repeat_done := 0,
                       seq_index := Int.tmod (t.seq_index + 1) seq.count,
                       seq_pos := Int.tmod (t.seq_pos + 1) seq.count })
      else (e, { t with seq_repeat_done := t.seq_repeat_done + 1 })) := by
  intro rep seq hc
  have hcount : (seq.count : Int) ≠ 0 := by exact_mod_cast hc
  by_cases hr : t.seq_repeat_done + 1 ≥ rep
  · rw [if_pos hr, if_pos hr, c_mod_some _ hcount, c_mod_some _ hcount]
    dsimp only
    by_cases hl : t.is_tempo_leader ≠ 0
    · rw [if_pos hl, if_pos hl, c_mod_some _
        (show (if (seq.count : Int) < 1 then 14 else (seq.count : Int)) ≠ 0
          by split <;> omega)]
      dsimp only
      rw [update_all_track_tempos_total, update_track_tempo_total]
      all_goals first | exact h | exact he | exact hm
    · rw [if_neg hl, if_neg hl, update_track_tempo_total]
      all_goals first | exact h | exact hm
  · rw [if_neg hr, if_neg hr]

theorem advance_sequence_total (e : EngineState) (t : TrackRuntime)
    (hm : MapNormal e.program) (he : ∀ u ∈ e.tracks, 1 / 1000 ≤ u.base_rate)
    (h : 1 / 1000 ≤ t.base_rate) :
    advance_sequence_checked e t = some (advance_sequence e t) := by
  unfold advance_sequence_checked advance_sequence
  cases hs : t.sequence with
  | none => rfl
  | some seq =>
    dsimp only
    by_cases hc : seq.count = 0
    · rw [if_pos hc, if_pos hc]
    · rw [if_neg hc, if_neg hc]
      cases seq.steps.get? t.seq_index.toNat with
      | none => exact advance_sequence_rest e { t with sequence := some seq } hm he h 0 seq hc
      | some step =>
        exact advance_sequence_rest e { t with sequence := some seq } hm he h
          step.repeat_count seq hc

theorem step_pattern_index_total (t : TrackRuntime) (L : Int) (hL : 0 < L) :
    step_pattern_index_checked t L = some (step_pattern_index t L) := by
  unfold step_pattern_index_checked step_pattern_index
  dsimp only
  have hbase : (if t.iter > 1 then c_div t.step_index t.iter else some t.step_index)
      = some (if t.iter > 1 then Int.tdiv t.step_index t.iter else t.step_index) := by
    split
    · rw [c_div_some _ (by omega)]
    · rfl
  rw [hbase]
  dsimp only
  by_cases hp : t.palindrome ≠ 0 ∧ L > 1
  · rw [if_pos hp, if_pos hp, c_mod_some _ (show L * 2 - 2 ≠ 0 by omega)]
  · rw [if_neg hp, if_neg hp, c_mod_some _ (show L ≠ 0 by omega)]

theorem chunk_skips_total (t : TrackRuntime) (L idx : Int) (hL : 0 < L) :
    chunk_skips_checked t L idx = some (chunk_skips t L idx) := by
  unfold chunk_skips_checked chunk_skips
  split
  · rename_i hc
    dsimp only
    have hcc : (if t.chunk < 1 then 1 else t.chunk) ≠ 0 := by split <;> omega
    have hbase : (if t.iter > 1 then c_div t.step_index t.iter else some t.step_index)
        = some (if t.iter > 1 then Int.tdiv t.step_index t.iter else t.step_index) := by
      split
      · rw [c_div_some _ (by omega)]
      · rfl
    rw [c_div_some _ hcc, hbase]
    dsimp only
    rw [c_div_some _ (show L ≠ 0 by omega)]
    dsimp only
    rw [c_mod_some _ hcc]
  · rfl

theorem step_gate_total (t : TrackRuntime) : step_gate_checked t = some (step_gate t) := by
  unfold step_gate_checked step_gate
  have hpass : (if t.every > 1 then
      match c_mod t.step_index t.every with
      | none => none
      | some m => some (!decide (m ≠ 0))
    else some true)
      = some (!decide (t.every > 1 ∧ Int.tmod t.step_index t.every ≠ 0)) := by
    split
    · rename_i he
      rw [c_mod_some _ (by omega)]
      dsimp only
      have hd : decide (t.every > 1 ∧ Int.tmod t.step_index t.every ≠ 0)
          = decide (Int.tmod t.step_index t.every ≠ 0) :=
        decide_eq_decide.mpr ⟨fun hm => hm.2, fun hm => ⟨he, hm⟩⟩
      rw [hd]
    · rename_i he
      rw [decide_eq_false (fun hc => he hc.1)]
      rfl
  rw [hpass]
  dsimp only
  split <;> rfl

theorem set_stutter_total (t : TrackRuntime) (f : Freq) :
    set_stutter_checked t f = some (set_stutter t f) := by
  unfold set_stutter_checked set_stutter
  split
  · rw [c_div_some _ (by omega)]
  · rfl

theorem play_step_total (e : EngineState) (t : TrackRuntime) (s : PatternStep) :
    play_step_checked e t s = some (play_step e t s) := by
  unfold play_step_checked play_step
  split
  · dsimp only
    rw [set_stutter_total]
  · rfl

theorem finish_step_total (e : EngineState) (t : TrackRuntime) (p : PatternDef)
    (hm : MapNormal e.program) (he : ∀ u ∈ e.tracks, 1 / 1000 ≤ u.base_rate)
    (h : 1 / 1000 ≤ t.base_rate) :
    finish_step_checked e t p = some (finish_step e t p) := by
  unfold finish_step_checked finish_step
  rw [track_cycle_steps_total]
  dsimp only
  by_cases hc : track_cycle_steps e t p > 0 ∧ t.step_index + 1 ≥ track_cycle_steps e t p
  · rw [if_pos hc, if_pos hc]
    split
    · rename_i heq
      simp only [heq]
      exact advance_sequence_total e _ hm he h
    · rename_i heq
      simp only [heq]
  · rw [if_neg hc, if_neg hc]

theorem schedule_inactive_total (e : EngineState) (t : TrackRuntime)
    (hm : MapNormal e.program) (he : ∀ u ∈ e.tracks, 1 / 1000 ≤ u.base_rate)
    (h : 1 / 1000 ≤ t.base_rate) :
    schedule_inactive_checked e t = some (schedule_inactive e t) := by
  have hc := (sequence_current_pattern_rng e t).2
  have hadv : ∀ u : TrackRuntime, u.base_rate = (sequence_current_pattern e t).1.base_rate →
      advance_sequence_checked e u = some (advance_sequence e u) :=
    fun u hu => advance_sequence_total e u hm he (by rw [hu, hc]; exact h)
  unfold schedule_inactive_checked schedule_inactive
  cases t.sequence with
  | none => rfl
  | some seq =>
    dsimp only
    by_cases hcount : seq.count > 0
    · rw [if_pos hcount, if_pos hcount]
      cases (sequence_current_pattern e t).2 with
      | none => rfl
      | some p =>
        dsimp only
        rw [track_cycle_steps_total]
        dsimp only
        by_cases h1 : track_cycle_steps e (sequence_current_pattern e t).1 p > 0
        · rw [if_pos h1, if_pos h1]
          by_cases h2 : (sequence_current_pattern e t).1.step_index + 1
              ≥ track_cycle_steps e (sequence_current_pattern e t).1 p
          · rw [if_pos h2, if_pos h2]
            exact hadv _ rfl
          · rw [if_neg h2, if_neg h2]
        · rw [if_neg h1, if_neg h1]
    · rw [if_neg hcount, if_neg hcount]

theorem play_step_base_rate (e : EngineState) (t : TrackRuntime) (s : PatternStep) :
    (play_step e t s).2.1.base_rate = t.base_rate := by
  unfold play_step
  split
  · dsimp only
    exact (set_stutter_rng _ _).2.trans (schedule_ornament_rng _ _ s).2
  · rfl

theorem schedule_ornament_tracks (e : EngineState) (t : TrackRuntime) (s : PatternStep) :
    (schedule_ornament e t s).1.tracks = e.tracks := by
  unfold schedule_ornament
  split
  · dsimp only
    split <;> rfl
  · rfl

theorem play_step_tracks (e : EngineState) (t : TrackRuntime) (s : PatternStep) :
    (play_step e t s).1.tracks = e.tracks := by
  unfold play_step
  split
  · dsimp only
    exact schedule_ornament_tracks _ _ s
  · rfl

theorem schedule_track_step_total (e : EngineState) (t : TrackRuntime)
    (hm : MapNormal e.program) (he : ∀ u ∈ e.tracks, 1 / 1000 ≤ u.base_rate)
    (h : 1 / 1000 ≤ t.base_rate) :
    schedule_track_step_checked e t = some (schedule_track_step e t) := by
  have hc := (sequence_current_pattern_rng e t).2
  have hcur : 1 / 1000 ≤ (sequence_current_pattern e t).1.base_rate := by rw [hc]; exact h
  unfold schedule_track_step_checked schedule_track_step
  by_cases ha : (!track_active_for_sequence t) = true
  · rw [if_pos ha, if_pos ha, schedule_inactive_total e t hm he h]
  · rw [if_neg ha, if_neg ha]
    cases (sequence_current_pattern e t).2 with
    | none => rfl
    | some pattern =>
      dsimp only
      rw [effective_pattern_length_total]
      dsimp only
      by_cases hl : pattern.length = 0 ∨ effective_pattern_length e pattern ≤ 0
      · rw [if_pos hl, if_pos hl]
      · rw [if_neg hl, if_neg hl,
          step_pattern_index_total _ _ (show 0 < effective_pattern_length e pattern by omega)]
        dsimp only
        rw [chunk_skips_total _ _ _ (show 0 < effective_pattern_length e pattern by omega)]
        dsimp only
        cases chunk_skips (sequence_current_pattern e t).1 (effective_pattern_length e pattern)
            (step_pattern_index (sequence_current_pattern e t).1
              (effective_pattern_length e pattern)) with
        | true => rfl
        | false =>
          rw [if_neg Bool.false_ne_true, if_neg Bool.false_ne_true, step_gate_total]
          dsimp only
          by_cases hg : (step_gate (sequence_current_pattern e t).1).2 = true
              ∧ step_pattern_index (sequence_current_pattern e t).1
                  (effective_pattern_length e pattern) < pattern.length
          · rw [if_pos hg, if_pos hg]
            cases pattern.steps.get? (step_pattern_index (sequence_current_pattern e t).1
                (effective_pattern_length e pattern)).toNat with
            | none =>
              dsimp only
              rw [finish_step_total]
              · exact hm
              · exact he
              · exact hcur
            | some st =>
              dsimp only
              rw [play_step_total]
              dsimp only
              rw [finish_step_total]
              · rw [play_step_program]
                exact hm
              · rw [play_step_tracks]
                exact he
              · rw [play_step_base_rate]
                exact hcur
          · rw [if_neg hg, if_neg hg]
            dsimp only
            rw [finish_step_total]
            · exact hm
            · exact he
            · exact hcur

theorem track_base_rate_total (d : TrackDef) :
    track_base_rate_checked d = some (track_base_rate d) ∧ 1 / 1000 ≤ track_base_rate d := by
  refine ⟨?_, ?_⟩
  · unfold track_base_rate_checked track_base_rate
    dsimp only
    have hs : (if d.slow > 1 then
          f_div (if d.fast > 1 then d.rate * d.hurry * (d.fast : ℚ) else d.rate * d.hurry)
            (d.slow : ℚ)
        else some (if d.fast > 1 then d.rate * d.hurry * (d.fast : ℚ) else d.rate * d.hurry))
        = some (if d.slow > 1 then
            (if d.fast > 1 then d.rate * d.hurry * (d.fast : ℚ) else d.rate * d.hurry)
              / (d.slow : ℚ)
          else (if d.fast > 1 then d.rate * d.hurry * (d.fast : ℚ) else d.rate * d.hurry)) := by
      split
      · rename_i hslow
        rw [f_div_some _ (by
          have : (1 : ℚ) < (d.slow : ℚ) := by exact_mod_cast hslow
          exact ne_of_gt (lt_trans one_pos this))]
      · rfl
    rw [hs]
  · have key : ∀ m : ℚ, 1 / 1000 ≤ (if m ≤ 1 / 1000 then 1 / 1000 else m) := by
      intro m
      split
      · exact le_refl _
      · rename_i hm
        exact le_of_lt (lt_of_not_ge hm)
    unfold track_base_rate
    exact key _

theorem init_track_runtime_total (e : EngineState) (i : Nat) (d : TrackDef)
    (p : Option PatternDef) (sy : SynthDef) (q : Option SequenceDef) (l : Int)
    (hm : MapNormal e.program) :
    init_track_runtime_checked e i d p sy q l = some (init_track_runtime e i d p sy q l)
      ∧ 1 / 1000 ≤ (init_track_runtime e i d p sy q l).base_rate := by
  have hb := track_base_rate_total d
  refine ⟨?_, ?_⟩
  · unfold init_track_runtime_checked init_track_runtime
    rw [hb.1]
    dsimp only
    rw [f_div_some _ (ne_of_gt (lt_of_lt_of_le (by norm_num) hb.2))]
    dsimp only
    rw [update_track_tempo_total]
    · exact hm
    · exact hb.2
  · unfold init_track_runtime
    rw [(update_track_tempo_rng _ _).2]
    exact hb.2

theorem build_runtime_loop_base_rate (e : EngineState) (tracks : List TrackDef) :
    ∀ (i : Nat) (leader_set : Bool) (acc out : List TrackRuntime),
      build_runtime_loop e i leader_set tracks acc = some out →
      (∀ t ∈ acc, 1 / 1000 ≤ t.base_rate) → ∀ t ∈ out, 1 / 1000 ≤ t.base_rate := by
  induction tracks with
  | nil =>
    intro i leader_set acc out h hacc
    unfold build_runtime_loop at h
    cases h
    exact hacc
  | cons td rest ih =>
    intro i leader_set acc out h hacc
    unfold build_runtime_loop at h
    dsimp only at h
    split at h
    · exact Option.noConfusion h
    · split at h
      · exact Option.noConfusion h
      · split at h
        · exact Option.noConfusion h
        · refine ih _ _ _ _ h ?_
          intro t ht
          rcases List.mem_append.mp ht with ht | ht
          · exact hacc t ht
          · rw [List.mem_singleton] at ht
            rw [ht]
            unfold init_track_runtime
            rw [(update_track_tempo_rng _ _).2]
            exact (track_base_rate_total _).2

theorem schedule_track_step_base_rate (e : EngineState) (t : TrackRuntime) :
    (schedule_track_step e t).track.base_rate = t.base_rate := by
  have hc := (sequence_current_pattern_rng e t).2
  unfold schedule_track_step
  split
  · exact (schedule_inactive_rng e t).2
  · split
    · exact hc
    · dsimp only
      split
      · exact hc
      · split
        · exact hc
        · split
          · split
            · exact (finish_step_rng _ _ _).2.trans ((play_step_base_rate _ _ _).trans hc)
            · exact (finish_step_rng _ _ _).2.trans hc
          · exact (finish_step_rng _ _ _).2.trans hc

theorem base_rate_invariant : TrackInvariant (fun t => 1 / 1000 ≤ t.base_rate) where
  tempoed := fun t u h ht => by
    show 1 / 1000 ≤ u.base_rate
    rw [(tempoed_rng h).2]; exact ht
  step := fun e t ht => by
    show 1 / 1000 ≤ (schedule_track_step e t).track.base_rate
    have := schedule_track_step_base_rate e t
    rw [this]; exact ht
  countdown := fun _ _ ht => ht
  stutter := fun _ _ _ ht => ht
  stutter_wait := fun _ _ ht => ht

theorem osc_sample_supersaw (m : Libm) (v : SynthVoice) (h : v.type = .SYNTH_SUPERSAW) :
    osc_sample m v = (v, 0) := by
  unfold osc_sample
  rw [h]

theorem render_glide_fields (v : SynthVoice) :
    (render_glide v).type = v.type ∧ (render_glide v).filter_state = v.filter_state
      ∧ (render_glide v).voice = v.voice := by
  unfold render_glide
  split <;> exact ⟨rfl, rfl, rfl⟩

theorem render_pitch_env_fields (v : SynthVoice) :
    (render_pitch_env v).type = v.type ∧ (render_pitch_env v).filter_state = v.filter_state
      ∧ (render_pitch_env v).voice = v.voice := by
  unfold render_pitch_env
  split <;> exact ⟨rfl, rfl, rfl⟩

theorem render_highpass_supersaw (m : Libm) (u : SynthVoice) (x sample_rate : ℚ)
    (h : u.type = .SYNTH_SUPERSAW) : render_highpass m u x sample_rate = (u, x) := by
  unfold render_highpass
  rw [h]
  rfl

theorem tone_filter_supersaw (m : Libm) (u : SynthVoice) (sample_rate : ℚ)
    (h1 : u.type = .SYNTH_SUPERSAW) (h2 : u.filter_state = 0) :
    (tone_filter m u 0 sample_rate).2 = 0
      ∧ (tone_filter m u 0 sample_rate).1.type = .SYNTH_SUPERSAW
      ∧ (tone_filter m u 0 sample_rate).1.filter_state = 0 := by
  have hz : (1 - m.expf (-2 * M_PI_F * u.cutoff / sample_rate)) * 0
      + m.expf (-2 * M_PI_F * u.cutoff / sample_rate) * u.filter_state = 0 := by
    rw [h2]
    ring
  unfold tone_filter
  dsimp only
  rw [if_neg (by rw [h1]; decide), if_neg (by rw [h1]; decide), if_neg (by rw [h1]; decide),
    if_neg (by rw [h1]; decide)]
  exact ⟨hz, h1, hz⟩

theorem voice_render_full_supersaw (m : Libm) (v : SynthVoice) (sample_rate : ℚ)
    (ht : v.type = .SYNTH_SUPERSAW) (hf : v.filter_state = 0) :
    (voice_render_full m v sample_rate).2 = 0
      ∧ (voice_render_full m v sample_rate).1.type = .SYNTH_SUPERSAW
      ∧ (voice_render_full m v sample_rate).1.filter_state = 0 := by
  have ht2 : (render_pitch_env (render_glide { v with voice := voice_render v.voice })).type
      = .SYNTH_SUPERSAW := by
    rw [(render_pitch_env_fields _).1, (render_glide_fields _).1]
    exact ht
  have hf2 : (render_pitch_env (render_glide
      { v with voice := voice_render v.voice })).filter_state = 0 := by
    rw [(render_pitch_env_fields _).2.1, (render_glide_fields _).2.1]
    exact hf
  unfold voice_render_full
  split
  · exact ⟨rfl, ht, hf⟩
  · split
    · exact ⟨rfl, ht, hf⟩
    · dsimp only
      rw [osc_sample_supersaw m _ ht2]
      generalize render_pitch_env (render_glide { v with voice := voice_render v.voice }) = w
        at ht2 hf2
      dsimp only
      rw [render_highpass_supersaw m _ _ _ (show (render_phase w sample_rate).type = _ from ht2)]
      dsimp only
      obtain ⟨a, b, c⟩ := tone_filter_supersaw m (render_phase w sample_rate) sample_rate
        ht2 hf2
      rw [b, show is_pm_type .SYNTH_SUPERSAW = false from rfl, if_neg Bool.false_ne_true, a]
      exact ⟨by ring, b, c⟩

/-- C40 (amended). A voice started by a note-on of a synth of the type `supersaw`, a keyword
that `parse_synth_type` accepts, renders exactly 0 at every one of its samples in the
arithmetic of numbers: `osc_sample` has no case for the type and gives 0, the voice takes
the plain one-pole filter, whose state the note-on has set to 0 and which stays 0, and no
later stage applies. This holds for every voice the note-on finds, every frequency, gate,
amplitude and synth parameter, every sample rate and whatever the functions of `math.h`
return. In the arithmetic of floats the returned product `0 * env * amp` of line 671 is 0
whenever the envelope level and the amplitude are finite. -/
theorem supersaw_renders_zero (m : Libm) (v : SynthVoice) (n : NoteOn) (sample_rate : ℚ)
    (h : n.synth.type = .SYNTH_SUPERSAW) :
    parse_synth_type (cstr "supersaw") = some .SYNTH_SUPERSAW
      ∧ osc_sample m (voice_note_on_full m v n) = (voice_note_on_full m v n, 0)
      ∧ (voice_note_on_full m v n).voice.active = true
      ∧ (∀ k : Nat, ∀ x ∈ render_samples m sample_rate k (voice_note_on_full m v n), x = 0)
      ∧ ∀ env amp : ℚ, voice_output (.finite 0) (.finite env) (.finite amp) = .finite 0 := by
  have ht : (voice_note_on_full m v n).type = .SYNTH_SUPERSAW := h
  have hf : (voice_note_on_full m v n).filter_state = 0 := rfl
  have hzero : float_of_rat 0 = .finite 0 := by decide!
  have hmul : ∀ x : ℚ, (CFloat.finite 0).mul (.finite x) = .finite 0 := by
    intro x
    show float_of_rat (0 * x) = _
    rw [zero_mul]
    exact hzero
  refine ⟨by decide, osc_sample_supersaw m _ ht, rfl, ?_, fun env amp => by
    unfold voice_output
    rw [hmul env, hmul amp]⟩
  intro k
  generalize voice_note_on_full m v n = w at ht hf
  induction k generalizing w with
  | zero =>
    intro x hx
    exact absurd hx (List.not_mem_nil x)
  | succ k ih =>
    intro x hx
    obtain ⟨a, b, c⟩ := voice_render_full_supersaw m w sample_rate ht hf
    rcases List.mem_cons.mp hx with hx | hx
    · rw [hx]
      exact a
    · exact ih _ b c x hx

theorem supersaw_renders_zero_witness :
    example_supersaw_note.synth.type = .SYNTH_SUPERSAW
      ∧ example_supersaw_note.synth.cutoff = 500
      ∧ (render_voice example_libm 48000 5
          (voice_note_on_full example_libm zero_synth_voice example_supersaw_note)).voice.active
        = true
      ∧ 0 < (render_voice example_libm 48000 5
          (voice_note_on_full example_libm zero_synth_voice example_supersaw_note)).voice.env
      ∧ 0 < (render_voice example_libm 48000 5
          (voice_note_on_full example_libm zero_synth_voice example_supersaw_note)).amp
      ∧ ∀ x ∈ render_samples example_libm 48000 5
          (voice_note_on_full example_libm zero_synth_voice example_supersaw_note), x = 0 :=
  ⟨by decide!, by decide!, by decide!, by decide!, by decide!,
    (supersaw_renders_zero example_libm zero_synth_voice example_supersaw_note 48000
      (by decide!)).2.2.2.1 5⟩

/-! ### The delay line -/

theorem comb_kept_refl (u : SynthVoice) : CombKept u u := ⟨rfl, rfl, rfl, rfl⟩

theorem comb_kept_trans {u v w : SynthVoice} (h1 : CombKept u v) (h2 : CombKept v w) :
    CombKept u w :=
  ⟨h2.1.trans h1.1, h2.2.1.trans h1.2.1, h2.2.2.1.trans h1.2.2.1, h2.2.2.2.trans h1.2.2.2⟩

theorem comb_length_range (t : SynthType) (freq sample_rate : ℚ) :
    8 ≤ comb_length t freq sample_rate ∧ comb_length t freq sample_rate ≤ 4096 := by
  unfold comb_length COMB_MAX_SAMPLES
  dsimp only
  generalize (if t = SynthType.SYNTH_PM_KICK then c_trunc (sample_rate / 55)
    else if t = SynthType.SYNTH_PM_SNARE then c_trunc (sample_rate / 180)
    else if t = SynthType.SYNTH_PM_HAT then c_trunc (sample_rate / 7000)
    else if t = SynthType.SYNTH_PM_CLAP then c_trunc (sample_rate / 260)
    else if t = SynthType.SYNTH_PM_TOM then c_trunc (sample_rate / 120)
    else c_trunc (sample_rate / max freq 40)) = len
  have hmax : ((4096 : Nat) : Int) = 4096 := rfl
  rw [hmax]
  by_cases h8 : len < 8
  · rw [if_pos h8, if_neg (by decide)]
    decide
  · rw [if_neg h8]
    split <;> omega

theorem render_glide_comb (v : SynthVoice) : CombKept v (render_glide v) := by
  unfold render_glide
  split <;> exact ⟨rfl, rfl, rfl, rfl⟩

theorem render_pitch_env_comb (v : SynthVoice) : CombKept v (render_pitch_env v) := by
  unfold render_pitch_env
  split <;> exact ⟨rfl, rfl, rfl, rfl⟩

theorem render_phase_comb (v : SynthVoice) (sample_rate : ℚ) :
    CombKept v (render_phase v sample_rate) := ⟨rfl, rfl, rfl, rfl⟩

theorem render_highpass_comb (m : Libm) (v : SynthVoice) (x sample_rate : ℚ) :
    CombKept v (render_highpass m v x sample_rate).1 := by
  unfold render_highpass
  split <;> exact ⟨rfl, rfl, rfl, rfl⟩

theorem tone_filter_comb (m : Libm) (v : SynthVoice) (x sample_rate : ℚ) :
    CombKept v (tone_filter m v x sample_rate).1 := by
  unfold tone_filter
  dsimp only
  split
  · exact ⟨rfl, rfl, rfl, rfl⟩
  · split
    · exact ⟨rfl, rfl, rfl, rfl⟩
    · split
      · exact ⟨rfl, rfl, rfl, rfl⟩
      · split <;> exact ⟨rfl, rfl, rfl, rfl⟩

theorem pm_shape_comb (m : Libm) (v : SynthVoice) (x sample_rate : ℚ) :
    CombKept v (pm_shape m v x sample_rate).1 := ⟨rfl, rfl, rfl, rfl⟩

theorem osc_sample_comb (m : Libm) (v : SynthVoice) :
    (osc_sample m v).1.type = v.type ∧ (osc_sample m v).1.comb_len = v.comb_len
      ∧ ((is_delay_type v.type = false ∧ (osc_sample m v).1.comb_idx = v.comb_idx
          ∧ (osc_sample m v).1.comb_buf = v.comb_buf)
        ∨ (is_delay_type v.type = true
          ∧ (osc_sample m v).1.comb_idx = Int.tmod (v.comb_idx + 1) v.comb_len
          ∧ (osc_sample m v).1.comb_buf.length = v.comb_buf.length)) := by
  unfold osc_sample comb_sample
  cases ht : v.type <;> dsimp only <;>
    first
    | exact ⟨ht, rfl, Or.inl ⟨by decide, rfl, rfl⟩⟩
    | exact ⟨rfl, rfl, Or.inl ⟨by decide, rfl, rfl⟩⟩
    | exact ⟨rfl, rfl, Or.inr ⟨by decide, rfl, List.length_set _ _ _⟩⟩

theorem voice_render_full_comb (m : Libm) (v : SynthVoice) (sample_rate : ℚ) :
    (voice_render_full m v sample_rate).1.type = v.type
      ∧ (voice_render_full m v sample_rate).1.comb_len = v.comb_len
      ∧ (voice_render_full m v sample_rate).1.comb_buf.length = v.comb_buf.length
      ∧ ((voice_render_full m v sample_rate).1.comb_idx = v.comb_idx
        ∨ (is_delay_type v.type = true
          ∧ (voice_render_full m v sample_rate).1.comb_idx
              = Int.tmod (v.comb_idx + 1) v.comb_len)) := by
  unfold voice_render_full
  split
  · exact ⟨rfl, rfl, rfl, Or.inl rfl⟩
  · split
    · exact ⟨rfl, rfl, rfl, Or.inl rfl⟩
    · dsimp only
      have h0 : CombKept v
          (render_pitch_env (render_glide { v with voice := voice_render v.voice })) :=
        comb_kept_trans
          (comb_kept_trans
            (show CombKept v { v with voice := voice_render v.voice } from ⟨rfl, rfl, rfl, rfl⟩)
            (render_glide_comb _))
          (render_pitch_env_comb _)
      generalize render_pitch_env (render_glide { v with voice := voice_render v.voice }) = w
        at h0
      have ho := osc_sample_comb m w
      have h1 : CombKept (osc_sample m w).1
          (tone_filter m
            (render_highpass m (render_phase (osc_sample m w).1 sample_rate)
              (osc_sample m w).2 sample_rate).1
            (render_highpass m (render_phase (osc_sample m w).1 sample_rate)
              (osc_sample m w).2 sample_rate).2 sample_rate).1 :=
        comb_kept_trans (comb_kept_trans (render_phase_comb _ _) (render_highpass_comb _ _ _ _))
          (tone_filter_comb _ _ _ _)
      generalize tone_filter m
            (render_highpass m (render_phase (osc_sample m w).1 sample_rate)
              (osc_sample m w).2 sample_rate).1
            (render_highpass m (render_phase (osc_sample m w).1 sample_rate)
              (osc_sample m w).2 sample_rate).2 sample_rate = f at h1
      have h2 : CombKept (osc_sample m w).1
          (if is_pm_type f.1.type = true then pm_shape m f.1 f.2 sample_rate else f).1 := by
        split
        · exact comb_kept_trans h1 (pm_shape_comb _ _ _ _)
        · exact h1
      generalize (if is_pm_type f.1.type = true then pm_shape m f.1 f.2 sample_rate else f)
        = p at h2
      refine ⟨?_, ?_, ?_, ?_⟩
      · show p.1.type = v.type
        rw [h2.1, ho.1, h0.1]
      · show p.1.comb_len = v.comb_len
        rw [h2.2.1, ho.2.1, h0.2.1]
      · show p.1.comb_buf.length = v.comb_buf.length
        rw [h2.2.2.2]
        rcases ho.2.2 with hc | hc
        · rw [hc.2.2, h0.2.2.2]
        · rw [hc.2.2, h0.2.2.2]
      · show p.1.comb_idx = v.comb_idx ∨ _
        rw [h2.2.2.1]
        rcases ho.2.2 with hc | hc
        · left
          rw [hc.2.1, h0.2.2.1]
        · right
          rw [h0.1] at hc
          rw [hc.2.1, h0.2.2.1, h0.2.1]
          exact ⟨hc.1, rfl⟩

theorem voice_render_full_delay_ok (m : Libm) (v : SynthVoice) (sample_rate : ℚ)
    (h : DelayOk v) : DelayOk (voice_render_full m v sample_rate).1 := by
  obtain ⟨h1, h2, h3, h4⟩ := voice_render_full_comb m v sample_rate
  refine ⟨h3.trans h.1, ?_⟩
  intro ht
  rw [h1] at ht
  have hv := h.2 ht
  rw [h2]
  rcases h4 with h4 | h4
  · rw [h4]
    exact hv
  · rw [h4.2]
    exact ⟨hv.1, hv.2.1, Int.tmod_nonneg _ (by omega), Int.tmod_lt_of_pos _ (by omega)⟩

theorem voice_note_on_full_delay_ok (m : Libm) (v : SynthVoice) (n : NoteOn)
    (h : DelayOk v) : DelayOk (voice_note_on_full m v n) := by
  have hr := comb_length_range n.synth.type (freq_value m n.freq) n.sample_rate
  have hlen : (comb_length n.synth.type (freq_value m n.freq) n.sample_rate).toNat ≤ 4096 := by
    omega
  have hbuf : v.comb_buf.length = 4096 := h.1
  unfold voice_note_on_full DelayOk
  dsimp only
  by_cases ht : is_delay_type n.synth.type = true
  · rw [if_pos ht, if_pos ht, if_pos ht]
    refine ⟨?_, fun _ => ⟨hr.1, hr.2, le_refl _, by omega⟩⟩
    rw [List.length_append, List.length_replicate, List.length_drop, hbuf]
    show _ = 4096
    omega
  · rw [if_neg ht, if_neg ht, if_neg ht]
    exact ⟨h.1, fun hc => absurd hc ht⟩

theorem render_voice_delay_ok (m : Libm) (sample_rate : ℚ) (k : Nat) :
    ∀ v : SynthVoice, DelayOk v → DelayOk (render_voice m sample_rate k v)
      ∧ (render_voice m sample_rate k v).type = v.type
      ∧ (render_voice m sample_rate k v).comb_len = v.comb_len := by
  induction k with
  | zero => intro v h; exact ⟨h, rfl, rfl⟩
  | succ k ih =>
    intro v h
    have hs := ih _ (voice_render_full_delay_ok m v sample_rate h)
    have hc := voice_render_full_comb m v sample_rate
    exact ⟨hs.1, hs.2.1.trans hc.1, hs.2.2.trans hc.2.1⟩

/-- C37. The delay buffer of a voice has 4096 entries. A note-on of a type with a delay
line (comb and the eight `pm_*` types), at whatever frequency and sample rate, sets
`8 <= comb_len <= 4096` and `comb_idx = 0`; after every number of rendered samples
`comb_len` is still the same and `0 <= comb_idx < comb_len`, so the entry of the buffer
that the next sample reads and writes, `comb_buf[comb_idx]`, is one of the 4096. A note-on
of any type and a rendered sample keep the delay line of any voice in order. -/
theorem delay_line_in_bounds (m : Libm) (v : SynthVoice) (n : NoteOn) (sample_rate : ℚ)
    (hbuf : v.comb_buf.length = COMB_MAX_SAMPLES)
    (ht : is_delay_type n.synth.type = true) :
    (8 ≤ (voice_note_on_full m v n).comb_len ∧ (voice_note_on_full m v n).comb_len ≤ 4096
        ∧ (voice_note_on_full m v n).comb_idx = 0)
      ∧ (∀ k : Nat,
          (render_voice m sample_rate k (voice_note_on_full m v n)).comb_len
              = (voice_note_on_full m v n).comb_len
            ∧ 0 ≤ (render_voice m sample_rate k (voice_note_on_full m v n)).comb_idx
            ∧ (render_voice m sample_rate k (voice_note_on_full m v n)).comb_idx
                < (render_voice m sample_rate k (voice_note_on_full m v n)).comb_len
            ∧ (render_voice m sample_rate k (voice_note_on_full m v n)).comb_idx.toNat
                < (render_voice m sample_rate k (voice_note_on_full m v n)).comb_buf.length
            ∧ (render_voice m sample_rate k (voice_note_on_full m v n)).comb_buf.length
                = 4096)
      ∧ (∀ (w : SynthVoice) (n1 : NoteOn), DelayOk w →
          DelayOk (voice_note_on_full m w n1)
            ∧ DelayOk (voice_render_full m w sample_rate).1) := by
  have hr := comb_length_range n.synth.type (freq_value m n.freq) n.sample_rate
  have hlen : (voice_note_on_full m v n).comb_len
      = comb_length n.synth.type (freq_value m n.freq) n.sample_rate := by
    unfold voice_note_on_full
    dsimp only
    rw [if_pos ht]
  have hidx : (voice_note_on_full m v n).comb_idx = 0 := by
    unfold voice_note_on_full
    dsimp only
    rw [if_pos ht]
  have htype : (voice_note_on_full m v n).type = n.synth.type := rfl
  have hlenbuf : (voice_note_on_full m v n).comb_buf.length = COMB_MAX_SAMPLES := by
    have hl : (comb_length n.synth.type (freq_value m n.freq) n.sample_rate).toNat ≤ 4096 := by
      omega
    have hb : v.comb_buf.length = 4096 := hbuf
    unfold voice_note_on_full
    dsimp only
    rw [if_pos ht, List.length_append, List.length_replicate, List.length_drop, hb]
    show _ = 4096
    omega
  have hok : DelayOk (voice_note_on_full m v n) :=
    ⟨hlenbuf, fun _ => by rw [hlen, hidx]; exact ⟨hr.1, hr.2, le_refl _, by omega⟩⟩
  refine ⟨⟨by rw [hlen]; exact hr.1, by rw [hlen]; exact hr.2, hidx⟩, ?_,
    fun w n1 hw => ⟨voice_note_on_full_delay_ok m w n1 hw,
      voice_render_full_delay_ok m w sample_rate hw⟩⟩
  intro k
  obtain ⟨h1, h2, h3⟩ := render_voice_delay_ok m sample_rate k _ hok
  have h4 := h1.2 (by rw [h2, htype]; exact ht)
  have h5 : (render_voice m sample_rate k (voice_note_on_full m v n)).comb_buf.length = 4096 :=
    h1.1
  refine ⟨h3, h4.2.2.1, h4.2.2.2, ?_, h5⟩
  rw [h5]
  omega

theorem delay_line_in_bounds_witness :
    zero_synth_voice.comb_buf.length = COMB_MAX_SAMPLES
      ∧ is_delay_type example_comb_note.synth.type = true
      ∧ (voice_note_on_full example_libm zero_synth_voice example_comb_note).comb_len = 109
      ∧ (render_voice example_libm 48000 120
          (voice_note_on_full example_libm zero_synth_voice example_comb_note)).comb_idx = 11
      ∧ ((render_voice example_libm 48000 120
            (voice_note_on_full example_libm zero_synth_voice example_comb_note)).comb_len
          = (voice_note_on_full example_libm zero_synth_voice example_comb_note).comb_len
        ∧ 0 ≤ (render_voice example_libm 48000 120
            (voice_note_on_full example_libm zero_synth_voice example_comb_note)).comb_idx
        ∧ (render_voice example_libm 48000 120
            (voice_note_on_full example_libm zero_synth_voice example_comb_note)).comb_idx
          < (render_voice example_libm 48000 120
              (voice_note_on_full example_libm zero_synth_voice example_comb_note)).comb_len
        ∧ (render_voice example_libm 48000 120
            (voice_note_on_full example_libm zero_synth_voice example_comb_note)).comb_idx.toNat
          < (render_voice example_libm 48000 120
              (voice_note_on_full example_libm zero_synth_voice
                example_comb_note)).comb_buf.length
        ∧ (render_voice example_libm 48000 120
            (voice_note_on_full example_libm zero_synth_voice
              example_comb_note)).comb_buf.length = 4096) :=
  ⟨by decide!, by decide!, by decide!, by decide!,
    (delay_line_in_bounds example_libm zero_synth_voice example_comb_note 48000
      (by decide!) (by decide!)).2.1 120⟩

/-! ### The delay length of a note -/

theorem clamp_trunc_eq_floor (x : ℚ) :
    (if (if c_trunc x < 8 then 8 else c_trunc x) > 4096 then (4096 : Int)
      else (if c_trunc x < 8 then 8 else c_trunc x))
      = max 8 (min 4096 (Rat.floor x)) := by
  unfold c_trunc
  by_cases h0 : 0 ≤ x
  · rw [if_pos h0]
    generalize Rat.floor x = f
    by_cases h8 : f < 8
    · rw [if_pos h8, if_neg (by decide)]
      omega
    · rw [if_neg h8]
      split <;> omega
  · rw [if_neg h0]
    have hx : x < 0 := lt_of_not_ge h0
    have hf : Rat.floor x ≤ 0 := by
      show ⌊x⌋ ≤ 0
      exact Int.floor_nonpos (le_of_lt hx)
    have hc : Rat.ceil x ≤ 0 := by
      have hn : x.num < 0 := Rat.num_neg.mpr hx
      unfold Rat.ceil
      split
      · omega
      · have := Int.ediv_neg' hn (show (0 : Int) < (x.den : Int) by exact_mod_cast x.den_pos)
        omega
    rw [if_pos (show Rat.ceil x < 8 by omega), if_neg (by decide)]
    omega

theorem comb_length_pitched (t : SynthType) (freq sample_rate : ℚ)
    (ht : is_pitched_delay t = true) :
    comb_length t freq sample_rate
      = max 8 (min 4096 (Rat.floor (sample_rate / max freq 40))) := by
  have h1 : t ≠ .SYNTH_PM_KICK := by intro h; rw [h] at ht; exact absurd ht (by decide)
  have h2 : t ≠ .SYNTH_PM_SNARE := by intro h; rw [h] at ht; exact absurd ht (by decide)
  have h3 : t ≠ .SYNTH_PM_HAT := by intro h; rw [h] at ht; exact absurd ht (by decide)
  have h4 : t ≠ .SYNTH_PM_CLAP := by intro h; rw [h] at ht; exact absurd ht (by decide)
  have h5 : t ≠ .SYNTH_PM_TOM := by intro h; rw [h] at ht; exact absurd ht (by decide)
  unfold comb_length
  dsimp only
  rw [if_neg h1, if_neg h2, if_neg h3, if_neg h4, if_neg h5]
  exact clamp_trunc_eq_floor _

theorem is_pitched_delay_type (t : SynthType) (ht : is_pitched_delay t = true) :
    is_delay_type t = true := by
  cases t <;> first | rfl | exact absurd ht (by decide)

/-- C32 (amended). A note-on of a synth of the type comb, pm_string, pm_bell or pm_pipe
with the note frequency `freq` at the sample rate `sr` sets the delay length to
`max(8, min(4096, floor(sr / max(freq, 40))))`: for `freq >= 40` that is
`max(8, min(4096, floor(sr / freq)))`, and under 40 Hz it is the length of 40 Hz. -/
theorem delay_length_at_note_on (m : Libm) (v : SynthVoice) (n : NoteOn)
    (ht : is_pitched_delay n.synth.type = true) :
    (voice_note_on_full m v n).comb_len
        = max 8 (min 4096 (Rat.floor (n.sample_rate / max (freq_value m n.freq) 40)))
      ∧ (40 ≤ freq_value m n.freq →
          (voice_note_on_full m v n).comb_len
            = spec_delay_length (freq_value m n.freq) n.sample_rate)
      ∧ (freq_value m n.freq ≤ 40 →
          (voice_note_on_full m v n).comb_len = spec_delay_length 40 n.sample_rate) := by
  have hlen : (voice_note_on_full m v n).comb_len
      = comb_length n.synth.type (freq_value m n.freq) n.sample_rate := by
    unfold voice_note_on_full
    dsimp only
    rw [if_pos (is_pitched_delay_type _ ht)]
  rw [hlen, comb_length_pitched _ _ _ ht]
  refine ⟨rfl, fun h => ?_, fun h => ?_⟩
  · rw [max_eq_left h]
    rfl
  · rw [max_eq_right h]
    rfl

theorem delay_length_at_note_on_witness :
    is_pitched_delay example_comb_note.synth.type = true
      ∧ (40 : ℚ) ≤ freq_value example_libm example_comb_note.freq
      ∧ spec_delay_length (freq_value example_libm example_comb_note.freq)
          example_comb_note.sample_rate = 109
      ∧ (voice_note_on_full example_libm zero_synth_voice example_comb_note).comb_len
        = spec_delay_length (freq_value example_libm example_comb_note.freq)
            example_comb_note.sample_rate :=
  ⟨by decide!, by decide!, by decide!,
    (delay_length_at_note_on example_libm zero_synth_voice example_comb_note
      (by decide!)).2.1 (by decide!)⟩

/-- C32 (counterexample). A note-on of a synth of the type comb at 20 Hz and 48000 Hz sets
the delay length to 1200, the length of 40 Hz, where
`max(8, min(4096, floor(48000 / 20)))` is 2400. -/
theorem delay_length_counterexample :
    is_pitched_delay example_low_comb_note.synth.type = true
      ∧ (0 : ℚ) < freq_value example_libm example_low_comb_note.freq
      ∧ freq_value example_libm example_low_comb_note.freq = 20
      ∧ example_low_comb_note.sample_rate = 48000
      ∧ (voice_note_on_full example_libm zero_synth_voice example_low_comb_note).comb_len
          = 1200
      ∧ spec_delay_length (freq_value example_libm example_low_comb_note.freq)
          example_low_comb_note.sample_rate = 2400 := by
  decide!

/-! ### The pitch envelope of a note -/

theorem note_on_pitch_decay_eq (t : SynthType) (sample_rate : ℚ) :
    note_on_pitch_decay t sample_rate
      = if is_kick_type t then 1 / pitch_decay_time t * sample_rate
        else 1 / (pitch_decay_time t * sample_rate) := by
  cases t <;> rfl

theorem pitch_decay_time_range (t : SynthType) :
    3 / 100 ≤ pitch_decay_time t ∧ pitch_decay_time t ≤ 6 / 100 := by
  cases t <;> exact ⟨by decide!, by decide!⟩

theorem osc_sample_pitch (m : Libm) (v : SynthVoice) :
    (osc_sample m v).1.pitch_env = v.pitch_env := by
  unfold osc_sample comb_sample
  cases v.type <;> rfl

theorem tone_filter_pitch (m : Libm) (v : SynthVoice) (x sample_rate : ℚ) :
    (tone_filter m v x sample_rate).1.pitch_env = v.pitch_env := by
  unfold tone_filter
  dsimp only
  split
  · rfl
  · split
    · rfl
    · split
      · rfl
      · split <;> rfl

theorem render_highpass_pitch (m : Libm) (v : SynthVoice) (x sample_rate : ℚ) :
    (render_highpass m v x sample_rate).1.pitch_env = v.pitch_env := by
  unfold render_highpass
  split <;> rfl

theorem render_glide_pitch (v : SynthVoice) :
    (render_glide v).pitch_env = v.pitch_env ∧ (render_glide v).pitch_decay = v.pitch_decay := by
  unfold render_glide
  split <;> exact ⟨rfl, rfl⟩

theorem render_pitch_env_pitch (w v : SynthVoice) (h1 : w.pitch_env = v.pitch_env)
    (h2 : w.pitch_decay = v.pitch_decay) :
    (render_pitch_env w).pitch_env = (render_pitch_env v).pitch_env := by
  unfold render_pitch_env
  rw [h1, h2]
  split
  · rfl
  · exact h1

/-- The pitch envelope after a rendered sample of a voice that is and stays active. -/
theorem voice_render_full_pitch (m : Libm) (v : SynthVoice) (sample_rate : ℚ)
    (h1 : v.voice.active = true) (h2 : (voice_render v.voice).active = true) :
    (voice_render_full m v sample_rate).1.pitch_env = (render_pitch_env v).pitch_env := by
  unfold voice_render_full
  rw [if_neg (by rw [h1]; decide), if_neg (by rw [h2]; decide)]
  dsimp only
  have hp : (osc_sample m (render_pitch_env (render_glide
      { v with voice := voice_render v.voice }))).1.pitch_env = (render_pitch_env v).pitch_env := by
    rw [osc_sample_pitch]
    exact render_pitch_env_pitch _ _ (render_glide_pitch _).1 (render_glide_pitch _).2
  generalize (osc_sample m (render_pitch_env (render_glide
      { v with voice := voice_render v.voice }))) = o at hp
  split
  · show (tone_filter m _ _ sample_rate).1.pitch_env = _
    rw [tone_filter_pitch, render_highpass_pitch]
    exact hp
  · show (tone_filter m _ _ sample_rate).1.pitch_env = _
    rw [tone_filter_pitch, render_highpass_pitch]
    exact hp

theorem voice_note_on_render_active (v : Voice) (n : NoteOn) :
    (voice_render (voice_note_on v n)).active = true := by
  have hs : (voice_note_on v n).stage = .ENV_ATTACK := rfl
  have ha : (voice_note_on v n).active = true := rfl
  generalize voice_note_on v n = w at hs ha
  unfold voice_render
  rw [if_neg (by rw [ha]; decide), hs]
  dsimp only
  split <;> exact ha

/-- The pitch envelope after the first rendered sample of a note. -/
theorem first_sample_pitch (m : Libm) (v : SynthVoice) (n : NoteOn) (sample_rate : ℚ) :
    (voice_render_full m (voice_note_on_full m v n) sample_rate).1.pitch_env
      = if 1 - note_on_pitch_decay n.synth.type n.sample_rate < 0 then 0
        else 1 - note_on_pitch_decay n.synth.type n.sample_rate := by
  rw [voice_render_full_pitch m _ sample_rate rfl (voice_note_on_render_active v.voice n)]
  unfold render_pitch_env
  rw [if_pos (show (voice_note_on_full m v n).pitch_env > 0 from by
    show (1 : ℚ) > 0
    norm_num)]
  rfl

/-- C34, as the code has it. At a note-on the pitch envelope is 1. For every type other than
kick, kick808 and kick909 and a sample rate of at least 8000, so for every sample rate in
[8000, 192000], the decrement per sample is
1/(T*sr) with T between 0.03 and 0.06 seconds, it is less than 1, and the pitch envelope is
positive after the first rendered sample. For kick, kick808 and kick909 the decrement is
(1/T)*sr, it is greater than 1, and the pitch envelope is 0 after the first rendered
sample. -/
theorem pitch_decay_at_note_on (m : Libm) (v : SynthVoice) (n : NoteOn)
    (hlo : 8000 ≤ n.sample_rate) :
    (voice_note_on_full m v n).pitch_env = 1
    ∧ 3 / 100 ≤ pitch_decay_time n.synth.type ∧ pitch_decay_time n.synth.type ≤ 6 / 100
    ∧ (is_kick_type n.synth.type = false →
        (voice_note_on_full m v n).pitch_decay
            = 1 / (pitch_decay_time n.synth.type * n.sample_rate)
          ∧ (voice_note_on_full m v n).pitch_decay < 1
          ∧ 0 < (voice_render_full m (voice_note_on_full m v n) n.sample_rate).1.pitch_env)
    ∧ (is_kick_type n.synth.type = true →
        (voice_note_on_full m v n).pitch_decay
            = 1 / pitch_decay_time n.synth.type * n.sample_rate
          ∧ 1 < (voice_note_on_full m v n).pitch_decay
          ∧ (voice_render_full m (voice_note_on_full m v n) n.sample_rate).1.pitch_env = 0) := by
  have hT := pitch_decay_time_range n.synth.type
  have hd : (voice_note_on_full m v n).pitch_decay
      = note_on_pitch_decay n.synth.type n.sample_rate := rfl
  have hTpos : 0 < pitch_decay_time n.synth.type := by linarith [hT.1]
  refine ⟨rfl, hT.1, hT.2, ?_, ?_⟩
  · intro hk
    have hdk : note_on_pitch_decay n.synth.type n.sample_rate
        = 1 / (pitch_decay_time n.synth.type * n.sample_rate) := by
      rw [note_on_pitch_decay_eq, hk]
      rfl
    have hprod : 240 ≤ pitch_decay_time n.synth.type * n.sample_rate := by nlinarith [hT.1]
    have hlt : 1 / (pitch_decay_time n.synth.type * n.sample_rate) < 1 := by
      rw [div_lt_one (by linarith)]
      linarith
    refine ⟨hd.trans hdk, ?_, ?_⟩
    · rw [hd, hdk]
      exact hlt
    · rw [first_sample_pitch, hdk, if_neg (by linarith)]
      linarith
  · intro hk
    have hdk : note_on_pitch_decay n.synth.type n.sample_rate
        = 1 / pitch_decay_time n.synth.type * n.sample_rate := by
      rw [note_on_pitch_decay_eq, hk]
      rfl
    have hgt : 1 < 1 / pitch_decay_time n.synth.type * n.sample_rate := by
      rw [one_div, inv_mul_eq_div, one_lt_div hTpos]
      linarith [hT.2]
    refine ⟨hd.trans hdk, ?_, ?_⟩
    · rw [hd, hdk]
      exact hgt
    · rw [first_sample_pitch, hdk, if_pos (by linarith)]

/-- The theorem at a kick at 48000 Hz: the decrement is 48000/0.045 = 3200000/3 and the pitch
envelope is 0 after the first sample. -/
theorem pitch_decay_at_note_on_witness :
    (8000 : ℚ) ≤ example_kick_note.sample_rate
    ∧ is_kick_type example_kick_note.synth.type = true
    ∧ (voice_note_on_full example_libm zero_synth_voice example_kick_note).pitch_decay
        = 3200000 / 3
    ∧ (voice_render_full example_libm
        (voice_note_on_full example_libm zero_synth_voice example_kick_note) 48000).1.pitch_env
        = 0 :=
  ⟨by decide!, by decide!, by decide!,
    ((pitch_decay_at_note_on example_libm zero_synth_voice example_kick_note
      (by decide!)).2.2.2.2 (by decide!)).2.2⟩

/-- The tom beside the kick, both at 48000 Hz and rendered for one sample: the tom has the
decrement 1/(0.06*48000) = 1/2880 and its pitch envelope is 2879/2880, the kick has the
decrement 3200000/3 and its pitch envelope is 0. -/
theorem kick_pitch_decay_example :
    (voice_note_on_full example_libm zero_synth_voice example_tom_note).pitch_decay = 1 / 2880
    ∧ (voice_render_full example_libm
        (voice_note_on_full example_libm zero_synth_voice example_tom_note) 48000).1.pitch_env
        = 2879 / 2880
    ∧ (voice_note_on_full example_libm zero_synth_voice example_kick_note).pitch_decay
        = 3200000 / 3
    ∧ (voice_render_full example_libm
        (voice_note_on_full example_libm zero_synth_voice example_kick_note) 48000).1.pitch_env
        = 0 := by
  decide!

/-! ### The envelope of a voice -/

theorem voice_note_on_envelope_ok (v : Voice) (n : NoteOn) (hsr : 0 < n.sample_rate)
    (h : (envelope_times n.synth).2.2.1 ≤ 1 ∨ 10000 ≤ n.sample_rate) :
    EnvelopeOk (voice_note_on v n) := by
  have key : ∀ dec rel : ℚ,
      0 ≤ (if rel ≤ 1 / 10000 then (1 : ℚ) else 1 / (rel * n.sample_rate))
      ∧ (0 ≤ (if dec ≤ 1 / 10000 then (1 : ℚ)
              else (1 - (envelope_times n.synth).2.2.1) / (dec * n.sample_rate))
        ∨ 1 - (if dec ≤ 1 / 10000 then (1 : ℚ)
              else (1 - (envelope_times n.synth).2.2.1) / (dec * n.sample_rate))
            ≤ (envelope_times n.synth).2.2.1) := by
    intro dec rel
    constructor
    · split
      · norm_num
      · rename_i hr
        exact div_nonneg (by norm_num) (le_of_lt (mul_pos (by linarith) hsr))
    · by_cases hd : dec ≤ 1 / 10000
      · left
        rw [if_pos hd]
        norm_num
      · rw [if_neg hd]
        have hdpos : 0 < dec * n.sample_rate := mul_pos (by linarith) hsr
        by_cases hs : (envelope_times n.synth).2.2.1 ≤ 1
        · left
          exact div_nonneg (by linarith) (le_of_lt hdpos)
        · right
          have h10 : 10000 ≤ n.sample_rate := h.resolve_left hs
          have hge : 1 ≤ dec * n.sample_rate := by nlinarith
          have hq : ((envelope_times n.synth).2.2.1 - 1) / (dec * n.sample_rate)
              ≤ (envelope_times n.synth).2.2.1 - 1 :=
            div_le_self (by linarith) hge
          have hneg : (1 - (envelope_times n.synth).2.2.1) / (dec * n.sample_rate)
              = -(((envelope_times n.synth).2.2.1 - 1) / (dec * n.sample_rate)) := by
            rw [← neg_div]
            congr 1
            ring
          rw [hneg]
          linarith
  obtain ⟨h1, h2⟩ := key
    (if decide (n.accent ≠ 0 ∧ n.synth.type = .SYNTH_ACID) = true
      then (envelope_times n.synth).2.1 * (7 / 10) else (envelope_times n.synth).2.1)
    (if decide (n.accent ≠ 0 ∧ n.synth.type = .SYNTH_ACID) = true
      then (envelope_times n.synth).2.2.2 * (7 / 10) else (envelope_times n.synth).2.2.2)
  refine ⟨h1, ?_⟩
  rcases h2 with h2 | h2
  · exact Or.inl h2
  · exact Or.inr ⟨h2, fun hst => by cases hst⟩

theorem voice_render_envelope_ok (w : Voice) (h : EnvelopeOk w) :
    EnvelopeOk (voice_render w) := by
  obtain ⟨hr, hd⟩ := h
  unfold voice_render
  split
  · exact ⟨hr, hd⟩
  · cases hs : w.stage <;> dsimp only
    · split
      · refine ⟨hr, ?_⟩
        rcases hd with hd | hd
        · exact Or.inl hd
        · exact Or.inr ⟨hd.1, fun _ => rfl⟩
      · refine ⟨hr, ?_⟩
        rcases hd with hd | hd
        · exact Or.inl hd
        · refine Or.inr ⟨hd.1, fun hst => ?_⟩
          cases hst
    · split
      · refine ⟨hr, ?_⟩
        rcases hd with hd | hd
        · exact Or.inl hd
        · exact Or.inr ⟨hd.1, fun hst => by cases hst⟩
      · rename_i hne
        refine ⟨hr, ?_⟩
        rcases hd with hd | hd
        · exact Or.inl hd
        · exfalso
          apply hne
          rw [hd.2 hs]
          exact hd.1
    · split
      · refine ⟨hr, ?_⟩
        rcases hd with hd | hd
        · exact Or.inl hd
        · exact Or.inr ⟨hd.1, fun hst => by cases hst⟩
      · refine ⟨hr, ?_⟩
        rcases hd with hd | hd
        · exact Or.inl hd
        · refine Or.inr ⟨hd.1, fun hst => ?_⟩
          cases hst
    · split
      · refine ⟨hr, ?_⟩
        rcases hd with hd | hd
        · exact Or.inl hd
        · exact Or.inr ⟨hd.1, fun hst => by cases hst⟩
      · refine ⟨hr, ?_⟩
        rcases hd with hd | hd
        · exact Or.inl hd
        · refine Or.inr ⟨hd.1, fun hst => ?_⟩
          cases hst
    · refine ⟨hr, ?_⟩
      rcases hd with hd | hd
      · exact Or.inl hd
      · refine Or.inr ⟨hd.1, fun hst => ?_⟩
        cases hst

/-- A rendered sample that leaves the stage of the envelope where it is, outside the attack,
does not raise the level. -/
theorem voice_render_env_le (w : Voice) (h : EnvelopeOk w) (hs : w.stage ≠ .ENV_ATTACK)
    (hst : (voice_render w).stage = w.stage) : (voice_render w).env ≤ w.env := by
  obtain ⟨hr, hd⟩ := h
  revert hst
  unfold voice_render
  split
  · intro _
    exact le_refl _
  · cases hs2 : w.stage <;> dsimp only
    · exact absurd hs2 hs
    · split
      · intro hst
        cases hst
      · rename_i hne
        intro _
        rcases hd with hd | hd
        · show w.env - w.dec_inc ≤ w.env
          linarith
        · exfalso
          apply hne
          rw [hd.2 hs2]
          exact hd.1
    · split <;> exact fun _ => le_refl _
    · split
      · intro hst
        cases hst
      · intro _
        show w.env - w.rel_inc ≤ w.env
        linarith
    · exact fun _ => le_refl _

/-- The end of the release (lines 574-581). -/
theorem voice_render_release_end (w : Voice) (ha : w.active = true)
    (hs : w.stage = .ENV_RELEASE) (he : w.env - w.rel_inc ≤ 0) :
    voice_render w = { w with env := 0, stage := .ENV_OFF, active := false } := by
  unfold voice_render
  rw [if_neg (by rw [ha]; decide), hs]
  dsimp only
  rw [if_pos he]

theorem osc_sample_voice (m : Libm) (v : SynthVoice) : (osc_sample m v).1.voice = v.voice := by
  unfold osc_sample comb_sample
  cases v.type <;> rfl

theorem tone_filter_voice (m : Libm) (v : SynthVoice) (x sample_rate : ℚ) :
    (tone_filter m v x sample_rate).1.voice = v.voice := by
  unfold tone_filter
  dsimp only
  split
  · rfl
  · split
    · rfl
    · split
      · rfl
      · split <;> rfl

theorem render_highpass_voice (m : Libm) (v : SynthVoice) (x sample_rate : ℚ) :
    (render_highpass m v x sample_rate).1.voice = v.voice := by
  unfold render_highpass
  split <;> rfl

theorem render_glide_voice (v : SynthVoice) : (render_glide v).voice = v.voice := by
  unfold render_glide
  split <;> rfl

theorem render_pitch_env_voice (v : SynthVoice) : (render_pitch_env v).voice = v.voice := by
  unfold render_pitch_env
  split <;> rfl

/-- The envelope fields after a call of `voice_render` are those of its envelope section. -/
theorem voice_render_full_voice (m : Libm) (v : SynthVoice) (sample_rate : ℚ) :
    (voice_render_full m v sample_rate).1.voice = voice_render v.voice := by
  unfold voice_render_full
  split
  · rename_i h
    show v.voice = voice_render v.voice
    unfold voice_render
    rw [if_pos h]
  · split
    · rfl
    · dsimp only
      have hp : (osc_sample m (render_pitch_env (render_glide
          { v with voice := voice_render v.voice }))).1.voice = voice_render v.voice := by
        rw [osc_sample_voice, render_pitch_env_voice, render_glide_voice]
      generalize (osc_sample m (render_pitch_env (render_glide
          { v with voice := voice_render v.voice }))) = o at hp
      split
      · show (tone_filter m _ _ sample_rate).1.voice = _
        rw [tone_filter_voice, render_highpass_voice]
        exact hp
      · show (tone_filter m _ _ sample_rate).1.voice = _
        rw [tone_filter_voice, render_highpass_voice]
        exact hp

/-- A call of `voice_render` that finds the voice inactive or makes it inactive returns 0. -/
theorem voice_render_full_off (m : Libm) (v : SynthVoice) (sample_rate : ℚ)
    (h : (voice_render v.voice).active = false) : (voice_render_full m v sample_rate).2 = 0 := by
  unfold voice_render_full
  split
  · rfl
  · rw [if_pos (by rw [h]; rfl)]

theorem render_voice_envelope_ok (m : Libm) (sample_rate : ℚ) (k : Nat) (u : SynthVoice)
    (h : EnvelopeOk u.voice) : EnvelopeOk (render_voice m sample_rate k u).voice := by
  induction k generalizing u with
  | zero => exact h
  | succ k ih =>
    show EnvelopeOk (render_voice m sample_rate k (voice_render_full m u sample_rate).1).voice
    apply ih
    rw [voice_render_full_voice]
    exact voice_render_envelope_ok _ h

theorem render_samples_inactive (m : Libm) (sample_rate : ℚ) (k : Nat) (u : SynthVoice)
    (h : u.voice.active = false) :
    render_voice m sample_rate k u = u ∧ ∀ x ∈ render_samples m sample_rate k u, x = 0 := by
  have hstep : voice_render_full m u sample_rate = (u, 0) := by
    unfold voice_render_full
    rw [if_pos (by rw [h]; rfl)]
  induction k with
  | zero => exact ⟨rfl, fun x hx => by cases hx⟩
  | succ k ih =>
    constructor
    · show render_voice m sample_rate k (voice_render_full m u sample_rate).1 = u
      rw [hstep]
      exact ih.1
    · intro x hx
      have hx2 : x ∈ (voice_render_full m u sample_rate).2
          :: render_samples m sample_rate k (voice_render_full m u sample_rate).1 := hx
      rw [hstep] at hx2
      rcases List.mem_cons.mp hx2 with hx3 | hx3
      · exact hx3
      · exact ih.2 x hx3

theorem render_voice_succ (m : Libm) (sample_rate : ℚ) (k : Nat) (u : SynthVoice) :
    render_voice m sample_rate (k + 1) u
      = (voice_render_full m (render_voice m sample_rate k u) sample_rate).1 := by
  induction k generalizing u with
  | zero => rfl
  | succ k ih => exact ih (voice_render_full m u sample_rate).1

/-- C31, with the condition it needs. For a note-on at a sample rate above 0 whose sustain
level is at most 1 or whose sample rate is at least 10000, and the voice `u` after any number
`k` of rendered samples: the next sample, if the voice is out of the attack and stays in its
stage, does not raise the envelope level; and if the voice is active in the release and the
level less the release increment is at most 0, the next call makes the voice inactive with
the stage off and the level 0 and returns 0, every later call returns 0 and leaves the voice
as it is, and the scan for the first inactive voice gives the next note to this voice. -/
theorem envelope_never_rises (m : Libm) (v : SynthVoice) (n : NoteOn) (k : Nat)
    (hsr : 0 < n.sample_rate)
    (h : (envelope_times n.synth).2.2.1 ≤ 1 ∨ 10000 ≤ n.sample_rate) :
    ((render_voice m n.sample_rate k (voice_note_on_full m v n)).voice.stage ≠ .ENV_ATTACK →
      (render_voice m n.sample_rate (k + 1) (voice_note_on_full m v n)).voice.stage
        = (render_voice m n.sample_rate k (voice_note_on_full m v n)).voice.stage →
      (render_voice m n.sample_rate (k + 1) (voice_note_on_full m v n)).voice.env
        ≤ (render_voice m n.sample_rate k (voice_note_on_full m v n)).voice.env)
    ∧ ((render_voice m n.sample_rate k (voice_note_on_full m v n)).voice.active = true →
      (render_voice m n.sample_rate k (voice_note_on_full m v n)).voice.stage = .ENV_RELEASE →
      (render_voice m n.sample_rate k (voice_note_on_full m v n)).voice.env
        - (render_voice m n.sample_rate k (voice_note_on_full m v n)).voice.rel_inc ≤ 0 →
      (render_voice m n.sample_rate (k + 1) (voice_note_on_full m v n)).voice.active = false
      ∧ (render_voice m n.sample_rate (k + 1) (voice_note_on_full m v n)).voice.stage
          = .ENV_OFF
      ∧ (render_voice m n.sample_rate (k + 1) (voice_note_on_full m v n)).voice.env = 0
      ∧ (∀ j, ∀ x ∈ render_samples m n.sample_rate j
            (render_voice m n.sample_rate k (voice_note_on_full m v n)), x = 0)
      ∧ ∀ (n2 : NoteOn) (vs : List Voice),
          note_on_first_free n2
              ((render_voice m n.sample_rate (k + 1) (voice_note_on_full m v n)).voice :: vs)
            = (voice_note_on
                (render_voice m n.sample_rate (k + 1) (voice_note_on_full m v n)).voice n2
                :: vs, true)) := by
  have hok : EnvelopeOk (render_voice m n.sample_rate k (voice_note_on_full m v n)).voice :=
    render_voice_envelope_ok m n.sample_rate k _ (voice_note_on_envelope_ok v.voice n hsr h)
  rw [render_voice_succ]
  generalize render_voice m n.sample_rate k (voice_note_on_full m v n) = u at hok
  rw [voice_render_full_voice]
  refine ⟨fun hs hst => voice_render_env_le u.voice hok hs hst, ?_⟩
  intro ha hs he
  have hend := voice_render_release_end u.voice ha hs he
  have hoff : (voice_render u.voice).active = false := by rw [hend]
  refine ⟨hoff, by rw [hend], by rw [hend], ?_, ?_⟩
  · intro j x hx
    cases j with
    | zero => cases hx
    | succ j =>
      have hx2 : x ∈ (voice_render_full m u n.sample_rate).2
          :: render_samples m n.sample_rate j (voice_render_full m u n.sample_rate).1 := hx
      rcases List.mem_cons.mp hx2 with hx3 | hx3
      · rw [hx3]
        exact voice_render_full_off m u n.sample_rate hoff
      · refine (render_samples_inactive m n.sample_rate j _ ?_).2 x hx3
        rw [voice_render_full_voice]
        exact hoff
  · intro n2 vs
    show (if !(voice_render u.voice).active then _ else _) = _
    rw [if_pos (by rw [hoff]; rfl)]

/-- The theorem at `example_short_note`, whose envelope increments are all 1: after 2 samples
the voice is in the sustain at the level 3/5 and the third sample leaves it there; after 4
samples it is in the release at the level 3/5, and the fifth call ends the note. -/
theorem envelope_never_rises_witness :
    (0 : ℚ) < example_short_note.sample_rate
    ∧ (envelope_times example_short_note.synth).2.2.1 ≤ 1
    ∧ (render_voice example_libm 48000 2
        (voice_note_on_full example_libm zero_synth_voice example_short_note)).voice.stage
        = .ENV_SUSTAIN
    ∧ (render_voice example_libm 48000 3
        (voice_note_on_full example_libm zero_synth_voice example_short_note)).voice.env
      ≤ (render_voice example_libm 48000 2
        (voice_note_on_full example_libm zero_synth_voice example_short_note)).voice.env
    ∧ (render_voice example_libm 48000 4
        (voice_note_on_full example_libm zero_synth_voice example_short_note)).voice.env = 3 / 5
    ∧ (render_voice example_libm 48000 5
        (voice_note_on_full example_libm zero_synth_voice example_short_note)).voice.active
        = false
    ∧ (render_voice example_libm 48000 5
        (voice_note_on_full example_libm zero_synth_voice example_short_note)).voice.stage
        = .ENV_OFF :=
  ⟨by decide!, by decide!, by decide!,
    (envelope_never_rises example_libm zero_synth_voice example_short_note 2 (by decide!)
      (Or.inl (by decide!))).1 (by decide!) (by decide!),
    by decide!,
    ((envelope_never_rises example_libm zero_synth_voice example_short_note 4 (by decide!)
      (Or.inl (by decide!))).2 (by decide!) (by decide!) (by decide!)).1,
    ((envelope_never_rises example_libm zero_synth_voice example_short_note 4 (by decide!)
      (Or.inl (by decide!))).2 (by decide!) (by decide!) (by decide!)).2.1⟩

/-- A sample rendered in the decay with the decay increment -25/22, the sustain level 2 and a
level of at least 1. -/
theorem voice_render_rising (w : Voice) (ha : w.active = true) (hs : w.stage = .ENV_DECAY)
    (hd : w.dec_inc = -(25 / 22)) (hsus : w.sus = 2) (he : 1 ≤ w.env) :
    (voice_render w).active = true ∧ (voice_render w).stage = .ENV_DECAY
      ∧ (voice_render w).dec_inc = -(25 / 22) ∧ (voice_render w).sus = 2
      ∧ (voice_render w).env = w.env + 25 / 22 := by
  unfold voice_render
  rw [if_neg (by rw [ha]; decide), hs]
  dsimp only
  rw [if_neg (by rw [hd, hsus]; linarith)]
  refine ⟨ha, rfl, hd, hsus, ?_⟩
  show w.env - w.dec_inc = w.env + 25 / 22
  rw [hd]
  ring

/-- C31 (counterexample). The synth of `example_rising_script` has the sustain level 2, the
decay time 0.00011 s and the attack time 0; at 8000 Hz its decay increment is
(1 - 2)/(0.00011 * 8000) = -25/22. The first rendered sample ends the attack at the level 1;
from then on the voice is in the decay for every number of samples, and every sample raises
the level by 25/22 without a change of the stage. -/
theorem envelope_rises_counterexample :
    example_rising_note.synth.sus = 2 ∧ example_rising_note.synth.dec = 11 / 100000
    ∧ example_rising_note.sample_rate = 8000
    ∧ (List.range 5).map (fun k =>
        ((render_voice example_libm 8000 k
          (voice_note_on_full example_libm zero_synth_voice example_rising_note)).voice.stage,
         (render_voice example_libm 8000 k
          (voice_note_on_full example_libm zero_synth_voice example_rising_note)).voice.env))
      = [(.ENV_ATTACK, 0), (.ENV_DECAY, 1), (.ENV_DECAY, 47 / 22), (.ENV_DECAY, 36 / 11),
          (.ENV_DECAY, 97 / 22)]
    ∧ ∀ k : Nat,
        (render_voice example_libm 8000 (k + 1)
          (voice_note_on_full example_libm zero_synth_voice example_rising_note)).voice.stage
          = .ENV_DECAY
        ∧ (render_voice example_libm 8000 (k + 1)
          (voice_note_on_full example_libm zero_synth_voice example_rising_note)).voice.env
          = 1 + k * (25 / 22) := by
  refine ⟨by decide!, by decide!, by decide!, by decide!, ?_⟩
  have key : ∀ k : Nat,
      (render_voice example_libm 8000 (k + 1)
        (voice_note_on_full example_libm zero_synth_voice example_rising_note)).voice.active
        = true
      ∧ (render_voice example_libm 8000 (k + 1)
        (voice_note_on_full example_libm zero_synth_voice example_rising_note)).voice.stage
        = .ENV_DECAY
      ∧ (render_voice example_libm 8000 (k + 1)
        (voice_note_on_full example_libm zero_synth_voice example_rising_note)).voice.dec_inc
        = -(25 / 22)
      ∧ (render_voice example_libm 8000 (k + 1)
        (voice_note_on_full example_libm zero_synth_voice example_rising_note)).voice.sus = 2
      ∧ (render_voice example_libm 8000 (k + 1)
        (voice_note_on_full example_libm zero_synth_voice example_rising_note)).voice.env
        = 1 + k * (25 / 22) := by
    intro k
    induction k with
    | zero => exact ⟨by decide!, by decide!, by decide!, by decide!, by decide!⟩
    | succ k ih =>
      rw [render_voice_succ, voice_render_full_voice]
      obtain ⟨a, b, c, d, e⟩ := ih
      have hge : (1 : ℚ) ≤ 1 + (k : ℚ) * (25 / 22) := by
        have : (0 : ℚ) ≤ (k : ℚ) := Nat.cast_nonneg k
        nlinarith
      obtain ⟨a2, b2, c2, d2, e2⟩ := voice_render_rising _ a b c d (by rw [e]; exact hge)
      refine ⟨a2, b2, c2, d2, ?_⟩
      rw [e2, e]
      push_cast
      ring
  exact fun k => ⟨(key k).2.1, (key k).2.2.2.2⟩

/-! ### Literals that are not numbers and values that no int holds -/

/-- C40 (counterexample). The script `example_inf_amp_script` is accepted: `set s amp inf`
stores an infinite amplitude in a synth of the type `supersaw` without a check (`1e39` is
an infinity as a float too). The amplitude of a voice is that amplitude times a scale, and
with it the product `0 * env * amp` of line 671 is a NaN, not 0, for every finite envelope
level and every finite scale. -/
theorem supersaw_amp_counterexample :
    (dsl_parse_script example_inf_amp_script).isOk = true
      ∧ (parsed_program example_inf_amp_script).synths.map (fun sy => (sy.type, sy.nonfinite))
        = [(.SYNTH_SUPERSAW, true)]
      ∧ atof_float (cstr "inf") = .pos_inf
      ∧ atof_float (cstr "1e39") = .pos_inf
      ∧ ∀ env scale : ℚ,
          voice_output (.finite 0) (.finite env)
            ((atof_float (cstr "inf")).mul (.finite scale)) = .nan := by
  refine ⟨by decide!, by decide!, by decide!, by decide!, fun env scale => ?_⟩
  have h : atof_float (cstr "inf") = .pos_inf := by decide!
  rw [h]
  have hz : (CFloat.finite 0).mul (.finite env) = .finite 0 := by
    show float_of_rat (0 * env) = _
    rw [zero_mul]
    decide!
  unfold voice_output
  rw [hz]
  by_cases h0 : scale = 0
  · rw [h0]
    decide!
  · by_cases hneg : scale < 0
    · have : CFloat.pos_inf.mul (.finite scale) = .neg_inf := by
        simp [CFloat.mul, CFloat.is_zero, CFloat.is_negative, h0, hneg]
      rw [this]
      decide!
    · have : CFloat.pos_inf.mul (.finite scale) = .pos_inf := by
        simp [CFloat.mul, CFloat.is_zero, CFloat.is_negative, h0, hneg]
      rw [this]
      decide!

/-- The script `example_overflow_script` has the tempo `20 * 0.00001`: at the sample rate
48000 the step length `48000 * 60 / tempo / 4` is 3600000000, which no `int` holds, so the
conversion of line 1270 is undefined and the install has no result. -/
theorem base_samples_per_step_overflow_example :
    (dsl_parse_script example_overflow_script).toOption.map (fun p => p.tempo)
        = some (1 / 5000)
      ∧ (48000 : ℚ) * 60 / (1 / 5000) / 4 = 3600000000
      ∧ c_int ((48000 : ℚ) * 60 / (1 / 5000) / 4) = none
      ∧ engine_of_script example_overflow_script = none := by decide!

/-- For `seconds = 50000` at the sample rate 48000 the product is 2400000000 frames, which
no `int` holds: the conversion of line 1393 is undefined and the call has no result. -/
theorem render_to_wav_overflow_example :
    wav_total_frames 50000 48000 = none
      ∧ audio_engine_render_to_wav audio_engine_init example_sequence_script 50000 48000 512
          true = none
      ∧ ⌊(50000 : ℚ) * ((48000 : Int) : ℚ)⌋ = 2400000000 := by decide!

end JAMAL
